import Mathlib

/-!
# xLights text effect (`src/xLights/RenderText.cpp`)

A shallow embedding of `RgbEffects::RenderText` and `RgbEffects::RenderTextLine`:
the countdown state machine, the vertical character transforms, the multi-line
text measurement, the two-pass size synchronisation and the position
computation, followed by the properties proved about them.

Conventions of the embedding.

* C integers are `Int` values; `toInt` and `toLong` narrow to the 32-bit `int`
  and to the 64-bit `long` of the LP64 builds (Linux, macOS) at the places where
  the source stores a wider value into a narrower variable or where the claimed
  properties depend on the range; an overflowing signed operation is taken to
  wrap around.  `/` and `%` of C are `Int.tdiv` and `Int.tmod`.
* `wxString` is `String`, handled through its list of characters.
* The toolkit (wxWidgets) is not part of the repository; the functions the code
  calls in it are the fields of `Env`.
* The members of `RgbEffects` that the text effect reads and writes are the
  fields of the structure `RgbEffects`; the drawing context is recorded as the
  selected font and colour and the list of `DrawText` calls issued so far.
* A `double` is a rational with 53 significant bits and an operation on
  `double` values is the exact operation followed by the rounding `toDouble`
  (section on double-precision arithmetic): so are the text extents and their
  sums, the factor 0.707 of the rotation sizing and the bounds and positions of
  the fill effect. The conversion of an `int` to `double` is exact. The
  interpolation of the vector direction is computed without rounding.
-/

namespace XLights

/-! ## Machine integers -/

/-- Largest value of a C `int` (32 bits). -/
def INT_MAX : Int := 2147483647

/-- Smallest value of a C `int` (32 bits). -/
def INT_MIN : Int := -2147483648

/-- Largest value of a C `long` (64 bits, LP64). -/
def LONG_MAX : Int := 9223372036854775807

/-- Smallest value of a C `long` (64 bits, LP64). -/
def LONG_MIN : Int := -9223372036854775808

/-- Conversion of an integer value to `int`: two's complement wrap to 32 bits. -/
def toInt (x : Int) : Int := (x + 2147483648) % 4294967296 - 2147483648

/-- Conversion of an integer value to `long`: two's complement wrap to 64 bits. -/
def toLong (x : Int) : Int :=
  (x + 9223372036854775808) % 18446744073709551616 - 9223372036854775808

/-! ## Double-precision arithmetic

The `double` values of the sources are the rationals that are representable
with 53 significant bits, and an arithmetic operation on them is the exact
operation followed by `toDouble`, the rounding of IEEE 754 binary64 to the
nearest representable value with ties to the even significand. Values below
`2^-1022` in magnitude are rounded on the grid of the subnormal numbers. The
quantities computed here from 32-bit integers stay far below the largest
`double`; infinities and not-a-number are not represented. -/

/-- The power `2^e` as a rational. -/
def pow2 (e : Int) : ℚ :=
  if 0 ≤ e then ((2 ^ e.toNat : Nat) : ℚ) else 1 / ((2 ^ (-e).toNat : Nat) : ℚ)

/-- The number of halvings that bring `n` below 2, at most `fuel` of them. -/
def log2Fuel : Nat → Nat → Nat
  | 0, _ => 0
  | fuel + 1, n => if n < 2 then 0 else log2Fuel fuel (n / 2) + 1

/-- The position of the leading bit of a natural number: the `k` with
`2^k ≤ n < 2^(k+1)`, for `n` not zero. -/
def ilog2 (n : Nat) : Nat := log2Fuel n n

/-- The binary exponent of a non-zero rational: the `e` with
`2^e ≤ |q| < 2^(e+1)`. -/
def binade (q : ℚ) : Int :=
  let e : Int := (ilog2 q.num.natAbs : Int) - (ilog2 q.den : Int)
  if |q| < pow2 e then e - 1 else e

/-- Rounding to the nearest integer, a tie going to the even one. -/
def roundHalfEven (q : ℚ) : Int :=
  let f := ⌊q⌋
  if q - f < 1 / 2 then f
  else if 1 / 2 < q - f then f + 1
  else if f % 2 = 0 then f else f + 1

/-- The `double` nearest to a rational, ties to even. -/
def toDouble (q : ℚ) : ℚ :=
  if q = 0 then 0
  else
    let u := pow2 (max (binade q) (-1022) - 52)
    (roundHalfEven (q / u) : ℚ) * u

/-- The sum of two `double` values. -/
def dadd (x y : ℚ) : ℚ := toDouble (x + y)

/-- The difference of two `double` values. -/
def dsub (x y : ℚ) : ℚ := toDouble (x - y)

/-- The product of two `double` values. -/
def dmul (x y : ℚ) : ℚ := toDouble (x * y)

/-- The quotient of two `double` values, the divisor not zero. -/
def ddiv (x y : ℚ) : ℚ := toDouble (x / y)

/-- Conversion of a `double` to `int`: truncation toward zero. -/
def truncQ (q : ℚ) : Int := q.num.tdiv q.den

/-! ## External collaborators and effect state -/

/-- The toolkit functions called by the text effect. Times are milliseconds, as
in `wxDateTime` and `wxTimeSpan`; text extents are `double` values. -/
structure Env where
  /-- The call `wxString::ToLong`: the parsed value, or `none` when it returns false. -/
  ToLong : String → Option Int
  /-- The call `wxDateTime::ParseRfc822Date`: the parsed instant, or `none` on failure. -/
  ParseRfc822Date : String → Option Int
  /-- The instant returned by `wxDateTime::Now()`. -/
  Now : Int
  /-- The call `wxTimeSpan::Format` on a span of the given milliseconds. -/
  Format : Int → String → String
  /-- The call `DrawingContext::GetTextExtent` with the given font selected: the
  `double` values stored into its width and height arguments. -/
  GetTextExtent : String → String → ℚ × ℚ
  /-- The value of `GetEffectTimeIntervalPosition(1.0)`, a fraction of the effect duration. -/
  position : ℚ
  /-- The function `wxAtoi`. -/
  wxAtoi : String → Int

/-- A `wxSize`. -/
structure wxSize where
  x : Int
  y : Int
deriving DecidableEq, Repr

/-- One call of `DrawingContext::DrawText`, with the font and palette colour
selected at the time; `rotation` is `none` for the three-argument overload. -/
structure DrawCall where
  font : String
  colour : Nat
  msg : String
  x : Int
  y : Int
  rotation : Option Int
deriving DecidableEq, Repr

/-- The members of `RgbEffects` used by the text effect. -/
structure RgbEffects where
  BufferWi : Int
  BufferHt : Int
  curPeriod : Int
  curEffStartPer : Int
  frameTimeInMs : Int
  /-- The array `timer_countdown[]` of deadlines, indexed by line; its elements
  are `long`, like the local `longsecs` that is stored into it and read from it. -/
  timer_countdown : Nat → Int
  synced_textsize : wxSize
  /-- Font selected into the drawing context by `SetFont`. -/
  font : String
  /-- Palette index of the colour selected into the drawing context. -/
  colour : Nat
  /-- The `DrawText` calls issued on the drawing context since it was cleared. -/
  drawn : List DrawCall

/-! ## Countdown modes and text resolution (first `switch` of `RenderTextLine`) -/

/-- No countdown: the template is the text. -/
def COUNTDOWN_NONE : Int := 0

/-- Countdown of the number of seconds given by the template. -/
def COUNTDOWN_SECONDS : Int := 1

/-- Countdown to a date, shown as days, hours, minutes and seconds. -/
def COUNTDOWN_D_H_M_S : Int := 2

/-- Countdown to a date, shown as hours, minutes and seconds. -/
def COUNTDOWN_H_M_S : Int := 3

/-- Countdown to a date, shown as minutes or as seconds. -/
def COUNTDOWN_M_or_S : Int := 4

/-- Countdown to a date, shown as seconds. -/
def COUNTDOWN_S : Int := 5

/-- Countdown to a date with a format given in the template. -/
def COUNTDOWN_FREEFMT : Int := 6

/-- The local `int state = (curPeriod - curEffStartPer) * tspeed * frameTimeInMs / 50`,
each product narrowed to `int`. -/
def effectState (e : RgbEffects) (tspeed : Int) : Int :=
  Int.tdiv (toInt (toInt (toInt (e.curPeriod - e.curEffStartPer) * tspeed) * e.frameTimeInMs)) 50

/-- Array store `a[idx] = v`. -/
def setAt (a : Nat → Int) (idx : Nat) (v : Int) : Nat → Int :=
  fun i => if i = idx then v else a i

/-- The call `wxString::After(ch)`: everything after the first occurrence of `ch`,
empty when `ch` does not occur. -/
def afterFirst (ch : Char) : List Char → List Char
  | [] => []
  | c :: cs => if c = ch then cs else afterFirst ch cs

/-- The call `Line.Truncate(Line.find(ch))`: the characters before the first
occurrence of `ch`; when `ch` does not occur `find` gives `npos` and `Truncate`
leaves the string whole. -/
def truncateAtFirst (ch : Char) : List Char → List Char
  | [] => []
  | c :: cs => if c = ch then [] else c :: truncateAtFirst ch cs

/-- The `COUNTDOWN_FREEFMT` case before it falls through: the date string left in
`Line` and the format string `fmt`. -/
def freeFormatSplit (Line : String) : String × String :=
  if Line.data.length ≥ 4 then
    match Line.data with
    | [] => (Line, "")
    | delim :: rest => (String.mk (truncateAtFirst delim rest), String.mk (afterFirst delim rest))
  else (Line, "")

/-- The value of `longsecs` computed on a frame with `state % 20 == 0`. -/
def parseRemaining (env : Env) (Line : String) : Int :=
  match env.ParseRfc822Date Line with
  | some dt =>
    let ll := Int.tdiv (dt - env.Now) 1000
    let ll1 := if ll > LONG_MAX then LONG_MAX else ll
    let ll2 := if ll1 < 0 then 0 else ll1
    toLong ll2
  | none => 0

/-- The time span `ts` in milliseconds on a frame with `state % 20 == 0`
(a default-constructed span when the date does not parse). -/
def parseSpan (env : Env) (Line : String) : Int :=
  match env.ParseRfc822Date Line with
  | some dt => dt - env.Now
  | none => 0

/-- The message of a date-based countdown once `longsecs` is known
(from `if (!longsecs)` to the `break` of the date cases). -/
def formatRemaining (env : Env) (Countdown : Int) (longsecs : Int) (ts : Int) (fmt : String) :
    String :=
  if longsecs = 0 then "invalid date"
  else
    let days := toInt (((longsecs.tdiv 60).tdiv 60).tdiv 24)
    let hours := ((longsecs.tdiv 60).tdiv 60).tmod 24
    let minutes := (longsecs.tdiv 60).tmod 60
    let seconds := longsecs.tmod 60
    if Countdown = COUNTDOWN_D_H_M_S then
      toString days ++ "d " ++ toString hours ++ "h " ++ toString minutes ++ "m "
        ++ toString seconds ++ "s"
    else if Countdown = COUNTDOWN_H_M_S then
      toString hours ++ " : " ++ toString minutes ++ " : " ++ toString seconds
    else if Countdown = COUNTDOWN_S then
      toString (60 * 60 * hours + 60 * minutes + seconds)
    else if Countdown = COUNTDOWN_FREEFMT then
      env.Format ts fmt
    else if 60 * hours + minutes < 5 then
      toString (60 * 60 * hours + 60 * minutes + seconds)
    else
      toString (60 * hours + minutes) ++ " m"

/-- Replacement of every two-character sequence backslash, n by a newline
(the call `msg.Replace("\\n", "\n", true)`). -/
def unescapeNewlines : List Char → List Char
  | [] => []
  | [c] => [c]
  | c :: d :: cs =>
    if c = '\\' ∧ d = 'n' then '\n' :: unescapeNewlines cs
    else c :: unescapeNewlines (d :: cs)

/-- Outcome of the text-resolution switch: the message, the working copy of the
template (shortened to the date by the free-format case) and the deadlines. -/
structure Resolved where
  msg : String
  Line : String
  timer_countdown : Nat → Int

/-- The first `switch (Countdown)` of `RenderTextLine`, for the given value of `state`. -/
def resolveText (env : Env) (e : RgbEffects) (idx : Nat) (Line_orig : String)
    (Countdown : Int) (state : Int) : Resolved :=
  if Countdown = COUNTDOWN_SECONDS then
    let tempLong := (env.ToLong Line_orig).getD 0
    let timer :=
      if state = 0 then
        setAt e.timer_countdown idx (toLong (toLong (e.curPeriod + toLong (tempLong * 20)) + 19))
      else e.timer_countdown
    let seconds := toInt ((toLong (timer idx - e.curPeriod)).tdiv 20)
    let seconds1 := if seconds < 0 then 0 else seconds
    { msg := toString seconds1, Line := Line_orig, timer_countdown := timer }
  else if Countdown = COUNTDOWN_FREEFMT ∨ Countdown = COUNTDOWN_D_H_M_S
      ∨ Countdown = COUNTDOWN_H_M_S ∨ Countdown = COUNTDOWN_M_or_S
      ∨ Countdown = COUNTDOWN_S then
    let split := if Countdown = COUNTDOWN_FREEFMT then freeFormatSplit Line_orig
      else (Line_orig, "")
    let Line := split.1
    let fmt := split.2
    if state.tmod 20 = 0 then
      let longsecs := parseRemaining env Line
      { msg := formatRemaining env Countdown longsecs (parseSpan env Line) fmt,
        Line := Line,
        timer_countdown := setAt e.timer_countdown idx longsecs }
    else
      let longsecs := e.timer_countdown idx
      { msg := formatRemaining env Countdown longsecs (toLong (longsecs * 1000)) fmt,
        Line := Line,
        timer_countdown := e.timer_countdown }
  else
    { msg := String.mk (unescapeNewlines Line_orig.data),
      Line := Line_orig,
      timer_countdown := e.timer_countdown }

/-! ## Character transform (second `switch`, on `Effect`) -/

/-- The loop of `case 1` (vertical text up): for `i` from 0 to the length of the
message, append `Line.GetChar(tempmsg.length()-i-1)` and a newline. The character
is read from `Line`; an index outside `Line` has no defined result. -/
def verticalUp (Line : List Char) (tempmsg : List Char) : Option (List Char) :=
  (List.range tempmsg.length).foldlM
    (fun msg i => (Line[tempmsg.length - i - 1]?).map (fun c => msg ++ [c, '\n'])) []

/-- The loop of `case 2` (vertical text down): for `i` from 0 to the length of the
message, append `tempmsg.GetChar(i)` and a newline. -/
def verticalDown (tempmsg : List Char) : Option (List Char) :=
  (List.range tempmsg.length).foldlM
    (fun msg i => (tempmsg[i]?).map (fun c => msg ++ [c, '\n'])) []

/-- The `switch (Effect)` that rewrites the message; `none` when a character is
read outside the string. -/
def textEffect (Effect : Int) (Line : String) (msg : String) : Option String :=
  if Effect = 1 then (verticalUp Line.data msg.data).map String.mk
  else if Effect = 2 then (verticalDown msg.data).map String.mk
  else some msg

/-! ## Multi-line measurement (`GetMultiLineTextExtent`) -/

/-- Local variables of the measuring loop; the four numbers are `double`. -/
structure ExtentAcc where
  curLine : List Char
  widthTextMax : ℚ
  heightTextTotal : ℚ
  heightLineDefault : ℚ
  heightLine : ℚ

/-- Body of the branch taken at a newline or at the end of the text. -/
def extentEndOfLine (env : Env) (font : String) (a : ExtentAcc) : ExtentAcc :=
  if a.curLine.isEmpty then
    let hd1 := if a.heightLineDefault = 0 then a.heightLine else a.heightLineDefault
    let hd2 := if hd1 = 0 then (env.GetTextExtent font "W").2 else hd1
    { a with heightLineDefault := hd2, heightTextTotal := dadd a.heightTextTotal hd2 }
  else
    let ext := env.GetTextExtent font (String.mk a.curLine)
    { a with
      widthTextMax := if ext.1 > a.widthTextMax then ext.1 else a.widthTextMax,
      heightLine := ext.2,
      heightTextTotal := dadd a.heightTextTotal ext.2 }

/-- One iteration of the measuring loop on a character of the text. -/
def extentStep (env : Env) (font : String) (a : ExtentAcc) (c : Char) : ExtentAcc :=
  if c = '\n' then { extentEndOfLine env font a with curLine := [] }
  else { a with curLine := a.curLine ++ [c] }

/-- The five-argument `GetMultiLineTextExtent`: maximal line width, total height
and the height of the last non-blank line, each converted from the `double` of
the loop to the `wxCoord` it is stored into. -/
def GetMultiLineTextExtent3 (env : Env) (font : String) (text : String) : Int × Int × Int :=
  let a := extentEndOfLine env font
    (text.data.foldl (extentStep env font) ⟨[], 0, 0, 0, 0⟩)
  (truncQ a.widthTextMax, truncQ a.heightTextTotal, truncQ a.heightLine)

/-- The two-argument `GetMultiLineTextExtent`. -/
def GetMultiLineTextExtent (env : Env) (font : String) (text : String) : wxSize :=
  let r := GetMultiLineTextExtent3 env font text
  ⟨r.1, r.2.1⟩

/-! ## Aligned drawing (`DrawLabel`) -/

/-- A `wxRect`. -/
structure wxRect where
  x : Int
  y : Int
  width : Int
  height : Int
deriving DecidableEq, Repr

/-- Alignment flag of the toolkit: centred horizontally. -/
def wxALIGN_CENTER_HORIZONTAL : Nat := 0x100

/-- Alignment flag of the toolkit: flush right. -/
def wxALIGN_RIGHT : Nat := 0x200

/-- Alignment flag of the toolkit: flush bottom. -/
def wxALIGN_BOTTOM : Nat := 0x400

/-- Alignment flag of the toolkit: centred vertically. -/
def wxALIGN_CENTER_VERTICAL : Nat := 0x800

/-- Local variables of the drawing loop of `DrawLabel`. -/
structure LabelAcc where
  curLine : List Char
  y : Int
  drawn : List DrawCall

/-- Body of the branch of the drawing loop taken at a newline or at the end. -/
def labelEndOfLine (env : Env) (font : String) (colour : Nat) (alignment : Nat)
    (x width heightLine : Int) (a : LabelAcc) : LabelAcc :=
  let drawn :=
    if ¬ a.curLine.isEmpty then
      let xRealStart :=
        if alignment &&& (wxALIGN_RIGHT ||| wxALIGN_CENTER_HORIZONTAL) ≠ 0 then
          let widthLine := (GetMultiLineTextExtent env font (String.mk a.curLine)).x
          if alignment &&& wxALIGN_RIGHT ≠ 0 then x + (width - widthLine)
          else x + (width - widthLine).tdiv 2
        else x
      a.drawn ++ [⟨font, colour, String.mk a.curLine, xRealStart, a.y, none⟩]
    else a.drawn
  { a with y := a.y + heightLine, drawn := drawn }

/-- One iteration of the drawing loop of `DrawLabel`. -/
def labelStep (env : Env) (font : String) (colour : Nat) (alignment : Nat)
    (x width heightLine : Int) (a : LabelAcc) (c : Char) : LabelAcc :=
  if c = '\n' then
    { labelEndOfLine env font colour alignment x width heightLine a with curLine := [] }
  else { a with curLine := a.curLine ++ [c] }

/-- The function `DrawLabel`: the list of `DrawText` calls after drawing `text` in `rect`. -/
def DrawLabel (env : Env) (font : String) (colour : Nat) (drawn : List DrawCall)
    (text : String) (rect : wxRect) (alignment : Nat) : List DrawCall :=
  let ext := GetMultiLineTextExtent3 env font text
  let width := ext.1
  let height := ext.2.1
  let heightLine := ext.2.2
  let right := rect.x + rect.width - 1
  let bottom := rect.y + rect.height - 1
  let x :=
    if alignment &&& wxALIGN_RIGHT ≠ 0 then right - width
    else if alignment &&& wxALIGN_CENTER_HORIZONTAL ≠ 0 then (rect.x + right + 1 - width).tdiv 2
    else rect.x
  let y :=
    if alignment &&& wxALIGN_BOTTOM ≠ 0 then bottom - height
    else if alignment &&& wxALIGN_CENTER_VERTICAL ≠ 0 then (rect.y + bottom + 1 - height).tdiv 2
    else rect.y
  (labelEndOfLine env font colour alignment x width heightLine
    (text.data.foldl (labelStep env font colour alignment x width heightLine)
      ⟨[], y, drawn⟩)).drawn

/-! ## Directions, whitespace compensation and rotation sizing -/

/-- Values of the enumeration `TextDirection`, in its order of declaration. -/
def TEXTDIR_LEFT : Int := 0

/-- Direction right. -/
def TEXTDIR_RIGHT : Int := 1

/-- Direction up. -/
def TEXTDIR_UP : Int := 2

/-- Direction down. -/
def TEXTDIR_DOWN : Int := 3

/-- No movement. -/
def TEXTDIR_NONE : Int := 4

/-- Direction up and left. -/
def TEXTDIR_UPLEFT : Int := 5

/-- Direction down and left. -/
def TEXTDIR_DOWNLEFT : Int := 6

/-- Direction up and right. -/
def TEXTDIR_UPRIGHT : Int := 7

/-- Direction down and right. -/
def TEXTDIR_DOWNRIGHT : Int := 8

/-- Horizontal movement with a vertical wave. -/
def TEXTDIR_WAVEY_LRUPDOWN : Int := 9

/-- Movement from the start offset to the end offset. -/
def TEXTDIR_VECTOR : Int := 10

/-- The test `IsGoingLeft(dir)`. -/
def IsGoingLeft (dir : Int) : Bool :=
  dir == TEXTDIR_LEFT || dir == TEXTDIR_UPLEFT || dir == TEXTDIR_DOWNLEFT

/-- The test `IsGoingRight(dir)`. -/
def IsGoingRight (dir : Int) : Bool :=
  dir == TEXTDIR_RIGHT || dir == TEXTDIR_UPRIGHT || dir == TEXTDIR_DOWNRIGHT

/-- The test `IsGoingUp(dir)`. -/
def IsGoingUp (dir : Int) : Bool :=
  dir == TEXTDIR_UP || dir == TEXTDIR_UPLEFT || dir == TEXTDIR_UPRIGHT

/-- The test `IsGoingDown(dir)`. -/
def IsGoingDown (dir : Int) : Bool :=
  dir == TEXTDIR_DOWN || dir == TEXTDIR_DOWNLEFT || dir == TEXTDIR_DOWNRIGHT

/-- The back-and-forth wave of the preprocessor definition `zigzag(value, range)`. -/
def zigzag (value range : Int) : Int :=
  if (value.tdiv range) % 2 ≠ 0 then value.tmod range
  else range - value.tmod range - 1

/-- White space in the sense of `wxString::Trim`. -/
def wxIsspace (c : Char) : Bool :=
  c == ' ' || c == '\t' || c == '\n' || c == '\x0b' || c == '\x0c' || c == '\r'

/-- The call `wxString(msg).Trim(false)`: white space removed from the left. -/
def trimLeft (s : String) : String := String.mk (s.data.dropWhile wxIsspace)

/-- The call `wxString(msg).Trim(true)`: white space removed from the right. -/
def trimRight (s : String) : String :=
  String.mk (s.data.reverse.dropWhile wxIsspace).reverse

/-- The helper `StripLeft(str, "\n")`: leading newlines removed. -/
def StripLeft (s : String) : String := String.mk (s.data.dropWhile (fun c => c == '\n'))

/-- The helper `StripRight(str, "\n")`: trailing newlines removed. -/
def StripRight (s : String) : String :=
  String.mk (s.data.reverse.dropWhile (fun c => c == '\n')).reverse

/-- The values computed between the two `switch (Effect)` statements and by the
second one: the box of the text, the white space compensations, the line height,
the rotation in degrees and the draw-origin corrections. -/
structure TextMetrics where
  textsize : wxSize
  extra_left : Int
  extra_right : Int
  extra_down : Int
  extra_up : Int
  lineh : Int
  TextRotation : Int
  xoffset : Int
  yoffset : Int

/-- The value `int(0.707*double(v))` of the rotation sizing: the literal 0.707
is the nearest `double`, the product is rounded and the result truncated. -/
def scale707 (v : Int) : Int := truncQ (dmul (toDouble (707 / 1000)) (v : ℚ))

/-- Measurement of the message and the rotation sizing `switch (Effect)`. -/
def measureText (env : Env) (font : String) (msg : String) (dir : Int) (Effect : Int) :
    TextMetrics :=
  let textsize := GetMultiLineTextExtent env font msg
  let extra_left :=
    if IsGoingLeft dir then textsize.x - (GetMultiLineTextExtent env font (trimLeft msg)).x else 0
  let extra_right :=
    if IsGoingRight dir then textsize.x - (GetMultiLineTextExtent env font (trimRight msg)).x
    else 0
  let extra_down :=
    if IsGoingDown dir then textsize.y - (GetMultiLineTextExtent env font (StripRight msg)).y
    else 0
  let extra_up :=
    if IsGoingUp dir then textsize.y - (GetMultiLineTextExtent env font (StripLeft msg)).y else 0
  let lineh := (GetMultiLineTextExtent env font "X").y
  let m : TextMetrics :=
    ⟨textsize, extra_left, extra_right, extra_down, extra_up, lineh, 0, 0, 0⟩
  if Effect = 3 then
    let i := scale707 (textsize.x + textsize.y)
    { m with TextRotation := 45, yoffset := scale707 textsize.y, textsize := ⟨i, i⟩ }
  else if Effect = 4 then
    { m with TextRotation := 90, textsize := ⟨textsize.y, textsize.x⟩ }
  else if Effect = 5 then
    let i := scale707 (textsize.x + textsize.y)
    { m with TextRotation := -45, xoffset := scale707 textsize.y, textsize := ⟨i, i⟩,
             yoffset := i }
  else if Effect = 6 then
    { m with TextRotation := -90, xoffset := textsize.y, yoffset := textsize.x,
             textsize := ⟨textsize.y, textsize.x⟩ }
  else m

/-! ## Synchronisation gate -/

/-- The collection pass (`!WantRender`): line 0 stores its box in
`synced_textsize`, the other lines keep the maximum in each component. -/
def mergeSynced (synced : wxSize) (idx : Nat) (textsize : wxSize) : wxSize :=
  if idx = 0 then textsize
  else
    ⟨if textsize.x > synced.x then textsize.x else synced.x,
     if textsize.y > synced.y then textsize.y else synced.y⟩

/-- The rendering pass: `textsize.x = synced_textsize.x`, the height is kept. -/
def syncedBox (synced : wxSize) (textsize : wxSize) : wxSize := ⟨synced.x, textsize.y⟩

/-! ## Position computation and drawing -/

/-- The position computation and the draw calls of the rendering pass, for the
message `msg`, its metrics `m` and the box `textsize` left by the gate. -/
def drawLine (env : Env) (e : RgbEffects) (msg : String) (m : TextMetrics) (textsize : wxSize)
    (dir : Int) (center : Bool) (state : Int)
    (startx starty endx endy : Int) (isPixelBased : Bool) : List DrawCall :=
  let txtwidth := textsize.x
  let totwidth := e.BufferWi + txtwidth
  let totheight := e.BufferHt + textsize.y
  let OffsetLeft := if isPixelBased then startx else (startx * e.BufferWi).tdiv 100
  let OffsetTop := if isPixelBased then -starty else (-starty * e.BufferHt).tdiv 100
  let xlimit := totwidth * 8 + 1
  let ylimit := totheight * 8 + 1
  let exEnd : ℚ := if isPixelBased then endx else (endx * e.BufferWi).tdiv 100
  let eyEnd : ℚ := if isPixelBased then -endy else (-endy * e.BufferHt).tdiv 100
  let ex : ℚ := OffsetLeft + (exEnd - OffsetLeft) * env.position
  let ey : ℚ := OffsetTop + (eyEnd - OffsetTop) * env.position
  let leftX :=
    if center then max (xlimit.tdiv 16 - state.tdiv 8) ((-m.extra_left).tdiv 2)
    else xlimit.tdiv 16 - (state.tmod xlimit).tdiv 8
  let rightX :=
    if center then min (state.tdiv 8 - xlimit.tdiv 16) (m.extra_right.tdiv 2)
    else (state.tmod xlimit).tdiv 8 - xlimit.tdiv 16
  let upY :=
    if center then max (ylimit.tdiv 16 - state.tdiv 8) (m.lineh.tdiv 2 - m.extra_up.tdiv 2)
    else ylimit.tdiv 16 - (state.tmod ylimit).tdiv 8
  let downY :=
    if center then min (state.tdiv 8 - ylimit.tdiv 16) ((-m.lineh).tdiv 2 + m.extra_down.tdiv 2)
    else (state.tmod ylimit).tdiv 8 - ylimit.tdiv 16
  if m.TextRotation = 0 then
    let state8 := if state.tdiv 8 < 0 then state.tdiv 8 + 32768 else state.tdiv 8
    let offset : Int × Int :=
      if dir = TEXTDIR_VECTOR then (truncQ ex, truncQ ey)
      else if dir = TEXTDIR_LEFT then
        (if center then max (xlimit.tdiv 16 - state8) ((-m.extra_left).tdiv 2)
         else xlimit.tdiv 16 - (state.tmod xlimit).tdiv 8, OffsetTop)
      else if dir = TEXTDIR_RIGHT then (rightX, OffsetTop)
      else if dir = TEXTDIR_UP then (OffsetLeft, upY)
      else if dir = TEXTDIR_DOWN then (OffsetLeft, downY)
      else if dir = TEXTDIR_UPLEFT then (leftX, upY)
      else if dir = TEXTDIR_DOWNLEFT then (leftX, downY)
      else if dir = TEXTDIR_UPRIGHT then (rightX, upY)
      else if dir = TEXTDIR_DOWNRIGHT then (rightX, downY)
      else if dir = TEXTDIR_WAVEY_LRUPDOWN then
        if center then
          (min (state.tdiv 8 - xlimit.tdiv 16) (m.extra_right.tdiv 2),
           max ((zigzag (state.tdiv 4) totheight).tdiv 2 - totheight.tdiv 4)
             ((-m.extra_left).tdiv 2))
        else
          (xlimit.tdiv 16 - (state.tmod xlimit).tdiv 8,
           (zigzag (state.tdiv 4) totheight).tdiv 2 - totheight.tdiv 4)
      else (0, OffsetTop)
    DrawLabel env e.font e.colour e.drawn msg
      ⟨offset.1, offset.2, e.BufferWi, e.BufferHt⟩
      (wxALIGN_CENTER_HORIZONTAL ||| wxALIGN_CENTER_VERTICAL)
  else
    let sx := (state.tmod xlimit).tdiv 8
    let sy := (state.tmod ylimit).tdiv 8
    let pos : Int × Int :=
      if dir = TEXTDIR_VECTOR then
        if m.TextRotation > 50 then
          (truncQ (e.BufferWi.tdiv 2 + ex - txtwidth.tdiv 2),
           truncQ (e.BufferHt.tdiv 2 + ey + textsize.y.tdiv 2))
        else if m.TextRotation > 0 then
          (truncQ (e.BufferWi.tdiv 2 + ex - txtwidth.tdiv 2),
           truncQ (e.BufferHt.tdiv 2 + ey + m.yoffset * 2))
        else if m.TextRotation < -50 then
          (truncQ (e.BufferWi.tdiv 2 + ex + txtwidth.tdiv 2),
           truncQ (e.BufferHt.tdiv 2 + ey - textsize.y.tdiv 2))
        else
          (truncQ (e.BufferWi.tdiv 2 + ex - txtwidth.tdiv 2 + m.xoffset),
           truncQ (e.BufferHt.tdiv 2 + ey - textsize.y.tdiv 2))
      else if dir = TEXTDIR_LEFT then (e.BufferWi - sx + m.xoffset, OffsetTop)
      else if dir = TEXTDIR_RIGHT then (sx - txtwidth + m.xoffset, OffsetTop)
      else if dir = TEXTDIR_UP then (OffsetLeft, totheight - sy - m.yoffset)
      else if dir = TEXTDIR_DOWN then (OffsetLeft, sy - m.yoffset)
      else if dir = TEXTDIR_UPLEFT then
        (e.BufferWi - sx + m.xoffset, totheight - sy - m.yoffset)
      else if dir = TEXTDIR_DOWNLEFT then (e.BufferWi - sx + m.xoffset, sy - m.yoffset)
      else if dir = TEXTDIR_UPRIGHT then (sx - txtwidth + m.xoffset, totheight - sy - m.yoffset)
      else if dir = TEXTDIR_DOWNRIGHT then (sx - txtwidth + m.xoffset, sy - m.yoffset)
      else (0, OffsetTop)
    e.drawn ++ [⟨e.font, e.colour, msg, pos.1, pos.2, some m.TextRotation⟩]

/-! ## `RenderTextLine` -/

/-- The part of `RenderTextLine` after the character transform: measurement,
rotation sizing, synchronisation gate and, on the rendering pass, position
computation and drawing. -/
def layoutLine (env : Env) (e : RgbEffects) (idx : Nat) (msg : String) (dir : Int)
    (center : Bool) (Effect : Int) (WantRender : Bool) (state : Int)
    (startx starty endx endy : Int) (isPixelBased : Bool) : RgbEffects :=
  let m := measureText env e.font msg dir Effect
  if ¬ WantRender then
    { e with synced_textsize := mergeSynced e.synced_textsize idx m.textsize }
  else
    { e with drawn := drawLine env e msg m (syncedBox e.synced_textsize m.textsize)
               dir center state startx starty endx endy isPixelBased }

/-- The member function `RgbEffects::RenderTextLine`; `none` when the vertical-up
transform reads outside the string. -/
def RenderTextLine (env : Env) (e : RgbEffects) (idx : Nat) (Line_orig : String) (dir : Int)
    (center : Bool) (Effect : Int) (Countdown : Int) (WantRender : Bool) (tspeed : Int)
    (startx starty endx endy : Int) (isPixelBased : Bool) : Option RgbEffects :=
  if Line_orig.data.isEmpty then some e
  else
    let state := effectState e tspeed
    let r := resolveText env e idx Line_orig Countdown state
    let e1 := { e with timer_countdown := r.timer_countdown }
    (textEffect Effect r.Line r.msg).map
      (fun msg => layoutLine env e1 idx msg dir center Effect WantRender state
        startx starty endx endy isPixelBased)

/-! ## `RenderText` -/

/-- The choice-to-index function `TextEffectDirectionsIndex`. -/
def TextEffectDirectionsIndex (st : String) : Int :=
  if st = "left" then TEXTDIR_LEFT
  else if st = "right" then TEXTDIR_RIGHT
  else if st = "up" then TEXTDIR_UP
  else if st = "down" then TEXTDIR_DOWN
  else if st = "none" then TEXTDIR_NONE
  else if st = "up-left" then TEXTDIR_UPLEFT
  else if st = "down-left" then TEXTDIR_DOWNLEFT
  else if st = "up-right" then TEXTDIR_UPRIGHT
  else if st = "down-right" then TEXTDIR_DOWNRIGHT
  else if st = "wavey L-R/up-down" then TEXTDIR_WAVEY_LRUPDOWN
  else if st = "vector" then TEXTDIR_VECTOR
  else TEXTDIR_NONE

/-- The choice-to-index function `TextCountDownIndex`. -/
def TextCountDownIndex (st : String) : Int :=
  if st = "seconds" then 1
  else if st = "to date \'d h m s\'" then 2
  else if st = "to date \'h:m:s\'" then 3
  else if st = "to date \'m\' or \'s\'" then 4
  else if st = "to date \'s\'" then 5
  else if st = "!to date!%fmt" then 6
  else 0

/-- The choice-to-index function `TextEffectsIndex`. -/
def TextEffectsIndex (st : String) : Int :=
  if st = "vert text up" then 1
  else if st = "vert text down" then 2
  else if st = "rotate up 45" then 3
  else if st = "rotate up 90" then 4
  else if st = "rotate down 45" then 5
  else if st = "rotate down 90" then 6
  else 0

/-- The settings map: the value stored under a key, if any. -/
abbrev SettingsMap := String → Option String

/-- The subscript `SettingsMap[key]`: the stored value, the empty string when absent. -/
def SettingsMap.at (m : SettingsMap) (key : String) : String := (m key).getD ""

/-- The call `SettingsMap.Get(key, def)`. -/
def SettingsMap.Get (m : SettingsMap) (key : String) (dflt : String) : String :=
  (m key).getD dflt

/-- Body of the loop over `line` in `RenderText`, for one `pass`. The state is
the effect and the palette index held in the local colour `c`. -/
def renderLine (env : Env) (sm : SettingsMap) (colorcnt : Nat) (pass : Nat)
    (s : RgbEffects × Nat) (line : Nat) : Option (RgbEffects × Nat) :=
  let lp := toString line
  let text := sm.at ("TEXTCTRL_Text_Line" ++ lp)
  if text ≠ "" then
    let c := if colorcnt ≥ line then line - 1 else s.2
    let fontString := sm.at ("FONTPICKER_Text_Font" ++ lp)
    let e := { s.1 with font := fontString, colour := c }
    let first := env.wxAtoi (sm.Get ("SLIDER_Text_YStart" ++ lp) "0")
    let other := env.wxAtoi (sm.at ("SLIDER_Text_Position" ++ lp)) * 2 - 100
    let starty := if line = 1 then first else other
    let startx := if line = 1 then env.wxAtoi (sm.Get ("SLIDER_Text_XStart" ++ lp) "0") else other
    let endy := if line = 1 then env.wxAtoi (sm.Get ("SLIDER_Text_YEnd" ++ lp) "0") else other
    let endx := if line = 1 then env.wxAtoi (sm.Get ("SLIDER_Text_XEnd" ++ lp) "0") else other
    let pixelOffsets :=
      if line = 1 then
        decide (env.wxAtoi (sm.Get ("CHECKBOX_Text_PixelOffsets" ++ lp) "0") ≠ 0)
      else false
    (RenderTextLine env e (line - 1) text
      (TextEffectDirectionsIndex (sm.at ("CHOICE_Text_Dir" ++ lp)))
      (decide (env.wxAtoi (sm.at ("CHECKBOX_TextToCenter" ++ lp)) ≠ 0))
      (TextEffectsIndex (sm.at ("CHOICE_Text_Effect" ++ lp)))
      (TextCountDownIndex (sm.at ("CHOICE_Text_Count" ++ lp)))
      (decide (pass ≠ 0))
      (env.wxAtoi (sm.Get ("TEXTCTRL_Text_Speed" ++ lp) "10"))
      startx starty endx endy pixelOffsets).map (fun e2 => (e2, c))
  else some s

/-- One iteration of the loop over `pass`: the colour is reset to palette entry 0
and the lines of `order` are processed in turn (`RenderText` uses 1, 2, 3, 4). -/
def renderPass (env : Env) (sm : SettingsMap) (colorcnt : Nat) (pass : Nat)
    (order : List Nat) (e : RgbEffects) : Option RgbEffects :=
  (order.foldlM (renderLine env sm colorcnt pass) (e, 0)).map Prod.fst

/-- The member function `RgbEffects::RenderText` up to the end of the two
passes: the drawing context is cleared, then the collection pass and the
rendering pass run over the four lines. -/
def RenderText (env : Env) (e : RgbEffects) (sm : SettingsMap) (colorcnt : Nat) :
    Option RgbEffects :=
  (renderPass env sm colorcnt 0 [1, 2, 3, 4] { e with drawn := [] }).bind
    (renderPass env sm colorcnt 1 [1, 2, 3, 4])

/-! ## Frames of an effect instance -/

/-- The effect at the frame `k` periods after its start: `curPeriod` is
`curEffStartPer + k`. -/
def frameAt (e : RgbEffects) (k : Nat) : RgbEffects :=
  { e with curPeriod := e.curEffStartPer + k }

/-- The text resolution of one line over the frames 0, 1, ..., k of an effect
instance: the deadlines left by frame `k` and the message of frame `k`. -/
def countdownFrames (env : Env) (e : RgbEffects) (idx : Nat) (Line : String) (Countdown : Int)
    (tspeed : Int) : Nat → Resolved
  | 0 => resolveText env (frameAt e 0) idx Line Countdown (effectState (frameAt e 0) tspeed)
  | k + 1 =>
    let ek : RgbEffects :=
      { frameAt e (k + 1) with
        timer_countdown :=
          (countdownFrames env e idx Line Countdown tspeed k).timer_countdown }
    resolveText env ek idx Line Countdown (effectState ek tspeed)

/-! ## Sample data for the concrete instances -/

/-- A sample toolkit: three templates parse as numbers, no date parses, every
character is 6 pixels wide and every text 8 pixels high. -/
def sampleEnv : Env :=
  { ToLong := fun s =>
      if s = "10" then some 10 else if s = "5" then some 5
      else if s = "2147483648" then some 2147483648 else none,
    ParseRfc822Date := fun _ => none,
    Now := 0,
    Format := fun _ f => f,
    GetTextExtent := fun _ s => (((6 * s.length : Nat) : ℚ), 8),
    position := 0,
    wxAtoi := fun s => if s = "10" then 10 else if s = "50" then 50 else 0 }

/-- A sample effect: a 32 by 16 buffer at the first frame, 50 ms per frame. -/
def sampleEffect : RgbEffects :=
  { BufferWi := 32, BufferHt := 16, curPeriod := 0, curEffStartPer := 0, frameTimeInMs := 50,
    timer_countdown := fun _ => 0, synced_textsize := ⟨0, 0⟩, font := "", colour := 0,
    drawn := [] }

/-! ## The box of a line and the invariant of the collection pass -/

/-- The box `textsize` with which a call of `RenderTextLine` reaches the
synchronisation gate: the message is resolved, transformed and measured and the
rotation sizing is applied; `none` when the transform fails. -/
def measuredBox (env : Env) (e : RgbEffects) (idx : Nat) (Line_orig : String)
    (dir Effect Countdown tspeed : Int) : Option wxSize :=
  let r := resolveText env e idx Line_orig Countdown (effectState e tspeed)
  (textEffect Effect r.Line r.msg).map
    (fun msg => (measureText env e.font msg dir Effect).textsize)

/-- The text of line `line` in the settings (`TEXTCTRL_Text_Line<line>`). -/
def lineText (sm : SettingsMap) (line : Nat) : String :=
  sm.at ("TEXTCTRL_Text_Line" ++ toString line)

/-- The box measured for line `line` of the settings, on its own, in the effect
state `e`: the arguments are those `RenderText` passes to `RenderTextLine`. -/
def lineBox (env : Env) (sm : SettingsMap) (e : RgbEffects) (line : Nat) : Option wxSize :=
  measuredBox env { e with font := sm.at ("FONTPICKER_Text_Font" ++ toString line) }
    (line - 1) (lineText sm line)
    (TextEffectDirectionsIndex (sm.at ("CHOICE_Text_Dir" ++ toString line)))
    (TextEffectsIndex (sm.at ("CHOICE_Text_Effect" ++ toString line)))
    (TextCountDownIndex (sm.at ("CHOICE_Text_Count" ++ toString line)))
    (env.wxAtoi (sm.Get ("TEXTCTRL_Text_Speed" ++ toString line) "10"))

/-- Invariant of the collection pass started in state `e`, after the lines
`done` have been processed and the state is `s`: the synchronised width is the
largest box width of the non-empty lines processed, the clock is unchanged and
the deadlines of the other lines are untouched. -/
def SyncInv (env : Env) (sm : SettingsMap) (e : RgbEffects) (done : List Nat)
    (s : RgbEffects) : Prop :=
  (∀ l ∈ done, lineText sm l ≠ "" →
    ∃ b, lineBox env sm e l = some b ∧ b.x ≤ s.synced_textsize.x) ∧
  (∃ l ∈ done, lineText sm l ≠ "" ∧
    ∃ b, lineBox env sm e l = some b ∧ b.x = s.synced_textsize.x) ∧
  (s.curPeriod = e.curPeriod ∧ s.curEffStartPer = e.curEffStartPer
    ∧ s.frameTimeInMs = e.frameTimeInMs) ∧
  (∀ i : Nat, (∀ l ∈ done, l - 1 ≠ i) → s.timer_countdown i = e.timer_countdown i)

/-- Sample settings: line 1 is empty, line 2 is the text "Hi" moving left. -/
def sampleSettings : SettingsMap := fun key =>
  if key = "TEXTCTRL_Text_Line2" then some "Hi"
  else if key = "CHOICE_Text_Dir2" then some "left"
  else if key = "SLIDER_Text_Position2" then some "50"
  else none

/-- Sample settings with two lines: "Hi" on line 1 and "Hello!" on line 2. -/
def sampleTwoLines : SettingsMap := fun key =>
  if key = "TEXTCTRL_Text_Line1" then some "Hi"
  else if key = "TEXTCTRL_Text_Line2" then some "Hello!"
  else if key = "SLIDER_Text_Position2" then some "50"
  else none


/-! ## Fill effect (`src/xLights/effects/FillEffect.cpp`)

The palette and the frame buffer belong to `RenderBuffer`, which is not part of
the sources: a colour is recorded by the call that produced it and the frame
buffer by the list of `SetPixel` calls. -/

/-- The value held by the local `xlColor color` of `FillEffect::Render`. -/
inductive FillColor where
  /-- The default-constructed colour. -/
  | unset
  /-- The constant `xlBLACK`. -/
  | black
  /-- The result of `buffer.palette.GetColor(index, color)`. -/
  | palette (index : Int)
  /-- The result of `buffer.Get2ColorBlend(first, second, ratio, color)`. -/
  | blend (first second : Int) (ratio : ℚ)
  /-- The colour computed from a position whose divisor is zero (not a number). -/
  | undefined
deriving DecidableEq

/-- One call `buffer.SetPixel(x, y, color)`. -/
structure SetPixelCall where
  x : Int
  y : Int
  color : FillColor
deriving DecidableEq

/-- One iteration of the first loop of `UpdateFillColor` (`shift > 0`). -/
def fillColorForward (colorcnt color_size : Int) (s : Int × Int) : Int × Int :=
  if s.1 + 1 ≥ color_size then (0, (s.2 + 1).tmod colorcnt) else (s.1 + 1, s.2)

/-- One iteration of the second loop of `UpdateFillColor` (`shift < 0`). -/
def fillColorBackward (colorcnt color_size : Int) (s : Int × Int) : Int × Int :=
  if s.1 - 1 < 0 then (color_size - 1, (s.2 + 1).tmod colorcnt) else (s.1 - 1, s.2)

/-- The function `UpdateFillColor`: the new values of `position` and `band_color`. -/
def UpdateFillColor (position band_color colorcnt color_size shift : Int) : Int × Int :=
  if shift = 0 then (position, band_color)
  else if shift > 0 then
    Nat.iterate (fillColorForward colorcnt color_size) shift.toNat (position, band_color)
  else
    Nat.iterate (fillColorBackward colorcnt color_size) (-shift).toNat (position, band_color)

/-- The function `GetColorFromPosition`; `colorcnt` is a `size_t`, so that
`colorcnt-1` wraps to the largest value when `colorcnt` is 0, and it is
converted to `double` for the product. -/
def GetColorFromPosition (pos : ℚ) (colorcnt : Nat) : FillColor :=
  let last : ℚ :=
    toDouble (if colorcnt = 0 then 18446744073709551615 else ((colorcnt - 1 : Nat) : ℚ))
  let color_val : ℚ := dmul pos last
  let color_int : Int := truncQ color_val
  let color_pct : ℚ := dsub color_val (color_int : ℚ)
  let color2 : Int := min (color_int + 1) ((colorcnt : Int) - 1)
  if color_int < color2 then FillColor.blend color_int color2 (min color_pct 1)
  else FillColor.palette color2

/-- The function `GetDirection`. -/
def GetDirection (DirectionString : String) : Int :=
  if DirectionString = "Up" then 0
  else if DirectionString = "Down" then 1
  else if DirectionString = "Left" then 2
  else if DirectionString = "Right" then 3
  else 0

/-- The values read at the start of `FillEffect::Render` from the settings and
from the buffer. -/
structure FillArgs where
  BufferWi : Int
  BufferHt : Int
  /-- The value of `buffer.GetColorCount()`. -/
  colorcnt : Nat
  /-- The value of `buffer.GetEffectTimeIntervalPosition()`. -/
  eff_pos : ℚ
  position : Int
  Direction : Int
  BandSize : Int
  SkipSize : Int
  offset : Int
  offset_in_pixels : Bool
  color_by_time : Bool

/-- The locals of `FillEffect::Render` that change in the sweep loops, and the
`SetPixel` calls issued so far. -/
structure FillState where
  current_pos : Int
  current_color : Int
  color : FillColor
  pixels : List SetPixelCall

/-- The local `double pos` of the sweep loops of `FillEffect::Render`:
`(double)line / (double)(dimension + offset - 1)` for Up and Right, `1.0` minus
that for Down and Left (`reversed`); `den` is the divisor, not zero. -/
def sweepPosition (num den : Int) (reversed : Bool) : ℚ :=
  if reversed then dsub 1 (ddiv (num : ℚ) (den : ℚ)) else ddiv (num : ℚ) (den : ℚ)

/-- The colour `GetColorFromPosition` gives for the position of the line `num`
with the divisor `den`; with a zero divisor the position is not a number. -/
def positionColor (a : FillArgs) (num den : Int) (reversed : Bool) : FillColor :=
  if den = 0 then FillColor.undefined
  else GetColorFromPosition (sweepPosition num den reversed) a.colorcnt

/-- The calls `SetPixel(x, y_pos, color)` for `x` from 0 to `BufferWi - 1`. -/
def rowWrites (BufferWi : Int) (y_pos : Int) (color : FillColor) : List SetPixelCall :=
  (List.range BufferWi.toNat).map (fun (x : Nat) => ⟨(x : Int), y_pos, color⟩)

/-- The calls `SetPixel(x_pos, y, color)` for `y` from 0 to `BufferHt - 1`. -/
def columnWrites (BufferHt : Int) (x_pos : Int) (color : FillColor) : List SetPixelCall :=
  (List.range BufferHt.toNat).map (fun (y : Nat) => ⟨x_pos, (y : Int), color⟩)

/-- The body shared by the four sweep loops: the band colour, the colour by
position when `color_by_time` is off, the pixel line and the band update. -/
def fillLine (a : FillArgs) (s : FillState) (posColor : FillColor)
    (writes : FillColor → List SetPixelCall) : FillState :=
  let color1 :=
    if a.BandSize > 0 then
      (if s.current_pos < a.BandSize then FillColor.palette s.current_color else FillColor.black)
    else s.color
  let color2 := if ¬ a.color_by_time then posColor else color1
  let band :=
    if a.BandSize > 0 then
      UpdateFillColor s.current_pos s.current_color a.colorcnt (a.BandSize + a.SkipSize) 1
    else (s.current_pos, s.current_color)
  { current_pos := band.1, current_color := band.2, color := color2,
    pixels := s.pixels ++ writes color2 }

/-- A `for` loop over the integer `v`, advanced by `step` while `cond v` holds;
`none` when `fuel` iterations were not enough. -/
def sweep (cond : Int → Bool) (step : Int) (body : FillState → Int → FillState) :
    Nat → Int → FillState → Option FillState
  | 0, v, s => if cond v then none else some s
  | fuel + 1, v, s =>
    if cond v then sweep cond step body fuel (v + step) (body s v) else some s

/-- The value `(double)position / 100.0`. -/
def pos_pct (a : FillArgs) : ℚ := ddiv (a.position : ℚ) 100

/-- The bound `dim*pos_pct+offset` of the loops of Up (`dim` is `BufferHt`) and
Right (`BufferWi`). -/
def forwardBound (a : FillArgs) (dim offset : Int) : ℚ :=
  dadd (dmul (dim : ℚ) (pos_pct a)) (offset : ℚ)

/-- The bound `dim*(1.0-pos_pct)-offset` of the loops of Down (`dim` is
`BufferHt`) and Left (`BufferWi`). -/
def backwardBound (a : FillArgs) (dim offset : Int) : ℚ :=
  dsub (dmul (dim : ℚ) (dsub 1 (pos_pct a))) (offset : ℚ)

/-- The offset after the first `switch (Direction)`: a percentage is converted
to pixels, a pixel offset is reduced modulo the size of the buffer. -/
def fillOffset (a : FillArgs) : Int :=
  if a.Direction = 2 ∨ a.Direction = 3 then
    (if ¬ a.offset_in_pixels then ((a.BufferWi - 1) * a.offset).tdiv 100
     else a.offset.tmod a.BufferWi)
  else
    (if ¬ a.offset_in_pixels then ((a.BufferHt - 1) * a.offset).tdiv 100
     else a.offset.tmod a.BufferHt)

/-- The number of iterations of the loop of Up or Right: the values from
`offset` upward that are below `forwardBound`. -/
def forwardCount (a : FillArgs) (dim offset : Int) : Nat :=
  (⌈forwardBound a dim offset⌉ - offset).toNat

/-- The number of iterations of the loop of Down or Left: the values from
`dim - 1 - offset` downward that are not below `backwardBound`. -/
def backwardCount (a : FillArgs) (dim offset : Int) : Nat :=
  (dim - 1 - offset - ⌈backwardBound a dim offset⌉ + 1).toNat

/-- The loop of `case 0` (Up), entered with the given offset. -/
def fillUp (a : FillArgs) (fuel : Nat) (offset0 : Int) (s : FillState) : Option FillState :=
  let offset := offset0.tmod a.BufferHt
  sweep (fun y => decide ((y : ℚ) < forwardBound a a.BufferHt offset)) 1
    (fun s y => fillLine a s (positionColor a y (a.BufferHt + offset - 1) false)
      (rowWrites a.BufferWi (if y ≥ a.BufferHt then y - a.BufferHt else y)))
    fuel offset s

/-- The loop of `case 1` (Down), entered with the given offset. -/
def fillDown (a : FillArgs) (fuel : Nat) (offset0 : Int) (s : FillState) : Option FillState :=
  let offset := offset0.tmod a.BufferHt
  sweep (fun y => decide ((y : ℚ) ≥ backwardBound a a.BufferHt offset)) (-1)
    (fun s y => fillLine a s (positionColor a y (a.BufferHt + offset - 1) true)
      (rowWrites a.BufferWi (if y < 0 then y + a.BufferHt else y)))
    fuel (a.BufferHt - 1 - offset) s

/-- The loop of `case 2` (Left), entered with the given offset. -/
def fillLeft (a : FillArgs) (fuel : Nat) (offset0 : Int) (s : FillState) : Option FillState :=
  let offset := offset0.tmod a.BufferWi
  sweep (fun x => decide ((x : ℚ) ≥ backwardBound a a.BufferWi offset)) (-1)
    (fun s x => fillLine a s (positionColor a x (a.BufferWi + offset - 1) true)
      (columnWrites a.BufferHt (if x < 0 then x + a.BufferWi else x)))
    fuel (a.BufferWi - 1 - offset) s

/-- The loop of `case 3` (Right), entered with the given offset. -/
def fillRight (a : FillArgs) (fuel : Nat) (offset0 : Int) (s : FillState) : Option FillState :=
  let offset := offset0.tmod a.BufferWi
  sweep (fun x => decide ((x : ℚ) < forwardBound a a.BufferWi offset)) 1
    (fun s x => fillLine a s (positionColor a x (a.BufferWi + offset - 1) false)
      (columnWrites a.BufferHt (if x ≥ a.BufferWi then x - a.BufferWi else x)))
    fuel offset s

/-- The member function `FillEffect::Render` after its settings are read: the
`SetPixel` calls it issues, in order; `none` when a sweep loop needs more than
`fuel` iterations. -/
def Render (fuel : Nat) (a : FillArgs) : Option (List SetPixelCall) :=
  let offset := fillOffset a
  let color0 :=
    if a.BandSize = 0 then GetColorFromPosition a.eff_pos a.colorcnt else FillColor.unset
  let s0 : FillState := ⟨0, 0, color0, []⟩
  let r :=
    if a.Direction = 1 then fillDown a fuel offset s0
    else if a.Direction = 2 then fillLeft a fuel offset s0
    else if a.Direction = 3 then fillRight a fuel offset s0
    else fillUp a fuel offset s0
  r.map (fun s => s.pixels)

/-! ## Compositing of the text surface into the frame buffer (end of `RenderText`) -/

/-- The local `OffsetLeft` of `RenderTextLine`. -/
def OffsetLeft (e : RgbEffects) (startx : Int) (isPixelBased : Bool) : Int :=
  if isPixelBased then startx else (startx * e.BufferWi).tdiv 100

/-- The local `OffsetTop` of `RenderTextLine`. -/
def OffsetTop (e : RgbEffects) (starty : Int) (isPixelBased : Bool) : Int :=
  if isPixelBased then -starty else (-starty * e.BufferHt).tdiv 100

/-- The local `xlimit` of `RenderTextLine`. -/
def xlimit (e : RgbEffects) (textsize : wxSize) : Int := (e.BufferWi + textsize.x) * 8 + 1

/-- The local `ylimit` of `RenderTextLine`. -/
def ylimit (e : RgbEffects) (textsize : wxSize) : Int := (e.BufferHt + textsize.y) * 8 + 1

/-- The local `totheight` of `RenderTextLine`. -/
def totheight (e : RgbEffects) (textsize : wxSize) : Int := e.BufferHt + textsize.y

/-- The divisors other than constants of the `/` and `%` evaluated by the
position computation of `RenderTextLine`, for the direction, the centre flag
and the rotation at hand (in a conditional expression only the chosen branch is
evaluated). -/
def positionDivisors (e : RgbEffects) (m : TextMetrics) (textsize : wxSize) (dir : Int)
    (center : Bool) : List Int :=
  let horizontal := if center then [] else [xlimit e textsize]
  let vertical := if center then [] else [ylimit e textsize]
  if m.TextRotation = 0 then
    if dir = TEXTDIR_VECTOR then []
    else if dir = TEXTDIR_LEFT ∨ dir = TEXTDIR_RIGHT then horizontal
    else if dir = TEXTDIR_UP ∨ dir = TEXTDIR_DOWN then vertical
    else if dir = TEXTDIR_UPLEFT ∨ dir = TEXTDIR_DOWNLEFT ∨ dir = TEXTDIR_UPRIGHT
        ∨ dir = TEXTDIR_DOWNRIGHT then horizontal ++ vertical
    else if dir = TEXTDIR_WAVEY_LRUPDOWN then
      (if center then [] else [xlimit e textsize])
        ++ [totheight e textsize, totheight e textsize]
    else []
  else
    if dir = TEXTDIR_VECTOR then []
    else if dir = TEXTDIR_LEFT ∨ dir = TEXTDIR_RIGHT then [xlimit e textsize]
    else if dir = TEXTDIR_UP ∨ dir = TEXTDIR_DOWN then [ylimit e textsize]
    else if dir = TEXTDIR_UPLEFT ∨ dir = TEXTDIR_DOWNLEFT ∨ dir = TEXTDIR_UPRIGHT
        ∨ dir = TEXTDIR_DOWNRIGHT then [xlimit e textsize, ylimit e textsize]
    else []

/-- The position computation with the precondition of the C operators `/` and
`%` made explicit: `none` when a divisor is zero, the draw calls of `drawLine`
otherwise. -/
def drawLineChecked (env : Env) (e : RgbEffects) (msg : String) (m : TextMetrics)
    (textsize : wxSize) (dir : Int) (center : Bool) (state : Int)
    (startx starty endx endy : Int) (isPixelBased : Bool) : Option (List DrawCall) :=
  if 0 ∈ positionDivisors e m textsize dir center then none
  else some (drawLine env e msg m textsize dir center state startx starty endx endy
    isPixelBased)

/-! ## More sample data -/

/-- The metrics of the sample text "Hi" without rotation. -/
def sampleMetrics : TextMetrics := measureText sampleEnv "" "Hi" TEXTDIR_NONE 0

/-- Sample fill: a buffer 2 wide and 3 high, three colours, upward, position
100%, bands of 2 with a skip of 1, colour by position. -/
def sampleFill : FillArgs :=
  { BufferWi := 2, BufferHt := 3, colorcnt := 3, eff_pos := 0, position := 100,
    Direction := 0, BandSize := 2, SkipSize := 1, offset := 0, offset_in_pixels := true,
    color_by_time := false }

/-- The sample fill swept to the right. -/
def sampleFillRight : FillArgs := { sampleFill with Direction := 3 }

/-- The sample fill with the colour taken by time, so that the bands show. -/
def sampleFillBands : FillArgs := { sampleFill with color_by_time := true }

/-- Sample fill: a buffer 1 wide and 5 high, one colour, upward, position 25%,
no bands. -/
def sampleFillQuarter : FillArgs :=
  { BufferWi := 1, BufferHt := 5, colorcnt := 1, eff_pos := 0, position := 25,
    Direction := 0, BandSize := 0, SkipSize := 0, offset := 0, offset_in_pixels := true,
    color_by_time := true }

/-! ## The rectangle offset of unrotated text -/

/-- The arguments of `rect.Offset` in the `switch (dir)` of the branch
`TextRotation == 0.0` of `RenderTextLine`. -/
def rectOffset (env : Env) (e : RgbEffects) (m : TextMetrics) (textsize : wxSize)
    (dir : Int) (center : Bool) (state : Int)
    (startx starty endx endy : Int) (isPixelBased : Bool) : Int × Int :=
  let txtwidth := textsize.x
  let totwidth := e.BufferWi + txtwidth
  let totheight := e.BufferHt + textsize.y
  let OffsetLeft := if isPixelBased then startx else (startx * e.BufferWi).tdiv 100
  let OffsetTop := if isPixelBased then -starty else (-starty * e.BufferHt).tdiv 100
  let xlimit := totwidth * 8 + 1
  let ylimit := totheight * 8 + 1
  let exEnd : ℚ := if isPixelBased then endx else (endx * e.BufferWi).tdiv 100
  let eyEnd : ℚ := if isPixelBased then -endy else (-endy * e.BufferHt).tdiv 100
  let ex : ℚ := OffsetLeft + (exEnd - OffsetLeft) * env.position
  let ey : ℚ := OffsetTop + (eyEnd - OffsetTop) * env.position
  let leftX :=
    if center then max (xlimit.tdiv 16 - state.tdiv 8) ((-m.extra_left).tdiv 2)
    else xlimit.tdiv 16 - (state.tmod xlimit).tdiv 8
  let rightX :=
    if center then min (state.tdiv 8 - xlimit.tdiv 16) (m.extra_right.tdiv 2)
    else (state.tmod xlimit).tdiv 8 - xlimit.tdiv 16
  let upY :=
    if center then max (ylimit.tdiv 16 - state.tdiv 8) (m.lineh.tdiv 2 - m.extra_up.tdiv 2)
    else ylimit.tdiv 16 - (state.tmod ylimit).tdiv 8
  let downY :=
    if center then min (state.tdiv 8 - ylimit.tdiv 16) ((-m.lineh).tdiv 2 + m.extra_down.tdiv 2)
    else (state.tmod ylimit).tdiv 8 - ylimit.tdiv 16
  let state8 := if state.tdiv 8 < 0 then state.tdiv 8 + 32768 else state.tdiv 8
  if dir = TEXTDIR_VECTOR then (truncQ ex, truncQ ey)
  else if dir = TEXTDIR_LEFT then
    (if center then max (xlimit.tdiv 16 - state8) ((-m.extra_left).tdiv 2)
     else xlimit.tdiv 16 - (state.tmod xlimit).tdiv 8, OffsetTop)
  else if dir = TEXTDIR_RIGHT then (rightX, OffsetTop)
  else if dir = TEXTDIR_UP then (OffsetLeft, upY)
  else if dir = TEXTDIR_DOWN then (OffsetLeft, downY)
  else if dir = TEXTDIR_UPLEFT then (leftX, upY)
  else if dir = TEXTDIR_DOWNLEFT then (leftX, downY)
  else if dir = TEXTDIR_UPRIGHT then (rightX, upY)
  else if dir = TEXTDIR_DOWNRIGHT then (rightX, downY)
  else if dir = TEXTDIR_WAVEY_LRUPDOWN then
    if center then
      (min (state.tdiv 8 - xlimit.tdiv 16) (m.extra_right.tdiv 2),
       max ((zigzag (state.tdiv 4) totheight).tdiv 2 - totheight.tdiv 4)
         ((-m.extra_left).tdiv 2))
    else
      (xlimit.tdiv 16 - (state.tmod xlimit).tdiv 8,
       (zigzag (state.tdiv 4) totheight).tdiv 2 - totheight.tdiv 4)
  else (0, OffsetTop)

/-! ## The lines of a text -/

/-- The lines the loops of `GetMultiLineTextExtent` and `DrawLabel` go through:
`cur` holds the characters of the current line, a newline closes it, and the end
of the text closes the last one. -/
def splitLinesAux (cur : List Char) : List Char → List (List Char)
  | [] => [cur]
  | c :: cs => if c = '\n' then cur :: splitLinesAux [] cs else splitLinesAux (cur ++ [c]) cs

/-- The lines of a text, split at the newlines. -/
def textLines (text : String) : List (List Char) := splitLinesAux [] text.data

/-- The measuring loop on a whole line: the branch taken at the end of the line,
entered with `curLine` equal to the line. -/
def extentLine (env : Env) (font : String) (a : ExtentAcc) (line : List Char) : ExtentAcc :=
  { extentEndOfLine env font { a with curLine := line } with curLine := [] }

/-- The drawing loop of `DrawLabel` on a whole line. -/
def labelLine (env : Env) (font : String) (colour : Nat) (alignment : Nat)
    (x width heightLine : Int) (a : LabelAcc) (line : List Char) : LabelAcc :=
  { labelEndOfLine env font colour alignment x width heightLine { a with curLine := line }
      with curLine := [] }

/-- A sample toolkit in which the text "B" is 20 pixels high and every other
text 8 pixels high. -/
def sampleEnvTall : Env :=
  { sampleEnv with
    GetTextExtent := fun _ s => (((6 * s.length : Nat) : ℚ), if s = "B" then 20 else 8) }

/-- The `double` width `GetTextExtent` measures for a line. -/
def measuredWidth (env : Env) (font : String) (line : List Char) : ℚ :=
  (env.GetTextExtent font (String.mk line)).1

/-- The `double` height `GetTextExtent` measures for a line. -/
def measuredHeight (env : Env) (font : String) (line : List Char) : ℚ :=
  (env.GetTextExtent font (String.mk line)).2

/-- A sample toolkit in which every text is 8.5 pixels high. -/
def sampleEnvFine : Env :=
  { sampleEnv with GetTextExtent := fun _ s => (((6 * s.length : Nat) : ℚ), 17 / 2) }

/-- A sample toolkit in which every text is half a pixel high. -/
def sampleEnvThin : Env :=
  { sampleEnv with GetTextExtent := fun _ s => (((6 * s.length : Nat) : ℚ), 1 / 2) }

/-- The width `GetTextExtent` measures for a line, as a `wxCoord`. -/
def lineWidth (env : Env) (font : String) (line : List Char) : Int :=
  truncQ (measuredWidth env font line)

/-- The height `GetTextExtent` measures for a line, as a `wxCoord`. -/
def lineHeight (env : Env) (font : String) (line : List Char) : Int :=
  truncQ (measuredHeight env font line)

/-- The value `heightLineDefault` takes at the first blank line of `lines`, when
`heightLine` holds `hl` before the first line: the height of the last line
before the first blank one, `hl` when there is none, and the height of "W"
when that value is 0. -/
def blankLineHeightFrom (env : Env) (font : String) (hl : ℚ) (lines : List (List Char)) :
    ℚ :=
  let before :=
    (((lines.takeWhile (fun l => !l.isEmpty)).map (measuredHeight env font)).getLast?).getD hl
  if before = 0 then (env.GetTextExtent font "W").2 else before

/-- The height counted for every blank line of a text with the given lines. -/
def blankLineHeight (env : Env) (font : String) (lines : List (List Char)) : ℚ :=
  blankLineHeightFrom env font 0 lines

/-- The height the measuring loop adds for the line `l` of a text with the given
lines: the measured height of a non-blank line, the default height for a blank
one. -/
def countedHeight (env : Env) (font : String) (lines : List (List Char)) (l : List Char) : ℚ :=
  if l.isEmpty then blankLineHeight env font lines else measuredHeight env font l

/-- The sum of `double` values accumulated from 0 in the order of the list, as
`heightTextTotal += ...` does. -/
def doubleSum (hs : List ℚ) : ℚ := hs.foldl dadd 0

/-- The local `xRealStart` of `DrawLabel` for a non-blank line. -/
def xRealStart (env : Env) (font : String) (alignment : Nat) (x width : Int)
    (line : List Char) : Int :=
  if alignment &&& (wxALIGN_RIGHT ||| wxALIGN_CENTER_HORIZONTAL) ≠ 0 then
    let widthLine := (GetMultiLineTextExtent env font (String.mk line)).x
    if alignment &&& wxALIGN_RIGHT ≠ 0 then x + (width - widthLine)
    else x + (width - widthLine).tdiv 2
  else x

/-- The `DrawText` call of `DrawLabel` for the line of index `i` of `lines`, when
the lines are drawn from `y` on with the cursor advancing by `heightLine`:
`none` for a blank line. -/
def labelCall (env : Env) (font : String) (colour : Nat) (alignment : Nat)
    (x width y heightLine : Int) (lines : List (List Char)) (i : Nat) : Option DrawCall :=
  (lines[i]?).bind (fun l =>
    if l.isEmpty then none
    else some ⟨font, colour, String.mk l, xRealStart env font alignment x width l,
      y + (i : Int) * heightLine, none⟩)


/-! ## More sample fills and the coordinates of a sweep -/

/-- Sample fill: a buffer 1 wide and 1 high, two colours, upward, position
100%, no bands, colour by position. -/
def sampleFillOne : FillArgs :=
  { BufferWi := 1, BufferHt := 1, colorcnt := 2, eff_pos := 0, position := 100,
    Direction := 0, BandSize := 0, SkipSize := 0, offset := 0, offset_in_pixels := true,
    color_by_time := false }

/-- Sample fill: a buffer 1 wide and 2 high, three colours, downward from the
pixel offset 1, position 100%, no bands, colour by position. -/
def sampleFillDown : FillArgs :=
  { BufferWi := 1, BufferHt := 2, colorcnt := 3, eff_pos := 0, position := 100,
    Direction := 1, BandSize := 0, SkipSize := 0, offset := 1, offset_in_pixels := true,
    color_by_time := false }

/-- Sample fill: a buffer 1 wide and 25 high, one colour, upward, position 28%,
no bands. -/
def sampleFillCeil : FillArgs :=
  { BufferWi := 1, BufferHt := 25, colorcnt := 1, eff_pos := 0, position := 28,
    Direction := 0, BandSize := 0, SkipSize := 0, offset := 0, offset_in_pixels := true,
    color_by_time := true }

/-- Sample fill: a buffer 1 wide and 10 high, one colour, upward, position 70%,
no bands. -/
def sampleFillSeventy : FillArgs :=
  { BufferWi := 1, BufferHt := 10, colorcnt := 1, eff_pos := 0, position := 70,
    Direction := 0, BandSize := 0, SkipSize := 0, offset := 0, offset_in_pixels := true,
    color_by_time := true }

/-- Sample fill: a buffer 1 wide and 4 high, four colours, upward, position
100%, no bands, colour by position. -/
def sampleFillFour : FillArgs :=
  { BufferWi := 1, BufferHt := 4, colorcnt := 4, eff_pos := 0, position := 100,
    Direction := 0, BandSize := 0, SkipSize := 0, offset := 0, offset_in_pixels := true,
    color_by_time := false }

/-- The `SetPixel` calls of `n` swept lines, the line of index `i` written by
`writes i` with the colour `colour i`. -/
def linePixels (n : Nat) (writes : Nat → FillColor → List SetPixelCall)
    (colour : Nat → FillColor) : List SetPixelCall :=
  (List.range n).flatMap (fun (i : Nat) => writes i (colour i))

/-- The coordinates of a list of `SetPixel` calls, in order. -/
def pixelCoords (t : List SetPixelCall) : List (Int × Int) := t.map (fun p => (p.x, p.y))

/-- The coordinates of `n` swept rows of width `W`, the row of index `i` being
`row i`: each row from `x = 0` to `W - 1`. -/
def rowCoords (W : Int) (n : Nat) (row : Nat → Int) : List (Int × Int) :=
  (List.range n).flatMap
    (fun (i : Nat) => (List.range W.toNat).map (fun (x : Nat) => (((x : Int), row i) : Int × Int)))

/-- The coordinates of `n` swept columns of height `H`, the column of index `i`
being `col i`: each column from `y = 0` to `H - 1`. -/
def columnCoords (H : Int) (n : Nat) (col : Nat → Int) : List (Int × Int) :=
  (List.range n).flatMap
    (fun (i : Nat) => (List.range H.toNat).map (fun (y : Nat) => ((col i, (y : Int)) : Int × Int)))

/-! ## Integer helpers -/

theorem tdiv_of_nonneg (a b : Int) (ha : 0 ≤ a) (hb : 0 < b) : a.tdiv b = a / b :=
  Int.tdiv_eq_ediv ha (le_of_lt hb)

theorem tdiv_of_neg (a b : Int) (ha : a < 0) (hb : 0 < b) : a.tdiv b = -((-a) / b) := by
  have h : a = -(-a) := by omega
  rw [h, Int.neg_tdiv, Int.tdiv_eq_ediv (by omega) (le_of_lt hb)]
  simp

theorem tmod_of_nonneg (a b : Int) (ha : 0 ≤ a) (hb : 0 < b) : a.tmod b = a % b :=
  Int.tmod_eq_emod ha (le_of_lt hb)

/-! ## Double-precision arithmetic: the rounding -/

theorem pow2_eq (e : Int) : pow2 e = (2 : ℚ) ^ e := by
  unfold pow2
  split_ifs with h
  · obtain ⟨n, rfl⟩ := Int.eq_ofNat_of_zero_le h
    simp
  · push_neg at h
    obtain ⟨n, hn⟩ := Int.eq_ofNat_of_zero_le (by omega : 0 ≤ -e)
    have he : e = -(n : Int) := by omega
    subst he
    simp

theorem pow2_pos (e : Int) : 0 < pow2 e := by
  rw [pow2_eq]; positivity

theorem pow2_add (a b : Int) : pow2 (a + b) = pow2 a * pow2 b := by
  simp only [pow2_eq]
  exact zpow_add₀ (by norm_num) a b

theorem pow2_succ (a : Int) : pow2 (a + 1) = 2 * pow2 a := by
  rw [pow2_add, mul_comm]; congr 1

theorem pow2_le (a b : Int) (h : a ≤ b) : pow2 a ≤ pow2 b := by
  simp only [pow2_eq]
  exact zpow_le_zpow_right₀ (by norm_num) h

theorem pow2_lt (a b : Int) (h : a < b) : pow2 a < pow2 b := by
  simp only [pow2_eq]
  exact zpow_lt_zpow_right₀ (by norm_num) h

theorem pow2_natCast (n : Nat) : pow2 (n : Int) = ((2 ^ n : Nat) : ℚ) := by
  unfold pow2
  simp

theorem log2Fuel_spec : ∀ (fuel n : Nat), n ≤ fuel → n ≠ 0 →
    2 ^ log2Fuel fuel n ≤ n ∧ n < 2 ^ (log2Fuel fuel n + 1) := by
  intro fuel
  induction fuel with
  | zero => intro n h hn; omega
  | succ fuel ih =>
    intro n h hn
    unfold log2Fuel
    split_ifs with h2
    · constructor
      · simp; omega
      · simp; omega
    · have := ih (n / 2) (by omega) (by omega)
      rw [pow_succ, pow_succ]
      constructor
      · omega
      · omega

theorem ilog2_spec (n : Nat) (hn : n ≠ 0) : 2 ^ ilog2 n ≤ n ∧ n < 2 ^ (ilog2 n + 1) :=
  log2Fuel_spec n n le_rfl hn

theorem binade_spec (q : ℚ) (hq : q ≠ 0) :
    pow2 (binade q) ≤ |q| ∧ |q| < pow2 (binade q + 1) := by
  have hn : q.num.natAbs ≠ 0 := by
    intro h
    exact hq (Rat.num_eq_zero.mp (Int.natAbs_eq_zero.mp h))
  have hd : q.den ≠ 0 := q.den_nz
  have hn1 : 2 ^ ilog2 q.num.natAbs ≤ q.num.natAbs := (ilog2_spec _ hn).1
  have hn2 : q.num.natAbs < 2 ^ (ilog2 q.num.natAbs + 1) := (ilog2_spec _ hn).2
  have hd1 : 2 ^ ilog2 q.den ≤ q.den := (ilog2_spec _ hd).1
  have hd2 : q.den < 2 ^ (ilog2 q.den + 1) := (ilog2_spec _ hd).2
  have habs : |q| = (q.num.natAbs : ℚ) / (q.den : ℚ) := by
    conv_lhs => rw [← Rat.num_div_den q]
    rw [abs_div, Nat.abs_cast]
    congr 1
    rw [Nat.cast_natAbs, Int.cast_abs]
  have hdpos : (0 : ℚ) < q.den := by exact_mod_cast Nat.pos_of_ne_zero hd
  set a := ilog2 q.num.natAbs with ha
  set b := ilog2 q.den with hb
  have e1 : pow2 ((a : Int) - b) = ((2 ^ a : Nat) : ℚ) / ((2 ^ b : Nat) : ℚ) := by
    rw [sub_eq_add_neg, pow2_add, pow2_natCast, pow2_eq, zpow_neg, div_eq_mul_inv]
    congr 1
    simp
  have hlow : pow2 ((a : Int) - b - 1) ≤ |q| := by
    have : pow2 ((a : Int) - b) = 2 * pow2 ((a : Int) - b - 1) := by
      rw [← pow2_succ]; congr 1; ring
    have h2 : pow2 ((a : Int) - b) ≤ 2 * |q| := by
      rw [e1, habs, div_le_iff₀ (by positivity)]
      rw [show 2 * ((q.num.natAbs : ℚ) / (q.den : ℚ)) * ((2 ^ b : Nat) : ℚ)
        = (2 * (q.num.natAbs : ℚ) * ((2 ^ b : Nat) : ℚ)) / (q.den : ℚ) by ring]
      rw [le_div_iff₀ hdpos]
      have : 2 ^ a * q.den ≤ 2 * q.num.natAbs * 2 ^ b := by
        calc 2 ^ a * q.den ≤ q.num.natAbs * q.den := Nat.mul_le_mul_right _ hn1
          _ ≤ q.num.natAbs * 2 ^ (b + 1) := Nat.mul_le_mul_left _ hd2.le
          _ = 2 * q.num.natAbs * 2 ^ b := by ring
      exact_mod_cast this
    linarith
  have hhigh : |q| < pow2 ((a : Int) - b + 1) := by
    rw [pow2_succ, e1, habs, div_lt_iff₀ hdpos]
    rw [show 2 * (((2 ^ a : Nat) : ℚ) / ((2 ^ b : Nat) : ℚ)) * (q.den : ℚ)
        = (2 * ((2 ^ a : Nat) : ℚ) * (q.den : ℚ)) / ((2 ^ b : Nat) : ℚ) by ring]
    rw [lt_div_iff₀ (by positivity)]
    have : q.num.natAbs * 2 ^ b < 2 * 2 ^ a * q.den := by
      calc q.num.natAbs * 2 ^ b < 2 ^ (a + 1) * 2 ^ b :=
            Nat.mul_lt_mul_of_pos_right hn2 (by positivity)
        _ ≤ 2 ^ (a + 1) * q.den := Nat.mul_le_mul_left _ hd1
        _ = 2 * 2 ^ a * q.den := by ring
    exact_mod_cast this
  unfold binade
  simp only [← ha, ← hb]
  split_ifs with h
  · refine ⟨hlow, ?_⟩
    rw [show (a : Int) - b - 1 + 1 = (a : Int) - b by ring]
    exact h
  · exact ⟨not_lt.mp h, hhigh⟩

theorem roundHalfEven_le (q : ℚ) (n : Int) (h : q ≤ n) : roundHalfEven q ≤ n := by
  have hf : ⌊q⌋ ≤ n := Int.floor_le_iff.mpr (by linarith [show (n : ℚ) < n + 1 by linarith])
  have hfl := Int.floor_le q
  unfold roundHalfEven
  simp only
  have hstep : ¬ (q - (⌊q⌋ : ℚ) < 1 / 2) → ⌊q⌋ + 1 ≤ n := by
    intro h1
    have : (⌊q⌋ : ℚ) < n := by linarith
    have : ⌊q⌋ < n := by exact_mod_cast this
    omega
  split_ifs with h1 h2 h3
  · exact hf
  · exact hstep h1
  · exact hf
  · exact hstep h1

theorem le_roundHalfEven (q : ℚ) (n : Int) (h : (n : ℚ) ≤ q) : n ≤ roundHalfEven q := by
  have hf : n ≤ ⌊q⌋ := Int.le_floor.mpr h
  unfold roundHalfEven
  simp only
  split_ifs <;> omega

theorem roundHalfEven_err (q : ℚ) : |(roundHalfEven q : ℚ) - q| ≤ 1 / 2 := by
  have hfl := Int.floor_le q
  have hfu := Int.lt_floor_add_one q
  unfold roundHalfEven
  simp only
  rw [abs_le]
  split_ifs with h1 h2 h3
  · constructor <;> linarith
  · push_cast; constructor <;> linarith
  · constructor <;> linarith
  · push_cast; constructor <;> linarith

theorem roundHalfEven_intCast (n : Int) : roundHalfEven (n : ℚ) = n :=
  le_antisymm (roundHalfEven_le _ n le_rfl) (le_roundHalfEven _ n le_rfl)

theorem roundHalfEven_eq_of_near (q : ℚ) (n : Int) (h : |q - n| < 1 / 2) :
    roundHalfEven q = n := by
  rw [abs_lt] at h
  have hfl := Int.floor_le q
  have hfu := Int.lt_floor_add_one q
  unfold roundHalfEven
  simp only
  by_cases hc : (n : ℚ) ≤ q
  · have hf : ⌊q⌋ = n := by
      rw [Int.floor_eq_iff]
      exact ⟨hc, by linarith [h.2]⟩
    rw [hf, if_pos (by linarith [h.2])]
  · push_neg at hc
    have hf : ⌊q⌋ = n - 1 := by
      rw [Int.floor_eq_iff]
      push_cast
      exact ⟨by linarith [h.1], by linarith⟩
    rw [hf]
    push_cast
    rw [if_neg (by linarith [h.1]), if_pos (by linarith [h.1])]
    ring

/-- The exponent of the last place of a `double` is at least -1074. -/
theorem ulp_exp_ge (q : ℚ) : -1074 ≤ max (binade q) (-1022) - 52 := by
  have := le_max_right (binade q) (-1022)
  omega

theorem toDouble_eq (q : ℚ) (hq : q ≠ 0) :
    toDouble q = (roundHalfEven (q / pow2 (max (binade q) (-1022) - 52)) : ℚ)
      * pow2 (max (binade q) (-1022) - 52) := by
  unfold toDouble
  rw [if_neg hq]

theorem toDouble_zero : toDouble 0 = 0 := by
  unfold toDouble
  rw [if_pos rfl]

theorem pow2_zero : pow2 0 = 1 := by
  rw [pow2_eq]; simp

theorem pow2_sub_mul (a b : Int) : pow2 (a - b) * pow2 b = pow2 a := by
  rw [← pow2_add]; congr 1; ring

/-- A power of two with a natural exponent is a whole number. -/
theorem pow2_nonneg_int (e : Int) (h : 0 ≤ e) : pow2 e = (((2 : Int) ^ e.toNat : Int) : ℚ) := by
  unfold pow2
  rw [if_pos h]
  push_cast
  rfl

theorem toDouble_le_of_repr (q z : ℚ)
    (hz : ∃ m e : Int, -1074 ≤ e ∧ |m| ≤ 2 ^ 53 ∧ z = (m : ℚ) * pow2 e) (h : q ≤ z) :
    toDouble q ≤ z := by
  by_cases hq : q = 0
  · rw [hq, toDouble_zero]; rw [hq] at h; exact h
  obtain ⟨m, e, he, hm, rfl⟩ := hz
  obtain ⟨hb1, hb2⟩ := binade_spec q hq
  set E := max (binade q) (-1022) - 52 with hE
  have hu : 0 < pow2 E := pow2_pos E
  have key : ∃ Z : Int, q / pow2 E ≤ Z ∧ (Z : ℚ) * pow2 E ≤ (m : ℚ) * pow2 e := by
    by_cases hcase : E ≤ e
    · refine ⟨m * 2 ^ (e - E).toNat, ?_, ?_⟩
      · rw [div_le_iff₀ hu]
        push_cast
        have : ((2 : ℚ) ^ (e - E).toNat) = pow2 (e - E) := by
          rw [pow2_nonneg_int _ (by omega)]; push_cast; rfl
        rw [this, mul_assoc, pow2_sub_mul]
        exact h
      · push_cast
        have : ((2 : ℚ) ^ (e - E).toNat) = pow2 (e - E) := by
          rw [pow2_nonneg_int _ (by omega)]; push_cast; rfl
        rw [this, mul_assoc, pow2_sub_mul]
    · push_neg at hcase
      have hbE : E = binade q - 52 := by
        rw [hE]
        rcases le_total (binade q) (-1022) with h1 | h1
        · rw [max_eq_right h1] at hE; omega
        · rw [max_eq_left h1]
      have hzabs : |(m : ℚ) * pow2 e| ≤ pow2 (binade q) := by
        rw [abs_mul, abs_of_pos (pow2_pos e)]
        have hm2 : |(m : ℚ)| ≤ 2 ^ 53 := by
          rw [← Int.cast_abs]; exact_mod_cast hm
        have h53 : (2 : ℚ) ^ 53 = pow2 53 := by rw [pow2_eq]; norm_cast
        calc |(m : ℚ)| * pow2 e ≤ pow2 53 * pow2 e := by
              rw [← h53]; exact mul_le_mul_of_nonneg_right hm2 (pow2_pos e).le
          _ = pow2 (53 + e) := (pow2_add _ _).symm
          _ ≤ pow2 (binade q) := pow2_le _ _ (by omega)
      have h52 : pow2 (binade q) = ((2 : Int) ^ 52 : Int) * pow2 E := by
        rw [hbE]
        have : (((2 : Int) ^ 52 : Int) : ℚ) = pow2 52 := by rw [pow2_eq]; norm_cast
        rw [this, ← pow2_add]; congr 1; ring
      rcases lt_or_gt_of_ne hq with hneg | hpos
      · refine ⟨-(2 ^ 52), ?_, ?_⟩
        · rw [div_le_iff₀ hu]
          have : |q| = -q := abs_of_neg hneg
          push_cast at h52 ⊢
          linarith
        · have := neg_abs_le ((m : ℚ) * pow2 e)
          push_cast at h52 ⊢
          linarith
      · refine ⟨2 ^ 52, ?_, ?_⟩
        · rw [div_le_iff₀ hu]
          have := le_abs_self ((m : ℚ) * pow2 e)
          push_cast at h52 ⊢
          linarith
        · have : |q| = q := abs_of_pos hpos
          push_cast at h52 ⊢
          linarith
  obtain ⟨Z, hZ1, hZ2⟩ := key
  rw [toDouble_eq q hq]
  calc (roundHalfEven (q / pow2 E) : ℚ) * pow2 E ≤ (Z : ℚ) * pow2 E := by
        apply mul_le_mul_of_nonneg_right _ hu.le
        exact_mod_cast roundHalfEven_le _ Z hZ1
    _ ≤ (m : ℚ) * pow2 e := hZ2

theorem le_toDouble_of_repr (q z : ℚ)
    (hz : ∃ m e : Int, -1074 ≤ e ∧ |m| ≤ 2 ^ 53 ∧ z = (m : ℚ) * pow2 e) (h : z ≤ q) :
    z ≤ toDouble q := by
  by_cases hq : q = 0
  · rw [hq, toDouble_zero]; rw [hq] at h; exact h
  obtain ⟨m, e, he, hm, rfl⟩ := hz
  obtain ⟨hb1, hb2⟩ := binade_spec q hq
  set E := max (binade q) (-1022) - 52 with hE
  have hu : 0 < pow2 E := pow2_pos E
  have key : ∃ Z : Int, (Z : ℚ) ≤ q / pow2 E ∧ (m : ℚ) * pow2 e ≤ (Z : ℚ) * pow2 E := by
    by_cases hcase : E ≤ e
    · refine ⟨m * 2 ^ (e - E).toNat, ?_, ?_⟩
      · rw [le_div_iff₀ hu]
        push_cast
        have : ((2 : ℚ) ^ (e - E).toNat) = pow2 (e - E) := by
          rw [pow2_nonneg_int _ (by omega)]; push_cast; rfl
        rw [this, mul_assoc, pow2_sub_mul]
        exact h
      · push_cast
        have : ((2 : ℚ) ^ (e - E).toNat) = pow2 (e - E) := by
          rw [pow2_nonneg_int _ (by omega)]; push_cast; rfl
        rw [this, mul_assoc, pow2_sub_mul]
    · push_neg at hcase
      have hbE : E = binade q - 52 := by
        rw [hE]
        rcases le_total (binade q) (-1022) with h1 | h1
        · rw [max_eq_right h1] at hE; omega
        · rw [max_eq_left h1]
      have hzabs : |(m : ℚ) * pow2 e| ≤ pow2 (binade q) := by
        rw [abs_mul, abs_of_pos (pow2_pos e)]
        have hm2 : |(m : ℚ)| ≤ 2 ^ 53 := by
          rw [← Int.cast_abs]; exact_mod_cast hm
        have h53 : (2 : ℚ) ^ 53 = pow2 53 := by rw [pow2_eq]; norm_cast
        calc |(m : ℚ)| * pow2 e ≤ pow2 53 * pow2 e := by
              rw [← h53]; exact mul_le_mul_of_nonneg_right hm2 (pow2_pos e).le
          _ = pow2 (53 + e) := (pow2_add _ _).symm
          _ ≤ pow2 (binade q) := pow2_le _ _ (by omega)
      have h52 : pow2 (binade q) = ((2 : Int) ^ 52 : Int) * pow2 E := by
        rw [hbE]
        have : (((2 : Int) ^ 52 : Int) : ℚ) = pow2 52 := by rw [pow2_eq]; norm_cast
        rw [this, ← pow2_add]; congr 1; ring
      rcases lt_or_gt_of_ne hq with hneg | hpos
      · refine ⟨-(2 ^ 52), ?_, ?_⟩
        · rw [le_div_iff₀ hu]
          have : |q| = -q := abs_of_neg hneg
          have := neg_abs_le ((m : ℚ) * pow2 e)
          push_cast at h52 ⊢
          linarith
        · have : |q| = -q := abs_of_neg hneg
          push_cast at h52 ⊢
          linarith
      · refine ⟨2 ^ 52, ?_, ?_⟩
        · rw [le_div_iff₀ hu]
          have : |q| = q := abs_of_pos hpos
          push_cast at h52 ⊢
          linarith
        · have := le_abs_self ((m : ℚ) * pow2 e)
          push_cast at h52 ⊢
          linarith
  obtain ⟨Z, hZ1, hZ2⟩ := key
  rw [toDouble_eq q hq]
  calc (m : ℚ) * pow2 e ≤ (Z : ℚ) * pow2 E := hZ2
    _ ≤ (roundHalfEven (q / pow2 E) : ℚ) * pow2 E := by
        apply mul_le_mul_of_nonneg_right _ hu.le
        exact_mod_cast le_roundHalfEven _ Z hZ1

/-- A value with at most 53 significant bits is not changed by the rounding. -/
theorem toDouble_repr (z : ℚ)
    (hz : ∃ m e : Int, -1074 ≤ e ∧ |m| ≤ 2 ^ 53 ∧ z = (m : ℚ) * pow2 e) : toDouble z = z :=
  le_antisymm (toDouble_le_of_repr z z hz le_rfl) (le_toDouble_of_repr z z hz le_rfl)

/-- The rounding yields a value with at most 53 significant bits. -/
theorem repr_toDouble (q : ℚ) :
    ∃ m e : Int, -1074 ≤ e ∧ |m| ≤ 2 ^ 53 ∧ toDouble q = (m : ℚ) * pow2 e := by
  by_cases hq : q = 0
  · rw [hq, toDouble_zero]; exact ⟨0, 0, by decide, by decide, by simp⟩
  obtain ⟨hb1, hb2⟩ := binade_spec q hq
  rw [toDouble_eq q hq]
  set E := max (binade q) (-1022) - 52 with hE
  have hu : 0 < pow2 E := pow2_pos E
  refine ⟨roundHalfEven (q / pow2 E), E, ulp_exp_ge q, ?_, rfl⟩
  have h53 : pow2 (binade q + 1) ≤ ((2 : Int) ^ 53 : Int) * pow2 E := by
    have : (((2 : Int) ^ 53 : Int) : ℚ) = pow2 53 := by rw [pow2_eq]; norm_cast
    rw [this, ← pow2_add]
    apply pow2_le
    have := le_max_left (binade q) (-1022)
    omega
  have habs := abs_le.mp (le_of_lt (lt_of_lt_of_le hb2 h53))
  rw [abs_le]
  constructor
  · apply le_roundHalfEven
    rw [le_div_iff₀ hu]
    push_cast at habs ⊢
    linarith [habs.1]
  · apply roundHalfEven_le
    rw [div_le_iff₀ hu]
    push_cast at habs ⊢
    linarith [habs.2]

/-- Rounding twice is rounding once. -/
theorem toDouble_idem (q : ℚ) : toDouble (toDouble q) = toDouble q :=
  toDouble_repr _ (repr_toDouble q)

/-- The rounding does not cross a `double`: from below. -/
theorem toDouble_le (q z : ℚ) (hz : toDouble z = z) (h : q ≤ z) : toDouble q ≤ z :=
  toDouble_le_of_repr q z (by rw [← hz]; exact repr_toDouble z) h

/-- The rounding does not cross a `double`: from above. -/
theorem le_toDouble (q z : ℚ) (hz : toDouble z = z) (h : z ≤ q) : z ≤ toDouble q :=
  le_toDouble_of_repr q z (by rw [← hz]; exact repr_toDouble z) h

/-- The whole numbers up to `2^53` in magnitude are `double` values. -/
theorem toDouble_intCast (n : Int) (h : |n| ≤ 2 ^ 53) : toDouble (n : ℚ) = n :=
  toDouble_repr _ ⟨n, 0, by decide, h, by rw [pow2_zero, mul_one]⟩

/-- A whole number divided by a power of two is a `double` when it has at most
53 bits. -/
theorem toDouble_dyadic (n : Int) (k : Nat) (h : |n| ≤ 2 ^ 53) (hk : k ≤ 1074) :
    toDouble ((n : ℚ) / 2 ^ k) = (n : ℚ) / 2 ^ k := by
  apply toDouble_repr
  refine ⟨n, -(k : Int), by omega, h, ?_⟩
  rw [pow2_eq, zpow_neg, div_eq_mul_inv]
  norm_cast

/-- The rounding error is at most half a unit in the last place. -/
theorem toDouble_err (q : ℚ) :
    |toDouble q - q| ≤ pow2 (max (binade q) (-1022) - 52) / 2 := by
  by_cases hq : q = 0
  · rw [hq, toDouble_zero, sub_zero, abs_zero]; exact (div_pos (pow2_pos _) (by norm_num)).le
  rw [toDouble_eq q hq]
  set E := max (binade q) (-1022) - 52 with hE
  have hu : 0 < pow2 E := pow2_pos E
  have h := roundHalfEven_err (q / pow2 E)
  have e1 : (roundHalfEven (q / pow2 E) : ℚ) * pow2 E - q
      = ((roundHalfEven (q / pow2 E) : ℚ) - q / pow2 E) * pow2 E := by
    field_simp
  rw [e1, abs_mul, abs_of_pos hu]
  calc |(roundHalfEven (q / pow2 E) : ℚ) - q / pow2 E| * pow2 E ≤ 1 / 2 * pow2 E :=
        mul_le_mul_of_nonneg_right h hu.le
    _ = pow2 E / 2 := by ring

/-- The rounding error of a value of magnitude at most `2^k` is at most
`2^(k-53)`, for `k ≥ -1022`. -/
theorem toDouble_err_le (q : ℚ) (k : Int) (hk : -1022 ≤ k) (hq : |q| ≤ pow2 k) :
    |toDouble q - q| ≤ pow2 (k - 53) := by
  by_cases hq0 : q = 0
  · rw [hq0, toDouble_zero, sub_zero, abs_zero]; exact (pow2_pos _).le
  obtain ⟨hb1, hb2⟩ := binade_spec q hq0
  have hb : binade q ≤ k := by
    by_contra hlt
    push_neg at hlt
    have := pow2_lt k (binade q) hlt
    linarith
  have h := toDouble_err q
  have hE : max (binade q) (-1022) - 52 ≤ k - 52 := by
    have := max_le hb hk
    omega
  have h2 : pow2 (k - 52) = 2 * pow2 (k - 53) := by
    rw [← pow2_succ]; congr 1; ring
  have h3 := pow2_le _ _ hE
  linarith

/-! ## The conversion of a `double` to `int` -/

theorem truncQ_intCast (n : Int) : truncQ (n : ℚ) = n := by
  simp [truncQ]

theorem truncQ_eq_floor (q : ℚ) (h : 0 ≤ q) : truncQ q = ⌊q⌋ := by
  unfold truncQ
  rw [Rat.floor_def, Int.tdiv_eq_ediv (Rat.num_nonneg.mpr h) (by positivity)]

theorem truncQ_zero : truncQ 0 = 0 := truncQ_intCast 0

theorem truncQ_neg (q : ℚ) : truncQ (-q) = -truncQ q := by
  unfold truncQ
  rw [Rat.num_neg_eq_neg_num, Rat.den_neg_eq_den, Int.neg_tdiv]

theorem truncQ_nonneg (q : ℚ) (h : 0 ≤ q) : 0 ≤ truncQ q := by
  rw [truncQ_eq_floor q h]
  exact Int.floor_nonneg.mpr h

theorem truncQ_nonpos (q : ℚ) (h : q ≤ 0) : truncQ q ≤ 0 := by
  have := truncQ_nonneg (-q) (by linarith)
  rw [truncQ_neg] at this
  omega

/-- The truncation is monotone. -/
theorem truncQ_mono (q r : ℚ) (h : q ≤ r) : truncQ q ≤ truncQ r := by
  rcases le_total 0 q with hq | hq
  · rw [truncQ_eq_floor q hq, truncQ_eq_floor r (le_trans hq h)]
    exact Int.floor_mono h
  · rcases le_total 0 r with hr | hr
    · exact le_trans (truncQ_nonpos q hq) (truncQ_nonneg r hr)
    · have e1 : truncQ q = -⌊-q⌋ := by
        rw [← truncQ_eq_floor (-q) (by linarith), truncQ_neg, neg_neg]
      have e2 : truncQ r = -⌊-r⌋ := by
        rw [← truncQ_eq_floor (-r) (by linarith), truncQ_neg, neg_neg]
      rw [e1, e2]
      have : ⌊-r⌋ ≤ ⌊-q⌋ := Int.floor_mono (by linarith)
      omega

theorem truncQ_pos (q : ℚ) (h : 1 ≤ q) : 0 < truncQ q := by
  have := truncQ_mono 1 q h
  have h1 : truncQ 1 = 1 := truncQ_intCast 1
  omega

/-! ## Seconds countdown -/

theorem resolveText_seconds_set (env : Env) (e : RgbEffects) (idx : Nat) (Line : String)
    (state : Int) (h : state = 0) :
    (resolveText env e idx Line COUNTDOWN_SECONDS state).timer_countdown idx
      = toLong (e.curPeriod + (env.ToLong Line).getD 0 * 20 + 19) := by
  simp only [resolveText, if_pos h, setAt, if_true]
  unfold toLong; omega

theorem resolveText_seconds_keep (env : Env) (e : RgbEffects) (idx : Nat) (Line : String)
    (state : Int) (h : state ≠ 0) :
    (resolveText env e idx Line COUNTDOWN_SECONDS state).timer_countdown = e.timer_countdown := by
  simp only [resolveText, if_neg h, if_true]

theorem resolveText_seconds_msg (env : Env) (e : RgbEffects) (idx : Nat) (Line : String)
    (state : Int) :
    (resolveText env e idx Line COUNTDOWN_SECONDS state).msg
      = toString (max 0 (toInt ((toLong
          ((resolveText env e idx Line COUNTDOWN_SECONDS state).timer_countdown idx
            - e.curPeriod)).tdiv 20))) := by
  simp only [resolveText, if_true]
  congr 1
  split <;> omega

theorem resolveText_seconds_exact (env : Env) (e : RgbEffects) (idx : Nat) (Line : String)
    (state : Int) (N : Int) (h : state = 0) (hp : env.ToLong Line = some N) (h0 : 0 ≤ N)
    (h1 : N ≤ INT_MAX) (hc0 : INT_MIN ≤ e.curPeriod) (hc1 : e.curPeriod ≤ INT_MAX) :
    (resolveText env e idx Line COUNTDOWN_SECONDS state).timer_countdown idx
      = e.curPeriod + N * 20 + 19 ∧
    (resolveText env e idx Line COUNTDOWN_SECONDS state).msg = toString N := by
  unfold INT_MAX at h1 hc1; unfold INT_MIN at hc0
  have ht : toLong (toLong (e.curPeriod + toLong (N * 20)) + 19) = e.curPeriod + N * 20 + 19 := by
    unfold toLong; omega
  have hq : (e.curPeriod + N * 20 + 19 - e.curPeriod).tdiv 20 = N := by
    rw [Int.tdiv_eq_ediv (by omega) (by omega)]; omega
  have hl : toLong (e.curPeriod + N * 20 + 19 - e.curPeriod)
      = e.curPeriod + N * 20 + 19 - e.curPeriod := by
    unfold toLong; omega
  have hi : toInt N = N := by unfold toInt; omega
  simp only [resolveText, if_pos h, setAt, if_true, hp, Option.getD_some, ht, hl, hq, hi]
  refine ⟨trivial, ?_⟩
  rw [if_neg (by omega)]

/-- C1 (amended). Seconds countdown, per frame: with `N` the parsed template (0
when it does not parse), a frame with `state == 0` stores
`curPeriod + N*20 + 19` (in `long` arithmetic) as the deadline of the line, a
frame with `state != 0` leaves the deadlines unchanged, and in both cases the
message is the decimal string of `max(0, s)`, where `s` is
`(timer_countdown[idx] - curPeriod) / 20` (truncating) narrowed to the 32-bit
`int seconds`. For every `0 ≤ N ≤ INT_MAX` the stored deadline is exactly
`curPeriod + N*20 + 19` and the message on the setting frame is exactly `N`. -/
theorem seconds_countdown_frame (env : Env) (e : RgbEffects) (idx : Nat) (Line : String)
    (state : Int) :
    (state = 0 → (resolveText env e idx Line COUNTDOWN_SECONDS state).timer_countdown idx
        = toLong (e.curPeriod + (env.ToLong Line).getD 0 * 20 + 19)) ∧
    (state ≠ 0 → (resolveText env e idx Line COUNTDOWN_SECONDS state).timer_countdown
        = e.timer_countdown) ∧
    (resolveText env e idx Line COUNTDOWN_SECONDS state).msg
        = toString (max 0 (toInt ((toLong
            ((resolveText env e idx Line COUNTDOWN_SECONDS state).timer_countdown idx
              - e.curPeriod)).tdiv 20))) ∧
    (∀ N : Int, state = 0 → env.ToLong Line = some N → 0 ≤ N → N ≤ INT_MAX →
        INT_MIN ≤ e.curPeriod → e.curPeriod ≤ INT_MAX →
        (resolveText env e idx Line COUNTDOWN_SECONDS state).timer_countdown idx
          = e.curPeriod + N * 20 + 19 ∧
        (resolveText env e idx Line COUNTDOWN_SECONDS state).msg = toString N) :=
  ⟨resolveText_seconds_set env e idx Line state,
   resolveText_seconds_keep env e idx Line state,
   resolveText_seconds_msg env e idx Line state,
   fun N h hp h0 h1 hc0 hc1 => resolveText_seconds_exact env e idx Line state N h hp h0 h1 hc0 hc1⟩

/-- Witness of C1: the template "10" on the setting frame of the sample effect. -/
theorem seconds_countdown_frame_witness :
    (resolveText sampleEnv sampleEffect 0 "10" COUNTDOWN_SECONDS 0).timer_countdown 0
        = sampleEffect.curPeriod + 10 * 20 + 19 ∧
    (resolveText sampleEnv sampleEffect 0 "10" COUNTDOWN_SECONDS 0).msg = toString (10 : Int) :=
  (seconds_countdown_frame sampleEnv sampleEffect 0 "10" 0).2.2.2 10
    rfl (by decide) (by decide) (by decide) (by decide) (by decide)

/-- Counterexample to C1 as stated: on an LP64 build the template "2147483648"
parses, the deadline is stored exactly, `(deadline - curPeriod) / 20` is
2147483648, and the message is "0", not "2147483648". -/
theorem seconds_countdown_large_value :
    sampleEnv.ToLong "2147483648" = some 2147483648 ∧
    (resolveText sampleEnv sampleEffect 0 "2147483648" COUNTDOWN_SECONDS 0).timer_countdown 0
      = 0 + 2147483648 * 20 + 19 ∧
    max 0 (Int.tdiv
      ((resolveText sampleEnv sampleEffect 0 "2147483648" COUNTDOWN_SECONDS 0).timer_countdown 0
        - sampleEffect.curPeriod) 20) = 2147483648 ∧
    (resolveText sampleEnv sampleEffect 0 "2147483648" COUNTDOWN_SECONDS 0).msg = "0" ∧
    (resolveText sampleEnv sampleEffect 0 "2147483648" COUNTDOWN_SECONDS 0).msg
      ≠ toString (2147483648 : Int) := by
  decide

/-! ## Countdown over the frames of an effect -/

theorem effectState_frame_zero (e : RgbEffects) (tspeed : Int) :
    effectState (frameAt e 0) tspeed = 0 := by
  simp [effectState, frameAt, toInt]

theorem seconds_msg_nonneg (env : Env) (e : RgbEffects) (idx : Nat) (Line : String)
    (state : Int) :
    ∃ n : Nat, (resolveText env e idx Line COUNTDOWN_SECONDS state).msg = toString (n : Int) := by
  rw [resolveText_seconds_msg]
  generalize toInt ((toLong
    ((resolveText env e idx Line COUNTDOWN_SECONDS state).timer_countdown idx
      - e.curPeriod)).tdiv 20) = v
  exact ⟨Int.toNat (max 0 v), by rw [Int.toNat_of_nonneg (le_max_left _ _)]⟩

theorem countdownFrames_deadline (env : Env) (e : RgbEffects) (idx : Nat) (Line : String)
    (tspeed : Int) (N : Int) (k : Nat)
    (hparse : env.ToLong Line = some N) (hN0 : 0 ≤ N) (hN : N ≤ INT_MAX)
    (hs0 : INT_MIN ≤ e.curEffStartPer) (hs1 : e.curEffStartPer + k ≤ INT_MAX)
    (hstate : ∀ j : Nat, 1 ≤ j → j ≤ k → effectState (frameAt e j) tspeed ≠ 0) :
    (countdownFrames env e idx Line COUNTDOWN_SECONDS tspeed k).timer_countdown idx
      = e.curEffStartPer + N * 20 + 19 := by
  induction k with
  | zero =>
    have h := (resolveText_seconds_exact env (frameAt e 0) idx Line
      (effectState (frameAt e 0) tspeed) N (effectState_frame_zero e tspeed) hparse hN0 hN
      (by simp [frameAt]; exact hs0) (by simpa [frameAt] using hs1)).1
    simpa [countdownFrames, frameAt] using h
  | succ k ih =>
    have ih2 := ih (by push_cast at hs1; omega) (fun j h1 h2 => hstate j h1 (by omega))
    have hne := hstate (k + 1) (by omega) (le_refl _)
    simp only [countdownFrames]
    have hst : effectState
        { frameAt e (k + 1) with
          timer_countdown :=
            (countdownFrames env e idx Line COUNTDOWN_SECONDS tspeed k).timer_countdown } tspeed
        = effectState (frameAt e (k + 1)) tspeed := rfl
    rw [hst]
    rw [resolveText_seconds_keep env _ idx Line _ hne]
    exact ih2

/-- C2 (amended). Countdown over the frames of one effect instance, for a
template that parses as `0 ≤ N ≤ INT_MAX`: as long as `state` is non-zero on
the frames 1..k, the integer displayed on frame `k` is `max(0, N - k/20)`, so
it starts at `N`, decreases by 1 every 20 frames (periods), reaches 0 and stays
0; on every frame, whatever the speed and frame time, the message is the decimal
string of a natural number (never negative); and the frames are the ticks of
`state` (state = k on frame k) when `tspeed * frameTimeInMs = 50`. -/
theorem seconds_countdown_sequence (env : Env) (e : RgbEffects) (idx : Nat) (Line : String)
    (tspeed : Int) (N : Int) (k : Nat) :
    (env.ToLong Line = some N → 0 ≤ N → N ≤ INT_MAX →
      INT_MIN ≤ e.curEffStartPer → e.curEffStartPer + k ≤ INT_MAX →
      (∀ j : Nat, 1 ≤ j → j ≤ k → effectState (frameAt e j) tspeed ≠ 0) →
      (countdownFrames env e idx Line COUNTDOWN_SECONDS tspeed k).msg
        = toString (max 0 (N - (k : Int) / 20))) ∧
    (∃ n : Nat, (countdownFrames env e idx Line COUNTDOWN_SECONDS tspeed k).msg
        = toString (n : Int)) ∧
    (0 ≤ tspeed → tspeed * e.frameTimeInMs = 50 → 50 * (k : Int) ≤ INT_MAX →
      effectState (frameAt e k) tspeed = k) := by
  refine ⟨?_, ?_, ?_⟩
  · intro hparse hN0 hN hs0 hs1 hstate
    have hd := countdownFrames_deadline env e idx Line tspeed N k hparse hN0 hN hs0 hs1 hstate
    have hm : (countdownFrames env e idx Line COUNTDOWN_SECONDS tspeed k).msg
        = toString (max 0 (toInt ((toLong
            ((countdownFrames env e idx Line COUNTDOWN_SECONDS tspeed k).timer_countdown idx
              - (e.curEffStartPer + k))).tdiv 20))) := by
      cases k with
      | zero =>
        have := resolveText_seconds_msg env (frameAt e 0) idx Line
          (effectState (frameAt e 0) tspeed)
        simpa [countdownFrames, frameAt] using this
      | succ k =>
        exact resolveText_seconds_msg env _ idx Line _
    rw [hm, hd]
    congr 1
    unfold INT_MAX at hN hs1; unfold INT_MIN at hs0
    have hl : toLong (e.curEffStartPer + N * 20 + 19 - (e.curEffStartPer + (k : Int)))
        = N * 20 + 19 - (k : Int) := by
      unfold toLong; omega
    rw [hl]
    by_cases hk : (0 : Int) ≤ N * 20 + 19 - (k : Int)
    · rw [tdiv_of_nonneg _ _ hk (by norm_num)]
      unfold toInt; omega
    · rw [tdiv_of_neg _ _ (by omega) (by norm_num)]
      unfold toInt; omega
  · cases k with
    | zero => exact seconds_msg_nonneg env _ idx Line _
    | succ k => exact seconds_msg_nonneg env _ idx Line _
  · intro ht hprod hk
    unfold INT_MAX at hk
    have hft : 0 < e.frameTimeInMs := by
      by_contra hcon
      have : tspeed * e.frameTimeInMs ≤ 0 :=
        mul_nonpos_of_nonneg_of_nonpos ht (by omega)
      omega
    have hts : tspeed ≤ 50 := by nlinarith
    have hk0 : (0 : Int) ≤ k := Int.ofNat_nonneg k
    have h1 : (k : Int) * tspeed ≤ 50 * k := by nlinarith
    have h1' : 0 ≤ (k : Int) * tspeed := mul_nonneg hk0 ht
    have h2 : (k : Int) * tspeed * e.frameTimeInMs = 50 * k := by
      rw [mul_assoc, hprod]; ring
    have ha : toInt (e.curEffStartPer + (k : Int) - e.curEffStartPer) = k := by
      unfold toInt; omega
    have hb : toInt ((k : Int) * tspeed) = (k : Int) * tspeed := by
      unfold toInt; omega
    have hc : toInt (50 * (k : Int)) = 50 * (k : Int) := by
      unfold toInt; omega
    simp only [effectState, frameAt, ha, hb, h2, hc]
    rw [tdiv_of_nonneg _ _ (by omega) (by norm_num)]
    omega

/-- Witness of C2: the template "5" at speed 10 and 50 ms frames, frame 45. -/
theorem seconds_countdown_sequence_witness :
    (countdownFrames sampleEnv sampleEffect 0 "5" COUNTDOWN_SECONDS 10 45).msg
        = toString (max 0 ((5 : Int) - ((45 : Nat) : Int) / 20)) :=
  (seconds_countdown_sequence sampleEnv sampleEffect 0 "5" 10 5 45).1
    (by decide) (by decide) (by decide) (by decide) (by decide)
    (by
      intro j h1 h2
      have hj : effectState (frameAt sampleEffect j) 10 = 10 * (j : Int) := by
        have hj2 : (0 : Int) ≤ j := Int.ofNat_nonneg j
        have hj3 : (j : Int) ≤ 45 := by exact_mod_cast h2
        have ha : toInt ((0 : Int) + (j : Int) - 0) = j := by unfold toInt; omega
        have hb : toInt ((j : Int) * 10) = (j : Int) * 10 := by unfold toInt; omega
        have hc : toInt ((j : Int) * 10 * 50) = (j : Int) * 10 * 50 := by unfold toInt; omega
        simp only [effectState, frameAt, sampleEffect, ha, hb, hc]
        rw [tdiv_of_nonneg _ _ (by omega) (by norm_num)]
        omega
      rw [hj]
      have : (1 : Int) ≤ j := by exact_mod_cast h1
      omega)

/-- Counterexample to C2 as stated: at speed 10 and 50 ms frames, `state` is 20
on frame 2, and the countdown started at 5 still shows 5, not 5 - 20/20. -/
theorem seconds_countdown_not_by_state :
    effectState (frameAt sampleEffect 2) 10 = 20 ∧
    (countdownFrames sampleEnv sampleEffect 0 "5" COUNTDOWN_SECONDS 10 0).msg = "5" ∧
    (countdownFrames sampleEnv sampleEffect 0 "5" COUNTDOWN_SECONDS 10 2).msg = "5" ∧
    (countdownFrames sampleEnv sampleEffect 0 "5" COUNTDOWN_SECONDS 10 2).msg
      ≠ toString (5 - Int.tdiv (effectState (frameAt sampleEffect 2) 10) 20) := by
  decide

/-! ## Date countdown: decomposition and formats -/

theorem remaining_parts (r : Int) (h0 : 0 ≤ r) :
    ((r.tdiv 60).tdiv 60).tdiv 24 = r / 86400 ∧
    ((r.tdiv 60).tdiv 60).tmod 24 = (r / 3600) % 24 ∧
    (r.tdiv 60).tmod 60 = (r / 60) % 60 ∧
    r.tmod 60 = r % 60 := by
  have h60 : r.tdiv 60 = r / 60 := tdiv_of_nonneg r 60 h0 (by norm_num)
  have h60' : 0 ≤ r / 60 := by omega
  have h3600 : (r / 60).tdiv 60 = r / 60 / 60 := tdiv_of_nonneg _ 60 h60' (by norm_num)
  have h3600' : 0 ≤ r / 60 / 60 := by omega
  rw [h60, h3600, tdiv_of_nonneg _ 24 h3600' (by norm_num),
    tmod_of_nonneg _ 24 h3600' (by norm_num), tmod_of_nonneg _ 60 h60' (by norm_num),
    tmod_of_nonneg _ 60 h0 (by norm_num)]
  exact ⟨by omega, by omega, rfl, rfl⟩

theorem formatRemaining_dhms (env : Env) (r ts : Int) (fmt : String) (h0 : 0 < r)
    (h1 : r ≤ INT_MAX) :
    formatRemaining env COUNTDOWN_D_H_M_S r ts fmt
      = toString (r / 86400) ++ "d " ++ toString ((r / 3600) % 24) ++ "h "
        ++ toString ((r / 60) % 60) ++ "m " ++ toString (r % 60) ++ "s" := by
  obtain ⟨hd, hh, hm, hs⟩ := remaining_parts r (le_of_lt h0)
  unfold INT_MAX at h1
  have hday : toInt (r / 86400) = r / 86400 := by unfold toInt; omega
  simp only [formatRemaining, if_neg (ne_of_gt h0), hd, hh, hm, hs, hday, if_true]

theorem formatRemaining_hms (env : Env) (r ts : Int) (fmt : String) (h0 : 0 < r) :
    formatRemaining env COUNTDOWN_H_M_S r ts fmt
      = toString ((r / 3600) % 24) ++ " : " ++ toString ((r / 60) % 60) ++ " : "
        ++ toString (r % 60) := by
  obtain ⟨_, hh, hm, hs⟩ := remaining_parts r (le_of_lt h0)
  have hne : COUNTDOWN_H_M_S ≠ COUNTDOWN_D_H_M_S := by decide
  simp only [formatRemaining, if_neg (ne_of_gt h0), hh, hm, hs, if_neg hne, if_true]

theorem resolveText_date_cached (env : Env) (e : RgbEffects) (idx : Nat) (Line : String)
    (Countdown state : Int)
    (hmode : Countdown = COUNTDOWN_D_H_M_S ∨ Countdown = COUNTDOWN_H_M_S
      ∨ Countdown = COUNTDOWN_M_or_S ∨ Countdown = COUNTDOWN_S ∨ Countdown = COUNTDOWN_FREEFMT)
    (hstate : state.tmod 20 ≠ 0) :
    (resolveText env e idx Line Countdown state).timer_countdown = e.timer_countdown ∧
    (resolveText env e idx Line Countdown state).msg
      = formatRemaining env Countdown (e.timer_countdown idx)
          (toLong (e.timer_countdown idx * 1000))
          (if Countdown = COUNTDOWN_FREEFMT then (freeFormatSplit Line).2 else "") := by
  have h1 : Countdown ≠ COUNTDOWN_SECONDS := by
    rcases hmode with h | h | h | h | h <;> rw [h] <;> decide
  have h2 : Countdown = COUNTDOWN_FREEFMT ∨ Countdown = COUNTDOWN_D_H_M_S
      ∨ Countdown = COUNTDOWN_H_M_S ∨ Countdown = COUNTDOWN_M_or_S
      ∨ Countdown = COUNTDOWN_S := by tauto
  simp only [resolveText, if_neg h1, if_pos h2, if_neg hstate]
  refine ⟨trivial, ?_⟩
  split <;> rfl

theorem resolveText_date_tick (env : Env) (e : RgbEffects) (idx : Nat) (Line : String)
    (Countdown state : Int)
    (hmode : Countdown = COUNTDOWN_D_H_M_S ∨ Countdown = COUNTDOWN_H_M_S
      ∨ Countdown = COUNTDOWN_M_or_S ∨ Countdown = COUNTDOWN_S ∨ Countdown = COUNTDOWN_FREEFMT)
    (hstate : state.tmod 20 = 0) :
    (resolveText env e idx Line Countdown state).timer_countdown idx
      = parseRemaining env (if Countdown = COUNTDOWN_FREEFMT then (freeFormatSplit Line).1
          else Line) ∧
    (resolveText env e idx Line Countdown state).msg
      = formatRemaining env Countdown
          (parseRemaining env (if Countdown = COUNTDOWN_FREEFMT then (freeFormatSplit Line).1
            else Line))
          (parseSpan env (if Countdown = COUNTDOWN_FREEFMT then (freeFormatSplit Line).1
            else Line))
          (if Countdown = COUNTDOWN_FREEFMT then (freeFormatSplit Line).2 else "") := by
  have h1 : Countdown ≠ COUNTDOWN_SECONDS := by
    rcases hmode with h | h | h | h | h <;> rw [h] <;> decide
  have h2 : Countdown = COUNTDOWN_FREEFMT ∨ Countdown = COUNTDOWN_D_H_M_S
      ∨ Countdown = COUNTDOWN_H_M_S ∨ Countdown = COUNTDOWN_M_or_S
      ∨ Countdown = COUNTDOWN_S := by tauto
  simp only [resolveText, if_neg h1, if_pos h2, if_pos hstate, setAt, if_true]
  constructor <;> split <;> rfl

/-- C3. Date-countdown decomposition and formatting: for every remaining-seconds
value `0 < r ≤ INT_MAX`, days = r/86400, hours = (r/3600) % 24,
minutes = (r/60) % 60 and seconds = r % 60 recompose to `r` with hours below
24 and minutes and seconds below 60; mode D_H_M_S renders
"<days>d <hours>h <minutes>m <seconds>s" and mode H_M_S renders
"<hours> : <minutes> : <seconds>", both from the formatting code and from the
text resolution of a frame that reuses the cached value `r`; 90061 seconds give
"1d 1h 1m 1s" and 3661 seconds give "1 : 1 : 1". -/
theorem date_countdown_format (env : Env) (r ts : Int) (fmt : String) (h0 : 0 < r)
    (h1 : r ≤ INT_MAX) :
    (r / 86400) * 86400 + ((r / 3600) % 24) * 3600 + ((r / 60) % 60) * 60 + r % 60 = r ∧
    (0 ≤ (r / 3600) % 24 ∧ (r / 3600) % 24 < 24) ∧
    (0 ≤ (r / 60) % 60 ∧ (r / 60) % 60 < 60) ∧
    (0 ≤ r % 60 ∧ r % 60 < 60) ∧
    formatRemaining env COUNTDOWN_D_H_M_S r ts fmt
      = toString (r / 86400) ++ "d " ++ toString ((r / 3600) % 24) ++ "h "
        ++ toString ((r / 60) % 60) ++ "m " ++ toString (r % 60) ++ "s" ∧
    formatRemaining env COUNTDOWN_H_M_S r ts fmt
      = toString ((r / 3600) % 24) ++ " : " ++ toString ((r / 60) % 60) ++ " : "
        ++ toString (r % 60) ∧
    (∀ (e : RgbEffects) (idx : Nat) (Line : String) (state : Int),
      state.tmod 20 ≠ 0 → e.timer_countdown idx = r →
      (resolveText env e idx Line COUNTDOWN_D_H_M_S state).msg
        = toString (r / 86400) ++ "d " ++ toString ((r / 3600) % 24) ++ "h "
          ++ toString ((r / 60) % 60) ++ "m " ++ toString (r % 60) ++ "s" ∧
      (resolveText env e idx Line COUNTDOWN_H_M_S state).msg
        = toString ((r / 3600) % 24) ++ " : " ++ toString ((r / 60) % 60) ++ " : "
          ++ toString (r % 60)) ∧
    formatRemaining env COUNTDOWN_D_H_M_S 90061 ts fmt = "1d 1h 1m 1s" ∧
    formatRemaining env COUNTDOWN_H_M_S 3661 ts fmt = "1 : 1 : 1" := by
  refine ⟨by omega, by omega, by omega, by omega, formatRemaining_dhms env r ts fmt h0 h1,
    formatRemaining_hms env r ts fmt h0, ?_, rfl, rfl⟩
  intro e idx Line state hstate hr
  constructor
  · rw [(resolveText_date_cached env e idx Line COUNTDOWN_D_H_M_S state (Or.inl rfl) hstate).2,
      hr]
    exact formatRemaining_dhms env r _ _ h0 h1
  · rw [(resolveText_date_cached env e idx Line COUNTDOWN_H_M_S state (Or.inr (Or.inl rfl))
      hstate).2, hr]
    exact formatRemaining_hms env r _ _ h0

/-- Witness of C3: one day, one hour, one minute and one second. -/
theorem date_countdown_format_witness :
    formatRemaining sampleEnv COUNTDOWN_D_H_M_S 90061 0 ""
      = toString ((90061 : Int) / 86400) ++ "d " ++ toString (((90061 : Int) / 3600) % 24)
        ++ "h " ++ toString (((90061 : Int) / 60) % 60) ++ "m "
        ++ toString ((90061 : Int) % 60) ++ "s" :=
  (date_countdown_format sampleEnv 90061 0 "" (by decide) (by decide)).2.2.2.2.1

/-! ## Date countdown: minutes or seconds -/

theorem formatRemaining_m_or_s (env : Env) (r ts : Int) (fmt : String) (h0 : 0 < r)
    (h1 : r < 86400) :
    formatRemaining env COUNTDOWN_M_or_S r ts fmt
      = if r < 300 then toString r else toString (r / 60) ++ " m" := by
  obtain ⟨_, hh, hm, hs⟩ := remaining_parts r (le_of_lt h0)
  have hn1 : COUNTDOWN_M_or_S ≠ COUNTDOWN_D_H_M_S := by decide
  have hn2 : COUNTDOWN_M_or_S ≠ COUNTDOWN_H_M_S := by decide
  have hn3 : COUNTDOWN_M_or_S ≠ COUNTDOWN_S := by decide
  have hn4 : COUNTDOWN_M_or_S ≠ COUNTDOWN_FREEFMT := by decide
  simp only [formatRemaining, if_neg (ne_of_gt h0), hh, hm, hs, if_neg hn1, if_neg hn2,
    if_neg hn3, if_neg hn4]
  have hmin : 60 * (r / 3600 % 24) + r / 60 % 60 = r / 60 := by omega
  have hsec : 60 * 60 * (r / 3600 % 24) + 60 * (r / 60 % 60) + r % 60 = r := by omega
  rw [hmin, hsec]
  by_cases h : r < 300
  · rw [if_pos h, if_pos (by omega)]
  · rw [if_neg h, if_neg (by omega)]

/-- C4 (the code at the failing input). Mode M_or_S takes hours and minutes
modulo one day: below one day (`0 < r < 86400`) it renders `r` when `r < 300`
and "<r/60> m" otherwise, but for exactly one day (`r = 86400`) it renders "0"
instead of "1440 m", for `r = 86410` it renders "10", and for `r = 86700` it
renders "5 m". -/
theorem m_or_s_drops_days (env : Env) (ts : Int) (fmt : String) :
    (∀ r : Int, 0 < r → r < 86400 →
      formatRemaining env COUNTDOWN_M_or_S r ts fmt
        = if r < 300 then toString r else toString (r / 60) ++ " m") ∧
    formatRemaining env COUNTDOWN_M_or_S 86400 ts fmt = "0" ∧
    formatRemaining env COUNTDOWN_M_or_S 86410 ts fmt = "10" ∧
    formatRemaining env COUNTDOWN_M_or_S 86700 ts fmt = "5 m" ∧
    (resolveText sampleEnv { sampleEffect with timer_countdown := fun _ => 86400 } 0
      "Sat, 18 Dec 1999 00:48:30 +0100" COUNTDOWN_M_or_S 1).msg = "0" :=
  ⟨fun r h0 h1 => formatRemaining_m_or_s env r ts fmt h0 h1, rfl, rfl, rfl, by decide⟩

/-- Witness of C4: 125 seconds remain. -/
theorem m_or_s_drops_days_witness :
    formatRemaining sampleEnv COUNTDOWN_M_or_S 125 0 ""
      = if (125 : Int) < 300 then toString (125 : Int) else toString ((125 : Int) / 60) ++ " m" :=
  (m_or_s_drops_days sampleEnv 0 "").1 125 (by decide) (by decide)

/-! ## Invalid dates -/

theorem parseRemaining_of_parse_none (env : Env) (Line : String)
    (h : env.ParseRfc822Date Line = none) : parseRemaining env Line = 0 := by
  simp only [parseRemaining, h]

theorem formatRemaining_zero (env : Env) (Countdown ts : Int) (fmt : String) :
    formatRemaining env Countdown 0 ts fmt = "invalid date" := by
  simp only [formatRemaining, if_true]

/-- C5 (amended). Invalid date fallback: in every date-based countdown submode,
if the date string of the template (the text between the delimiters in the
free-format mode) fails RFC-822 parsing, then on every frame with
`state % 20 == 0` the message is "invalid date" and 0 is cached in
`timer_countdown[idx]`; on a frame with `state % 20 != 0` the date is not parsed:
the cache is left as it is and the message is formatted from the cached value,
so it is "invalid date" when that value is 0. -/
theorem invalid_date_fallback (env : Env) (e : RgbEffects) (idx : Nat) (Line : String)
    (Countdown state : Int)
    (hmode : Countdown = COUNTDOWN_D_H_M_S ∨ Countdown = COUNTDOWN_H_M_S
      ∨ Countdown = COUNTDOWN_M_or_S ∨ Countdown = COUNTDOWN_S ∨ Countdown = COUNTDOWN_FREEFMT)
    (hparse : env.ParseRfc822Date
      (if Countdown = COUNTDOWN_FREEFMT then (freeFormatSplit Line).1 else Line) = none) :
    (state.tmod 20 = 0 →
      (resolveText env e idx Line Countdown state).msg = "invalid date" ∧
      (resolveText env e idx Line Countdown state).timer_countdown idx = 0) ∧
    (state.tmod 20 ≠ 0 →
      (resolveText env e idx Line Countdown state).timer_countdown = e.timer_countdown ∧
      (resolveText env e idx Line Countdown state).msg
        = formatRemaining env Countdown (e.timer_countdown idx)
            (toLong (e.timer_countdown idx * 1000))
            (if Countdown = COUNTDOWN_FREEFMT then (freeFormatSplit Line).2 else "")) ∧
    (state.tmod 20 ≠ 0 → e.timer_countdown idx = 0 →
      (resolveText env e idx Line Countdown state).msg = "invalid date") := by
  refine ⟨?_, ?_, ?_⟩
  · intro hs
    obtain ⟨ht, hm⟩ := resolveText_date_tick env e idx Line Countdown state hmode hs
    rw [hm, ht, parseRemaining_of_parse_none env _ hparse]
    exact ⟨formatRemaining_zero env _ _ _, rfl⟩
  · intro hs
    exact resolveText_date_cached env e idx Line Countdown state hmode hs
  · intro hs h0
    rw [(resolveText_date_cached env e idx Line Countdown state hmode hs).2, h0]
    exact formatRemaining_zero env _ _ _

/-- Witness of C5: a template that is no date, on the first frame. -/
theorem invalid_date_fallback_witness :
    (resolveText sampleEnv sampleEffect 0 "tomorrow" COUNTDOWN_S 0).msg = "invalid date" ∧
    (resolveText sampleEnv sampleEffect 0 "tomorrow" COUNTDOWN_S 0).timer_countdown 0 = 0 :=
  (invalid_date_fallback sampleEnv sampleEffect 0 "tomorrow" COUNTDOWN_S 0
    (by decide) rfl).1 (by decide)

/-- Counterexample to C5 as stated: the template fails to parse, yet on a frame
with `state = 1` and a cached value of 5 the message in mode S is "5". -/
theorem invalid_date_not_between_ticks :
    sampleEnv.ParseRfc822Date "tomorrow" = none ∧
    (resolveText sampleEnv { sampleEffect with timer_countdown := fun _ => 5 } 0
      "tomorrow" COUNTDOWN_S 1).msg = "5" ∧
    (resolveText sampleEnv { sampleEffect with timer_countdown := fun _ => 5 } 0
      "tomorrow" COUNTDOWN_S 1).msg ≠ "invalid date" := by
  decide

/-! ## Vertical transforms -/

theorem stack_take (get : Nat → Option Char) (t : List Char) (n : Nat) (hn : n ≤ t.length)
    (hget : ∀ i, i < t.length → get i = t[i]?) :
    (List.range n).foldlM (fun msg i => (get i).map (fun c => msg ++ [c, '\n'])) []
      = some ((t.take n).flatMap (fun c => [c, '\n'])) := by
  induction n with
  | zero => rfl
  | succ n ih =>
    have hlt : n < t.length := by omega
    rw [List.range_succ, List.foldlM_append, ih (by omega)]
    simp only [List.foldlM_cons, List.foldlM_nil, bind_pure, Option.bind_eq_bind,
      Option.some_bind, hget n hlt, List.getElem?_eq_getElem hlt, Option.map_some',
      List.take_succ, Option.toList_some, List.flatMap_append, List.flatMap_cons,
      List.flatMap_nil, List.append_nil]

theorem verticalDown_eq (tempmsg : List Char) :
    verticalDown tempmsg = some (tempmsg.flatMap (fun c => [c, '\n'])) := by
  unfold verticalDown
  rw [stack_take (fun i => tempmsg[i]?) tempmsg tempmsg.length (le_refl _) (fun _ _ => rfl),
    List.take_length]

theorem stack_reversed (Line : List Char) (n : Nat) (h : n ≤ Line.length) :
    (List.range n).foldlM
      (fun msg i => (Line[n - i - 1]?).map (fun c => msg ++ [c, '\n'])) []
      = some ((Line.take n).reverse.flatMap (fun c => [c, '\n'])) := by
  have hlen : (Line.take n).reverse.length = n := by
    rw [List.length_reverse, List.length_take]
    exact min_eq_left h
  have htake : ((Line.take n).reverse).take n = (Line.take n).reverse :=
    List.take_of_length_le (le_of_eq hlen)
  rw [stack_take (fun i => Line[n - i - 1]?) (Line.take n).reverse n (le_of_eq hlen.symm) ?_,
    htake]
  intro i hi
  rw [hlen] at hi
  have hi2 : i < (Line.take n).length := by
    rw [List.length_take, min_eq_left h]; exact hi
  rw [List.getElem?_reverse hi2, List.length_take, min_eq_left h,
    List.getElem?_take_of_lt (by omega)]
  have hidx : n - i - 1 = n - 1 - i := by omega
  simp only [hidx]

theorem verticalUp_eq (Line tempmsg : List Char) (h : tempmsg.length ≤ Line.length) :
    verticalUp Line tempmsg
      = some ((Line.take tempmsg.length).reverse.flatMap (fun c => [c, '\n'])) :=
  stack_reversed Line tempmsg.length h

theorem verticalUp_none (Line tempmsg : List Char) (h : Line.length < tempmsg.length) :
    verticalUp Line tempmsg = none := by
  unfold verticalUp
  obtain ⟨n, hn⟩ : ∃ n, tempmsg.length = n + 1 := ⟨tempmsg.length - 1, by omega⟩
  rw [hn, List.range_succ_eq_map, List.foldlM_cons]
  have : Line[n]? = none := List.getElem?_eq_none (by omega)
  simp [this]

theorem length_stacked (m : List Char) :
    (m.flatMap (fun c => [c, '\n'])).length = 2 * m.length := by
  induction m with
  | nil => rfl
  | cons c cs ih =>
    simp only [List.flatMap_cons, List.length_append, List.length_cons, List.length_nil, ih]
    omega

theorem filter_stacked (m : List Char) (h : '\n' ∉ m) :
    (m.flatMap (fun c => [c, '\n'])).filter (fun c => c != '\n') = m := by
  induction m with
  | nil => rfl
  | cons c cs ih =>
    have hc : c ≠ '\n' := fun hEq => h (by rw [hEq]; exact List.mem_cons_self _ _)
    have hcs : '\n' ∉ cs := fun hmem => h (List.mem_cons_of_mem _ hmem)
    simp [List.flatMap_cons, List.filter_cons, hc, ih hcs]

theorem textEffect_other (Effect : Int) (Line m : String) (h1 : Effect ≠ 1) (h2 : Effect ≠ 2) :
    textEffect Effect Line m = some m := by
  simp only [textEffect, if_neg h1, if_neg h2]

/-- C8. VERTICAL_DOWN transform: for every resolved message `m`, effect 2
replaces the message by the characters of `m` in their original order, each
followed by a newline; the result has length `2*|m|`; deleting every newline
from it gives back `m` when `m` contains no newline; every effect value other
than 1 and 2 (so 0, 3, 4, 5, 6) leaves the message unchanged; and "AB" yields
"A\nB\n". -/
theorem vertical_down_transform (Line m : String) :
    textEffect 2 Line m = some (String.mk (m.data.flatMap (fun c => [c, '\n']))) ∧
    (m.data.flatMap (fun c => [c, '\n'])).length = 2 * m.data.length ∧
    ('\n' ∉ m.data →
      (m.data.flatMap (fun c => [c, '\n'])).filter (fun c => c != '\n') = m.data) ∧
    (∀ Effect : Int, Effect ≠ 1 → Effect ≠ 2 → textEffect Effect Line m = some m) ∧
    textEffect 2 Line "AB" = some "A\nB\n" := by
  refine ⟨?_, length_stacked m.data, filter_stacked m.data,
    fun Effect h1 h2 => textEffect_other Effect Line m h1 h2, ?_⟩
  · simp only [textEffect, verticalDown_eq]
    rfl
  · simp only [textEffect, verticalDown_eq]
    rfl

/-- Witness of C8: the message "AB" has no newline. -/
theorem vertical_down_transform_witness :
    (("AB" : String).data.flatMap (fun c => [c, '\n'])).filter (fun c => c != '\n')
      = ("AB" : String).data :=
  (vertical_down_transform "" "AB").2.2.1 (by decide)

/-- C7 (the code at the failing input). The vertical-up loop reads its
characters from the template `Line`, not from the resolved message `m`: when
`m` is not longer than `Line` the result is the first `|m|` characters of
`Line` in reverse order, each followed by a newline, and when `m` is longer the
first read is outside `Line`. For the seconds countdown with template "10"
that shows "9" on frame 20, effect 1 produces "1\n" (not "9\n") and the text
drawn is "1"; for the template "A\\nB" without countdown, whose message is
"A", newline, "B", it produces "n", backslash, "A" stacked; when the message
is the template itself, as for "AB", it produces "B\nA\n". -/
theorem vertical_up_reads_template (Line m : String) :
    (m.data.length ≤ Line.data.length →
      textEffect 1 Line m
        = some (String.mk
            ((Line.data.take m.data.length).reverse.flatMap (fun c => [c, '\n'])))) ∧
    (Line.data.length < m.data.length → textEffect 1 Line m = none) ∧
    (resolveText sampleEnv { sampleEffect with curPeriod := 20, timer_countdown := fun _ => 219 }
      0 "10" COUNTDOWN_SECONDS
      (effectState { sampleEffect with curPeriod := 20, timer_countdown := fun _ => 219 } 1)).msg
      = "9" ∧
    textEffect 1 "10" "9" = some "1\n" ∧
    (RenderTextLine sampleEnv
      { sampleEffect with curPeriod := 20, timer_countdown := fun _ => 219 }
      0 "10" TEXTDIR_NONE false 1 COUNTDOWN_SECONDS true 1 0 0 0 0 false).map
        (fun e => e.drawn.map DrawCall.msg) = some ["1"] ∧
    (resolveText sampleEnv sampleEffect 0 "A\\nB" COUNTDOWN_NONE 0).msg = "A\nB" ∧
    textEffect 1 "A\\nB" "A\nB" = some "n\n\\\nA\n" ∧
    textEffect 1 "AB" "AB" = some "B\nA\n" := by
  refine ⟨?_, ?_, by decide, by decide, by decide, by decide, by decide, by decide⟩
  · intro h
    simp only [textEffect, if_true, verticalUp_eq _ _ h, Option.map_some']
  · intro h
    simp only [textEffect, if_true, verticalUp_none _ _ h, Option.map_none']

/-- Witness of C7: the template "10" and the message "9". -/
theorem vertical_up_reads_template_witness :
    textEffect 1 "10" "9"
      = some (String.mk
          ((("10" : String).data.take ("9" : String).data.length).reverse.flatMap
            (fun c => [c, '\n']))) :=
  (vertical_up_reads_template "10" "9").1 (by decide)

/-! ## The "invalid date" message is laid out and drawn -/

theorem data_isEmpty_of_ne (s : String) (h : s ≠ "") : s.data.isEmpty = false := by
  cases s with
  | mk data =>
    cases data with
    | nil => exact absurd rfl h
    | cons c cs => rfl

theorem label_fold_no_newline (env : Env) (font : String) (colour : Nat) (alignment : Nat)
    (x width heightLine : Int) (cs : List Char) (a : LabelAcc) (h : '\n' ∉ cs) :
    cs.foldl (labelStep env font colour alignment x width heightLine) a
      = { a with curLine := a.curLine ++ cs } := by
  induction cs generalizing a with
  | nil => simp
  | cons c cs ih =>
    have hc : c ≠ '\n' := fun hEq => h (by rw [hEq]; exact List.mem_cons_self _ _)
    have hcs : '\n' ∉ cs := fun hmem => h (List.mem_cons_of_mem _ hmem)
    rw [List.foldl_cons, ih _ hcs]
    simp [labelStep, hc]

theorem DrawLabel_single_line (env : Env) (font : String) (colour : Nat)
    (drawn : List DrawCall) (text : String) (rect : wxRect)
    (hne : text.data.isEmpty = false) (hnl : '\n' ∉ text.data) :
    DrawLabel env font colour drawn text rect
        (wxALIGN_CENTER_HORIZONTAL ||| wxALIGN_CENTER_VERTICAL)
      = drawn ++ [⟨font, colour, text,
          (rect.x + (rect.x + rect.width - 1) + 1
              - (GetMultiLineTextExtent3 env font text).1).tdiv 2
            + ((GetMultiLineTextExtent3 env font text).1
              - (GetMultiLineTextExtent env font text).x).tdiv 2,
          (rect.y + (rect.y + rect.height - 1) + 1
              - (GetMultiLineTextExtent3 env font text).2.1).tdiv 2,
          none⟩] := by
  have h1 : (wxALIGN_CENTER_HORIZONTAL ||| wxALIGN_CENTER_VERTICAL)
      &&& (wxALIGN_RIGHT ||| wxALIGN_CENTER_HORIZONTAL) ≠ 0 := by decide
  have h2 : ¬ ((wxALIGN_CENTER_HORIZONTAL ||| wxALIGN_CENTER_VERTICAL) &&& wxALIGN_RIGHT ≠ 0) := by
    decide
  have h3 : (wxALIGN_CENTER_HORIZONTAL ||| wxALIGN_CENTER_VERTICAL)
      &&& wxALIGN_CENTER_HORIZONTAL ≠ 0 := by decide
  have h4 : ¬ ((wxALIGN_CENTER_HORIZONTAL ||| wxALIGN_CENTER_VERTICAL) &&& wxALIGN_BOTTOM ≠ 0) := by
    decide
  have h5 : (wxALIGN_CENTER_HORIZONTAL ||| wxALIGN_CENTER_VERTICAL)
      &&& wxALIGN_CENTER_VERTICAL ≠ 0 := by decide
  simp only [DrawLabel, label_fold_no_newline _ _ _ _ _ _ _ _ _ hnl, labelEndOfLine,
    List.nil_append, hne, if_pos h1, if_neg h2, if_pos h3, if_neg h4, if_pos h5]
  rfl

theorem drawLine_single_line (env : Env) (e : RgbEffects) (msg : String) (m : TextMetrics)
    (textsize : wxSize) (dir : Int) (center : Bool) (state : Int)
    (startx starty endx endy : Int) (isPixelBased : Bool)
    (hne : msg.data.isEmpty = false) (hnl : '\n' ∉ msg.data) :
    ∃ (x y : Int) (rot : Option Int),
      drawLine env e msg m textsize dir center state startx starty endx endy isPixelBased
        = e.drawn ++ [⟨e.font, e.colour, msg, x, y, rot⟩] := by
  by_cases hrot : m.TextRotation = 0
  · simp only [drawLine, if_pos hrot, DrawLabel_single_line env _ _ _ msg _ hne hnl]
    exact ⟨_, _, _, rfl⟩
  · simp only [drawLine, if_neg hrot]
    exact ⟨_, _, _, rfl⟩

theorem resolveText_zero_remaining (env : Env) (e : RgbEffects) (idx : Nat) (Line : String)
    (Countdown state : Int)
    (hmode : Countdown = COUNTDOWN_D_H_M_S ∨ Countdown = COUNTDOWN_H_M_S
      ∨ Countdown = COUNTDOWN_M_or_S ∨ Countdown = COUNTDOWN_S ∨ Countdown = COUNTDOWN_FREEFMT)
    (hzero : (state.tmod 20 = 0 ∧ parseRemaining env
        (if Countdown = COUNTDOWN_FREEFMT then (freeFormatSplit Line).1 else Line) = 0)
      ∨ (state.tmod 20 ≠ 0 ∧ e.timer_countdown idx = 0)) :
    (resolveText env e idx Line Countdown state).msg = "invalid date" := by
  rcases hzero with ⟨hs, h0⟩ | ⟨hs, h0⟩
  · rw [(resolveText_date_tick env e idx Line Countdown state hmode hs).2, h0]
    exact formatRemaining_zero env _ _ _
  · rw [(resolveText_date_cached env e idx Line Countdown state hmode hs).2, h0]
    exact formatRemaining_zero env _ _ _

/-- C6 (amended). In a date-based countdown mode, when the remaining-seconds
value is 0 at render time (a tick frame whose date does not parse or is not in
the future, or another frame whose cached value is 0), the message is
"invalid date" and the line is then processed like any other message: the
character transform is applied, on the collection pass the box of the text is
merged into `synced_textsize`, and on the rendering pass the position is
computed and the text is drawn (exactly one `DrawText` call with the text
"invalid date" when the effect is not a vertical one). -/
theorem invalid_date_is_rendered (env : Env) (e : RgbEffects) (idx : Nat) (Line : String)
    (dir : Int) (center : Bool) (Effect Countdown : Int) (tspeed : Int)
    (startx starty endx endy : Int) (isPixelBased : Bool)
    (hLine : Line ≠ "")
    (hmode : Countdown = COUNTDOWN_D_H_M_S ∨ Countdown = COUNTDOWN_H_M_S
      ∨ Countdown = COUNTDOWN_M_or_S ∨ Countdown = COUNTDOWN_S ∨ Countdown = COUNTDOWN_FREEFMT)
    (hzero : ((effectState e tspeed).tmod 20 = 0 ∧ parseRemaining env
        (if Countdown = COUNTDOWN_FREEFMT then (freeFormatSplit Line).1 else Line) = 0)
      ∨ ((effectState e tspeed).tmod 20 ≠ 0 ∧ e.timer_countdown idx = 0)) :
    (resolveText env e idx Line Countdown (effectState e tspeed)).msg = "invalid date" ∧
    (Effect ≠ 1 → Effect ≠ 2 →
      RenderTextLine env e idx Line dir center Effect Countdown false tspeed
          startx starty endx endy isPixelBased
        = some { e with
            timer_countdown :=
              (resolveText env e idx Line Countdown (effectState e tspeed)).timer_countdown,
            synced_textsize := mergeSynced e.synced_textsize idx
              (measureText env e.font "invalid date" dir Effect).textsize }) ∧
    (Effect = 2 →
      RenderTextLine env e idx Line dir center Effect Countdown false tspeed
          startx starty endx endy isPixelBased
        = some { e with
            timer_countdown :=
              (resolveText env e idx Line Countdown (effectState e tspeed)).timer_countdown,
            synced_textsize := mergeSynced e.synced_textsize idx
              (measureText env e.font "i\nn\nv\na\nl\ni\nd\n \nd\na\nt\ne\n" dir
                Effect).textsize }) ∧
    (Effect ≠ 1 → Effect ≠ 2 →
      ∃ (x y : Int) (rot : Option Int),
        RenderTextLine env e idx Line dir center Effect Countdown true tspeed
            startx starty endx endy isPixelBased
          = some { e with
              timer_countdown :=
                (resolveText env e idx Line Countdown (effectState e tspeed)).timer_countdown,
              drawn := e.drawn ++ [⟨e.font, e.colour, "invalid date", x, y, rot⟩] }) := by
  have hmsg := resolveText_zero_remaining env e idx Line Countdown (effectState e tspeed)
    hmode hzero
  have hne := data_isEmpty_of_ne Line hLine
  refine ⟨hmsg, ?_, ?_, ?_⟩
  · intro h1 h2
    simp only [RenderTextLine, hne, hmsg, textEffect_other Effect _ _ h1 h2, Option.map_some',
      layoutLine]
    simp
  · intro h2
    have hdown : textEffect Effect
        (resolveText env e idx Line Countdown (effectState e tspeed)).Line "invalid date"
        = some "i\nn\nv\na\nl\ni\nd\n \nd\na\nt\ne\n" := by
      rw [h2]
      simp only [textEffect, verticalDown_eq]
      rfl
    simp only [RenderTextLine, hne, hmsg, hdown, Option.map_some', layoutLine]
    simp
  · intro h1 h2
    obtain ⟨x, y, rot, hdraw⟩ := drawLine_single_line env
      { e with timer_countdown :=
          (resolveText env e idx Line Countdown (effectState e tspeed)).timer_countdown }
      "invalid date" (measureText env e.font "invalid date" dir Effect)
      (syncedBox e.synced_textsize (measureText env e.font "invalid date" dir Effect).textsize)
      dir center (effectState e tspeed) startx starty endx endy isPixelBased
      (by decide) (by decide)
    refine ⟨x, y, rot, ?_⟩
    simp only [RenderTextLine, hne, hmsg, textEffect_other Effect _ _ h1 h2, Option.map_some',
      layoutLine]
    simp only [Bool.false_eq_true, not_true_eq_false, if_false, not_false_eq_true, if_true]
    rw [hdraw]

/-- Witness of C6: a template that is no date, rendered on the first frame. -/
theorem invalid_date_is_rendered_witness :
    (resolveText sampleEnv sampleEffect 0 "tomorrow" COUNTDOWN_D_H_M_S
      (effectState sampleEffect 10)).msg = "invalid date" :=
  (invalid_date_is_rendered sampleEnv sampleEffect 0 "tomorrow" TEXTDIR_LEFT false 0
    COUNTDOWN_D_H_M_S 10 0 0 0 0 false (by decide) (by decide) (by decide)).1

/-- Counterexample to C6 as stated: for a template that is no date the
rendering pass issues a `DrawText` call with the text "invalid date" at a
computed position, the collection pass merges the box of that text into
`synced_textsize`, and the vertical-down effect is applied to it. -/
theorem invalid_date_draw_call :
    (RenderTextLine sampleEnv sampleEffect 0 "tomorrow" TEXTDIR_LEFT false 0
      COUNTDOWN_D_H_M_S true 10 0 0 0 0 false).map (fun e => e.drawn)
      = some [⟨"", 0, "invalid date", -4, 4, none⟩] ∧
    (RenderTextLine sampleEnv sampleEffect 0 "tomorrow" TEXTDIR_LEFT false 0
      COUNTDOWN_D_H_M_S true 10 0 0 0 0 false).map (fun e => e.drawn)
      ≠ some sampleEffect.drawn ∧
    sampleEffect.synced_textsize = ⟨0, 0⟩ ∧
    (RenderTextLine sampleEnv sampleEffect 0 "tomorrow" TEXTDIR_LEFT false 0
      COUNTDOWN_D_H_M_S false 10 0 0 0 0 false).map (fun e => e.synced_textsize)
      = some ⟨72, 8⟩ ∧
    (RenderTextLine sampleEnv sampleEffect 0 "tomorrow" TEXTDIR_LEFT false 2
      COUNTDOWN_D_H_M_S true 10 0 0 0 0 false).map (fun e => e.drawn.map DrawCall.msg)
      = some ["i", "n", "v", "a", "l", "i", "d", " ", "d", "a", "t", "e"] := by
  decide!

/-! ## Synchronisation of the text size -/

theorem resolveText_congr (env : Env) (e e2 : RgbEffects) (idx : Nat) (Line : String)
    (Countdown state : Int) (hcp : e.curPeriod = e2.curPeriod)
    (ht : e.timer_countdown idx = e2.timer_countdown idx) :
    (resolveText env e idx Line Countdown state).msg
      = (resolveText env e2 idx Line Countdown state).msg ∧
    (resolveText env e idx Line Countdown state).Line
      = (resolveText env e2 idx Line Countdown state).Line := by
  unfold resolveText
  by_cases h1 : Countdown = COUNTDOWN_SECONDS
  · simp only [if_pos h1]
    by_cases hs : state = 0
    · simp [hs, setAt, hcp]
    · simp [hs, hcp, ht]
  · simp only [if_neg h1]
    by_cases h2 : Countdown = COUNTDOWN_FREEFMT ∨ Countdown = COUNTDOWN_D_H_M_S
        ∨ Countdown = COUNTDOWN_H_M_S ∨ Countdown = COUNTDOWN_M_or_S
        ∨ Countdown = COUNTDOWN_S
    · simp only [if_pos h2]
      by_cases hs : state.tmod 20 = 0
      · simp only [if_pos hs, and_self]
      · simp only [if_neg hs, ht, and_self]
    · simp only [if_neg h2, and_self]

theorem resolveText_timer_other (env : Env) (e : RgbEffects) (idx : Nat) (Line : String)
    (Countdown state : Int) (i : Nat) (hi : i ≠ idx) :
    (resolveText env e idx Line Countdown state).timer_countdown i = e.timer_countdown i := by
  unfold resolveText
  by_cases h1 : Countdown = COUNTDOWN_SECONDS
  · simp only [if_pos h1]
    by_cases hs : state = 0
    · simp only [if_pos hs, setAt, if_neg hi]
    · simp only [if_neg hs]
  · simp only [if_neg h1]
    by_cases h2 : Countdown = COUNTDOWN_FREEFMT ∨ Countdown = COUNTDOWN_D_H_M_S
        ∨ Countdown = COUNTDOWN_H_M_S ∨ Countdown = COUNTDOWN_M_or_S
        ∨ Countdown = COUNTDOWN_S
    · simp only [if_pos h2]
      by_cases hs : state.tmod 20 = 0
      · simp only [if_pos hs, setAt, if_neg hi]
      · simp only [if_neg hs]
    · simp only [if_neg h2]

theorem effectState_congr (e e2 : RgbEffects) (tspeed : Int)
    (h1 : e.curPeriod = e2.curPeriod) (h2 : e.curEffStartPer = e2.curEffStartPer)
    (h3 : e.frameTimeInMs = e2.frameTimeInMs) :
    effectState e tspeed = effectState e2 tspeed := by
  simp only [effectState, h1, h2, h3]

theorem measuredBox_congr (env : Env) (e e2 : RgbEffects) (idx : Nat) (Line : String)
    (dir Effect Countdown tspeed : Int)
    (h1 : e.curPeriod = e2.curPeriod) (h2 : e.curEffStartPer = e2.curEffStartPer)
    (h3 : e.frameTimeInMs = e2.frameTimeInMs)
    (ht : e.timer_countdown idx = e2.timer_countdown idx) (hf : e.font = e2.font) :
    measuredBox env e idx Line dir Effect Countdown tspeed
      = measuredBox env e2 idx Line dir Effect Countdown tspeed := by
  have hs := effectState_congr e e2 tspeed h1 h2 h3
  obtain ⟨hm, hl⟩ := resolveText_congr env e e2 idx Line Countdown (effectState e2 tspeed) h1 ht
  simp only [measuredBox, hs, hm, hl, hf]

theorem RenderTextLine_collect (env : Env) (e : RgbEffects) (idx : Nat) (Line : String)
    (dir : Int) (center : Bool) (Effect Countdown tspeed : Int)
    (startx starty endx endy : Int) (isPixelBased : Bool)
    (hne : Line.data.isEmpty = false) :
    RenderTextLine env e idx Line dir center Effect Countdown false tspeed
        startx starty endx endy isPixelBased
      = (measuredBox env e idx Line dir Effect Countdown tspeed).map
          (fun b => { e with
            timer_countdown :=
              (resolveText env e idx Line Countdown (effectState e tspeed)).timer_countdown,
            synced_textsize := mergeSynced e.synced_textsize idx b }) := by
  simp only [RenderTextLine, hne, measuredBox, layoutLine, Option.map_map]
  simp
  rfl

theorem RenderTextLine_render_synced (env : Env) (e e2 : RgbEffects) (idx : Nat) (Line : String)
    (dir : Int) (center : Bool) (Effect Countdown tspeed : Int)
    (startx starty endx endy : Int) (isPixelBased : Bool)
    (h : RenderTextLine env e idx Line dir center Effect Countdown true tspeed
        startx starty endx endy isPixelBased = some e2) :
    e2.synced_textsize = e.synced_textsize := by
  unfold RenderTextLine at h
  by_cases hne : Line.data.isEmpty = true
  · simp only [hne, if_true, Option.some.injEq] at h
    rw [← h]
  · simp only [hne] at h
    cases ht : textEffect Effect
        (resolveText env e idx Line Countdown (effectState e tspeed)).Line
        (resolveText env e idx Line Countdown (effectState e tspeed)).msg with
    | none => simp [ht] at h
    | some msg =>
      simp [ht, layoutLine] at h
      rw [← h]

theorem renderLine_empty (env : Env) (sm : SettingsMap) (colorcnt pass : Nat)
    (s : RgbEffects × Nat) (l : Nat) (h : lineText sm l = "") :
    renderLine env sm colorcnt pass s l = some s := by
  unfold lineText at h
  simp only [renderLine, h, ne_eq, not_true_eq_false, if_false]

theorem renderLine_collect (env : Env) (sm : SettingsMap) (colorcnt : Nat)
    (e : RgbEffects) (c : Nat) (s2 : RgbEffects × Nat) (l : Nat) (hne : lineText sm l ≠ "")
    (h : renderLine env sm colorcnt 0 (e, c) l = some s2) :
    ∃ b, measuredBox env { e with font := sm.at ("FONTPICKER_Text_Font" ++ toString l) }
        (l - 1) (lineText sm l)
        (TextEffectDirectionsIndex (sm.at ("CHOICE_Text_Dir" ++ toString l)))
        (TextEffectsIndex (sm.at ("CHOICE_Text_Effect" ++ toString l)))
        (TextCountDownIndex (sm.at ("CHOICE_Text_Count" ++ toString l)))
        (env.wxAtoi (sm.Get ("TEXTCTRL_Text_Speed" ++ toString l) "10")) = some b ∧
      s2.1.synced_textsize = mergeSynced e.synced_textsize (l - 1) b ∧
      s2.1.curPeriod = e.curPeriod ∧ s2.1.curEffStartPer = e.curEffStartPer ∧
      s2.1.frameTimeInMs = e.frameTimeInMs ∧
      (∀ i : Nat, i ≠ l - 1 → s2.1.timer_countdown i = e.timer_countdown i) := by
  have hd := data_isEmpty_of_ne _ hne
  have hcongr := measuredBox_congr env
    { e with font := sm.at ("FONTPICKER_Text_Font" ++ toString l),
             colour := if colorcnt ≥ l then l - 1 else c }
    { e with font := sm.at ("FONTPICKER_Text_Font" ++ toString l) }
    (l - 1) (lineText sm l)
    (TextEffectDirectionsIndex (sm.at ("CHOICE_Text_Dir" ++ toString l)))
    (TextEffectsIndex (sm.at ("CHOICE_Text_Effect" ++ toString l)))
    (TextCountDownIndex (sm.at ("CHOICE_Text_Count" ++ toString l)))
    (env.wxAtoi (sm.Get ("TEXTCTRL_Text_Speed" ++ toString l) "10"))
    rfl rfl rfl rfl rfl
  rw [← hcongr]
  unfold lineText at hne hd ⊢
  unfold renderLine at h
  simp only [hne, ne_eq, not_false_eq_true, if_true, ne_eq, not_true_eq_false, decide_False,
    decide_not] at h
  rw [RenderTextLine_collect _ _ _ _ _ _ _ _ _ _ _ _ _ _ hd] at h
  cases hb : measuredBox env
      { e with font := sm.at ("FONTPICKER_Text_Font" ++ toString l),
               colour := if colorcnt ≥ l then l - 1 else c } (l - 1)
      (sm.at ("TEXTCTRL_Text_Line" ++ toString l))
      (TextEffectDirectionsIndex (sm.at ("CHOICE_Text_Dir" ++ toString l)))
      (TextEffectsIndex (sm.at ("CHOICE_Text_Effect" ++ toString l)))
      (TextCountDownIndex (sm.at ("CHOICE_Text_Count" ++ toString l)))
      (env.wxAtoi (sm.Get ("TEXTCTRL_Text_Speed" ++ toString l) "10")) with
  | none =>
    rw [hb] at h
    simp at h
  | some b =>
    rw [hb] at h
    simp only [Option.map_some', Option.some.injEq] at h
    refine ⟨b, rfl, ?_, ?_, ?_, ?_, ?_⟩
    · rw [← h]
    · rw [← h]
    · rw [← h]
    · rw [← h]
    · intro i hi
      rw [← h]
      exact resolveText_timer_other env _ (l - 1) _ _ _ i hi

theorem renderLine_render_synced (env : Env) (sm : SettingsMap) (colorcnt : Nat)
    (e : RgbEffects) (c : Nat) (s2 : RgbEffects × Nat) (l : Nat)
    (h : renderLine env sm colorcnt 1 (e, c) l = some s2) :
    s2.1.synced_textsize = e.synced_textsize := by
  by_cases hne : lineText sm l = ""
  · rw [renderLine_empty env sm colorcnt 1 (e, c) l hne] at h
    simp only [Option.some.injEq] at h
    rw [← h]
  · unfold lineText at hne
    unfold renderLine at h
    simp only [hne, ne_eq, not_false_eq_true, if_true] at h
    obtain ⟨e2, hr, hs⟩ := Option.map_eq_some'.mp h
    have hsync := RenderTextLine_render_synced _ _ _ _ _ _ _ _ _ _ _ _ _ _ _ hr
    rw [← hs]
    exact hsync

theorem foldl_render_synced (env : Env) (sm : SettingsMap) (colorcnt : Nat)
    (order : List Nat) (s s2 : RgbEffects × Nat)
    (h : order.foldlM (renderLine env sm colorcnt 1) s = some s2) :
    s2.1.synced_textsize = s.1.synced_textsize := by
  induction order generalizing s with
  | nil =>
    simp only [List.foldlM_nil, Option.pure_def, Option.some.injEq] at h
    rw [← h]
  | cons l rest ih =>
    rw [List.foldlM_cons] at h
    obtain ⟨s1, h1, h2⟩ := Option.bind_eq_some.mp h
    rw [ih s1 h2]
    exact renderLine_render_synced env sm colorcnt s.1 s.2 s1 l h1

theorem mergeSynced_x_of_ne (synced b : wxSize) (idx : Nat) (h : idx ≠ 0) :
    (mergeSynced synced idx b).x = max b.x synced.x := by
  simp only [mergeSynced, if_neg h]
  by_cases hx : b.x > synced.x
  · rw [if_pos hx, max_eq_left (le_of_lt hx)]
  · rw [if_neg hx, max_eq_right (by omega)]

theorem syncInv_step (env : Env) (sm : SettingsMap) (colorcnt : Nat) (e : RgbEffects)
    (done : List Nat) (s s1 : RgbEffects × Nat) (l : Nat)
    (hinv : SyncInv env sm e done s.1) (hdone : ∀ k ∈ done, k ≠ 0)
    (hl0 : l ≠ 0) (hl1 : l ≠ 1) (hl : l ∉ done)
    (h : renderLine env sm colorcnt 0 s l = some s1) :
    SyncInv env sm e (done ++ [l]) s1.1 := by
  obtain ⟨hI1, ⟨w, hw, hwne, bw, hbw, hbwx⟩, ⟨hcp, hcs, hft⟩, hI4⟩ := hinv
  by_cases hne : lineText sm l = ""
  · rw [renderLine_empty env sm colorcnt 0 s l hne] at h
    simp only [Option.some.injEq] at h
    rw [← h]
    refine ⟨?_, ⟨w, List.mem_append_left _ hw, hwne, bw, hbw, hbwx⟩, ⟨hcp, hcs, hft⟩, ?_⟩
    · intro k hk hkne
      rcases List.mem_append.mp hk with hk | hk
      · exact hI1 k hk hkne
      · rw [List.mem_singleton] at hk
        rw [hk] at hkne
        exact absurd hne hkne
    · intro i hi
      exact hI4 i (fun k hk => hi k (List.mem_append_left _ hk))
  · obtain ⟨b, hb, hsync, hcp1, hcs1, hft1, htimer⟩ :=
      renderLine_collect env sm colorcnt s.1 s.2 s1 l hne h
    have hidx : ∀ k ∈ done, k - 1 ≠ l - 1 := by
      intro k hk
      have hk0 := hdone k hk
      have hkl : k ≠ l := fun hEq => hl (hEq ▸ hk)
      omega
    have hbox : lineBox env sm e l = some b := by
      rw [← hb]
      unfold lineBox
      exact (measuredBox_congr env
        { s.1 with font := sm.at ("FONTPICKER_Text_Font" ++ toString l) }
        { e with font := sm.at ("FONTPICKER_Text_Font" ++ toString l) }
        (l - 1) _ _ _ _ _ hcp hcs hft (hI4 (l - 1) hidx) rfl).symm
    have hx : s1.1.synced_textsize.x = max b.x s.1.synced_textsize.x := by
      rw [hsync]
      exact mergeSynced_x_of_ne _ _ _ (by omega)
    refine ⟨?_, ?_, ⟨hcp1.trans hcp, hcs1.trans hcs, hft1.trans hft⟩, ?_⟩
    · intro k hk hkne
      rcases List.mem_append.mp hk with hk | hk
      · obtain ⟨bk, hbk, hbkx⟩ := hI1 k hk hkne
        exact ⟨bk, hbk, by rw [hx]; exact le_trans hbkx (le_max_right _ _)⟩
      · rw [List.mem_singleton] at hk
        rw [hk]
        exact ⟨b, hbox, by rw [hx]; exact le_max_left _ _⟩
    · by_cases hcmp : s.1.synced_textsize.x ≤ b.x
      · exact ⟨l, List.mem_append_right _ (List.mem_singleton_self l), hne, b, hbox,
          by rw [hx, max_eq_left hcmp]⟩
      · exact ⟨w, List.mem_append_left _ hw, hwne, bw, hbw,
          by rw [hx, max_eq_right (by omega), hbwx]⟩
    · intro i hi
      have hil : i ≠ l - 1 := fun hEq =>
        hi l (List.mem_append_right _ (List.mem_singleton_self l)) hEq.symm
      rw [htimer i hil]
      exact hI4 i (fun k hk => hi k (List.mem_append_left _ hk))

theorem foldl_collect_inv (env : Env) (sm : SettingsMap) (colorcnt : Nat) (e : RgbEffects)
    (rest : List Nat) (done : List Nat) (s s2 : RgbEffects × Nat)
    (hinv : SyncInv env sm e done s.1) (hdone : ∀ k ∈ done, k ≠ 0)
    (hrest : ∀ l ∈ rest, l ≠ 0 ∧ l ≠ 1 ∧ l ∉ done) (hnd : rest.Nodup)
    (h : rest.foldlM (renderLine env sm colorcnt 0) s = some s2) :
    SyncInv env sm e (done ++ rest) s2.1 := by
  induction rest generalizing s done with
  | nil =>
    simp only [List.foldlM_nil, Option.pure_def, Option.some.injEq] at h
    rw [← h, List.append_nil]
    exact hinv
  | cons l rest ih =>
    rw [List.foldlM_cons] at h
    obtain ⟨s1, h1, h2⟩ := Option.bind_eq_some.mp h
    obtain ⟨hl0, hl1, hl⟩ := hrest l (List.mem_cons_self _ _)
    have hstep := syncInv_step env sm colorcnt e done s s1 l hinv hdone hl0 hl1 hl h1
    have hnd2 := List.nodup_cons.mp hnd
    have := ih (done ++ [l]) s1 hstep
      (by
        intro k hk
        rcases List.mem_append.mp hk with hk | hk
        · exact hdone k hk
        · rw [List.mem_singleton] at hk
          rw [hk]; exact hl0)
      (by
        intro k hk
        obtain ⟨a, b, c⟩ := hrest k (List.mem_cons_of_mem _ hk)
        refine ⟨a, b, ?_⟩
        intro hmem
        rcases List.mem_append.mp hmem with hm | hm
        · exact c hm
        · rw [List.mem_singleton] at hm
          rw [hm] at hk
          exact hnd2.1 hk)
      hnd2.2 h2
    rw [List.append_assoc] at this
    exact this

theorem syncInv_first (env : Env) (sm : SettingsMap) (colorcnt : Nat) (e : RgbEffects) (c : Nat)
    (s1 : RgbEffects × Nat) (hfirst : lineText sm 1 ≠ "")
    (h : renderLine env sm colorcnt 0 (e, c) 1 = some s1) :
    SyncInv env sm e [1] s1.1 := by
  obtain ⟨b, hb, hsync, hcp1, hcs1, hft1, htimer⟩ :=
    renderLine_collect env sm colorcnt e c s1 1 hfirst h
  have hbox : lineBox env sm e 1 = some b := hb
  have hx : s1.1.synced_textsize = b := by
    rw [hsync]
    simp [mergeSynced]
  refine ⟨?_, ⟨1, List.mem_singleton_self 1, hfirst, b, hbox, by rw [hx]⟩,
    ⟨hcp1, hcs1, hft1⟩, ?_⟩
  · intro k hk _
    rw [List.mem_singleton] at hk
    rw [hk]
    exact ⟨b, hbox, by rw [hx]⟩
  · intro i hi
    exact htimer i (fun hEq => hi 1 (List.mem_singleton_self 1) (by omega))

theorem collect_pass_inv (env : Env) (sm : SettingsMap) (colorcnt : Nat) (e e1 : RgbEffects)
    (rest : List Nat) (hfirst : lineText sm 1 ≠ "") (hnd : (1 :: rest).Nodup)
    (hpos : ∀ l ∈ rest, l ≠ 0)
    (hpass : renderPass env sm colorcnt 0 (1 :: rest) e = some e1) :
    SyncInv env sm e (1 :: rest) e1 := by
  unfold renderPass at hpass
  obtain ⟨s2, hfold, hs2⟩ := Option.map_eq_some'.mp hpass
  rw [List.foldlM_cons] at hfold
  obtain ⟨s1, h1, h2⟩ := Option.bind_eq_some.mp hfold
  have hbase := syncInv_first env sm colorcnt e 0 s1 hfirst h1
  have hnd2 := List.nodup_cons.mp hnd
  have := foldl_collect_inv env sm colorcnt e rest [1] s1 s2 hbase
    (by intro k hk; rw [List.mem_singleton] at hk; omega)
    (by
      intro l hl
      refine ⟨hpos l hl, ?_, ?_⟩
      · intro hEq; rw [hEq] at hl; exact hnd2.1 hl
      · intro hmem; rw [List.mem_singleton] at hmem; rw [hmem] at hl; exact hnd2.1 hl)
    hnd2.2 h2
  rw [← hs2]
  exact this

theorem layoutLine_render (env : Env) (e : RgbEffects) (idx : Nat) (msg : String) (dir : Int)
    (center : Bool) (Effect : Int) (state : Int) (startx starty endx endy : Int)
    (isPixelBased : Bool) :
    layoutLine env e idx msg dir center Effect true state startx starty endx endy isPixelBased
      = { e with drawn := (drawLine env e msg (measureText env e.font msg dir Effect)
            (wxSize.mk e.synced_textsize.x (measureText env e.font msg dir Effect).textsize.y)
            dir center state startx starty endx endy isPixelBased) } := by
  simp [layoutLine, syncedBox]

theorem lineBox_drawn (env : Env) (sm : SettingsMap) (e : RgbEffects) (l : Nat)
    (d : List DrawCall) :
    lineBox env sm { e with drawn := d } l = lineBox env sm e l := by
  unfold lineBox
  exact measuredBox_congr env
    { e with drawn := d, font := sm.at ("FONTPICKER_Text_Font" ++ toString l) }
    { e with font := sm.at ("FONTPICKER_Text_Font" ++ toString l) }
    (l - 1) _ _ _ _ _ rfl rfl rfl rfl rfl

theorem RenderText_synced (env : Env) (sm : SettingsMap) (colorcnt : Nat) (e0 e2 : RgbEffects)
    (hfirst : lineText sm 1 ≠ "") (h : RenderText env e0 sm colorcnt = some e2) :
    (∀ l ∈ [1, 2, 3, 4], lineText sm l ≠ "" →
      ∃ b, lineBox env sm e0 l = some b ∧ b.x ≤ e2.synced_textsize.x) ∧
    (∃ l ∈ [1, 2, 3, 4], lineText sm l ≠ "" ∧
      ∃ b, lineBox env sm e0 l = some b ∧ b.x = e2.synced_textsize.x) := by
  unfold RenderText at h
  obtain ⟨e1, h1, h2⟩ := Option.bind_eq_some.mp h
  obtain ⟨hI1, hI2, _, _⟩ := collect_pass_inv env sm colorcnt { e0 with drawn := [] } e1
    [2, 3, 4] hfirst (by decide) (by decide) h1
  unfold renderPass at h2
  obtain ⟨s2, hfold, hs2⟩ := Option.map_eq_some'.mp h2
  have hsync : e2.synced_textsize = e1.synced_textsize := by
    rw [← hs2]
    exact foldl_render_synced env sm colorcnt [1, 2, 3, 4] (e1, 0) s2 hfold
  rw [hsync]
  constructor
  · intro l hl hne
    obtain ⟨b, hb, hbx⟩ := hI1 l hl hne
    exact ⟨b, by rw [← lineBox_drawn env sm e0 l []]; exact hb, hbx⟩
  · obtain ⟨l, hl, hne, b, hb, hbx⟩ := hI2
    exact ⟨l, hl, hne, b, by rw [← lineBox_drawn env sm e0 l []]; exact hb, hbx⟩

/-- C9 (amended). Synchronisation: when the collection pass of one `RenderText`
call processes line 1 first and line 1 is not empty (as `RenderText` does with
the order 1, 2, 3, 4), then whatever the order of the remaining lines, the
synchronised width it leaves is the maximum of the box widths of the non-empty
lines, each measured on its own: no line is wider and one line has exactly
that width. The rendering pass, in any order, leaves `synced_textsize`
unchanged, and every line is laid out with the box made of that width and of
its own measured height. In particular the width left by a whole `RenderText`
call is the maximum of the widths of its non-empty lines. -/
theorem synchronized_width (env : Env) (sm : SettingsMap) (colorcnt : Nat) (e e1 : RgbEffects)
    (rest : List Nat) (hfirst : lineText sm 1 ≠ "") (hnd : (1 :: rest).Nodup)
    (hpos : ∀ l ∈ rest, l ≠ 0)
    (hpass : renderPass env sm colorcnt 0 (1 :: rest) e = some e1) :
    (∀ l ∈ 1 :: rest, lineText sm l ≠ "" →
      ∃ b, lineBox env sm e l = some b ∧ b.x ≤ e1.synced_textsize.x) ∧
    (∃ l ∈ 1 :: rest, lineText sm l ≠ "" ∧
      ∃ b, lineBox env sm e l = some b ∧ b.x = e1.synced_textsize.x) ∧
    (∀ (order : List Nat) (e2 : RgbEffects),
      renderPass env sm colorcnt 1 order e1 = some e2 →
      e2.synced_textsize = e1.synced_textsize) ∧
    (∀ (e3 : RgbEffects) (idx : Nat) (msg : String) (dir : Int) (center : Bool)
      (Effect state startx starty endx endy : Int) (isPixelBased : Bool),
      e3.synced_textsize = e1.synced_textsize →
      layoutLine env e3 idx msg dir center Effect true state startx starty endx endy
          isPixelBased
        = { e3 with drawn := (drawLine env e3 msg (measureText env e3.font msg dir Effect)
              (wxSize.mk e1.synced_textsize.x (measureText env e3.font msg dir Effect).textsize.y)
              dir center state startx starty endx endy isPixelBased) }) ∧
    (∀ (e0 e2 : RgbEffects), RenderText env e0 sm colorcnt = some e2 →
      (∀ l ∈ [1, 2, 3, 4], lineText sm l ≠ "" →
        ∃ b, lineBox env sm e0 l = some b ∧ b.x ≤ e2.synced_textsize.x) ∧
      (∃ l ∈ [1, 2, 3, 4], lineText sm l ≠ "" ∧
        ∃ b, lineBox env sm e0 l = some b ∧ b.x = e2.synced_textsize.x)) := by
  obtain ⟨hI1, hI2, _, _⟩ := collect_pass_inv env sm colorcnt e e1 rest hfirst hnd hpos hpass
  refine ⟨hI1, hI2, ?_, ?_, ?_⟩
  · intro order e2 h2
    unfold renderPass at h2
    obtain ⟨s2, hfold, hs2⟩ := Option.map_eq_some'.mp h2
    rw [← hs2]
    exact foldl_render_synced env sm colorcnt order (e1, 0) s2 hfold
  · intro e3 idx msg dir center Effect state startx starty endx endy isPixelBased hsync
    rw [layoutLine_render, hsync]
  · intro e0 e2 h
    exact RenderText_synced env sm colorcnt e0 e2 hfirst h

/-- Witness of C9: the two sample lines "Hi" and "Hello!", 12 and 36 pixels
wide, collected in the order 1, 2. -/
theorem synchronized_width_witness :
    ∃ l ∈ [1, 2], lineText sampleTwoLines l ≠ "" ∧
      ∃ b, lineBox sampleEnv sampleTwoLines sampleEffect l = some b ∧ b.x = 36 :=
  have hm : (renderPass sampleEnv sampleTwoLines 2 0 [1, 2] sampleEffect).map
      (fun e => e.synced_textsize.x) = some 36 := by
    decide!
  by
    obtain ⟨v, hv, hx⟩ := Option.map_eq_some'.mp hm
    have h := (synchronized_width sampleEnv sampleTwoLines 2 sampleEffect v [2]
      (by decide) (by decide) (by decide) hv).2.1
    rw [hx] at h
    exact h

/-- Counterexample to C9 as stated: when the collection pass processes line 2
("Hello!", 36 pixels wide) before line 1 ("Hi", 12 pixels wide), line 1
overwrites the synchronised size and the width is 12, not the maximum 36;
in the order 1, 2 it is 36. -/
theorem synchronized_width_order :
    lineBox sampleEnv sampleTwoLines sampleEffect 1 = some ⟨12, 8⟩ ∧
    lineBox sampleEnv sampleTwoLines sampleEffect 2 = some ⟨36, 8⟩ ∧
    (renderPass sampleEnv sampleTwoLines 2 0 [2, 1] sampleEffect).map
      (fun e => e.synced_textsize.x) = some 12 ∧
    (renderPass sampleEnv sampleTwoLines 2 0 [1, 2] sampleEffect).map
      (fun e => e.synced_textsize.x) = some 36 ∧
    (renderPass sampleEnv sampleTwoLines 2 0 [2, 1] sampleEffect).map
      (fun e => e.synced_textsize.x) ≠ some (max 12 36) := by
  decide!

/-- C10 (the code at the failing input). With line 1 empty and line 2 "Hi"
(12 pixels wide), `RenderText` never resets `synced_textsize`: entered with the
width 0 it draws "Hi" at x = 32 with the width 12, entered with a width of 100
left by an earlier call it draws the same text at x = 76 and leaves the width
100. -/
theorem synced_size_not_reset :
    lineText sampleSettings 1 = "" ∧
    lineBox sampleEnv sampleSettings sampleEffect 2 = some ⟨12, 8⟩ ∧
    (RenderText sampleEnv sampleEffect sampleSettings 1).map
      (fun e => (e.drawn, e.synced_textsize))
      = some ([⟨"", 0, "Hi", 32, 4, none⟩], ⟨12, 8⟩) ∧
    (RenderText sampleEnv { sampleEffect with synced_textsize := ⟨100, 0⟩ } sampleSettings 1).map
      (fun e => (e.drawn, e.synced_textsize))
      = some ([⟨"", 0, "Hi", 76, 4, none⟩], ⟨100, 8⟩) := by
  decide!

/-! ## Free-format extraction -/

theorem truncateAtFirst_append (d : Char) (date fmt : List Char) (hd : d ∉ date) :
    truncateAtFirst d (date ++ d :: fmt) = date := by
  induction date with
  | nil => simp [truncateAtFirst]
  | cons c cs ih =>
    have hc : c ≠ d := fun hEq => hd (by rw [hEq]; exact List.mem_cons_self _ _)
    have hcs : d ∉ cs := fun hmem => hd (List.mem_cons_of_mem _ hmem)
    simp [truncateAtFirst, hc, ih hcs]

theorem afterFirst_append (d : Char) (date fmt : List Char) (hd : d ∉ date) :
    afterFirst d (date ++ d :: fmt) = fmt := by
  induction date with
  | nil => simp [afterFirst]
  | cons c cs ih =>
    have hc : c ≠ d := fun hEq => hd (by rw [hEq]; exact List.mem_cons_self _ _)
    have hcs : d ∉ cs := fun hmem => hd (List.mem_cons_of_mem _ hmem)
    simp [afterFirst, hc, ih hcs]

theorem freeFormatSplit_delimited (d : Char) (date fmt : List Char) (hd : d ∉ date)
    (hlen : 4 ≤ (d :: (date ++ d :: fmt)).length) :
    freeFormatSplit (String.mk (d :: (date ++ d :: fmt))) = (String.mk date, String.mk fmt) := by
  have hge : (String.mk (d :: (date ++ d :: fmt))).data.length ≥ 4 := hlen
  simp only [freeFormatSplit, if_pos hge, truncateAtFirst_append d date fmt hd,
    afterFirst_append d date fmt hd]

/-- C11. Free-format extraction: for every template of length at least 4 of the
form `d ++ date ++ d ++ fmt`, where `d` is one character that does not occur
in `date`, the free-format case leaves exactly `date` in `Line` as the date
string to parse (on a tick frame the cached value is the one parsed from
`date`) and takes exactly `fmt`, everything after the second `d`, as the
format string handed to `Format`; so `d ++ date ++ d ++ fmt` rebuilt from the
extracted parts is the template. -/
theorem free_format_extraction (env : Env) (e : RgbEffects) (idx : Nat) (state : Int)
    (d : Char) (date fmt : List Char) (hd : d ∉ date)
    (hlen : 4 ≤ (d :: (date ++ d :: fmt)).length) :
    freeFormatSplit (String.mk (d :: (date ++ d :: fmt))) = (String.mk date, String.mk fmt) ∧
    (resolveText env e idx (String.mk (d :: (date ++ d :: fmt))) COUNTDOWN_FREEFMT state).Line
      = String.mk date ∧
    (state.tmod 20 = 0 →
      (resolveText env e idx (String.mk (d :: (date ++ d :: fmt))) COUNTDOWN_FREEFMT
          state).timer_countdown idx = parseRemaining env (String.mk date) ∧
      (resolveText env e idx (String.mk (d :: (date ++ d :: fmt))) COUNTDOWN_FREEFMT
          state).msg
        = formatRemaining env COUNTDOWN_FREEFMT (parseRemaining env (String.mk date))
            (parseSpan env (String.mk date)) (String.mk fmt)) ∧
    (∀ r : Int, r ≠ 0 → ∀ ts : Int,
      formatRemaining env COUNTDOWN_FREEFMT r ts
          (freeFormatSplit (String.mk (d :: (date ++ d :: fmt)))).2
        = env.Format ts (String.mk fmt)) ∧
    String.mk (d :: ((freeFormatSplit (String.mk (d :: (date ++ d :: fmt)))).1.data
        ++ d :: (freeFormatSplit (String.mk (d :: (date ++ d :: fmt)))).2.data))
      = String.mk (d :: (date ++ d :: fmt)) := by
  have hsplit := freeFormatSplit_delimited d date fmt hd hlen
  refine ⟨hsplit, ?_, ?_, ?_, ?_⟩
  · simp [resolveText, COUNTDOWN_FREEFMT, COUNTDOWN_SECONDS, hsplit]
    split <;> rfl
  · intro hs
    have h := resolveText_date_tick env e idx (String.mk (d :: (date ++ d :: fmt)))
      COUNTDOWN_FREEFMT state (by simp) hs
    simp only [if_true, hsplit] at h
    exact h
  · intro r hr ts
    rw [hsplit]
    have h1 : COUNTDOWN_FREEFMT ≠ COUNTDOWN_D_H_M_S := by decide
    have h2 : COUNTDOWN_FREEFMT ≠ COUNTDOWN_H_M_S := by decide
    have h3 : COUNTDOWN_FREEFMT ≠ COUNTDOWN_S := by decide
    simp only [formatRemaining, if_neg hr, if_neg h1, if_neg h2, if_neg h3, if_true]
  · rw [hsplit]

/-- Witness of C11: the delimiter is an exclamation mark. -/
theorem free_format_extraction_witness :
    freeFormatSplit (String.mk ('!' :: ("Sat, 18 Dec 1999 00:48:30 +0100".data ++ '!' :: "%H:%M".data)))
      = (String.mk "Sat, 18 Dec 1999 00:48:30 +0100".data, String.mk "%H:%M".data) :=
  (free_format_extraction sampleEnv sampleEffect 0 0 '!'
    "Sat, 18 Dec 1999 00:48:30 +0100".data "%H:%M".data (by decide) (by decide)).1

/-! ## Date countdown: the cached value -/

theorem parseRemaining_clamp (env : Env) (Line : String) (dt : Int)
    (h : env.ParseRfc822Date Line = some dt) :
    parseRemaining env Line = min (max ((dt - env.Now).tdiv 1000) 0) LONG_MAX := by
  simp only [parseRemaining, h]
  unfold toLong LONG_MAX
  by_cases h1 : (dt - env.Now).tdiv 1000 > 9223372036854775807
  · rw [if_pos h1, if_neg (by omega)]
    omega
  · rw [if_neg h1]
    by_cases h2 : (dt - env.Now).tdiv 1000 < 0
    · rw [if_pos h2]; omega
    · rw [if_neg h2]; omega

theorem parseRemaining_range (env : Env) (Line : String) :
    0 ≤ parseRemaining env Line ∧ parseRemaining env Line ≤ LONG_MAX := by
  cases h : env.ParseRfc822Date Line with
  | none => simp [parseRemaining, h, LONG_MAX]
  | some dt =>
    rw [parseRemaining_clamp env Line dt h]
    unfold LONG_MAX
    omega

theorem resolveText_cached_env (env env2 : Env) (e : RgbEffects) (idx : Nat) (Line : String)
    (Countdown state : Int)
    (hmode : Countdown = COUNTDOWN_D_H_M_S ∨ Countdown = COUNTDOWN_H_M_S
      ∨ Countdown = COUNTDOWN_M_or_S ∨ Countdown = COUNTDOWN_S ∨ Countdown = COUNTDOWN_FREEFMT)
    (hstate : state.tmod 20 ≠ 0) (hfmt : env2.Format = env.Format) :
    (resolveText env2 e idx Line Countdown state).msg
      = (resolveText env e idx Line Countdown state).msg := by
  rw [(resolveText_date_cached env2 e idx Line Countdown state hmode hstate).2,
    (resolveText_date_cached env e idx Line Countdown state hmode hstate).2]
  simp only [formatRemaining, hfmt]

/-- C12. Date-countdown tick and clamp: in a date-based mode, on a frame with
`state % 20 == 0` the cached `timer_countdown[idx]` is overwritten with
`min(max(date - now, 0), LONG_MAX)` in whole seconds when the date string
parses and with 0 when it does not, a value in `[0, LONG_MAX]`; on a frame with
`state % 20 != 0` the cache is left unchanged and the message is formatted from
the cached value alone: it is the same for every clock and every date parser. -/
theorem date_countdown_tick (env : Env) (e : RgbEffects) (idx : Nat) (Line : String)
    (Countdown state : Int)
    (hmode : Countdown = COUNTDOWN_D_H_M_S ∨ Countdown = COUNTDOWN_H_M_S
      ∨ Countdown = COUNTDOWN_M_or_S ∨ Countdown = COUNTDOWN_S ∨ Countdown = COUNTDOWN_FREEFMT) :
    (state.tmod 20 = 0 →
      (∀ dt : Int, env.ParseRfc822Date
          (if Countdown = COUNTDOWN_FREEFMT then (freeFormatSplit Line).1 else Line) = some dt →
        (resolveText env e idx Line Countdown state).timer_countdown idx
          = min (max ((dt - env.Now).tdiv 1000) 0) LONG_MAX) ∧
      (env.ParseRfc822Date
          (if Countdown = COUNTDOWN_FREEFMT then (freeFormatSplit Line).1 else Line) = none →
        (resolveText env e idx Line Countdown state).timer_countdown idx = 0) ∧
      0 ≤ (resolveText env e idx Line Countdown state).timer_countdown idx ∧
      (resolveText env e idx Line Countdown state).timer_countdown idx ≤ LONG_MAX) ∧
    (state.tmod 20 ≠ 0 →
      (resolveText env e idx Line Countdown state).timer_countdown = e.timer_countdown ∧
      (resolveText env e idx Line Countdown state).msg
        = formatRemaining env Countdown (e.timer_countdown idx)
            (toLong (e.timer_countdown idx * 1000))
            (if Countdown = COUNTDOWN_FREEFMT then (freeFormatSplit Line).2 else "") ∧
      (∀ env2 : Env, env2.Format = env.Format →
        (resolveText env2 e idx Line Countdown state).msg
          = (resolveText env e idx Line Countdown state).msg)) := by
  constructor
  · intro hs
    have ht := (resolveText_date_tick env e idx Line Countdown state hmode hs).1
    rw [ht]
    refine ⟨fun dt hdt => parseRemaining_clamp env _ dt hdt,
      fun hnone => parseRemaining_of_parse_none env _ hnone,
      (parseRemaining_range env _).1, (parseRemaining_range env _).2⟩
  · intro hs
    obtain ⟨h1, h2⟩ := resolveText_date_cached env e idx Line Countdown state hmode hs
    exact ⟨h1, h2, fun env2 hfmt =>
      resolveText_cached_env env env2 e idx Line Countdown state hmode hs hfmt⟩

/-- Witness of C12: mode S on the first frame of the sample effect. -/
theorem date_countdown_tick_witness :
    0 ≤ (resolveText sampleEnv sampleEffect 0 "tomorrow" COUNTDOWN_S 0).timer_countdown 0 ∧
    (resolveText sampleEnv sampleEffect 0 "tomorrow" COUNTDOWN_S 0).timer_countdown 0
      ≤ LONG_MAX :=
  ((date_countdown_tick sampleEnv sampleEffect 0 "tomorrow" COUNTDOWN_S 0
    (by decide)).1 (by decide)).2.2

/-! ## Effect-time state -/

theorem effectState_exact (e : RgbEffects) (tspeed : Int) (ht : 0 ≤ tspeed)
    (hf : 0 ≤ e.frameTimeInMs) (h0 : e.curEffStartPer ≤ e.curPeriod)
    (hk : e.curPeriod - e.curEffStartPer ≤ INT_MAX)
    (hkt : (e.curPeriod - e.curEffStartPer) * tspeed ≤ INT_MAX)
    (hktf : (e.curPeriod - e.curEffStartPer) * tspeed * e.frameTimeInMs ≤ INT_MAX) :
    effectState e tspeed
      = ((e.curPeriod - e.curEffStartPer) * tspeed * e.frameTimeInMs) / 50 := by
  unfold INT_MAX at hk hkt hktf
  have hk0 : 0 ≤ e.curPeriod - e.curEffStartPer := by omega
  have hkt0 : 0 ≤ (e.curPeriod - e.curEffStartPer) * tspeed := mul_nonneg hk0 ht
  have hktf0 : 0 ≤ (e.curPeriod - e.curEffStartPer) * tspeed * e.frameTimeInMs :=
    mul_nonneg hkt0 hf
  have ha : toInt (e.curPeriod - e.curEffStartPer) = e.curPeriod - e.curEffStartPer := by
    unfold toInt; omega
  have hb : toInt ((e.curPeriod - e.curEffStartPer) * tspeed)
      = (e.curPeriod - e.curEffStartPer) * tspeed := by
    unfold toInt; omega
  have hc : toInt ((e.curPeriod - e.curEffStartPer) * tspeed * e.frameTimeInMs)
      = (e.curPeriod - e.curEffStartPer) * tspeed * e.frameTimeInMs := by
    unfold toInt; omega
  simp only [effectState, ha, hb, hc]
  exact tdiv_of_nonneg _ _ hktf0 (by norm_num)

theorem effectState_at_start (e : RgbEffects) (tspeed : Int)
    (h : e.curPeriod = e.curEffStartPer) : effectState e tspeed = 0 := by
  simp [effectState, h, toInt]

/-- C20. Effect-time state: `state` is 0 on the frame where
`curPeriod == curEffStartPer`, and for a fixed speed `tspeed >= 0`, frame time
`>= 0` and start period it does not decrease when `curPeriod` grows from the
start period on, as long as no product overflows an `int`; there it is the
truncated quotient `(curPeriod - curEffStartPer) * tspeed * frameTimeInMs / 50`. -/
theorem effect_state_monotone (e1 e2 : RgbEffects) (tspeed : Int)
    (hstart : e1.curEffStartPer = e2.curEffStartPer)
    (hframe : e1.frameTimeInMs = e2.frameTimeInMs)
    (ht : 0 ≤ tspeed) (hf : 0 ≤ e2.frameTimeInMs)
    (h1 : e1.curEffStartPer ≤ e1.curPeriod) (h12 : e1.curPeriod ≤ e2.curPeriod)
    (hk : e2.curPeriod - e2.curEffStartPer ≤ INT_MAX)
    (hkt : (e2.curPeriod - e2.curEffStartPer) * tspeed ≤ INT_MAX)
    (hktf : (e2.curPeriod - e2.curEffStartPer) * tspeed * e2.frameTimeInMs ≤ INT_MAX) :
    effectState e1 tspeed ≤ effectState e2 tspeed ∧
    effectState e2 tspeed
      = ((e2.curPeriod - e2.curEffStartPer) * tspeed * e2.frameTimeInMs) / 50 ∧
    (∀ e : RgbEffects, e.curPeriod = e.curEffStartPer → effectState e tspeed = 0) := by
  have hk1 : e1.curPeriod - e1.curEffStartPer ≤ e2.curPeriod - e2.curEffStartPer := by omega
  have hk10 : 0 ≤ e1.curPeriod - e1.curEffStartPer := by omega
  have hkt1 : (e1.curPeriod - e1.curEffStartPer) * tspeed
      ≤ (e2.curPeriod - e2.curEffStartPer) * tspeed :=
    mul_le_mul_of_nonneg_right hk1 ht
  have hktf1 : (e1.curPeriod - e1.curEffStartPer) * tspeed * e1.frameTimeInMs
      ≤ (e2.curPeriod - e2.curEffStartPer) * tspeed * e2.frameTimeInMs := by
    rw [hframe]
    exact mul_le_mul_of_nonneg_right hkt1 hf
  have hx1 := effectState_exact e1 tspeed ht (by rw [hframe]; exact hf) h1
    (le_trans hk1 hk) (le_trans hkt1 hkt) (le_trans hktf1 hktf)
  have hx2 := effectState_exact e2 tspeed ht hf (by omega) hk hkt hktf
  refine ⟨?_, hx2, fun e h => effectState_at_start e tspeed h⟩
  rw [hx1, hx2]
  exact Int.ediv_le_ediv (by norm_num) hktf1

/-- Witness of C20: frames 3 and 7 of the sample effect at speed 10. -/
theorem effect_state_monotone_witness :
    effectState (frameAt sampleEffect 3) 10 ≤ effectState (frameAt sampleEffect 7) 10 :=
  (effect_state_monotone (frameAt sampleEffect 3) (frameAt sampleEffect 7) 10
    rfl rfl (by decide) (by decide) (by decide) (by decide) (by decide) (by decide)
    (by decide)).1

/-! ## Divisors of the position computation -/

theorem positionDivisors_subset (e : RgbEffects) (m : TextMetrics) (textsize : wxSize)
    (dir : Int) (center : Bool) :
    ∀ d ∈ positionDivisors e m textsize dir center,
      d = xlimit e textsize ∨ d = ylimit e textsize ∨ d = totheight e textsize := by
  intro d hd
  unfold positionDivisors at hd
  cases center <;> simp only [Bool.false_eq_true, if_false, if_true] at hd <;>
    split_ifs at hd <;> simp at hd <;> tauto

theorem limits_pos (e : RgbEffects) (textsize : wxSize) (hW : 1 ≤ e.BufferWi)
    (hH : 1 ≤ e.BufferHt) (hx : 0 ≤ textsize.x) (hy : 0 ≤ textsize.y) :
    0 < xlimit e textsize ∧ 0 < ylimit e textsize ∧ 0 < totheight e textsize := by
  unfold xlimit ylimit totheight
  omega

/-- C17. No division by zero in the position computation: for every buffer
with `BufferWi >= 1` and `BufferHt >= 1` and every text box with width and
height `>= 0`, `xlimit`, `ylimit` and `totheight` are strictly positive; every
divisor of a `/` or `%` of the position computation other than a constant is one
of the three, for every direction, centre flag and rotation, so none is zero
and the checked computation always yields the draw calls; the three values are
non-zero even when the `int` additions and multiplications wrap around. -/
theorem position_divisors_nonzero (e : RgbEffects) (m : TextMetrics) (textsize : wxSize)
    (hW : 1 ≤ e.BufferWi) (hH : 1 ≤ e.BufferHt) (hx : 0 ≤ textsize.x) (hy : 0 ≤ textsize.y) :
    0 < xlimit e textsize ∧ 0 < ylimit e textsize ∧ 0 < totheight e textsize ∧
    (∀ (dir : Int) (center : Bool),
      (∀ d ∈ positionDivisors e m textsize dir center,
        d = xlimit e textsize ∨ d = ylimit e textsize ∨ d = totheight e textsize) ∧
      0 ∉ positionDivisors e m textsize dir center) ∧
    (∀ (env : Env) (msg : String) (dir : Int) (center : Bool)
      (state startx starty endx endy : Int) (isPixelBased : Bool),
      drawLineChecked env e msg m textsize dir center state startx starty endx endy
          isPixelBased
        = some (drawLine env e msg m textsize dir center state startx starty endx endy
            isPixelBased)) ∧
    (e.BufferWi ≤ INT_MAX → e.BufferHt ≤ INT_MAX → textsize.x ≤ INT_MAX →
      textsize.y ≤ INT_MAX →
      toInt (toInt (toInt (e.BufferWi + textsize.x) * 8) + 1) ≠ 0 ∧
      toInt (toInt (toInt (e.BufferHt + textsize.y) * 8) + 1) ≠ 0 ∧
      toInt (e.BufferHt + textsize.y) ≠ 0) := by
  obtain ⟨h1, h2, h3⟩ := limits_pos e textsize hW hH hx hy
  have hnot : ∀ (dir : Int) (center : Bool), 0 ∉ positionDivisors e m textsize dir center := by
    intro dir center hmem
    rcases positionDivisors_subset e m textsize dir center 0 hmem with h | h | h <;> omega
  refine ⟨h1, h2, h3, fun dir center => ⟨positionDivisors_subset e m textsize dir center,
    hnot dir center⟩, ?_, ?_⟩
  · intro env msg dir center state startx starty endx endy isPixelBased
    simp only [drawLineChecked, if_neg (hnot dir center)]
  · intro a b c d
    unfold INT_MAX at a b c d
    unfold toInt
    omega

/-- Witness of C17: the sample buffer, 32 by 16, and a box of 12 by 8. -/
theorem position_divisors_nonzero_witness :
    0 < xlimit sampleEffect ⟨12, 8⟩ ∧ 0 < ylimit sampleEffect ⟨12, 8⟩
      ∧ 0 < totheight sampleEffect ⟨12, 8⟩ :=
  have h := position_divisors_nonzero sampleEffect sampleMetrics ⟨12, 8⟩
    (by decide) (by decide) (by decide) (by decide)
  ⟨h.1, h.2.1, h.2.2.1⟩

/-! ## Static text and the vector direction -/

theorem drawLine_none (env : Env) (e : RgbEffects) (msg : String) (m : TextMetrics)
    (textsize : wxSize) (center : Bool) (state startx starty endx endy : Int)
    (isPixelBased : Bool) (hrot : m.TextRotation = 0) :
    drawLine env e msg m textsize TEXTDIR_NONE center state startx starty endx endy
        isPixelBased
      = DrawLabel env e.font e.colour e.drawn msg
          ⟨0, OffsetTop e starty isPixelBased, e.BufferWi, e.BufferHt⟩
          (wxALIGN_CENTER_HORIZONTAL ||| wxALIGN_CENTER_VERTICAL) := by
  simp [drawLine, hrot, OffsetTop, TEXTDIR_NONE, TEXTDIR_VECTOR, TEXTDIR_LEFT, TEXTDIR_RIGHT,
    TEXTDIR_UP, TEXTDIR_DOWN, TEXTDIR_UPLEFT, TEXTDIR_DOWNLEFT, TEXTDIR_UPRIGHT,
    TEXTDIR_DOWNRIGHT, TEXTDIR_WAVEY_LRUPDOWN]

/-- C19 (amended). NONE direction (unrotated text): the rectangle offset is
`(0, OffsetTop)`: only the vertical start offset computed from `startY` is
applied, the horizontal one is 0 whatever `startX` is; the draw calls are the
same for every value of `state`, of the centre flag and of `startX`. -/
theorem none_direction_offset (env : Env) (e : RgbEffects) (msg : String) (m : TextMetrics)
    (textsize : wxSize) (center : Bool) (state startx starty endx endy : Int)
    (isPixelBased : Bool) (hrot : m.TextRotation = 0) :
    drawLine env e msg m textsize TEXTDIR_NONE center state startx starty endx endy
        isPixelBased
      = DrawLabel env e.font e.colour e.drawn msg
          ⟨0, OffsetTop e starty isPixelBased, e.BufferWi, e.BufferHt⟩
          (wxALIGN_CENTER_HORIZONTAL ||| wxALIGN_CENTER_VERTICAL) ∧
    (∀ (center2 : Bool) (state2 startx2 : Int),
      drawLine env e msg m textsize TEXTDIR_NONE center2 state2 startx2 starty endx endy
          isPixelBased
        = drawLine env e msg m textsize TEXTDIR_NONE center state startx starty endx endy
            isPixelBased) := by
  refine ⟨drawLine_none env e msg m textsize center state startx starty endx endy
    isPixelBased hrot, ?_⟩
  intro center2 state2 startx2
  rw [drawLine_none env e msg m textsize center2 state2 startx2 starty endx endy
      isPixelBased hrot,
    drawLine_none env e msg m textsize center state startx starty endx endy
      isPixelBased hrot]

/-- Witness of C19: the sample text "Hi", not rotated. -/
theorem none_direction_offset_witness :
    drawLine sampleEnv sampleEffect "Hi" sampleMetrics ⟨12, 8⟩ TEXTDIR_NONE false 0 50 0 0 0
        false
      = DrawLabel sampleEnv sampleEffect.font sampleEffect.colour sampleEffect.drawn "Hi"
          ⟨0, OffsetTop sampleEffect 0 false, sampleEffect.BufferWi, sampleEffect.BufferHt⟩
          (wxALIGN_CENTER_HORIZONTAL ||| wxALIGN_CENTER_VERTICAL) :=
  (none_direction_offset sampleEnv sampleEffect "Hi" sampleMetrics ⟨12, 8⟩ false 0 50 0 0 0
    false (by decide)).1

/-- Counterexample to C19 as stated: with `startX` = 50 percent of a buffer 32
wide, `OffsetLeft` is 16, but static text is laid out in the rectangle at
offset (0, 0): "Hi" is drawn at x = 10, where `startX` = 0 puts it, not at
x = 26. -/
theorem none_direction_ignores_startx :
    OffsetLeft sampleEffect 50 false = 16 ∧
    OffsetTop sampleEffect 0 false = 0 ∧
    drawLine sampleEnv sampleEffect "Hi" sampleMetrics ⟨12, 8⟩ TEXTDIR_NONE false 0 50 0 0 0
        false
      = DrawLabel sampleEnv "" 0 [] "Hi" ⟨0, 0, 32, 16⟩
          (wxALIGN_CENTER_HORIZONTAL ||| wxALIGN_CENTER_VERTICAL) ∧
    drawLine sampleEnv sampleEffect "Hi" sampleMetrics ⟨12, 8⟩ TEXTDIR_NONE false 0 50 0 0 0
        false = [⟨"", 0, "Hi", 10, 4, none⟩] ∧
    DrawLabel sampleEnv "" 0 [] "Hi" ⟨16, 0, 32, 16⟩
          (wxALIGN_CENTER_HORIZONTAL ||| wxALIGN_CENTER_VERTICAL)
      = [⟨"", 0, "Hi", 26, 4, none⟩] ∧
    drawLine sampleEnv sampleEffect "Hi" sampleMetrics ⟨12, 8⟩ TEXTDIR_NONE false 0 50 0 0 0
        false
      ≠ DrawLabel sampleEnv "" 0 [] "Hi"
          ⟨OffsetLeft sampleEffect 50 false, OffsetTop sampleEffect 0 false, 32, 16⟩
          (wxALIGN_CENTER_HORIZONTAL ||| wxALIGN_CENTER_VERTICAL) := by
  decide!

theorem grid_nodup {α : Type} (n k : Nat) (f : Nat → Nat → α)
    (hinj : ∀ a b a2 b2, f a b = f a2 b2 → a = a2 ∧ b = b2) :
    ((List.range n).flatMap (fun a => (List.range k).map (f a))).Nodup := by
  rw [List.nodup_flatMap]
  constructor
  · intro a _
    exact (List.nodup_range k).map (fun b b2 h => (hinj a b a b2 h).2)
  · refine (List.nodup_range n).pairwise_of_forall_ne ?_
    intro a _ a2 _ hne
    simp only [Function.onFun]
    rw [List.disjoint_left]
    intro p hp hp2
    rw [List.mem_map] at hp hp2
    obtain ⟨b, _, rfl⟩ := hp
    obtain ⟨b2, _, h⟩ := hp2
    exact hne (hinj a2 b2 a b h).1.symm

theorem count_one_of_nodup {α : Type} [BEq α] [LawfulBEq α] (a : α) :
    ∀ l : List α, l.Nodup → a ∈ l → l.count a = 1 := by
  intro l
  induction l with
  | nil => intro _ h; cases h
  | cons b t ih =>
    intro hnd hmem
    rw [List.nodup_cons] at hnd
    rw [List.count_cons]
    by_cases hab : b = a
    · subst hab
      rw [List.count_eq_zero_of_not_mem hnd.1]
      simp
    · have hne : (b == a) = false := by simpa using hab
      rw [hne]
      rcases List.mem_cons.mp hmem with h | h
      · exact absurd h.symm hab
      · simpa using ih hnd.2 h

theorem sweep_eq (cond : Int → Bool) (step : Int) (body : FillState → Int → FillState) :
    ∀ (n : Nat) (v : Int) (s : FillState) (fuel : Nat),
      (∀ i : Nat, i < n → cond (v + step * (i : Int)) = true) →
      cond (v + step * (n : Int)) = false → n ≤ fuel →
      sweep cond step body fuel v s
        = some ((List.range n).foldl (fun s (i : Nat) => body s (v + step * (i : Int))) s) := by
  intro n
  induction n with
  | zero =>
    intro v s fuel _ hout _
    have hv : cond v = false := by simpa using hout
    cases fuel <;> simp [sweep, hv]
  | succ n ih =>
    intro v s fuel hin hout hf
    have hv : cond v = true := by simpa using hin 0 (Nat.succ_pos n)
    obtain ⟨f, rfl⟩ : ∃ f, fuel = f + 1 := ⟨fuel - 1, by omega⟩
    have e1 : ∀ i : Nat, v + step + step * (i : Int) = v + step * ((i + 1 : Nat) : Int) := by
      intro i; push_cast; ring
    simp only [sweep, hv, if_true]
    rw [ih (v + step) (body s v) f
      (fun i hi => by rw [e1]; exact hin (i + 1) (by omega))
      (by rw [e1]; exact hout) (by omega)]
    rw [List.range_succ_eq_map, List.foldl_cons, List.foldl_map]
    simp only [e1, Nat.cast_zero, mul_zero, add_zero, Nat.succ_eq_add_one]

theorem sweep_lt_eq (c : ℚ) (body : FillState → Int → FillState) (v : Int) (s : FillState)
    (fuel : Nat) (hf : (⌈c⌉ - v).toNat ≤ fuel) :
    sweep (fun y => decide ((y : ℚ) < c)) 1 body fuel v s
      = some ((List.range (⌈c⌉ - v).toNat).foldl
          (fun s (i : Nat) => body s (v + 1 * (i : Int))) s) := by
  apply sweep_eq _ _ _ _ _ _ _ _ _ hf
  · intro i hi
    simp only [decide_eq_true_eq]
    have : v + 1 * (i : Int) < ⌈c⌉ := by omega
    exact Int.lt_ceil.mp this
  · simp only [decide_eq_false_iff_not, not_lt]
    have : ⌈c⌉ ≤ v + 1 * (((⌈c⌉ - v).toNat : Nat) : Int) := by omega
    exact Int.ceil_le.mp this

theorem sweep_ge_eq (c : ℚ) (body : FillState → Int → FillState) (v : Int) (s : FillState)
    (fuel : Nat) (hf : (v - ⌈c⌉ + 1).toNat ≤ fuel) :
    sweep (fun y => decide ((y : ℚ) ≥ c)) (-1) body fuel v s
      = some ((List.range (v - ⌈c⌉ + 1).toNat).foldl
          (fun s (i : Nat) => body s (v + (-1) * (i : Int))) s) := by
  apply sweep_eq _ _ _ _ _ _ _ _ _ hf
  · intro i hi
    simp only [decide_eq_true_eq, ge_iff_le]
    have : ⌈c⌉ ≤ v + (-1) * (i : Int) := by omega
    exact Int.ceil_le.mp this
  · simp only [decide_eq_false_iff_not, ge_iff_le, not_le]
    have : v + (-1) * (((v - ⌈c⌉ + 1).toNat : Nat) : Int) < ⌈c⌉ := by omega
    exact Int.lt_ceil.mp this

theorem fillUp_eq (a : FillArgs) (fuel : Nat) (offset0 : Int) (s : FillState)
    (hf : forwardCount a a.BufferHt (offset0.tmod a.BufferHt) ≤ fuel) :
    fillUp a fuel offset0 s
      = some ((List.range (forwardCount a a.BufferHt (offset0.tmod a.BufferHt))).foldl
          (fun s (i : Nat) =>
            fillLine a s
              (positionColor a (offset0.tmod a.BufferHt + 1 * (i : Int))
                (a.BufferHt + offset0.tmod a.BufferHt - 1) false)
              (rowWrites a.BufferWi
                (if offset0.tmod a.BufferHt + 1 * (i : Int) ≥ a.BufferHt
                  then offset0.tmod a.BufferHt + 1 * (i : Int) - a.BufferHt
                  else offset0.tmod a.BufferHt + 1 * (i : Int)))) s) := by
  unfold fillUp
  simp only []
  rw [sweep_lt_eq _ _ _ _ fuel hf]
  rfl

theorem fillRight_eq (a : FillArgs) (fuel : Nat) (offset0 : Int) (s : FillState)
    (hf : forwardCount a a.BufferWi (offset0.tmod a.BufferWi) ≤ fuel) :
    fillRight a fuel offset0 s
      = some ((List.range (forwardCount a a.BufferWi (offset0.tmod a.BufferWi))).foldl
          (fun s (i : Nat) =>
            fillLine a s
              (positionColor a (offset0.tmod a.BufferWi + 1 * (i : Int))
                (a.BufferWi + offset0.tmod a.BufferWi - 1) false)
              (columnWrites a.BufferHt
                (if offset0.tmod a.BufferWi + 1 * (i : Int) ≥ a.BufferWi
                  then offset0.tmod a.BufferWi + 1 * (i : Int) - a.BufferWi
                  else offset0.tmod a.BufferWi + 1 * (i : Int)))) s) := by
  unfold fillRight
  simp only []
  rw [sweep_lt_eq _ _ _ _ fuel hf]
  rfl

theorem fillDown_eq (a : FillArgs) (fuel : Nat) (offset0 : Int) (s : FillState)
    (hf : backwardCount a a.BufferHt (offset0.tmod a.BufferHt) ≤ fuel) :
    fillDown a fuel offset0 s
      = some ((List.range (backwardCount a a.BufferHt (offset0.tmod a.BufferHt))).foldl
          (fun s (i : Nat) =>
            fillLine a s
              (positionColor a (a.BufferHt - 1 - offset0.tmod a.BufferHt + (-1) * (i : Int))
                (a.BufferHt + offset0.tmod a.BufferHt - 1) true)
              (rowWrites a.BufferWi
                (if a.BufferHt - 1 - offset0.tmod a.BufferHt + (-1) * (i : Int) < 0
                  then a.BufferHt - 1 - offset0.tmod a.BufferHt + (-1) * (i : Int) + a.BufferHt
                  else a.BufferHt - 1 - offset0.tmod a.BufferHt + (-1) * (i : Int)))) s) := by
  unfold fillDown
  simp only []
  rw [sweep_ge_eq _ _ _ _ fuel hf]
  rfl

theorem fillLeft_eq (a : FillArgs) (fuel : Nat) (offset0 : Int) (s : FillState)
    (hf : backwardCount a a.BufferWi (offset0.tmod a.BufferWi) ≤ fuel) :
    fillLeft a fuel offset0 s
      = some ((List.range (backwardCount a a.BufferWi (offset0.tmod a.BufferWi))).foldl
          (fun s (i : Nat) =>
            fillLine a s
              (positionColor a (a.BufferWi - 1 - offset0.tmod a.BufferWi + (-1) * (i : Int))
                (a.BufferWi + offset0.tmod a.BufferWi - 1) true)
              (columnWrites a.BufferHt
                (if a.BufferWi - 1 - offset0.tmod a.BufferWi + (-1) * (i : Int) < 0
                  then a.BufferWi - 1 - offset0.tmod a.BufferWi + (-1) * (i : Int) + a.BufferWi
                  else a.BufferWi - 1 - offset0.tmod a.BufferWi + (-1) * (i : Int)))) s) := by
  unfold fillLeft
  simp only []
  rw [sweep_ge_eq _ _ _ _ fuel hf]
  rfl

theorem fillUp_total (a : FillArgs) (offset0 : Int) (s : FillState) :
    ∃ (n : Nat) (r : FillState), ∀ fuel, n ≤ fuel → fillUp a fuel offset0 s = some r :=
  ⟨_, _, fun fuel hf => fillUp_eq a fuel offset0 s hf⟩

theorem fillRight_total (a : FillArgs) (offset0 : Int) (s : FillState) :
    ∃ (n : Nat) (r : FillState), ∀ fuel, n ≤ fuel → fillRight a fuel offset0 s = some r :=
  ⟨_, _, fun fuel hf => fillRight_eq a fuel offset0 s hf⟩

theorem fillDown_total (a : FillArgs) (offset0 : Int) (s : FillState) :
    ∃ (n : Nat) (r : FillState), ∀ fuel, n ≤ fuel → fillDown a fuel offset0 s = some r :=
  ⟨_, _, fun fuel hf => fillDown_eq a fuel offset0 s hf⟩

theorem fillLeft_total (a : FillArgs) (offset0 : Int) (s : FillState) :
    ∃ (n : Nat) (r : FillState), ∀ fuel, n ≤ fuel → fillLeft a fuel offset0 s = some r :=
  ⟨_, _, fun fuel hf => fillLeft_eq a fuel offset0 s hf⟩

/-- The render returns for every argument, given enough fuel, and its result
does not depend on the fuel. -/
theorem Render_total (a : FillArgs) :
    ∃ (n : Nat) (t : List SetPixelCall), ∀ fuel, n ≤ fuel → Render fuel a = some t := by
  unfold Render
  simp only []
  by_cases h1 : a.Direction = 1
  · obtain ⟨n, r, hr⟩ := fillDown_total a (fillOffset a)
      ⟨0, 0, if a.BandSize = 0 then GetColorFromPosition a.eff_pos a.colorcnt
        else FillColor.unset, []⟩
    refine ⟨n, r.pixels, fun fuel hf => ?_⟩
    rw [if_pos h1, hr fuel hf]; rfl
  · by_cases h2 : a.Direction = 2
    · obtain ⟨n, r, hr⟩ := fillLeft_total a (fillOffset a)
        ⟨0, 0, if a.BandSize = 0 then GetColorFromPosition a.eff_pos a.colorcnt
          else FillColor.unset, []⟩
      refine ⟨n, r.pixels, fun fuel hf => ?_⟩
      rw [if_neg h1, if_pos h2, hr fuel hf]; rfl
    · by_cases h3 : a.Direction = 3
      · obtain ⟨n, r, hr⟩ := fillRight_total a (fillOffset a)
          ⟨0, 0, if a.BandSize = 0 then GetColorFromPosition a.eff_pos a.colorcnt
            else FillColor.unset, []⟩
        refine ⟨n, r.pixels, fun fuel hf => ?_⟩
        rw [if_neg h1, if_neg h2, if_pos h3, hr fuel hf]; rfl
      · obtain ⟨n, r, hr⟩ := fillUp_total a (fillOffset a)
          ⟨0, 0, if a.BandSize = 0 then GetColorFromPosition a.eff_pos a.colorcnt
            else FillColor.unset, []⟩
        refine ⟨n, r.pixels, fun fuel hf => ?_⟩
        rw [if_neg h1, if_neg h2, if_neg h3, hr fuel hf]; rfl

theorem Render_offset (fuel : Nat) (a : FillArgs) (o : Int) :
    Render fuel { a with offset := o }
      = ((if a.Direction = 1 then
            fillDown a fuel (fillOffset { a with offset := o })
              ⟨0, 0, if a.BandSize = 0 then GetColorFromPosition a.eff_pos a.colorcnt
                else FillColor.unset, []⟩
          else if a.Direction = 2 then
            fillLeft a fuel (fillOffset { a with offset := o })
              ⟨0, 0, if a.BandSize = 0 then GetColorFromPosition a.eff_pos a.colorcnt
                else FillColor.unset, []⟩
          else if a.Direction = 3 then
            fillRight a fuel (fillOffset { a with offset := o })
              ⟨0, 0, if a.BandSize = 0 then GetColorFromPosition a.eff_pos a.colorcnt
                else FillColor.unset, []⟩
          else
            fillUp a fuel (fillOffset { a with offset := o })
              ⟨0, 0, if a.BandSize = 0 then GetColorFromPosition a.eff_pos a.colorcnt
                else FillColor.unset, []⟩).map (fun s => s.pixels)) :=
  rfl

theorem tmod_add_mul (o k b : Int) (ho : 0 ≤ o) (hk : 0 ≤ k) (hb : 1 ≤ b) :
    (o + k * b).tmod b = o.tmod b := by
  have hkb : 0 ≤ k * b := Int.mul_nonneg hk (by omega)
  rw [tmod_of_nonneg _ _ (by omega) (by omega), tmod_of_nonneg _ _ ho (by omega),
    Int.add_mul_emod_self]

theorem fillOffset_wrap (a : FillArgs) (o k : Int) (ho : 0 ≤ o) (hk : 0 ≤ k)
    (hpx : a.offset_in_pixels = true) (hW : 1 ≤ a.BufferWi) (hH : 1 ≤ a.BufferHt) :
    fillOffset { a with offset := o
        + k * (if a.Direction = 2 ∨ a.Direction = 3 then a.BufferWi else a.BufferHt) }
      = fillOffset { a with offset := o } := by
  unfold fillOffset
  simp only [hpx, not_true_eq_false, if_false]
  split_ifs
  · exact tmod_add_mul o k a.BufferWi ho hk hW
  · exact tmod_add_mul o k a.BufferHt ho hk hH

/-- C15. Fill offset wrap: with the offset given in pixels, a buffer at least
1 wide and 1 high, `o >= 0` and `k >= 0`, rendering with offset
`o + k*BufferWi` in the directions Left and Right, and with offset
`o + k*BufferHt` in the directions Up and Down, issues exactly the same `SetPixel`
calls as rendering with offset `o`, all other parameters being equal; both
renders return, given enough fuel. In particular the offset `BufferWi` gives
the frame of offset 0 in the horizontal directions. -/
theorem fill_offset_wrap (a : FillArgs) (o k : Int) (ho : 0 ≤ o) (hk : 0 ≤ k)
    (hpx : a.offset_in_pixels = true) (hW : 1 ≤ a.BufferWi) (hH : 1 ≤ a.BufferHt) :
    (∀ fuel,
      Render fuel { a with offset := o
          + k * (if a.Direction = 2 ∨ a.Direction = 3 then a.BufferWi else a.BufferHt) }
        = Render fuel { a with offset := o }) ∧
    (∃ (n : Nat) (t : List SetPixelCall), ∀ fuel, n ≤ fuel →
      Render fuel { a with offset := o } = some t ∧
      Render fuel { a with offset := o
          + k * (if a.Direction = 2 ∨ a.Direction = 3 then a.BufferWi else a.BufferHt) }
        = some t) ∧
    (a.Direction = 2 ∨ a.Direction = 3 → ∀ fuel,
      Render fuel { a with offset := a.BufferWi } = Render fuel { a with offset := 0 }) := by
  have heq : ∀ fuel,
      Render fuel { a with offset := o
          + k * (if a.Direction = 2 ∨ a.Direction = 3 then a.BufferWi else a.BufferHt) }
        = Render fuel { a with offset := o } := by
    intro fuel
    rw [Render_offset, Render_offset, fillOffset_wrap a o k ho hk hpx hW hH]
  refine ⟨heq, ?_, ?_⟩
  · obtain ⟨n, t, hn⟩ := Render_total { a with offset := o }
    exact ⟨n, t, fun fuel hf => ⟨hn fuel hf, by rw [heq fuel]; exact hn fuel hf⟩⟩
  · intro hdir fuel
    have h := fillOffset_wrap a 0 1 (le_refl 0) (by decide) hpx hW hH
    simp only [hdir, if_true, zero_add, one_mul] at h
    rw [Render_offset, Render_offset, h]

/-- Witness of C15: the sample fill swept to the right in a buffer 2 wide, offset
2 against offset 0. -/
theorem fill_offset_wrap_witness :
    Render 2 { sampleFillRight with offset := sampleFillRight.BufferWi }
      = Render 2 { sampleFillRight with offset := 0 } :=
  (fill_offset_wrap sampleFillRight 0 1 (by decide) (by decide) rfl (by decide)
    (by decide)).2.2 (Or.inr rfl) 2

/-! ## Fill effect: the bounds of the sweeps in `double` arithmetic -/

theorem toDouble_one : toDouble 1 = 1 := by
  have := toDouble_intCast 1 (by norm_num)
  simpa using this

theorem pow2_sub53_0 : pow2 (0 - 53) = 1 / 2 ^ 53 := by decide!

theorem pow2_sub53_31 : pow2 (31 - 53) = 1 / 2 ^ 22 := by decide!

theorem pow2_sub53_32 : pow2 (32 - 53) = 1 / 2 ^ 21 := by decide!

theorem pow2_31 : pow2 31 = 2147483648 := by decide!

theorem pow2_32 : pow2 32 = 4294967296 := by decide!

/-- The rounding of a value between 0 and 1. -/
theorem toDouble_unit (q : ℚ) (h0 : 0 ≤ q) (h1 : q ≤ 1) :
    0 ≤ toDouble q ∧ toDouble q ≤ 1 ∧ |toDouble q - q| ≤ 1 / 2 ^ 53 := by
  refine ⟨le_toDouble _ _ toDouble_zero h0, toDouble_le _ _ toDouble_one h1, ?_⟩
  rw [← pow2_sub53_0]
  apply toDouble_err_le _ 0 (by decide)
  rw [pow2_zero, abs_of_nonneg h0]
  exact h1

/-- The rounding of a value of magnitude at most `2^31`, between two whole
numbers of magnitude at most `2^32`. -/
theorem toDouble_between (q : ℚ) (lo hi : Int) (hlo : -4294967296 ≤ lo) (hhi : hi ≤ 4294967296)
    (h0 : (lo : ℚ) ≤ q) (h1 : q ≤ (hi : ℚ)) :
    (lo : ℚ) ≤ toDouble q ∧ toDouble q ≤ (hi : ℚ) := by
  have hle : lo ≤ hi := by exact_mod_cast le_trans h0 h1
  constructor
  · exact le_toDouble _ _ (toDouble_intCast lo (by rw [abs_le]; norm_num; constructor <;> omega)) h0
  · exact toDouble_le _ _ (toDouble_intCast hi (by rw [abs_le]; norm_num; constructor <;> omega)) h1

theorem pos_pct_facts (a : FillArgs) (hp0 : 0 ≤ a.position) (hp1 : a.position ≤ 100) :
    0 ≤ pos_pct a ∧ pos_pct a ≤ 1 ∧ toDouble (pos_pct a) = pos_pct a ∧
    |pos_pct a - (a.position : ℚ) / 100| ≤ 1 / 2 ^ 53 := by
  have hq0 : (0 : ℚ) ≤ (a.position : ℚ) := by exact_mod_cast hp0
  have hq1 : (a.position : ℚ) ≤ 100 := by exact_mod_cast hp1
  have h0 : (0 : ℚ) ≤ (a.position : ℚ) / 100 := by positivity
  have h1 : (a.position : ℚ) / 100 ≤ 1 := (div_le_one (by norm_num)).mpr hq1
  obtain ⟨u0, u1, u2⟩ := toDouble_unit _ h0 h1
  exact ⟨u0, u1, toDouble_idem _, u2⟩

theorem pos_pct_hundred (a : FillArgs) (h : a.position = 100) : pos_pct a = 1 := by
  unfold pos_pct ddiv
  rw [h]
  have : ((100 : Int) : ℚ) / 100 = 1 := by norm_num
  rw [this, toDouble_one]

theorem pos_pct_fifty (a : FillArgs) (h : a.position = 50) : pos_pct a = 1 / 2 := by
  unfold pos_pct ddiv
  rw [h]
  have h2 := toDouble_dyadic 1 1 (by norm_num) (by decide)
  have : ((50 : Int) : ℚ) / 100 = ((1 : Int) : ℚ) / 2 ^ 1 := by norm_num
  rw [this, h2]
  norm_num

theorem pos_pct_zero (a : FillArgs) (h : a.position = 0) : pos_pct a = 0 := by
  unfold pos_pct ddiv
  rw [h]
  have : ((0 : Int) : ℚ) / 100 = 0 := by norm_num
  rw [this, toDouble_zero]

theorem pos_pct_pos (a : FillArgs) (hp0 : 1 ≤ a.position) : 0 < pos_pct a := by
  have hq0 : (1 : ℚ) ≤ (a.position : ℚ) := by exact_mod_cast hp0
  have h2 := toDouble_dyadic 1 7 (by norm_num) (by decide)
  have h3 : ((1 : Int) : ℚ) / 2 ^ 7 ≤ (a.position : ℚ) / 100 := by
    rw [div_le_div_iff₀ (by norm_num) (by norm_num)]
    norm_num
    linarith
  have := le_toDouble _ _ h2 h3
  unfold pos_pct ddiv
  have h4 : (0 : ℚ) < ((1 : Int) : ℚ) / 2 ^ 7 := by norm_num
  linarith

theorem INT_MAX_val : INT_MAX = 2147483647 := rfl

/-- The bound of an Up or Right sweep lies between the offset and the offset
plus the dimension, within `2^-20` of the exact value. -/
theorem forwardBound_facts (a : FillArgs) (dim o : Int) (hd0 : 0 ≤ dim) (hd1 : dim ≤ INT_MAX)
    (ho0 : 0 ≤ o) (ho1 : o ≤ INT_MAX) (hp0 : 0 ≤ a.position) (hp1 : a.position ≤ 100) :
    (o : ℚ) ≤ forwardBound a dim o ∧ forwardBound a dim o ≤ ((dim + o : Int) : ℚ) ∧
    |forwardBound a dim o - (((dim * a.position : Int) : ℚ) / 100 + (o : ℚ))| ≤ 1 / 2 ^ 20 := by
  rw [INT_MAX_val] at hd1 ho1
  obtain ⟨pp0, pp1, _, pperr⟩ := pos_pct_facts a hp0 hp1
  have hdq0 : (0 : ℚ) ≤ (dim : ℚ) := by exact_mod_cast hd0
  have hdq1 : (dim : ℚ) ≤ 2147483647 := by exact_mod_cast hd1
  have hoq0 : (0 : ℚ) ≤ (o : ℚ) := by exact_mod_cast ho0
  have hoq1 : (o : ℚ) ≤ 2147483647 := by exact_mod_cast ho1
  have hX0 : 0 ≤ (dim : ℚ) * pos_pct a := mul_nonneg hdq0 pp0
  have hX1 : (dim : ℚ) * pos_pct a ≤ (dim : ℚ) := mul_le_of_le_one_right hdq0 pp1
  have hZ := toDouble_between ((dim : ℚ) * pos_pct a) 0 dim (by norm_num) (by omega)
    (by simpa using hX0) hX1
  have hZerr : |toDouble ((dim : ℚ) * pos_pct a) - (dim : ℚ) * pos_pct a| ≤ 1 / 2 ^ 22 := by
    rw [← pow2_sub53_31]
    apply toDouble_err_le _ 31 (by decide)
    rw [pow2_31, abs_of_nonneg hX0]
    linarith
  have hZ0 : 0 ≤ toDouble ((dim : ℚ) * pos_pct a) := by simpa using hZ.1
  have hY := toDouble_between (toDouble ((dim : ℚ) * pos_pct a) + (o : ℚ)) o (dim + o)
    (by omega) (by omega) (by linarith) (by push_cast; linarith [hZ.2])
  have hYerr : |toDouble (toDouble ((dim : ℚ) * pos_pct a) + (o : ℚ))
      - (toDouble ((dim : ℚ) * pos_pct a) + (o : ℚ))| ≤ 1 / 2 ^ 21 := by
    rw [← pow2_sub53_32]
    apply toDouble_err_le _ 32 (by decide)
    rw [pow2_32, abs_of_nonneg (by linarith)]
    linarith [hZ.2]
  have hDe : |(dim : ℚ) * (pos_pct a - (a.position : ℚ) / 100)| ≤ 1 / 2 ^ 22 := by
    rw [abs_mul, abs_of_nonneg hdq0]
    calc (dim : ℚ) * |pos_pct a - (a.position : ℚ) / 100|
        ≤ 2147483648 * (1 / 2 ^ 53) :=
          mul_le_mul (by linarith) pperr (abs_nonneg _) (by norm_num)
      _ = 1 / 2 ^ 22 := by norm_num
  unfold forwardBound dadd dmul
  refine ⟨hY.1, hY.2, ?_⟩
  rw [abs_le] at hZerr hYerr hDe ⊢
  have hexp : ((dim * a.position : Int) : ℚ) / 100
      = (dim : ℚ) * pos_pct a - (dim : ℚ) * (pos_pct a - (a.position : ℚ) / 100) := by
    push_cast; ring
  rw [hexp]
  have e20 : (1 : ℚ) / 2 ^ 20 = 1 / 2 ^ 21 + 1 / 2 ^ 22 + 1 / 2 ^ 22 := by norm_num
  rw [e20]
  constructor <;> linarith [hZerr.1, hZerr.2, hYerr.1, hYerr.2, hDe.1, hDe.2]

/-- The bound of a Down or Left sweep lies between minus the offset and the
dimension minus the offset, within `2^-20` of the exact value. -/
theorem backwardBound_facts (a : FillArgs) (dim o : Int) (hd0 : 0 ≤ dim) (hd1 : dim ≤ INT_MAX)
    (ho0 : 0 ≤ o) (ho1 : o ≤ INT_MAX) (hp0 : 0 ≤ a.position) (hp1 : a.position ≤ 100) :
    ((-o : Int) : ℚ) ≤ backwardBound a dim o ∧ backwardBound a dim o ≤ ((dim - o : Int) : ℚ) ∧
    |backwardBound a dim o
      - ((dim : ℚ) - ((dim * a.position : Int) : ℚ) / 100 - (o : ℚ))| ≤ 1 / 2 ^ 20 := by
  rw [INT_MAX_val] at hd1 ho1
  obtain ⟨pp0, pp1, _, pperr⟩ := pos_pct_facts a hp0 hp1
  have hdq0 : (0 : ℚ) ≤ (dim : ℚ) := by exact_mod_cast hd0
  have hdq1 : (dim : ℚ) ≤ 2147483647 := by exact_mod_cast hd1
  have hoq0 : (0 : ℚ) ≤ (o : ℚ) := by exact_mod_cast ho0
  have hoq1 : (o : ℚ) ≤ 2147483647 := by exact_mod_cast ho1
  obtain ⟨q0, q1, qerr⟩ := toDouble_unit (1 - pos_pct a) (by linarith) (by linarith)
  have hX0 : 0 ≤ (dim : ℚ) * toDouble (1 - pos_pct a) := mul_nonneg hdq0 q0
  have hX1 : (dim : ℚ) * toDouble (1 - pos_pct a) ≤ (dim : ℚ) := mul_le_of_le_one_right hdq0 q1
  have hZ := toDouble_between ((dim : ℚ) * toDouble (1 - pos_pct a)) 0 dim (by norm_num)
    (by omega) (by simpa using hX0) hX1
  have hZerr : |toDouble ((dim : ℚ) * toDouble (1 - pos_pct a))
      - (dim : ℚ) * toDouble (1 - pos_pct a)| ≤ 1 / 2 ^ 22 := by
    rw [← pow2_sub53_31]
    apply toDouble_err_le _ 31 (by decide)
    rw [pow2_31, abs_of_nonneg hX0]
    linarith
  have hZ0 : 0 ≤ toDouble ((dim : ℚ) * toDouble (1 - pos_pct a)) := by simpa using hZ.1
  have hY := toDouble_between (toDouble ((dim : ℚ) * toDouble (1 - pos_pct a)) - (o : ℚ))
    (-o) (dim - o) (by omega) (by omega) (by push_cast; linarith)
    (by push_cast; linarith [hZ.2])
  have hYerr : |toDouble (toDouble ((dim : ℚ) * toDouble (1 - pos_pct a)) - (o : ℚ))
      - (toDouble ((dim : ℚ) * toDouble (1 - pos_pct a)) - (o : ℚ))| ≤ 1 / 2 ^ 22 := by
    rw [← pow2_sub53_31]
    apply toDouble_err_le _ 31 (by decide)
    rw [pow2_31, abs_le]
    constructor <;> linarith [hZ.2]
  have hDe : |(dim : ℚ) * (toDouble (1 - pos_pct a) - (1 - (a.position : ℚ) / 100))|
      ≤ 1 / 2 ^ 21 := by
    rw [abs_mul, abs_of_nonneg hdq0]
    have he : |toDouble (1 - pos_pct a) - (1 - (a.position : ℚ) / 100)| ≤ 2 * (1 / 2 ^ 53) := by
      rw [abs_le] at qerr pperr ⊢
      constructor <;> linarith [qerr.1, qerr.2, pperr.1, pperr.2]
    calc (dim : ℚ) * |toDouble (1 - pos_pct a) - (1 - (a.position : ℚ) / 100)|
        ≤ 2147483648 * (2 * (1 / 2 ^ 53)) :=
          mul_le_mul (by linarith) he (abs_nonneg _) (by norm_num)
      _ = 1 / 2 ^ 21 := by norm_num
  unfold backwardBound dsub dmul
  refine ⟨hY.1, hY.2, ?_⟩
  rw [abs_le] at hZerr hYerr hDe ⊢
  have hexp : (dim : ℚ) - ((dim * a.position : Int) : ℚ) / 100
      = (dim : ℚ) * toDouble (1 - pos_pct a)
        - (dim : ℚ) * (toDouble (1 - pos_pct a) - (1 - (a.position : ℚ) / 100)) := by
    push_cast; ring
  rw [hexp]
  have e20 : (1 : ℚ) / 2 ^ 20 = 1 / 2 ^ 22 + 1 / 2 ^ 22 + 1 / 2 ^ 21 := by norm_num
  rw [e20]
  constructor <;> linarith [hZerr.1, hZerr.2, hYerr.1, hYerr.2, hDe.1, hDe.2]

/-- The ceiling of a value within `2^-20` of a whole number of hundredths. -/
theorem ceil_near (N : Int) (B : ℚ) (h : |B - (N : ℚ) / 100| ≤ 1 / 2 ^ 20) :
    (N + 99) / 100 ≤ ⌈B⌉ ∧ ⌈B⌉ ≤ (N + 99) / 100 + 1 ∧
    (N % 100 ≠ 0 → ⌈B⌉ = (N + 99) / 100) := by
  rw [abs_le] at h
  have hc1 : 100 * ((N + 99) / 100) ≤ N + 99 := by omega
  have hc2 : N + 99 < 100 * ((N + 99) / 100) + 100 := by omega
  have hc1q : 100 * (((N + 99) / 100 : Int) : ℚ) ≤ (N : ℚ) + 99 := by exact_mod_cast hc1
  have hc2q : (N : ℚ) + 99 + 1 ≤ 100 * (((N + 99) / 100 : Int) : ℚ) + 100 := by
    exact_mod_cast hc2
  have hsmall : (1 : ℚ) / 2 ^ 20 < 1 / 100 := by norm_num
  have hlow : (N + 99) / 100 ≤ ⌈B⌉ := by
    have : (N + 99) / 100 - 1 < ⌈B⌉ := by
      rw [Int.lt_ceil]
      push_cast
      linarith [h.1]
    omega
  refine ⟨hlow, ?_, ?_⟩
  · rw [Int.ceil_le]
    push_cast
    linarith [h.2]
  · intro hne
    have hc3 : N + 1 ≤ 100 * ((N + 99) / 100) := by omega
    have hc3q : (N : ℚ) + 1 ≤ 100 * (((N + 99) / 100 : Int) : ℚ) := by exact_mod_cast hc3
    apply le_antisymm _ hlow
    rw [Int.ceil_le]
    linarith [h.2]

/-! ## Fill effect: the number of lines and the lines of a sweep -/

/-- The number of lines of an Up or Right sweep: at most the dimension, and the
value `dim*position/100` rounded up to a whole number, or one more; it is the
value rounded up when that value is not whole. -/
theorem forwardCount_facts (a : FillArgs) (dim o : Int) (hd0 : 0 ≤ dim) (hd1 : dim ≤ INT_MAX)
    (ho0 : 0 ≤ o) (ho1 : o ≤ INT_MAX) (hp0 : 0 ≤ a.position) (hp1 : a.position ≤ 100) :
    ((forwardCount a dim o : Nat) : Int) = ⌈forwardBound a dim o⌉ - o ∧
    ((forwardCount a dim o : Nat) : Int) ≤ dim ∧
    (dim * a.position + 99) / 100 ≤ ((forwardCount a dim o : Nat) : Int) ∧
    ((forwardCount a dim o : Nat) : Int) ≤ (dim * a.position + 99) / 100 + 1 ∧
    ((dim * a.position) % 100 ≠ 0 →
      ((forwardCount a dim o : Nat) : Int) = (dim * a.position + 99) / 100) := by
  obtain ⟨b0, b1, berr⟩ := forwardBound_facts a dim o hd0 hd1 ho0 ho1 hp0 hp1
  have hcast : (((dim * a.position + 100 * o : Int) : ℚ)) / 100
      = ((dim * a.position : Int) : ℚ) / 100 + (o : ℚ) := by
    push_cast; ring
  rw [← hcast] at berr
  obtain ⟨c1, c2, c3⟩ := ceil_near (dim * a.position + 100 * o) _ berr
  have hge : o ≤ ⌈forwardBound a dim o⌉ := by
    have : o - 1 < ⌈forwardBound a dim o⌉ := by
      rw [Int.lt_ceil]; push_cast; linarith
    omega
  have hle : ⌈forwardBound a dim o⌉ ≤ dim + o := Int.ceil_le.mpr b1
  have hn : ((forwardCount a dim o : Nat) : Int) = ⌈forwardBound a dim o⌉ - o := by
    unfold forwardCount
    exact Int.toNat_of_nonneg (by omega)
  have hshift : (dim * a.position + 100 * o + 99) / 100 = (dim * a.position + 99) / 100 + o := by
    omega
  refine ⟨hn, by omega, by omega, by omega, ?_⟩
  intro hne
  have := c3 (by omega)
  omega

/-- The number of lines of a Down or Left sweep: at most the dimension, and the
value `dim*position/100` rounded down to a whole number, or one less; it is the
value rounded down when that value is not whole. -/
theorem backwardCount_facts (a : FillArgs) (dim o : Int) (hd0 : 0 ≤ dim) (hd1 : dim ≤ INT_MAX)
    (ho0 : 0 ≤ o) (ho1 : o ≤ INT_MAX) (hp0 : 0 ≤ a.position) (hp1 : a.position ≤ 100) :
    ((backwardCount a dim o : Nat) : Int) = dim - o - ⌈backwardBound a dim o⌉ ∧
    ((backwardCount a dim o : Nat) : Int) ≤ dim ∧
    (dim * a.position) / 100 - 1 ≤ ((backwardCount a dim o : Nat) : Int) ∧
    ((backwardCount a dim o : Nat) : Int) ≤ (dim * a.position) / 100 ∧
    ((dim * a.position) % 100 ≠ 0 →
      ((backwardCount a dim o : Nat) : Int) = (dim * a.position) / 100) := by
  obtain ⟨b0, b1, berr⟩ := backwardBound_facts a dim o hd0 hd1 ho0 ho1 hp0 hp1
  have hcast : (((100 * (dim - o) - dim * a.position : Int) : ℚ)) / 100
      = (dim : ℚ) - ((dim * a.position : Int) : ℚ) / 100 - (o : ℚ) := by
    push_cast; ring
  rw [← hcast] at berr
  obtain ⟨c1, c2, c3⟩ := ceil_near (100 * (dim - o) - dim * a.position) _ berr
  have hge : -o ≤ ⌈backwardBound a dim o⌉ := by
    have : -o - 1 < ⌈backwardBound a dim o⌉ := by
      rw [Int.lt_ceil]; push_cast at b0 ⊢; linarith
    omega
  have hle : ⌈backwardBound a dim o⌉ ≤ dim - o := Int.ceil_le.mpr b1
  have hn : ((backwardCount a dim o : Nat) : Int) = dim - o - ⌈backwardBound a dim o⌉ := by
    unfold backwardCount
    rw [Int.toNat_of_nonneg (by omega)]
    ring
  have hshift : (100 * (dim - o) - dim * a.position + 99) / 100
      = dim - o - (dim * a.position) / 100 := by
    omega
  refine ⟨hn, by omega, by omega, by omega, ?_⟩
  intro hne
  have := c3 (by omega)
  omega

theorem fillOffset_zero (a : FillArgs) (hoff : a.offset = 0) : fillOffset a = 0 := by
  unfold fillOffset
  rw [hoff]
  split_ifs <;> simp

theorem emod_wrap (v H : Int) (h0 : 0 ≤ v) (h1 : v < 2 * H) :
    (if v ≥ H then v - H else v) = v % H := by
  split_ifs with h
  · rw [Int.emod_eq_sub_self_emod, Int.emod_eq_of_lt (by omega) (by omega)]
  · rw [Int.emod_eq_of_lt h0 (by omega)]

theorem emod_wrap_neg (v H : Int) (h0 : -H ≤ v) (h1 : v < H) :
    (if v < 0 then v + H else v) = v % H := by
  split_ifs with h
  · rw [← Int.add_emod_self, Int.emod_eq_of_lt (by omega) (by omega)]
  · rw [Int.emod_eq_of_lt (by omega) h1]

theorem fillOffset_pixels (a : FillArgs) (hpx : a.offset_in_pixels = true) (ho : 0 ≤ a.offset) :
    ((a.Direction = 2 ∨ a.Direction = 3) → a.offset < a.BufferWi → fillOffset a = a.offset) ∧
    (¬ (a.Direction = 2 ∨ a.Direction = 3) → a.offset < a.BufferHt →
      fillOffset a = a.offset) := by
  constructor
  · intro hd hlt
    unfold fillOffset
    rw [if_pos hd]
    simp only [hpx, not_true_eq_false, if_false]
    rw [tmod_of_nonneg _ _ ho (by omega), Int.emod_eq_of_lt ho hlt]
  · intro hd hlt
    unfold fillOffset
    rw [if_neg hd]
    simp only [hpx, not_true_eq_false, if_false]
    rw [tmod_of_nonneg _ _ ho (by omega), Int.emod_eq_of_lt ho hlt]

theorem tmod_self_of_lt (o B : Int) (ho : 0 ≤ o) (hlt : o < B) : o.tmod B = o := by
  rw [tmod_of_nonneg _ _ ho (by omega), Int.emod_eq_of_lt ho hlt]

/-- The upward sweep from the reduced offset `o`: the lines are the rows
`(o + i) mod BufferHt`, as many as `forwardCount`. -/
theorem Render_up_fold (a : FillArgs) (hdir : a.Direction = 0)
    (o : Int) (hoff : fillOffset a = o) (ho : 0 ≤ o) (hlt : o < a.BufferHt)
    (hmax : a.BufferHt ≤ INT_MAX) (hp0 : 0 ≤ a.position) (hp1 : a.position ≤ 100)
    (fuel : Nat) (hf : forwardCount a a.BufferHt o ≤ fuel) :
    Render fuel a
      = some ((List.range (forwardCount a a.BufferHt o)).foldl
          (fun s (i : Nat) =>
            fillLine a s
              (positionColor a (o + (i : Int)) (a.BufferHt + o - 1) false)
              (rowWrites a.BufferWi ((o + (i : Int)) % a.BufferHt)))
          ⟨0, 0, if a.BandSize = 0 then GetColorFromPosition a.eff_pos a.colorcnt
            else FillColor.unset, []⟩).pixels := by
  obtain ⟨_, hn, _⟩ := forwardCount_facts a a.BufferHt o (by omega) hmax ho (by omega)
    hp0 hp1
  have htm : o.tmod a.BufferHt = o := tmod_self_of_lt _ _ ho hlt
  unfold Render
  simp only []
  rw [if_neg (by rw [hdir]; decide), if_neg (by rw [hdir]; decide),
    if_neg (by rw [hdir]; decide), hoff, fillUp_eq a fuel _ _ (by rw [htm]; exact hf), htm]
  simp only [Option.map_some', one_mul]
  congr 2
  apply List.foldl_ext
  intro s i hi
  rw [List.mem_range] at hi
  rw [emod_wrap _ _ (by omega) (by omega)]

/-- The sweep to the right from the reduced offset `o`: the lines are the columns
`(o + i) mod BufferWi`, as many as `forwardCount`. -/
theorem Render_right_fold (a : FillArgs) (hdir : a.Direction = 3)
    (o : Int) (hoff : fillOffset a = o) (ho : 0 ≤ o) (hlt : o < a.BufferWi)
    (hmax : a.BufferWi ≤ INT_MAX) (hp0 : 0 ≤ a.position) (hp1 : a.position ≤ 100)
    (fuel : Nat) (hf : forwardCount a a.BufferWi o ≤ fuel) :
    Render fuel a
      = some ((List.range (forwardCount a a.BufferWi o)).foldl
          (fun s (i : Nat) =>
            fillLine a s
              (positionColor a (o + (i : Int)) (a.BufferWi + o - 1) false)
              (columnWrites a.BufferHt ((o + (i : Int)) % a.BufferWi)))
          ⟨0, 0, if a.BandSize = 0 then GetColorFromPosition a.eff_pos a.colorcnt
            else FillColor.unset, []⟩).pixels := by
  obtain ⟨_, hn, _⟩ := forwardCount_facts a a.BufferWi o (by omega) hmax ho (by omega)
    hp0 hp1
  have htm : o.tmod a.BufferWi = o := tmod_self_of_lt _ _ ho hlt
  unfold Render
  simp only []
  rw [if_neg (by rw [hdir]; decide), if_neg (by rw [hdir]; decide), if_pos hdir, hoff,
    fillRight_eq a fuel _ _ (by rw [htm]; exact hf), htm]
  simp only [Option.map_some', one_mul]
  congr 2
  apply List.foldl_ext
  intro s i hi
  rw [List.mem_range] at hi
  rw [emod_wrap _ _ (by omega) (by omega)]

/-- The downward sweep from the reduced offset `o`: the lines are the rows
`(BufferHt - 1 - o - i) mod BufferHt`, as many as `backwardCount`. -/
theorem Render_down_fold (a : FillArgs) (hdir : a.Direction = 1)
    (o : Int) (hoff : fillOffset a = o) (ho : 0 ≤ o) (hlt : o < a.BufferHt)
    (hmax : a.BufferHt ≤ INT_MAX) (hp0 : 0 ≤ a.position) (hp1 : a.position ≤ 100)
    (fuel : Nat) (hf : backwardCount a a.BufferHt o ≤ fuel) :
    Render fuel a
      = some ((List.range (backwardCount a a.BufferHt o)).foldl
          (fun s (i : Nat) =>
            fillLine a s
              (positionColor a (a.BufferHt - 1 - o - (i : Int))
                (a.BufferHt + o - 1) true)
              (rowWrites a.BufferWi ((a.BufferHt - 1 - o - (i : Int)) % a.BufferHt)))
          ⟨0, 0, if a.BandSize = 0 then GetColorFromPosition a.eff_pos a.colorcnt
            else FillColor.unset, []⟩).pixels := by
  obtain ⟨_, hn, _⟩ := backwardCount_facts a a.BufferHt o (by omega) hmax ho (by omega)
    hp0 hp1
  have htm : o.tmod a.BufferHt = o := tmod_self_of_lt _ _ ho hlt
  unfold Render
  simp only []
  rw [if_pos hdir, hoff, fillDown_eq a fuel _ _ (by rw [htm]; exact hf), htm]
  simp only [Option.map_some']
  congr 2
  apply List.foldl_ext
  intro s i hi
  rw [List.mem_range] at hi
  have hv : a.BufferHt - 1 - o + -1 * (i : Int) = a.BufferHt - 1 - o - (i : Int) := by
    ring
  rw [hv, emod_wrap_neg _ _ (by omega) (by omega)]

/-- The sweep to the left from the reduced offset `o`: the lines are the columns
`(BufferWi - 1 - o - i) mod BufferWi`, as many as `backwardCount`. -/
theorem Render_left_fold (a : FillArgs) (hdir : a.Direction = 2)
    (o : Int) (hoff : fillOffset a = o) (ho : 0 ≤ o) (hlt : o < a.BufferWi)
    (hmax : a.BufferWi ≤ INT_MAX) (hp0 : 0 ≤ a.position) (hp1 : a.position ≤ 100)
    (fuel : Nat) (hf : backwardCount a a.BufferWi o ≤ fuel) :
    Render fuel a
      = some ((List.range (backwardCount a a.BufferWi o)).foldl
          (fun s (i : Nat) =>
            fillLine a s
              (positionColor a (a.BufferWi - 1 - o - (i : Int))
                (a.BufferWi + o - 1) true)
              (columnWrites a.BufferHt ((a.BufferWi - 1 - o - (i : Int)) % a.BufferWi)))
          ⟨0, 0, if a.BandSize = 0 then GetColorFromPosition a.eff_pos a.colorcnt
            else FillColor.unset, []⟩).pixels := by
  obtain ⟨_, hn, _⟩ := backwardCount_facts a a.BufferWi o (by omega) hmax ho (by omega)
    hp0 hp1
  have htm : o.tmod a.BufferWi = o := tmod_self_of_lt _ _ ho hlt
  unfold Render
  simp only []
  rw [if_neg (by rw [hdir]; decide), if_pos hdir, hoff,
    fillLeft_eq a fuel _ _ (by rw [htm]; exact hf), htm]
  simp only [Option.map_some']
  congr 2
  apply List.foldl_ext
  intro s i hi
  rw [List.mem_range] at hi
  have hv : a.BufferWi - 1 - o + -1 * (i : Int) = a.BufferWi - 1 - o - (i : Int) := by
    ring
  rw [hv, emod_wrap_neg _ _ (by omega) (by omega)]

/-! ## Fill effect: coverage -/

theorem fold_fillLine_coords (a : FillArgs) (pc : Nat → FillColor)
    (writes : Nat → FillColor → List SetPixelCall) (cs : Nat → List (Int × Int))
    (hw : ∀ i c, (writes i c).map (fun p => (p.x, p.y)) = cs i) :
    ∀ (n : Nat) (s : FillState),
      (((List.range n).foldl (fun s (i : Nat) => fillLine a s (pc i) (writes i)) s).pixels).map
          (fun p => (p.x, p.y))
        = s.pixels.map (fun p => (p.x, p.y)) ++ (List.range n).flatMap cs := by
  have hstep : ∀ (s : FillState) (p : FillColor) (i : Nat),
      (fillLine a s p (writes i)).pixels.map (fun p => (p.x, p.y))
        = s.pixels.map (fun p => (p.x, p.y)) ++ cs i := by
    intro s p i
    simp only [fillLine, List.map_append, hw]
  intro n
  induction n with
  | zero => intro s; simp
  | succ n ih =>
    intro s
    rw [List.range_succ, List.foldl_append, List.flatMap_append]
    simp only [List.foldl_cons, List.foldl_nil, List.flatMap_cons, List.flatMap_nil,
      List.append_nil]
    rw [hstep, ih, List.append_assoc]

theorem fillLine_by_position (a : FillArgs) (ht : a.color_by_time = false) (s : FillState)
    (posColor : FillColor) (writes : FillColor → List SetPixelCall) :
    (fillLine a s posColor writes).pixels = s.pixels ++ writes posColor ∧
    (fillLine a s posColor writes).color = posColor := by
  simp [fillLine, ht]

/-- The sweep with the colour taken by position: every line is written with
the colour of its position. -/
theorem fold_fillLine_position (a : FillArgs) (ht : a.color_by_time = false)
    (pc : Nat → FillColor) (writes : Nat → FillColor → List SetPixelCall) :
    ∀ (n : Nat) (s : FillState),
      ((List.range n).foldl (fun s (i : Nat) => fillLine a s (pc i) (writes i)) s).pixels
        = s.pixels ++ linePixels n writes pc := by
  intro n
  induction n with
  | zero => intro s; simp [linePixels]
  | succ n ih =>
    intro s
    unfold linePixels at ih ⊢
    rw [List.range_succ, List.foldl_append, List.flatMap_append]
    simp only [List.foldl_cons, List.foldl_nil, List.flatMap_cons, List.flatMap_nil,
      List.append_nil]
    rw [(fillLine_by_position a ht _ _ _).1, ih, List.append_assoc]

/-- The upward sweep from offset 0: the lines are the rows 0, 1, 2, ... in this
order, as many as `forwardCount`. -/
theorem Render_up_zero (a : FillArgs) (hdir : a.Direction = 0) (hoff : a.offset = 0)
    (hH : 1 ≤ a.BufferHt) (hmax : a.BufferHt ≤ INT_MAX) (hp0 : 0 ≤ a.position)
    (hp1 : a.position ≤ 100) (fuel : Nat) (hf : forwardCount a a.BufferHt 0 ≤ fuel) :
    Render fuel a
      = some ((List.range (forwardCount a a.BufferHt 0)).foldl
          (fun s (i : Nat) =>
            fillLine a s (positionColor a (i : Int) (a.BufferHt - 1) false)
              (rowWrites a.BufferWi (i : Int)))
          ⟨0, 0, if a.BandSize = 0 then GetColorFromPosition a.eff_pos a.colorcnt
            else FillColor.unset, []⟩).pixels := by
  obtain ⟨_, hn, _⟩ := forwardCount_facts a a.BufferHt 0 (by omega) hmax (le_refl 0)
    (by rw [INT_MAX_val]; decide) hp0 hp1
  rw [Render_up_fold a hdir 0 (fillOffset_zero a hoff) (le_refl 0) (by omega) hmax hp0 hp1
    fuel hf]
  congr 2
  apply List.foldl_ext
  intro s i hi
  rw [List.mem_range] at hi
  simp only [zero_add, add_zero]
  rw [Int.emod_eq_of_lt (by omega) (by omega)]

theorem rowWrites_coords (W y : Int) (c : FillColor) :
    (rowWrites W y c).map (fun p => (p.x, p.y))
      = (List.range W.toNat).map (fun (x : Nat) => (((x : Int), y) : Int × Int)) := by
  simp [rowWrites, List.map_map, Function.comp_def]

theorem mem_rows (W : Int) (n : Nat) (x y : Int) :
    (x, y) ∈ (List.range n).flatMap
        (fun (i : Nat) => (List.range W.toNat).map
          (fun (x : Nat) => (((x : Int), (i : Int)) : Int × Int)))
      ↔ 0 ≤ x ∧ x < W ∧ 0 ≤ y ∧ y < (n : Int) := by
  simp only [List.mem_flatMap, List.mem_map, List.mem_range, Prod.mk.injEq]
  constructor
  · rintro ⟨i, hi, b, hb, rfl, rfl⟩
    omega
  · rintro ⟨h1, h2, h3, h4⟩
    exact ⟨y.toNat, by omega, x.toNat, by omega, by omega, by omega⟩

theorem rows_nodup (W : Int) (n : Nat) :
    ((List.range n).flatMap
        (fun (i : Nat) => (List.range W.toNat).map
          (fun (x : Nat) => (((x : Int), (i : Int)) : Int × Int)))).Nodup := by
  refine grid_nodup n W.toNat (fun i x => (((x : Int), (i : Int)) : Int × Int)) ?_
  intro i x i2 x2 h
  simp only [Prod.mk.injEq, Nat.cast_inj] at h
  exact ⟨h.2, h.1⟩

/-- The bound of the upward sweep from offset 0 is the product
`BufferHt*pos_pct` as the code computes it. -/
theorem forwardBound_zero (a : FillArgs) (dim : Int) :
    forwardBound a dim 0
      = toDouble ((dim : ℚ) * toDouble ((a.position : ℚ) / 100)) := by
  unfold forwardBound dadd dmul pos_pct ddiv
  rw [Int.cast_zero, add_zero, toDouble_idem]

/-- C13 (amended). Fill coverage: for direction Up, offset 0, a buffer of
height `1 <= H <= INT_MAX` and a position `0 <= p <= 100` (for `BandSize == 0`
and a width `W >= 1` in particular), the render returns (any fuel of at least
`n` is enough) and the pixels written are exactly those of the rows `0..n-1`,
row after row from row 0, each pixel once and no pixel of another row, where
`n` is the least whole number not below the product `BufferHt*pos_pct` as the
code computes it in `double` arithmetic, with `pos_pct = position/100.0`
rounded and the product rounded again. This `n` is `H*p/100` rounded up to a
whole number, or one more; it is `H*p/100` rounded up when `H*p/100` is not
whole; `n` is at most `H`, it is `H` at position 100, `(H+1)/2` at position 50
and 0 at position 0. -/
theorem fill_coverage (a : FillArgs) (hdir : a.Direction = 0)
    (hoff : a.offset = 0) (hH : 1 ≤ a.BufferHt) (hmax : a.BufferHt ≤ INT_MAX)
    (hp0 : 0 ≤ a.position) (hp1 : a.position ≤ 100) :
    ∃ (n : Nat) (t : List SetPixelCall),
      (n : Int) = ⌈toDouble ((a.BufferHt : ℚ) * toDouble ((a.position : ℚ) / 100))⌉ ∧
      ((a.BufferHt * a.position + 99) / 100 ≤ (n : Int) ∧
        (n : Int) ≤ (a.BufferHt * a.position + 99) / 100 + 1) ∧
      ((a.BufferHt * a.position) % 100 ≠ 0 →
        (n : Int) = (a.BufferHt * a.position + 99) / 100) ∧
      (n : Int) ≤ a.BufferHt ∧
      (a.position = 100 → (n : Int) = a.BufferHt) ∧
      (a.position = 50 → (n : Int) = (a.BufferHt + 1) / 2) ∧
      (a.position = 0 → n = 0) ∧
      (∀ fuel, n ≤ fuel → Render fuel a = some t) ∧
      t.map (fun p => (p.x, p.y))
        = (List.range n).flatMap
            (fun (y : Nat) => (List.range a.BufferWi.toNat).map
              (fun (x : Nat) => (((x : Int), (y : Int)) : Int × Int))) ∧
      (∀ x y : Int,
        (t.map (fun p => (p.x, p.y))).count (x, y)
          = if 0 ≤ x ∧ x < a.BufferWi ∧ 0 ≤ y ∧ y < (n : Int) then 1 else 0) := by
  obtain ⟨hn, hnH, c1, c2, c3⟩ := forwardCount_facts a a.BufferHt 0 (by omega) hmax (le_refl 0)
    (by rw [INT_MAX_val]; decide) hp0 hp1
  rw [sub_zero, forwardBound_zero] at hn
  have hHmax : |a.BufferHt| ≤ 2 ^ 53 := by
    rw [INT_MAX_val] at hmax
    rw [abs_le]; norm_num; constructor <;> omega
  have hcoords : ((List.range (forwardCount a a.BufferHt 0)).foldl
          (fun s (i : Nat) =>
            fillLine a s (positionColor a (i : Int) (a.BufferHt - 1) false)
              (rowWrites a.BufferWi (i : Int)))
          ⟨0, 0, if a.BandSize = 0 then GetColorFromPosition a.eff_pos a.colorcnt
            else FillColor.unset, []⟩).pixels.map (fun p => (p.x, p.y))
      = (List.range (forwardCount a a.BufferHt 0)).flatMap
            (fun (y : Nat) => (List.range a.BufferWi.toNat).map
              (fun (x : Nat) => (((x : Int), (y : Int)) : Int × Int))) := by
    rw [fold_fillLine_coords a (fun i => positionColor a (i : Int) (a.BufferHt - 1) false)
      (fun i => rowWrites a.BufferWi (i : Int))
      (fun (y : Nat) => (List.range a.BufferWi.toNat).map
        (fun (x : Nat) => (((x : Int), (y : Int)) : Int × Int)))
      (fun i c => rowWrites_coords a.BufferWi i c)]
    simp
  refine ⟨forwardCount a a.BufferHt 0, _, hn, ⟨c1, c2⟩, c3, hnH, ?_, ?_, ?_,
    fun fuel hf => Render_up_zero a hdir hoff hH hmax hp0 hp1 fuel hf, hcoords, ?_⟩
  · intro h100
    rw [hn, h100]
    have : ((100 : Int) : ℚ) / 100 = 1 := by norm_num
    rw [this, toDouble_one, mul_one, toDouble_intCast _ hHmax, Int.ceil_intCast]
  · intro h50
    rw [hn, h50]
    have h2 := toDouble_dyadic 1 1 (by norm_num) (by decide)
    have e1 : ((50 : Int) : ℚ) / 100 = ((1 : Int) : ℚ) / 2 ^ 1 := by norm_num
    have e2 : (a.BufferHt : ℚ) * (((1 : Int) : ℚ) / 2 ^ 1) = (a.BufferHt : ℚ) / 2 ^ 1 := by ring
    rw [e1, h2, e2, toDouble_dyadic _ 1 hHmax (by decide), Int.ceil_eq_iff]
    have h1 : 2 * ((a.BufferHt + 1) / 2) - 1 ≤ a.BufferHt := by omega
    have h2 : a.BufferHt ≤ 2 * ((a.BufferHt + 1) / 2) := by omega
    have h1q : (2 : ℚ) * (((a.BufferHt + 1) / 2 : Int) : ℚ) - 1 ≤ (a.BufferHt : ℚ) := by
      exact_mod_cast h1
    have h2q : (a.BufferHt : ℚ) ≤ (2 : ℚ) * (((a.BufferHt + 1) / 2 : Int) : ℚ) := by
      exact_mod_cast h2
    constructor <;> norm_num <;> linarith
  · intro h0
    have hz : ((forwardCount a a.BufferHt 0 : Nat) : Int) = 0 := by
      rw [hn, h0]
      have : ((0 : Int) : ℚ) / 100 = 0 := by norm_num
      rw [this, toDouble_zero, mul_zero, toDouble_zero, Int.ceil_zero]
    exact_mod_cast hz
  · intro x y
    rw [hcoords]
    by_cases hm : 0 ≤ x ∧ x < a.BufferWi ∧ 0 ≤ y
        ∧ y < ((forwardCount a a.BufferHt 0 : Nat) : Int)
    · rw [if_pos hm]
      exact count_one_of_nodup _ _ (rows_nodup _ _) ((mem_rows _ _ _ _).mpr hm)
    · rw [if_neg hm]
      exact List.count_eq_zero_of_not_mem (fun h => hm ((mem_rows _ _ _ _).mp h))

/-- Witness of C13: a buffer 1 wide and 5 high, position 25%. -/
theorem fill_coverage_witness :
    ∃ (n : Nat) (t : List SetPixelCall),
      (n : Int) ≤ sampleFillQuarter.BufferHt ∧
      ∀ fuel, n ≤ fuel → Render fuel sampleFillQuarter = some t :=
  have ⟨n, t, _, _, _, h2, _, _, _, h5, _⟩ :=
    fill_coverage sampleFillQuarter rfl rfl (by decide) (by decide) (by decide) (by decide)
  ⟨n, t, h2, h5⟩

/-- Counterexample to C13 as stated. In a buffer 5 high at position 25%, the
rows 0 and 1 are written, two rows, whereas `H*p/100` is 5/4, whose rounded
value is 1: the number of rows is not `H*p/100` rounded to the nearest whole
number. In a buffer 25 high at position 28%, the rows 0 to 7 are written, eight
rows, whereas `H*p/100` is exactly 7: the product `25*0.28` computed in
`double` arithmetic is above 7. -/
theorem fill_coverage_rounds_up :
    Render 2 sampleFillQuarter
      = some [⟨0, 0, FillColor.palette 0⟩, ⟨0, 1, FillColor.palette 0⟩] ∧
    ((sampleFillQuarter.BufferHt * sampleFillQuarter.position : Int) : ℚ) / 100 = 5 / 4 ∧
    round (5 / 4 : ℚ) = 1 ∧
    (Render 8 sampleFillCeil).map pixelCoords
      = some [(0, 0), (0, 1), (0, 2), (0, 3), (0, 4), (0, 5), (0, 6), (0, 7)] ∧
    ((sampleFillCeil.BufferHt * sampleFillCeil.position : Int) : ℚ) / 100 = 7 ∧
    (7 : ℚ) < toDouble ((sampleFillCeil.BufferHt : ℚ)
      * toDouble ((sampleFillCeil.position : ℚ) / 100)) := by
  refine ⟨by decide!, ?_, ?_, by decide!, ?_, by decide!⟩
  · simp [sampleFillQuarter]; norm_num
  · rw [round_eq, Int.floor_eq_iff]; norm_num
  · simp [sampleFillCeil]; norm_num

/-! ## Fill effect: bands -/

theorem UpdateFillColor_one (position band_color colorcnt color_size : Int) :
    UpdateFillColor position band_color colorcnt color_size 1
      = fillColorForward colorcnt color_size (position, band_color) := by
  simp [UpdateFillColor]

theorem band_step (c cs : Int) (hc : 1 ≤ c) (hcs : 1 ≤ cs) (n : Nat) :
    fillColorForward c cs ((n : Int) % cs, ((n : Int) / cs) % c)
      = (((n + 1 : Nat) : Int) % cs, (((n + 1 : Nat) : Int) / cs) % c) := by
  have hr0 : 0 ≤ (n : Int) % cs := Int.emod_nonneg _ (by omega)
  have hr1 : (n : Int) % cs < cs := Int.emod_lt_of_pos _ (by omega)
  have hdiv : (n : Int) % cs + cs * ((n : Int) / cs) = n := Int.emod_add_ediv _ _
  have hq0 : 0 ≤ ((n : Int) / cs) % c := Int.emod_nonneg _ (by omega)
  unfold fillColorForward
  simp only []
  split_ifs with h
  · have hu : ((n + 1 : Nat) : Int) / cs = (n : Int) / cs + 1
        ∧ ((n + 1 : Nat) : Int) % cs = 0 := by
      rw [Int.ediv_emod_unique (by omega)]
      refine ⟨?_, le_refl 0, by omega⟩
      rw [mul_add, mul_one]
      push_cast
      omega
    rw [hu.1, hu.2, tmod_of_nonneg _ _ (by omega) (by omega), Int.emod_add_emod]
  · have hu : ((n + 1 : Nat) : Int) / cs = (n : Int) / cs
        ∧ ((n + 1 : Nat) : Int) % cs = (n : Int) % cs + 1 := by
      rw [Int.ediv_emod_unique (by omega)]
      refine ⟨?_, by omega, by omega⟩
      push_cast
      omega
    rw [hu.1, hu.2]

theorem UpdateFillColor_iterate (c cs : Int) (hc : 1 ≤ c) (hcs : 1 ≤ cs) (i : Nat) :
    Nat.iterate (fun s : Int × Int => UpdateFillColor s.1 s.2 c cs 1) i (0, 0)
      = ((i : Int) % cs, ((i : Int) / cs) % c) := by
  induction i with
  | zero => simp
  | succ i ih =>
    rw [Function.iterate_succ_apply', ih, UpdateFillColor_one]
    exact band_step c cs hc hcs i

/-- The sweep with bands, the colour taken by time: the band counters and the
`SetPixel` calls after `n` lines. -/
theorem fold_fillLine_band (a : FillArgs) (hb : 0 < a.BandSize) (hs : 0 ≤ a.SkipSize)
    (hc : 1 ≤ a.colorcnt) (ht : a.color_by_time = true) (pc : Nat → FillColor)
    (writes : Nat → FillColor → List SetPixelCall) (col : FillColor) (n : Nat) :
    ((List.range n).foldl (fun s (i : Nat) => fillLine a s (pc i) (writes i))
        ⟨0, 0, col, []⟩).current_pos = (n : Int) % (a.BandSize + a.SkipSize) ∧
    ((List.range n).foldl (fun s (i : Nat) => fillLine a s (pc i) (writes i))
        ⟨0, 0, col, []⟩).current_color
      = ((n : Int) / (a.BandSize + a.SkipSize)) % (a.colorcnt : Int) ∧
    ((List.range n).foldl (fun s (i : Nat) => fillLine a s (pc i) (writes i))
        ⟨0, 0, col, []⟩).pixels
      = (List.range n).flatMap (fun (i : Nat) => writes i
          (if (i : Int) % (a.BandSize + a.SkipSize) < a.BandSize
            then FillColor.palette (((i : Int) / (a.BandSize + a.SkipSize)) % (a.colorcnt : Int))
            else FillColor.black)) := by
  induction n with
  | zero => simp
  | succ n ih =>
    have hstep := band_step (a.colorcnt : Int) (a.BandSize + a.SkipSize)
      (by exact_mod_cast hc) (by omega) n
    rw [List.range_succ, List.foldl_append, List.flatMap_append]
    simp only [List.foldl_cons, List.foldl_nil, List.flatMap_cons, List.flatMap_nil,
      List.append_nil]
    generalize (List.range n).foldl (fun s (i : Nat) => fillLine a s (pc i) (writes i))
      ⟨0, 0, col, []⟩ = F at ih ⊢
    obtain ⟨ih1, ih2, ih3⟩ := ih
    simp only [fillLine, gt_iff_lt, if_pos hb, ht, not_true_eq_false, if_false,
      UpdateFillColor_one, ih1, ih2, ih3, hstep]
    exact ⟨trivial, trivial, trivial⟩

theorem positionColor_eq (a : FillArgs) (num den : Int) (reversed : Bool) :
    positionColor a num den reversed
      = if den = 0 then FillColor.undefined
        else GetColorFromPosition (sweepPosition num den reversed) a.colorcnt := rfl

/-- C14 (amended). Fill band cycling: for `BandSize > 0`, `SkipSize >= 0` and a
colour count `c >= 1`, `i` calls of `UpdateFillColor` with shift 1 from (0, 0)
yield `(i mod color_size, (i / color_size) mod c)` with
`color_size = BandSize + SkipSize`. With the colour taken by time
(`color_by_time` set), in every sweep the colour of the `i`-th line is
`palette[(i / color_size) mod c]` when `i mod color_size < BandSize` and black
otherwise, and so it is in the render upward from offset 0. With the colour not
taken by time, in every sweep the `i`-th line is written with the colour of its
position instead, bands or not, and so it is in the render upward from offset
0, where the colour of row `i` is `GetColorFromPosition` of the position
`i / (BufferHt - 1)`. The position in the band and the palette index repeat
after `color_size * c` lines, the palette index advances every `color_size`
lines and lies in `[0, c)`. -/
theorem fill_band_cycling (a : FillArgs) (hb : 0 < a.BandSize) (hs : 0 ≤ a.SkipSize)
    (hc : 1 ≤ a.colorcnt) :
    (∀ i : Nat,
      Nat.iterate
          (fun s : Int × Int =>
            UpdateFillColor s.1 s.2 (a.colorcnt : Int) (a.BandSize + a.SkipSize) 1) i (0, 0)
        = ((i : Int) % (a.BandSize + a.SkipSize),
           ((i : Int) / (a.BandSize + a.SkipSize)) % (a.colorcnt : Int))) ∧
    (a.color_by_time = true →
      (∀ (pc : Nat → FillColor) (writes : Nat → FillColor → List SetPixelCall)
        (col : FillColor) (n : Nat),
        ((List.range n).foldl (fun s (i : Nat) => fillLine a s (pc i) (writes i))
            ⟨0, 0, col, []⟩).pixels
          = linePixels n writes (fun (i : Nat) =>
              if (i : Int) % (a.BandSize + a.SkipSize) < a.BandSize
                then FillColor.palette
                  (((i : Int) / (a.BandSize + a.SkipSize)) % (a.colorcnt : Int))
                else FillColor.black)) ∧
      (a.Direction = 0 → a.offset = 0 → 1 ≤ a.BufferHt → a.BufferHt ≤ INT_MAX →
        0 ≤ a.position → a.position ≤ 100 →
        ∀ fuel, forwardCount a a.BufferHt 0 ≤ fuel →
        Render fuel a
          = some (linePixels (forwardCount a a.BufferHt 0)
              (fun (i : Nat) => rowWrites a.BufferWi (i : Int))
              (fun (i : Nat) =>
                if (i : Int) % (a.BandSize + a.SkipSize) < a.BandSize
                  then FillColor.palette
                    (((i : Int) / (a.BandSize + a.SkipSize)) % (a.colorcnt : Int))
                  else FillColor.black)))) ∧
    (a.color_by_time = false →
      (∀ (pc : Nat → FillColor) (writes : Nat → FillColor → List SetPixelCall)
        (col : FillColor) (n : Nat),
        ((List.range n).foldl (fun s (i : Nat) => fillLine a s (pc i) (writes i))
            ⟨0, 0, col, []⟩).pixels
          = linePixels n writes pc) ∧
      (a.Direction = 0 → a.offset = 0 → 1 ≤ a.BufferHt → a.BufferHt ≤ INT_MAX →
        0 ≤ a.position → a.position ≤ 100 →
        ∀ fuel, forwardCount a a.BufferHt 0 ≤ fuel →
        Render fuel a
          = some (linePixels (forwardCount a a.BufferHt 0)
              (fun (i : Nat) => rowWrites a.BufferWi (i : Int))
              (fun (i : Nat) => positionColor a (i : Int) (a.BufferHt - 1) false))) ∧
      (∀ i : Int, a.BufferHt - 1 ≠ 0 →
        positionColor a i (a.BufferHt - 1) false
          = GetColorFromPosition (ddiv (i : ℚ) ((a.BufferHt - 1 : Int) : ℚ)) a.colorcnt)) ∧
    (∀ i : Nat,
      ((i : Int) + (a.BandSize + a.SkipSize) * (a.colorcnt : Int)) % (a.BandSize + a.SkipSize)
        = (i : Int) % (a.BandSize + a.SkipSize) ∧
      (((i : Int) + (a.BandSize + a.SkipSize) * (a.colorcnt : Int))
          / (a.BandSize + a.SkipSize)) % (a.colorcnt : Int)
        = ((i : Int) / (a.BandSize + a.SkipSize)) % (a.colorcnt : Int) ∧
      (((i : Int) + (a.BandSize + a.SkipSize)) / (a.BandSize + a.SkipSize))
          % (a.colorcnt : Int)
        = ((i : Int) / (a.BandSize + a.SkipSize) + 1) % (a.colorcnt : Int) ∧
      0 ≤ ((i : Int) / (a.BandSize + a.SkipSize)) % (a.colorcnt : Int) ∧
      ((i : Int) / (a.BandSize + a.SkipSize)) % (a.colorcnt : Int) < (a.colorcnt : Int)) := by
  have hcI : (1 : Int) ≤ (a.colorcnt : Int) := by exact_mod_cast hc
  have hcs : (1 : Int) ≤ a.BandSize + a.SkipSize := by omega
  refine ⟨fun i => UpdateFillColor_iterate _ _ hcI hcs i, ?_, ?_, ?_⟩
  · intro ht
    refine ⟨fun pc writes col n => (fold_fillLine_band a hb hs hc ht pc writes col n).2.2, ?_⟩
    intro hdir hoff hH hmax hp0 hp1 fuel hf
    rw [Render_up_zero a hdir hoff hH hmax hp0 hp1 fuel hf]
    exact congrArg some (fold_fillLine_band a hb hs hc ht _ _ _ _).2.2
  · intro ht
    refine ⟨fun pc writes col n => ?_, ?_, ?_⟩
    · rw [fold_fillLine_position a ht pc writes n]
      rfl
    · intro hdir hoff hH hmax hp0 hp1 fuel hf
      rw [Render_up_zero a hdir hoff hH hmax hp0 hp1 fuel hf, fold_fillLine_position a ht]
      rfl
    · intro i hne
      rw [positionColor_eq, if_neg hne]
      rfl
  · intro i
    refine ⟨?_, ?_, ?_, Int.emod_nonneg _ (by omega), Int.emod_lt_of_pos _ (by omega)⟩
    · exact Int.add_mul_emod_self_left _ _ _
    · rw [Int.add_mul_ediv_left _ _ (by omega), Int.add_emod_self]
    · have h := Int.add_mul_ediv_left (i : Int) (1 : Int)
        (by omega : a.BandSize + a.SkipSize ≠ 0)
      rw [mul_one] at h
      rw [h]

/-- Witness of C14: bands of 2 with a skip of 1 and three colours, in a buffer 2
wide and 3 high, the colour taken by time and then by position. -/
theorem fill_band_cycling_witness :
    Nat.iterate
        (fun s : Int × Int =>
          UpdateFillColor s.1 s.2 (sampleFillBands.colorcnt : Int)
            (sampleFillBands.BandSize + sampleFillBands.SkipSize) 1) 4 (0, 0)
      = (((4 : Nat) : Int) % (sampleFillBands.BandSize + sampleFillBands.SkipSize),
         (((4 : Nat) : Int) / (sampleFillBands.BandSize + sampleFillBands.SkipSize))
           % (sampleFillBands.colorcnt : Int)) ∧
    Render 3 sampleFillBands
      = some [⟨0, 0, FillColor.palette 0⟩, ⟨1, 0, FillColor.palette 0⟩,
          ⟨0, 1, FillColor.palette 0⟩, ⟨1, 1, FillColor.palette 0⟩,
          ⟨0, 2, FillColor.black⟩, ⟨1, 2, FillColor.black⟩] ∧
    (∀ fuel, forwardCount sampleFill sampleFill.BufferHt 0 ≤ fuel →
      Render fuel sampleFill
        = some (linePixels (forwardCount sampleFill sampleFill.BufferHt 0)
            (fun (i : Nat) => rowWrites sampleFill.BufferWi (i : Int))
            (fun (i : Nat) => positionColor sampleFill (i : Int) (sampleFill.BufferHt - 1)
              false))) :=
  ⟨(fill_band_cycling sampleFillBands (by decide) (by decide) (by decide)).1 4,
    by decide!,
    (fill_band_cycling sampleFill (by decide) (by decide) (by decide)).2.2.1 rfl
      |>.2.1 rfl rfl (by decide) (by decide) (by decide) (by decide)⟩

/-- Counterexample to C14 as stated: with bands of 2, a skip of 1 and three
colours, the colour taken by position (`color_by_time` not set), the lines 0, 1
and 2 are given the colours of the positions 0, 1/2 and 1 of the palette: line 1
is given the palette entry 1, not the entry 0, and line 2, which is in the skip,
the palette entry 2, not black. -/
theorem fill_band_overridden_by_position :
    sampleFill.BandSize = 2 ∧ sampleFill.SkipSize = 1 ∧ sampleFill.colorcnt = 3 ∧
    sampleFill.color_by_time = false ∧
    Render 3 sampleFill
      = some [⟨0, 0, FillColor.blend 0 1 0⟩, ⟨1, 0, FillColor.blend 0 1 0⟩,
          ⟨0, 1, FillColor.blend 1 2 0⟩, ⟨1, 1, FillColor.blend 1 2 0⟩,
          ⟨0, 2, FillColor.palette 2⟩, ⟨1, 2, FillColor.palette 2⟩] ∧
    ¬ ((2 : Int) % (sampleFill.BandSize + sampleFill.SkipSize) < sampleFill.BandSize) ∧
    FillColor.palette 2 ≠ FillColor.black := by
  decide!

/-! ## The rectangle offset -/

theorem drawLine_unrotated (env : Env) (e : RgbEffects) (msg : String) (m : TextMetrics)
    (textsize : wxSize) (dir : Int) (center : Bool) (state startx starty endx endy : Int)
    (isPixelBased : Bool) (hrot : m.TextRotation = 0) :
    drawLine env e msg m textsize dir center state startx starty endx endy isPixelBased
      = DrawLabel env e.font e.colour e.drawn msg
          ⟨(rectOffset env e m textsize dir center state startx starty endx endy
              isPixelBased).1,
           (rectOffset env e m textsize dir center state startx starty endx endy
              isPixelBased).2, e.BufferWi, e.BufferHt⟩
          (wxALIGN_CENTER_HORIZONTAL ||| wxALIGN_CENTER_VERTICAL) := by
  simp only [drawLine, rectOffset, hrot, if_true]

theorem rectOffset_left (env : Env) (e : RgbEffects) (m : TextMetrics) (textsize : wxSize)
    (center : Bool) (state startx starty endx endy : Int) (isPixelBased : Bool) :
    rectOffset env e m textsize TEXTDIR_LEFT center state startx starty endx endy isPixelBased
      = (if center then
           max ((xlimit e textsize).tdiv 16
               - (if state.tdiv 8 < 0 then state.tdiv 8 + 32768 else state.tdiv 8))
             ((-m.extra_left).tdiv 2)
         else (xlimit e textsize).tdiv 16 - (state.tmod (xlimit e textsize)).tdiv 8,
         OffsetTop e starty isPixelBased) := by
  simp [rectOffset, xlimit, OffsetTop, TEXTDIR_LEFT, TEXTDIR_VECTOR]

theorem rectOffset_right (env : Env) (e : RgbEffects) (m : TextMetrics) (textsize : wxSize)
    (center : Bool) (state startx starty endx endy : Int) (isPixelBased : Bool) :
    rectOffset env e m textsize TEXTDIR_RIGHT center state startx starty endx endy isPixelBased
      = (if center then
           min (state.tdiv 8 - (xlimit e textsize).tdiv 16) (m.extra_right.tdiv 2)
         else (state.tmod (xlimit e textsize)).tdiv 8 - (xlimit e textsize).tdiv 16,
         OffsetTop e starty isPixelBased) := by
  simp [rectOffset, xlimit, OffsetTop, TEXTDIR_LEFT, TEXTDIR_VECTOR, TEXTDIR_RIGHT]

theorem rectOffset_up (env : Env) (e : RgbEffects) (m : TextMetrics) (textsize : wxSize)
    (center : Bool) (state startx starty endx endy : Int) (isPixelBased : Bool) :
    rectOffset env e m textsize TEXTDIR_UP center state startx starty endx endy isPixelBased
      = (OffsetLeft e startx isPixelBased,
         if center then
           max ((ylimit e textsize).tdiv 16 - state.tdiv 8)
             (m.lineh.tdiv 2 - m.extra_up.tdiv 2)
         else (ylimit e textsize).tdiv 16 - (state.tmod (ylimit e textsize)).tdiv 8) := by
  simp [rectOffset, ylimit, OffsetLeft, TEXTDIR_LEFT, TEXTDIR_VECTOR, TEXTDIR_RIGHT,
    TEXTDIR_UP]

theorem rectOffset_down (env : Env) (e : RgbEffects) (m : TextMetrics) (textsize : wxSize)
    (center : Bool) (state startx starty endx endy : Int) (isPixelBased : Bool) :
    rectOffset env e m textsize TEXTDIR_DOWN center state startx starty endx endy isPixelBased
      = (OffsetLeft e startx isPixelBased,
         if center then
           min (state.tdiv 8 - (ylimit e textsize).tdiv 16)
             ((-m.lineh).tdiv 2 + m.extra_down.tdiv 2)
         else (state.tmod (ylimit e textsize)).tdiv 8 - (ylimit e textsize).tdiv 16) := by
  simp [rectOffset, ylimit, OffsetLeft, TEXTDIR_LEFT, TEXTDIR_VECTOR, TEXTDIR_RIGHT,
    TEXTDIR_UP, TEXTDIR_DOWN]

theorem rectOffset_diagonal (env : Env) (e : RgbEffects) (m : TextMetrics)
    (textsize : wxSize) (center : Bool) (state startx starty endx endy : Int)
    (isPixelBased : Bool) :
    rectOffset env e m textsize TEXTDIR_UPLEFT center state startx starty endx endy
        isPixelBased
      = (if center then max ((xlimit e textsize).tdiv 16 - state.tdiv 8)
             ((-m.extra_left).tdiv 2)
         else (xlimit e textsize).tdiv 16 - (state.tmod (xlimit e textsize)).tdiv 8,
         if center then max ((ylimit e textsize).tdiv 16 - state.tdiv 8)
             (m.lineh.tdiv 2 - m.extra_up.tdiv 2)
         else (ylimit e textsize).tdiv 16 - (state.tmod (ylimit e textsize)).tdiv 8) ∧
    rectOffset env e m textsize TEXTDIR_DOWNLEFT center state startx starty endx endy
        isPixelBased
      = (if center then max ((xlimit e textsize).tdiv 16 - state.tdiv 8)
             ((-m.extra_left).tdiv 2)
         else (xlimit e textsize).tdiv 16 - (state.tmod (xlimit e textsize)).tdiv 8,
         if center then min (state.tdiv 8 - (ylimit e textsize).tdiv 16)
             ((-m.lineh).tdiv 2 + m.extra_down.tdiv 2)
         else (state.tmod (ylimit e textsize)).tdiv 8 - (ylimit e textsize).tdiv 16) ∧
    rectOffset env e m textsize TEXTDIR_UPRIGHT center state startx starty endx endy
        isPixelBased
      = (if center then min (state.tdiv 8 - (xlimit e textsize).tdiv 16)
             (m.extra_right.tdiv 2)
         else (state.tmod (xlimit e textsize)).tdiv 8 - (xlimit e textsize).tdiv 16,
         if center then max ((ylimit e textsize).tdiv 16 - state.tdiv 8)
             (m.lineh.tdiv 2 - m.extra_up.tdiv 2)
         else (ylimit e textsize).tdiv 16 - (state.tmod (ylimit e textsize)).tdiv 8) ∧
    rectOffset env e m textsize TEXTDIR_DOWNRIGHT center state startx starty endx endy
        isPixelBased
      = (if center then min (state.tdiv 8 - (xlimit e textsize).tdiv 16)
             (m.extra_right.tdiv 2)
         else (state.tmod (xlimit e textsize)).tdiv 8 - (xlimit e textsize).tdiv 16,
         if center then min (state.tdiv 8 - (ylimit e textsize).tdiv 16)
             ((-m.lineh).tdiv 2 + m.extra_down.tdiv 2)
         else (state.tmod (ylimit e textsize)).tdiv 8 - (ylimit e textsize).tdiv 16) := by
  refine ⟨?_, ?_, ?_, ?_⟩ <;>
    simp [rectOffset, xlimit, ylimit, TEXTDIR_LEFT, TEXTDIR_VECTOR, TEXTDIR_RIGHT,
      TEXTDIR_UP, TEXTDIR_DOWN, TEXTDIR_UPLEFT, TEXTDIR_DOWNLEFT, TEXTDIR_UPRIGHT,
      TEXTDIR_DOWNRIGHT]

theorem rectOffset_wavey (env : Env) (e : RgbEffects) (m : TextMetrics) (textsize : wxSize)
    (center : Bool) (state startx starty endx endy : Int) (isPixelBased : Bool) :
    rectOffset env e m textsize TEXTDIR_WAVEY_LRUPDOWN center state startx starty endx endy
        isPixelBased
      = if center then
          (min (state.tdiv 8 - (xlimit e textsize).tdiv 16) (m.extra_right.tdiv 2),
           max ((zigzag (state.tdiv 4) (totheight e textsize)).tdiv 2
               - (totheight e textsize).tdiv 4) ((-m.extra_left).tdiv 2))
        else
          ((xlimit e textsize).tdiv 16 - (state.tmod (xlimit e textsize)).tdiv 8,
           (zigzag (state.tdiv 4) (totheight e textsize)).tdiv 2
             - (totheight e textsize).tdiv 4) := by
  simp [rectOffset, xlimit, totheight, TEXTDIR_LEFT, TEXTDIR_VECTOR, TEXTDIR_RIGHT,
    TEXTDIR_UP, TEXTDIR_DOWN, TEXTDIR_UPLEFT, TEXTDIR_DOWNLEFT, TEXTDIR_UPRIGHT,
    TEXTDIR_DOWNRIGHT, TEXTDIR_WAVEY_LRUPDOWN]

/-! ## Scrolling without the centre flag -/

theorem wrap_period (xl s : Int) (hxl : 0 < xl) (hs : 0 ≤ s) :
    ((s + xl).tmod xl).tdiv 8 = (s.tmod xl).tdiv 8 := by
  rw [tmod_of_nonneg _ _ (by omega) hxl, tmod_of_nonneg _ _ hs hxl, Int.add_emod_self]

theorem wrap_first (xl s : Int) (hs : 0 ≤ s) (hlt : s < xl) :
    (s.tmod xl).tdiv 8 = s / 8 := by
  rw [tmod_of_nonneg _ _ hs (by omega), Int.emod_eq_of_lt hs hlt,
    tdiv_of_nonneg _ _ hs (by decide)]

theorem wrap_minimal (xl p : Int) (hxl : 9 ≤ xl) (hp : 0 < p) (hlt : p < xl) :
    ∃ s : Int, 0 ≤ s ∧ ((s + p).tmod xl).tdiv 8 ≠ (s.tmod xl).tdiv 8 := by
  by_cases h8 : 8 ≤ p
  · refine ⟨0, le_refl 0, ?_⟩
    rw [zero_add, wrap_first xl p (by omega) hlt, wrap_first xl 0 (le_refl 0) (by omega)]
    omega
  · refine ⟨8 - p, by omega, ?_⟩
    rw [wrap_first xl (8 - p + p) (by omega) (by omega),
      wrap_first xl (8 - p) (by omega) (by omega)]
    omega

/-- C21 (amended). Scroll wrap modulus: for unrotated text without centring,
a buffer at least 1 wide and 1 high, a box with non-negative sides and
`state >= 0`, the offset along the motion axis is `xlimit/16 - (state % xlimit)/8`
for LEFT and its opposite for RIGHT, with `xlimit = 8*(BufferWi + textWidth) + 1`,
and the same with `ylimit = 8*(BufferHt + textHeight) + 1` for UP and DOWN: within
a cycle (`state < xlimit`) it moves by one pixel per 8 units of `state`, it is
periodic in `state` with period `xlimit` (`ylimit`), and no smaller positive
number is a period. -/
theorem scroll_wrap_period (env : Env) (e : RgbEffects) (m : TextMetrics) (textsize : wxSize)
    (state startx starty endx endy : Int) (isPixelBased : Bool)
    (hW : 1 ≤ e.BufferWi) (hH : 1 ≤ e.BufferHt) (hx : 0 ≤ textsize.x) (hy : 0 ≤ textsize.y)
    (hs : 0 ≤ state) :
    (m.TextRotation = 0 → ∀ (msg : String) (dir : Int),
      drawLine env e msg m textsize dir false state startx starty endx endy isPixelBased
        = DrawLabel env e.font e.colour e.drawn msg
            ⟨(rectOffset env e m textsize dir false state startx starty endx endy
                isPixelBased).1,
             (rectOffset env e m textsize dir false state startx starty endx endy
                isPixelBased).2, e.BufferWi, e.BufferHt⟩
            (wxALIGN_CENTER_HORIZONTAL ||| wxALIGN_CENTER_VERTICAL)) ∧
    xlimit e textsize = 8 * (e.BufferWi + textsize.x) + 1 ∧
    ylimit e textsize = 8 * (e.BufferHt + textsize.y) + 1 ∧
    ((rectOffset env e m textsize TEXTDIR_LEFT false state startx starty endx endy
        isPixelBased).1
      = xlimit e textsize / 16 - (state % xlimit e textsize) / 8 ∧
     (rectOffset env e m textsize TEXTDIR_RIGHT false state startx starty endx endy
        isPixelBased).1
      = (state % xlimit e textsize) / 8 - xlimit e textsize / 16 ∧
     (rectOffset env e m textsize TEXTDIR_UP false state startx starty endx endy
        isPixelBased).2
      = ylimit e textsize / 16 - (state % ylimit e textsize) / 8 ∧
     (rectOffset env e m textsize TEXTDIR_DOWN false state startx starty endx endy
        isPixelBased).2
      = (state % ylimit e textsize) / 8 - ylimit e textsize / 16) ∧
    (state < xlimit e textsize → (state % xlimit e textsize) / 8 = state / 8) ∧
    (state < ylimit e textsize → (state % ylimit e textsize) / 8 = state / 8) ∧
    ((rectOffset env e m textsize TEXTDIR_LEFT false (state + xlimit e textsize) startx starty
        endx endy isPixelBased).1
      = (rectOffset env e m textsize TEXTDIR_LEFT false state startx starty endx endy
        isPixelBased).1 ∧
     (rectOffset env e m textsize TEXTDIR_RIGHT false (state + xlimit e textsize) startx
        starty endx endy isPixelBased).1
      = (rectOffset env e m textsize TEXTDIR_RIGHT false state startx starty endx endy
        isPixelBased).1 ∧
     (rectOffset env e m textsize TEXTDIR_UP false (state + ylimit e textsize) startx starty
        endx endy isPixelBased).2
      = (rectOffset env e m textsize TEXTDIR_UP false state startx starty endx endy
        isPixelBased).2 ∧
     (rectOffset env e m textsize TEXTDIR_DOWN false (state + ylimit e textsize) startx starty
        endx endy isPixelBased).2
      = (rectOffset env e m textsize TEXTDIR_DOWN false state startx starty endx endy
        isPixelBased).2) ∧
    (∀ p : Int, 0 < p → p < xlimit e textsize → ∃ s : Int, 0 ≤ s ∧
      (rectOffset env e m textsize TEXTDIR_LEFT false (s + p) startx starty endx endy
          isPixelBased).1
        ≠ (rectOffset env e m textsize TEXTDIR_LEFT false s startx starty endx endy
          isPixelBased).1 ∧
      (rectOffset env e m textsize TEXTDIR_RIGHT false (s + p) startx starty endx endy
          isPixelBased).1
        ≠ (rectOffset env e m textsize TEXTDIR_RIGHT false s startx starty endx endy
          isPixelBased).1) ∧
    (∀ p : Int, 0 < p → p < ylimit e textsize → ∃ s : Int, 0 ≤ s ∧
      (rectOffset env e m textsize TEXTDIR_UP false (s + p) startx starty endx endy
          isPixelBased).2
        ≠ (rectOffset env e m textsize TEXTDIR_UP false s startx starty endx endy
          isPixelBased).2 ∧
      (rectOffset env e m textsize TEXTDIR_DOWN false (s + p) startx starty endx endy
          isPixelBased).2
        ≠ (rectOffset env e m textsize TEXTDIR_DOWN false s startx starty endx endy
          isPixelBased).2) := by
  have hxl : 9 ≤ xlimit e textsize := by unfold xlimit; omega
  have hyl : 9 ≤ ylimit e textsize := by unfold ylimit; omega
  have hmx : (state.tmod (xlimit e textsize)).tdiv 8 = (state % xlimit e textsize) / 8 := by
    rw [tmod_of_nonneg _ _ hs (by omega),
      tdiv_of_nonneg _ _ (Int.emod_nonneg _ (by omega)) (by decide)]
  have hmy : (state.tmod (ylimit e textsize)).tdiv 8 = (state % ylimit e textsize) / 8 := by
    rw [tmod_of_nonneg _ _ hs (by omega),
      tdiv_of_nonneg _ _ (Int.emod_nonneg _ (by omega)) (by decide)]
  have hdx : (xlimit e textsize).tdiv 16 = xlimit e textsize / 16 :=
    tdiv_of_nonneg _ _ (by omega) (by decide)
  have hdy : (ylimit e textsize).tdiv 16 = ylimit e textsize / 16 :=
    tdiv_of_nonneg _ _ (by omega) (by decide)
  refine ⟨fun hrot msg dir => drawLine_unrotated env e msg m textsize dir false state startx
      starty endx endy isPixelBased hrot, by unfold xlimit; ring, by unfold ylimit; ring,
    ⟨?_, ?_, ?_, ?_⟩, ?_, ?_, ⟨?_, ?_, ?_, ?_⟩, ?_, ?_⟩
  · rw [rectOffset_left]; simp only [Bool.false_eq_true, if_false]; rw [hmx, hdx]
  · rw [rectOffset_right]; simp only [Bool.false_eq_true, if_false]; rw [hmx, hdx]
  · rw [rectOffset_up]; simp only [Bool.false_eq_true, if_false]; rw [hmy, hdy]
  · rw [rectOffset_down]; simp only [Bool.false_eq_true, if_false]; rw [hmy, hdy]
  · intro hlt
    rw [Int.emod_eq_of_lt hs hlt]
  · intro hlt
    rw [Int.emod_eq_of_lt hs hlt]
  · rw [rectOffset_left, rectOffset_left]
    simp only [Bool.false_eq_true, if_false]
    rw [wrap_period _ _ (by omega) hs]
  · rw [rectOffset_right, rectOffset_right]
    simp only [Bool.false_eq_true, if_false]
    rw [wrap_period _ _ (by omega) hs]
  · rw [rectOffset_up, rectOffset_up]
    simp only [Bool.false_eq_true, if_false]
    rw [wrap_period _ _ (by omega) hs]
  · rw [rectOffset_down, rectOffset_down]
    simp only [Bool.false_eq_true, if_false]
    rw [wrap_period _ _ (by omega) hs]
  · intro p hp hlt
    obtain ⟨s, hs0, hne⟩ := wrap_minimal _ p hxl hp hlt
    refine ⟨s, hs0, ?_, ?_⟩
    · rw [rectOffset_left, rectOffset_left]
      simp only [Bool.false_eq_true, if_false]
      omega
    · rw [rectOffset_right, rectOffset_right]
      simp only [Bool.false_eq_true, if_false]
      omega
  · intro p hp hlt
    obtain ⟨s, hs0, hne⟩ := wrap_minimal _ p hyl hp hlt
    refine ⟨s, hs0, ?_, ?_⟩
    · rw [rectOffset_up, rectOffset_up]
      simp only [Bool.false_eq_true, if_false]
      omega
    · rw [rectOffset_down, rectOffset_down]
      simp only [Bool.false_eq_true, if_false]
      omega

/-- Witness of C21: the sample buffer, 32 by 16, a box of 12 by 8 and state 100;
the limit is 353. -/
theorem scroll_wrap_period_witness :
    xlimit sampleEffect ⟨12, 8⟩ = 8 * (sampleEffect.BufferWi + 12) + 1 ∧
    (rectOffset sampleEnv sampleEffect sampleMetrics ⟨12, 8⟩ TEXTDIR_LEFT false
        (100 + xlimit sampleEffect ⟨12, 8⟩) 0 0 0 0 false).1
      = (rectOffset sampleEnv sampleEffect sampleMetrics ⟨12, 8⟩ TEXTDIR_LEFT false 100
        0 0 0 0 false).1 :=
  have h := scroll_wrap_period sampleEnv sampleEffect sampleMetrics ⟨12, 8⟩ 100 0 0 0 0 false
    (by decide) (by decide) (by decide) (by decide) (by decide)
  ⟨h.2.1, h.2.2.2.2.2.2.1.1⟩

/-- Counterexample to C21 as stated: in the sample buffer, 32 wide, with a box
12 wide, `8*(BufferWi + textWidth)` is 352; the offset of LEFT is 22 at state 0
and -22 at state 352, so 352 is not a period (353 is). -/
theorem scroll_period_is_not_eight_times :
    8 * (sampleEffect.BufferWi + 12) = 352 ∧
    (rectOffset sampleEnv sampleEffect sampleMetrics ⟨12, 8⟩ TEXTDIR_LEFT false 0
        0 0 0 0 false).1 = 22 ∧
    (rectOffset sampleEnv sampleEffect sampleMetrics ⟨12, 8⟩ TEXTDIR_LEFT false (0 + 352)
        0 0 0 0 false).1 = -22 ∧
    (rectOffset sampleEnv sampleEffect sampleMetrics ⟨12, 8⟩ TEXTDIR_LEFT false (0 + 353)
        0 0 0 0 false).1 = 22 ∧
    drawLine sampleEnv sampleEffect "Hi" sampleMetrics ⟨12, 8⟩ TEXTDIR_LEFT false 0
        0 0 0 0 false = [⟨"", 0, "Hi", 32, 4, none⟩] ∧
    drawLine sampleEnv sampleEffect "Hi" sampleMetrics ⟨12, 8⟩ TEXTDIR_LEFT false 352
        0 0 0 0 false = [⟨"", 0, "Hi", -12, 4, none⟩] := by
  decide!

/-! ## Scrolling with the centre flag -/

/-- C22. Centre settle: for unrotated text with the centre flag set and
`state >= 0`, the offset along the motion axis is
`max(xlimit/16 - state/8, -extra_left/2)` for LEFT,
`min(state/8 - xlimit/16, extra_right/2)` for RIGHT,
`max(ylimit/16 - state/8, lineh/2 - extra_up/2)` for UP and
`min(state/8 - ylimit/16, -lineh/2 + extra_down/2)` for DOWN; it is monotone in
`state` (non-increasing for LEFT and UP, non-decreasing for RIGHT and DOWN), with
no wrap, and from a threshold on it is constant and equal to the clamp bound. -/
theorem centre_settle (env : Env) (e : RgbEffects) (m : TextMetrics) (textsize : wxSize)
    (state startx starty endx endy : Int) (isPixelBased : Bool) (hs : 0 ≤ state) :
    (m.TextRotation = 0 → ∀ (msg : String) (dir : Int),
      drawLine env e msg m textsize dir true state startx starty endx endy isPixelBased
        = DrawLabel env e.font e.colour e.drawn msg
            ⟨(rectOffset env e m textsize dir true state startx starty endx endy
                isPixelBased).1,
             (rectOffset env e m textsize dir true state startx starty endx endy
                isPixelBased).2, e.BufferWi, e.BufferHt⟩
            (wxALIGN_CENTER_HORIZONTAL ||| wxALIGN_CENTER_VERTICAL)) ∧
    ((rectOffset env e m textsize TEXTDIR_LEFT true state startx starty endx endy
        isPixelBased).1
      = max ((xlimit e textsize).tdiv 16 - state / 8) ((-m.extra_left).tdiv 2) ∧
     (rectOffset env e m textsize TEXTDIR_RIGHT true state startx starty endx endy
        isPixelBased).1
      = min (state / 8 - (xlimit e textsize).tdiv 16) (m.extra_right.tdiv 2) ∧
     (rectOffset env e m textsize TEXTDIR_UP true state startx starty endx endy
        isPixelBased).2
      = max ((ylimit e textsize).tdiv 16 - state / 8) (m.lineh.tdiv 2 - m.extra_up.tdiv 2) ∧
     (rectOffset env e m textsize TEXTDIR_DOWN true state startx starty endx endy
        isPixelBased).2
      = min (state / 8 - (ylimit e textsize).tdiv 16)
          ((-m.lineh).tdiv 2 + m.extra_down.tdiv 2)) ∧
    (∀ state2 : Int, state ≤ state2 →
      (rectOffset env e m textsize TEXTDIR_LEFT true state2 startx starty endx endy
          isPixelBased).1
        ≤ (rectOffset env e m textsize TEXTDIR_LEFT true state startx starty endx endy
          isPixelBased).1 ∧
      (rectOffset env e m textsize TEXTDIR_RIGHT true state startx starty endx endy
          isPixelBased).1
        ≤ (rectOffset env e m textsize TEXTDIR_RIGHT true state2 startx starty endx endy
          isPixelBased).1 ∧
      (rectOffset env e m textsize TEXTDIR_UP true state2 startx starty endx endy
          isPixelBased).2
        ≤ (rectOffset env e m textsize TEXTDIR_UP true state startx starty endx endy
          isPixelBased).2 ∧
      (rectOffset env e m textsize TEXTDIR_DOWN true state startx starty endx endy
          isPixelBased).2
        ≤ (rectOffset env e m textsize TEXTDIR_DOWN true state2 startx starty endx endy
          isPixelBased).2) ∧
    (∃ threshold : Int, 0 ≤ threshold ∧ ∀ state2 : Int, threshold ≤ state2 →
      (rectOffset env e m textsize TEXTDIR_LEFT true state2 startx starty endx endy
          isPixelBased).1 = (-m.extra_left).tdiv 2 ∧
      (rectOffset env e m textsize TEXTDIR_RIGHT true state2 startx starty endx endy
          isPixelBased).1 = m.extra_right.tdiv 2 ∧
      (rectOffset env e m textsize TEXTDIR_UP true state2 startx starty endx endy
          isPixelBased).2 = m.lineh.tdiv 2 - m.extra_up.tdiv 2 ∧
      (rectOffset env e m textsize TEXTDIR_DOWN true state2 startx starty endx endy
          isPixelBased).2 = (-m.lineh).tdiv 2 + m.extra_down.tdiv 2) := by
  have h8 : ∀ s : Int, 0 ≤ s → s.tdiv 8 = s / 8 :=
    fun s h => tdiv_of_nonneg s 8 h (by decide)
  have hL : ∀ s : Int, 0 ≤ s →
      (rectOffset env e m textsize TEXTDIR_LEFT true s startx starty endx endy
          isPixelBased).1
        = max ((xlimit e textsize).tdiv 16 - s / 8) ((-m.extra_left).tdiv 2) := by
    intro s h
    rw [rectOffset_left]
    simp only [if_true, h8 s h]
    rw [if_neg (by omega)]
  have hR : ∀ s : Int, 0 ≤ s →
      (rectOffset env e m textsize TEXTDIR_RIGHT true s startx starty endx endy
          isPixelBased).1
        = min (s / 8 - (xlimit e textsize).tdiv 16) (m.extra_right.tdiv 2) := by
    intro s h
    rw [rectOffset_right]
    simp only [if_true, h8 s h]
  have hU : ∀ s : Int, 0 ≤ s →
      (rectOffset env e m textsize TEXTDIR_UP true s startx starty endx endy
          isPixelBased).2
        = max ((ylimit e textsize).tdiv 16 - s / 8) (m.lineh.tdiv 2 - m.extra_up.tdiv 2) := by
    intro s h
    rw [rectOffset_up]
    simp only [if_true, h8 s h]
  have hD : ∀ s : Int, 0 ≤ s →
      (rectOffset env e m textsize TEXTDIR_DOWN true s startx starty endx endy
          isPixelBased).2
        = min (s / 8 - (ylimit e textsize).tdiv 16)
            ((-m.lineh).tdiv 2 + m.extra_down.tdiv 2) := by
    intro s h
    rw [rectOffset_down]
    simp only [if_true, h8 s h]
  refine ⟨fun hrot msg dir => drawLine_unrotated env e msg m textsize dir true state startx
      starty endx endy isPixelBased hrot, ⟨hL state hs, hR state hs, hU state hs, hD state hs⟩,
    ?_, ?_⟩
  · intro state2 h2
    rw [hL state hs, hL state2 (by omega), hR state hs, hR state2 (by omega), hU state hs,
      hU state2 (by omega), hD state hs, hD state2 (by omega)]
    refine ⟨?_, ?_, ?_, ?_⟩ <;> omega
  · refine ⟨8 * (|(xlimit e textsize).tdiv 16| + |(ylimit e textsize).tdiv 16|
        + |(-m.extra_left).tdiv 2| + |m.extra_right.tdiv 2|
        + |m.lineh.tdiv 2 - m.extra_up.tdiv 2| + |(-m.lineh).tdiv 2 + m.extra_down.tdiv 2|),
      by positivity, ?_⟩
    intro state2 h2
    have a1 := abs_nonneg ((xlimit e textsize).tdiv 16)
    have a2 := abs_nonneg ((ylimit e textsize).tdiv 16)
    have a3 := abs_nonneg ((-m.extra_left).tdiv 2)
    have a4 := abs_nonneg (m.extra_right.tdiv 2)
    have a5 := abs_nonneg (m.lineh.tdiv 2 - m.extra_up.tdiv 2)
    have a6 := abs_nonneg ((-m.lineh).tdiv 2 + m.extra_down.tdiv 2)
    have b1 := le_abs_self ((xlimit e textsize).tdiv 16)
    have b2 := le_abs_self ((ylimit e textsize).tdiv 16)
    have b3 := neg_abs_le ((-m.extra_left).tdiv 2)
    have b4 := le_abs_self (m.extra_right.tdiv 2)
    have b5 := neg_abs_le (m.lineh.tdiv 2 - m.extra_up.tdiv 2)
    have b6 := le_abs_self ((-m.lineh).tdiv 2 + m.extra_down.tdiv 2)
    have c1 := neg_abs_le ((xlimit e textsize).tdiv 16)
    have c2 := neg_abs_le ((ylimit e textsize).tdiv 16)
    rw [hL state2 (by omega), hR state2 (by omega), hU state2 (by omega),
      hD state2 (by omega)]
    refine ⟨?_, ?_, ?_, ?_⟩ <;> omega

/-- Witness of C22: the sample buffer and the sample text at state 100. -/
theorem centre_settle_witness :
    (rectOffset sampleEnv sampleEffect sampleMetrics ⟨12, 8⟩ TEXTDIR_LEFT true 100
        0 0 0 0 false).1
      = max ((xlimit sampleEffect ⟨12, 8⟩).tdiv 16 - 100 / 8)
          ((-sampleMetrics.extra_left).tdiv 2) :=
  (centre_settle sampleEnv sampleEffect sampleMetrics ⟨12, 8⟩ 100 0 0 0 0 false
    (by decide)).2.1.1

/-! ## Diagonals -/

theorem measureText_extras (env : Env) (font : String) (msg : String) (dir Effect : Int) :
    (measureText env font msg dir Effect).extra_left
      = (if IsGoingLeft dir then
          (GetMultiLineTextExtent env font msg).x
            - (GetMultiLineTextExtent env font (trimLeft msg)).x else 0) ∧
    (measureText env font msg dir Effect).extra_right
      = (if IsGoingRight dir then
          (GetMultiLineTextExtent env font msg).x
            - (GetMultiLineTextExtent env font (trimRight msg)).x else 0) ∧
    (measureText env font msg dir Effect).extra_down
      = (if IsGoingDown dir then
          (GetMultiLineTextExtent env font msg).y
            - (GetMultiLineTextExtent env font (StripRight msg)).y else 0) ∧
    (measureText env font msg dir Effect).extra_up
      = (if IsGoingUp dir then
          (GetMultiLineTextExtent env font msg).y
            - (GetMultiLineTextExtent env font (StripLeft msg)).y else 0) ∧
    (measureText env font msg dir Effect).lineh = (GetMultiLineTextExtent env font "X").y := by
  unfold measureText
  simp only []
  split_ifs <;> exact ⟨rfl, rfl, rfl, rfl, rfl⟩

/-- C23. Diagonals are combinations of the cardinal motions: for unrotated
text, every `state >= 0` and either value of the centre flag, with the same
whitespace compensation values, the horizontal offset of UPLEFT and of DOWNLEFT
is the one LEFT computes, that of UPRIGHT and of DOWNRIGHT the one RIGHT
computes, the vertical offset of UPLEFT and of UPRIGHT the one UP computes and
that of DOWNLEFT and of DOWNRIGHT the one DOWN computes; and the compensation
value each of them uses is measured in the same way for the diagonal as for the
cardinal direction. -/
theorem diagonal_offsets (env : Env) (e : RgbEffects) (m : TextMetrics) (textsize : wxSize)
    (center : Bool) (state startx starty endx endy : Int) (isPixelBased : Bool)
    (hs : 0 ≤ state) :
    ((rectOffset env e m textsize TEXTDIR_UPLEFT center state startx starty endx endy
        isPixelBased).1
      = (rectOffset env e m textsize TEXTDIR_LEFT center state startx starty endx endy
        isPixelBased).1 ∧
     (rectOffset env e m textsize TEXTDIR_DOWNLEFT center state startx starty endx endy
        isPixelBased).1
      = (rectOffset env e m textsize TEXTDIR_LEFT center state startx starty endx endy
        isPixelBased).1 ∧
     (rectOffset env e m textsize TEXTDIR_UPRIGHT center state startx starty endx endy
        isPixelBased).1
      = (rectOffset env e m textsize TEXTDIR_RIGHT center state startx starty endx endy
        isPixelBased).1 ∧
     (rectOffset env e m textsize TEXTDIR_DOWNRIGHT center state startx starty endx endy
        isPixelBased).1
      = (rectOffset env e m textsize TEXTDIR_RIGHT center state startx starty endx endy
        isPixelBased).1) ∧
    ((rectOffset env e m textsize TEXTDIR_UPLEFT center state startx starty endx endy
        isPixelBased).2
      = (rectOffset env e m textsize TEXTDIR_UP center state startx starty endx endy
        isPixelBased).2 ∧
     (rectOffset env e m textsize TEXTDIR_UPRIGHT center state startx starty endx endy
        isPixelBased).2
      = (rectOffset env e m textsize TEXTDIR_UP center state startx starty endx endy
        isPixelBased).2 ∧
     (rectOffset env e m textsize TEXTDIR_DOWNLEFT center state startx starty endx endy
        isPixelBased).2
      = (rectOffset env e m textsize TEXTDIR_DOWN center state startx starty endx endy
        isPixelBased).2 ∧
     (rectOffset env e m textsize TEXTDIR_DOWNRIGHT center state startx starty endx endy
        isPixelBased).2
      = (rectOffset env e m textsize TEXTDIR_DOWN center state startx starty endx endy
        isPixelBased).2) ∧
    (∀ (font msg : String) (Effect : Int),
      (measureText env font msg TEXTDIR_UPLEFT Effect).extra_left
        = (measureText env font msg TEXTDIR_LEFT Effect).extra_left ∧
      (measureText env font msg TEXTDIR_DOWNLEFT Effect).extra_left
        = (measureText env font msg TEXTDIR_LEFT Effect).extra_left ∧
      (measureText env font msg TEXTDIR_UPRIGHT Effect).extra_right
        = (measureText env font msg TEXTDIR_RIGHT Effect).extra_right ∧
      (measureText env font msg TEXTDIR_DOWNRIGHT Effect).extra_right
        = (measureText env font msg TEXTDIR_RIGHT Effect).extra_right ∧
      (measureText env font msg TEXTDIR_UPLEFT Effect).extra_up
        = (measureText env font msg TEXTDIR_UP Effect).extra_up ∧
      (measureText env font msg TEXTDIR_UPRIGHT Effect).extra_up
        = (measureText env font msg TEXTDIR_UP Effect).extra_up ∧
      (measureText env font msg TEXTDIR_DOWNLEFT Effect).extra_down
        = (measureText env font msg TEXTDIR_DOWN Effect).extra_down ∧
      (measureText env font msg TEXTDIR_DOWNRIGHT Effect).extra_down
        = (measureText env font msg TEXTDIR_DOWN Effect).extra_down ∧
      (∀ dir : Int, (measureText env font msg dir Effect).lineh
        = (measureText env font msg TEXTDIR_UP Effect).lineh)) ∧
    (m.TextRotation = 0 → ∀ (msg : String) (dir : Int),
      drawLine env e msg m textsize dir center state startx starty endx endy isPixelBased
        = DrawLabel env e.font e.colour e.drawn msg
            ⟨(rectOffset env e m textsize dir center state startx starty endx endy
                isPixelBased).1,
             (rectOffset env e m textsize dir center state startx starty endx endy
                isPixelBased).2, e.BufferWi, e.BufferHt⟩
            (wxALIGN_CENTER_HORIZONTAL ||| wxALIGN_CENTER_VERTICAL)) := by
  obtain ⟨d1, d2, d3, d4⟩ := rectOffset_diagonal env e m textsize center state startx starty
    endx endy isPixelBased
  have h8 : ¬ state.tdiv 8 < 0 := by
    rw [tdiv_of_nonneg state 8 hs (by decide)]; omega
  refine ⟨⟨?_, ?_, ?_, ?_⟩, ⟨?_, ?_, ?_, ?_⟩, ?_, fun hrot msg dir =>
    drawLine_unrotated env e msg m textsize dir center state startx starty endx endy
      isPixelBased hrot⟩
  · rw [d1, rectOffset_left, if_neg h8]
  · rw [d2, rectOffset_left, if_neg h8]
  · rw [d3, rectOffset_right]
  · rw [d4, rectOffset_right]
  · rw [d1, rectOffset_up]
  · rw [d3, rectOffset_up]
  · rw [d2, rectOffset_down]
  · rw [d4, rectOffset_down]
  · intro font msg Effect
    have hx := fun dir => measureText_extras env font msg dir Effect
    refine ⟨?_, ?_, ?_, ?_, ?_, ?_, ?_, ?_, ?_⟩
    · rw [(hx _).1, (hx _).1]; rfl
    · rw [(hx _).1, (hx _).1]; rfl
    · rw [(hx _).2.1, (hx _).2.1]; rfl
    · rw [(hx _).2.1, (hx _).2.1]; rfl
    · rw [(hx _).2.2.2.1, (hx _).2.2.2.1]; rfl
    · rw [(hx _).2.2.2.1, (hx _).2.2.2.1]; rfl
    · rw [(hx _).2.2.1, (hx _).2.2.1]; rfl
    · rw [(hx _).2.2.1, (hx _).2.2.1]; rfl
    · intro dir
      rw [(hx _).2.2.2.2, (hx _).2.2.2.2]

/-- Witness of C23: the sample buffer and the sample text at state 100, centre
flag set. -/
theorem diagonal_offsets_witness :
    (rectOffset sampleEnv sampleEffect sampleMetrics ⟨12, 8⟩ TEXTDIR_UPLEFT true 100
        0 0 0 0 false).1
      = (rectOffset sampleEnv sampleEffect sampleMetrics ⟨12, 8⟩ TEXTDIR_LEFT true 100
        0 0 0 0 false).1 :=
  (diagonal_offsets sampleEnv sampleEffect sampleMetrics ⟨12, 8⟩ true 100 0 0 0 0 false
    (by decide)).1.1

/-! ## The wavey direction -/

/-- C24 (the code at the failing input). For unrotated text the horizontal
offset of WAVEY_LRUPDOWN is the one RIGHT computes only when the centre flag
is set; without the centre flag it is the one LEFT computes, the opposite of
RIGHT's, so the two agree only where both are 0. In the sample buffer at state
8 without the centre flag WAVEY gives 21 and RIGHT -21, and with the centre flag
both give -21: the text "Hi" is drawn at x = 31 without the flag and at x = -11
with it. -/
theorem wavey_moves_left (env : Env) (e : RgbEffects) (m : TextMetrics) (textsize : wxSize)
    (state startx starty endx endy : Int) (isPixelBased : Bool) :
    (rectOffset env e m textsize TEXTDIR_WAVEY_LRUPDOWN true state startx starty endx endy
        isPixelBased).1
      = (rectOffset env e m textsize TEXTDIR_RIGHT true state startx starty endx endy
        isPixelBased).1 ∧
    (rectOffset env e m textsize TEXTDIR_WAVEY_LRUPDOWN false state startx starty endx endy
        isPixelBased).1
      = (rectOffset env e m textsize TEXTDIR_LEFT false state startx starty endx endy
        isPixelBased).1 ∧
    (rectOffset env e m textsize TEXTDIR_WAVEY_LRUPDOWN false state startx starty endx endy
        isPixelBased).1
      = -(rectOffset env e m textsize TEXTDIR_RIGHT false state startx starty endx endy
        isPixelBased).1 ∧
    ((rectOffset env e m textsize TEXTDIR_WAVEY_LRUPDOWN false state startx starty endx endy
        isPixelBased).1
      = (rectOffset env e m textsize TEXTDIR_RIGHT false state startx starty endx endy
        isPixelBased).1
      ↔ (rectOffset env e m textsize TEXTDIR_RIGHT false state startx starty endx endy
        isPixelBased).1 = 0) ∧
    (rectOffset sampleEnv sampleEffect sampleMetrics ⟨12, 8⟩ TEXTDIR_WAVEY_LRUPDOWN false 8
        0 0 0 0 false).1 = 21 ∧
    (rectOffset sampleEnv sampleEffect sampleMetrics ⟨12, 8⟩ TEXTDIR_RIGHT false 8
        0 0 0 0 false).1 = -21 ∧
    (rectOffset sampleEnv sampleEffect sampleMetrics ⟨12, 8⟩ TEXTDIR_WAVEY_LRUPDOWN true 8
        0 0 0 0 false).1 = -21 ∧
    (drawLine sampleEnv sampleEffect "Hi" sampleMetrics ⟨12, 8⟩ TEXTDIR_WAVEY_LRUPDOWN false 8
        0 0 0 0 false).map DrawCall.x = [31] ∧
    (drawLine sampleEnv sampleEffect "Hi" sampleMetrics ⟨12, 8⟩ TEXTDIR_RIGHT false 8
        0 0 0 0 false).map DrawCall.x = [-11] ∧
    (drawLine sampleEnv sampleEffect "Hi" sampleMetrics ⟨12, 8⟩ TEXTDIR_WAVEY_LRUPDOWN true 8
        0 0 0 0 false).map DrawCall.x = [-11] := by
  refine ⟨?_, ?_, ?_, ?_, by decide, by decide, by decide, by decide, by decide, by decide⟩
  · rw [rectOffset_wavey, rectOffset_right]
    simp only [if_true]
  · rw [rectOffset_wavey, rectOffset_left]
    simp only [Bool.false_eq_true, if_false]
  · rw [rectOffset_wavey, rectOffset_right]
    simp only [Bool.false_eq_true, if_false]
    omega
  · rw [rectOffset_wavey, rectOffset_right]
    simp only [Bool.false_eq_true, if_false]
    omega

/-! ## The wave `zigzag` -/

theorem zigzag_eq (value range : Int) (hr : 1 ≤ range) (hv : 0 ≤ value) :
    zigzag value range
      = if (value / range) % 2 ≠ 0 then value % range else range - value % range - 1 := by
  unfold zigzag
  rw [tdiv_of_nonneg _ _ hv (by omega), tmod_of_nonneg _ _ hv (by omega)]

theorem succ_div_mod (value range : Int) (hr : 1 ≤ range) :
    (value % range + 1 < range ∧ (value + 1) / range = value / range
        ∧ (value + 1) % range = value % range + 1) ∨
    (value % range + 1 = range ∧ (value + 1) / range = value / range + 1
        ∧ (value + 1) % range = 0) := by
  have hr0 : 0 ≤ value % range := Int.emod_nonneg _ (by omega)
  have hr1 : value % range < range := Int.emod_lt_of_pos _ (by omega)
  have hdiv : value % range + range * (value / range) = value := Int.emod_add_ediv _ _
  by_cases h : value % range + 1 < range
  · left
    refine ⟨h, ?_⟩
    rw [Int.ediv_emod_unique (by omega)]
    exact ⟨by omega, by omega, h⟩
  · right
    refine ⟨by omega, ?_⟩
    rw [Int.ediv_emod_unique (by omega)]
    refine ⟨?_, le_refl 0, by omega⟩
    rw [mul_add, mul_one]
    omega

theorem zigzag_range (value range : Int) (hr : 1 ≤ range) (hv : 0 ≤ value) :
    0 ≤ zigzag value range ∧ zigzag value range ≤ range - 1 := by
  have hr0 : 0 ≤ value % range := Int.emod_nonneg _ (by omega)
  have hr1 : value % range < range := Int.emod_lt_of_pos _ (by omega)
  rw [zigzag_eq value range hr hv]
  split_ifs <;> omega

/-- C25. The wave `zigzag`: for every `range >= 1` and `value >= 0`,
`zigzag(value, range)` is `value mod range` when `value / range` is odd and
`range - 1 - value mod range` when it is even: over one period it falls from
`range-1` at `value = 0` to 0 at `value = range-1` and rises again from 0 at
`value = range` to `range-1` at `value = 2*range-1`; it lies in `[0, range-1]`,
is periodic in `value` with period `2*range`, and consecutive values differ by
at most 1; hence, for `state >= 0` and `totheight >= 1`, the vertical offset of
the wavey direction without the centre flag,
`zigzag(state/4, totheight)/2 - totheight/4`, lies between `-(totheight/4)` and
`(totheight-1)/2 - totheight/4`. -/
theorem zigzag_wave (value range : Int) (hr : 1 ≤ range) (hv : 0 ≤ value) :
    (0 ≤ zigzag value range ∧ zigzag value range ≤ range - 1) ∧
    zigzag (value + 2 * range) range = zigzag value range ∧
    |zigzag (value + 1) range - zigzag value range| ≤ 1 ∧
    zigzag value range
      = (if (value / range) % 2 ≠ 0 then value % range else range - value % range - 1) ∧
    (∀ v : Int, 0 ≤ v → v < range → zigzag v range = range - 1 - v) ∧
    (∀ v : Int, range ≤ v → v < 2 * range → zigzag v range = v - range) ∧
    (zigzag 0 range = range - 1 ∧ zigzag (range - 1) range = 0 ∧ zigzag range range = 0 ∧
      zigzag (2 * range - 1) range = range - 1) ∧
    (∀ (env : Env) (e : RgbEffects) (m : TextMetrics) (textsize : wxSize)
      (state startx starty endx endy : Int) (isPixelBased : Bool),
      0 ≤ state → 1 ≤ totheight e textsize →
      (rectOffset env e m textsize TEXTDIR_WAVEY_LRUPDOWN false state startx starty endx endy
          isPixelBased).2
        = zigzag (state / 4) (totheight e textsize) / 2 - totheight e textsize / 4 ∧
      -(totheight e textsize / 4)
        ≤ (rectOffset env e m textsize TEXTDIR_WAVEY_LRUPDOWN false state startx starty endx
          endy isPixelBased).2 ∧
      (rectOffset env e m textsize TEXTDIR_WAVEY_LRUPDOWN false state startx starty endx endy
          isPixelBased).2
        ≤ (totheight e textsize - 1) / 2 - totheight e textsize / 4) := by
  have hfall : ∀ v : Int, 0 ≤ v → v < range → zigzag v range = range - 1 - v := by
    intro v h0 h1
    rw [zigzag_eq v range hr h0, Int.ediv_eq_zero_of_lt h0 h1, Int.emod_eq_of_lt h0 h1]
    simp only [Int.zero_emod, ne_eq, not_true_eq_false, if_false]
    ring
  have hrise : ∀ v : Int, range ≤ v → v < 2 * range → zigzag v range = v - range := by
    intro v h0 h1
    have hd : v / range = 1 ∧ v % range = v - range := by
      rw [Int.ediv_emod_unique (by omega)]
      exact ⟨by ring, by omega, by omega⟩
    rw [zigzag_eq v range hr (by omega), hd.1, hd.2]
    simp
  refine ⟨zigzag_range value range hr hv, ?_, ?_, zigzag_eq value range hr hv, hfall, hrise,
    ⟨?_, ?_, ?_, ?_⟩, ?_⟩
  · rw [zigzag_eq _ _ hr (by omega), zigzag_eq _ _ hr hv,
      Int.add_mul_ediv_right _ _ (by omega : range ≠ 0), Int.add_mul_emod_self]
    have h2 : (value / range + 2) % 2 = (value / range) % 2 := by omega
    rw [h2]
  · rw [zigzag_eq _ _ hr (by omega), zigzag_eq _ _ hr hv]
    have hr0 : 0 ≤ value % range := Int.emod_nonneg _ (by omega)
    have hr1 : value % range < range := Int.emod_lt_of_pos _ (by omega)
    rw [abs_le]
    rcases succ_div_mod value range hr with ⟨h1, h2, h3⟩ | ⟨h1, h2, h3⟩
    · rw [h2, h3]
      split_ifs <;> constructor <;> omega
    · rw [h2, h3]
      split_ifs <;> constructor <;> omega
  · rw [hfall 0 (le_refl 0) (by omega)]; ring
  · rw [hfall (range - 1) (by omega) (by omega)]; ring
  · rw [hrise range (le_refl _) (by omega)]; ring
  · rw [hrise (2 * range - 1) (by omega) (by omega)]; ring
  · intro env e m textsize state startx starty endx endy isPixelBased hs hT
    have hz := zigzag_range (state / 4) (totheight e textsize) hT (by omega)
    have hval : (rectOffset env e m textsize TEXTDIR_WAVEY_LRUPDOWN false state startx starty
        endx endy isPixelBased).2
        = zigzag (state / 4) (totheight e textsize) / 2 - totheight e textsize / 4 := by
      rw [rectOffset_wavey]
      simp only [Bool.false_eq_true, if_false]
      rw [tdiv_of_nonneg state 4 hs (by decide),
        tdiv_of_nonneg _ 2 hz.1 (by decide),
        tdiv_of_nonneg _ 4 (by omega) (by decide)]
    rw [hval]
    refine ⟨rfl, by omega, by omega⟩

/-- Witness of C25: the wave of range 5 at the value 7, in the rising half of
the period. -/
theorem zigzag_wave_witness :
    (0 ≤ zigzag 7 5 ∧ zigzag 7 5 ≤ 5 - 1) ∧ zigzag (7 + 2 * 5) 5 = zigzag 7 5 ∧
    zigzag 7 5 = 7 - 5 :=
  have h := zigzag_wave 7 5 (by decide) (by decide)
  ⟨h.1, h.2.1, h.2.2.2.2.2.1 7 (by decide) (by decide)⟩

/-! ## Rotation sizing -/

/-- The `double` nearest to 0.707. -/
theorem c707_val : toDouble (707 / 1000) = 707 / 1000 - 43 / (1000 * 2 ^ 50) := by
  decide!

/-- A value just below a whole number `k` is rounded to `k` when the gap is
less than half a unit in the last place. -/
theorem toDouble_eq_intCast_of_near (y : ℚ) (k : Int) (hk1 : 1 ≤ k) (hk2 : (k : ℚ) < 2 ^ 52)
    (hy2 : y ≤ k) (hgap : 2 ^ 54 * ((k : ℚ) - y) < y) :
    toDouble y = k := by
  have hypos : 0 < y := by
    have : (1 : ℚ) ≤ k := by exact_mod_cast hk1
    linarith
  have hy0 : y ≠ 0 := ne_of_gt hypos
  obtain ⟨hb1, hb2⟩ := binade_spec y hy0
  rw [abs_of_pos hypos] at hb1 hb2
  have he_lo : -1022 ≤ binade y := by
    by_contra hlt
    push_neg at hlt
    have h1 := pow2_le (binade y + 1) (-1) (by omega)
    have h2 : pow2 (-1) = 1 / 2 := by rw [pow2_eq]; norm_num
    rw [h2] at h1
    have : (1 : ℚ) ≤ k := by exact_mod_cast hk1
    linarith
  have he_hi : binade y ≤ 52 := by
    by_contra hlt
    push_neg at hlt
    have h1 := pow2_le 52 (binade y) (by omega)
    have h52 : pow2 52 = 2 ^ 52 := by rw [pow2_eq]; norm_cast
    rw [h52] at h1
    linarith
  have hpe : 0 < pow2 (binade y) := pow2_pos _
  have hP : pow2 (52 - binade y) * pow2 (binade y - 52) = 1 := by
    rw [← pow2_add]
    have : 52 - binade y + (binade y - 52) = 0 := by ring
    rw [this, pow2_zero]
  have hPe : pow2 (52 - binade y) * pow2 (binade y) = 2 ^ 52 := by
    rw [← pow2_add]
    have : 52 - binade y + binade y = 52 := by ring
    rw [this, pow2_eq]
    norm_cast
  have hPpos : 0 < pow2 (52 - binade y) := pow2_pos _
  have hupos : 0 < pow2 (binade y - 52) := pow2_pos _
  have hdiv : y / pow2 (binade y - 52) = y * pow2 (52 - binade y) := by
    rw [div_eq_iff (ne_of_gt hupos), mul_assoc, hP, mul_one]
  have hn : roundHalfEven (y / pow2 (binade y - 52)) = k * 2 ^ (52 - binade y).toNat := by
    apply roundHalfEven_eq_of_near
    rw [hdiv]
    push_cast
    have hcast : ((2 : ℚ) ^ (52 - binade y).toNat) = pow2 (52 - binade y) := by
      rw [pow2_nonneg_int _ (by omega)]; push_cast; rfl
    rw [hcast, ← sub_mul, abs_mul, abs_of_pos hPpos, abs_of_nonpos (by linarith)]
    have h2 : pow2 (binade y + 1) = 2 * pow2 (binade y) := pow2_succ _
    have h3 : 2 ^ 53 * ((k : ℚ) - y) < pow2 (binade y) := by
      have : (2 : ℚ) ^ 54 = 2 * 2 ^ 53 := by norm_num
      rw [this] at hgap
      linarith
    have h4 : (2 : ℚ) ^ 53 * (-(y - (k : ℚ)) * pow2 (52 - binade y))
        < pow2 (binade y) * pow2 (52 - binade y) := by
      have := mul_lt_mul_of_pos_right h3 hPpos
      calc (2 : ℚ) ^ 53 * (-(y - (k : ℚ)) * pow2 (52 - binade y))
          = 2 ^ 53 * ((k : ℚ) - y) * pow2 (52 - binade y) := by ring
        _ < pow2 (binade y) * pow2 (52 - binade y) := this
    rw [mul_comm (pow2 (binade y)), hPe] at h4
    have h5 : (2 : ℚ) ^ 53 = 2 * 2 ^ 52 := by norm_num
    rw [h5] at h4
    have h6 : (0 : ℚ) < 2 ^ 52 := by norm_num
    nlinarith
  rw [toDouble_eq y hy0, max_eq_left he_lo, hn]
  push_cast
  have hcast : ((2 : ℚ) ^ (52 - binade y).toNat) = pow2 (52 - binade y) := by
    rw [pow2_nonneg_int _ (by omega)]; push_cast; rfl
  rw [hcast, mul_assoc, hP, mul_one]

/-- The value `int(0.707*double(v))` is the exact product `0.707*v` truncated,
for every `v` from 0 to the largest `int`. -/
theorem scale707_eq (v : Int) (h0 : 0 ≤ v) (h1 : v ≤ 2147483647) :
    scale707 v = (707 * v) / 1000 := by
  unfold scale707 dmul
  rw [c707_val]
  rcases eq_or_lt_of_le h0 with hv0 | hvpos
  · rw [← hv0]
    simp [toDouble_zero, truncQ_zero]
  have hk1 : 1000 * ((707 * v) / 1000) ≤ 707 * v := by omega
  have hk2 : 707 * v < 1000 * ((707 * v) / 1000) + 1000 := by omega
  set k : Int := (707 * v) / 1000 with hk
  have hk0 : 0 ≤ k := by omega
  have hkmax : k < 2 ^ 31 := by norm_num; omega
  have hvq0 : (0 : ℚ) < (v : ℚ) := by exact_mod_cast hvpos
  have hvq1 : (v : ℚ) ≤ 2147483647 := by exact_mod_cast h1
  have hk1q : 1000 * (k : ℚ) ≤ 707 * (v : ℚ) := by exact_mod_cast hk1
  have hk2q : 707 * (v : ℚ) + 1 ≤ 1000 * (k : ℚ) + 1000 := by exact_mod_cast hk2
  have hkq0 : (0 : ℚ) ≤ (k : ℚ) := by exact_mod_cast hk0
  have hkqmax : (k : ℚ) < 2 ^ 31 := by exact_mod_cast hkmax
  set y : ℚ := (707 / 1000 - 43 / (1000 * 2 ^ 50)) * (v : ℚ) with hy
  have hyv : y = 707 * (v : ℚ) / 1000 - 43 * (v : ℚ) / (1000 * 2 ^ 50) := by
    rw [hy]; ring
  have hsmall : 43 * (v : ℚ) / (1000 * 2 ^ 50) < 1 / 1000 := by
    rw [div_lt_div_iff₀ (by norm_num) (by norm_num)]
    norm_num
    linarith
  have hsmall0 : 0 < 43 * (v : ℚ) / (1000 * 2 ^ 50) := by positivity
  have hup : toDouble y ≤ (k : ℚ) + 1 - 1 / 2 ^ 10 := by
    have hz := toDouble_dyadic ((k + 1) * 2 ^ 10 - 1) 10
      (by rw [abs_le]; norm_num at hkmax ⊢; constructor <;> omega) (by decide)
    have hzv : ((((k + 1) * 2 ^ 10 - 1 : Int) : ℚ)) / 2 ^ 10 = (k : ℚ) + 1 - 1 / 2 ^ 10 := by
      push_cast; ring
    rw [hzv] at hz
    apply toDouble_le _ _ hz
    rw [hyv]
    norm_num
    linarith
  have hlow : (k : ℚ) ≤ toDouble y := by
    by_cases hm : 707 * v = 1000 * k
    · have hmq : 707 * (v : ℚ) = 1000 * (k : ℚ) := by exact_mod_cast hm
      have hk1' : 1 ≤ k := by omega
      have hyk : y = (k : ℚ) - 43 * (v : ℚ) / (1000 * 2 ^ 50) := by
        rw [hyv, hmq]; ring
      have hgapv : (k : ℚ) - y = 43 * (v : ℚ) / (1000 * 2 ^ 50) := by rw [hyk]; ring
      have := toDouble_eq_intCast_of_near y k hk1' (by linarith [show (2 : ℚ) ^ 31 < 2 ^ 52 by norm_num])
        (by rw [hyk]; linarith)
        (by
          rw [hgapv, hyv]
          have e1 : (2 : ℚ) ^ 54 * (43 * (v : ℚ) / (1000 * 2 ^ 50)) = 688 * (v : ℚ) / 1000 := by
            field_simp; ring
          rw [e1]
          have : 43 * (v : ℚ) / (1000 * 2 ^ 50) < 19 * (v : ℚ) / 1000 := by
            rw [div_lt_div_iff₀ (by norm_num) (by norm_num)]
            norm_num
            linarith
          have e2 : 707 * (v : ℚ) / 1000 = 688 * (v : ℚ) / 1000 + 19 * (v : ℚ) / 1000 := by ring
          linarith)
      rw [this]
    · have hm2 : 1000 * k + 1 ≤ 707 * v := by omega
      have hm2q : 1000 * (k : ℚ) + 1 ≤ 707 * (v : ℚ) := by exact_mod_cast hm2
      apply le_toDouble _ _ (toDouble_intCast k (by rw [abs_le]; norm_num at hkmax ⊢; constructor <;> omega))
      rw [hyv]
      linarith
  rw [truncQ_eq_floor _ (le_trans hkq0 hlow), Int.floor_eq_iff]
  refine ⟨hlow, ?_⟩
  have : (0 : ℚ) < 1 / 2 ^ 10 := by positivity
  linarith

/-- C26. Rotation sizing: with `(w, h)` the measured box of the message, effects
4 and 6 (rotate up/down 90) give the box `(h, w)`, and swapping again restores
`(w, h)`; effects 3 and 5 (rotate up/down 45) give the square box `(i, i)` with
`i = int(0.707*double(w+h))`; the draw-origin corrections `(xoffset, yoffset)`
are `(0, int(0.707*double(h)))` for up 45, `(0, 0)` for up 90,
`(int(0.707*double(h)), i)` for down 45 and `(h, w)` for down 90, with
rotations 45, 90, -45 and -90; every other effect (0, 1, 2 among them) leaves
the box unchanged with zero corrections and zero rotation. The value
`int(0.707*double(v))`, computed in `double` arithmetic, is the exact product
`0.707*v` truncated for every `v` from 0 to the largest `int`, so that `i` is
`trunc(0.707*(w+h))` and the corrections are `trunc(0.707*h)` for `w, h >= 0`. -/
theorem rotation_sizing (env : Env) (font msg : String) (dir : Int) :
    ((measureText env font msg dir 4).textsize
        = ⟨(GetMultiLineTextExtent env font msg).y, (GetMultiLineTextExtent env font msg).x⟩ ∧
      (measureText env font msg dir 4).TextRotation = 90 ∧
      (measureText env font msg dir 4).xoffset = 0 ∧
      (measureText env font msg dir 4).yoffset = 0) ∧
    ((measureText env font msg dir 6).textsize
        = ⟨(GetMultiLineTextExtent env font msg).y, (GetMultiLineTextExtent env font msg).x⟩ ∧
      (measureText env font msg dir 6).TextRotation = -90 ∧
      (measureText env font msg dir 6).xoffset = (GetMultiLineTextExtent env font msg).y ∧
      (measureText env font msg dir 6).yoffset = (GetMultiLineTextExtent env font msg).x) ∧
    ((⟨(measureText env font msg dir 4).textsize.y,
        (measureText env font msg dir 4).textsize.x⟩ : wxSize)
        = GetMultiLineTextExtent env font msg ∧
      (⟨(measureText env font msg dir 6).textsize.y,
        (measureText env font msg dir 6).textsize.x⟩ : wxSize)
        = GetMultiLineTextExtent env font msg) ∧
    ((measureText env font msg dir 3).textsize
        = ⟨scale707 ((GetMultiLineTextExtent env font msg).x
              + (GetMultiLineTextExtent env font msg).y),
           scale707 ((GetMultiLineTextExtent env font msg).x
              + (GetMultiLineTextExtent env font msg).y)⟩ ∧
      (measureText env font msg dir 3).TextRotation = 45 ∧
      (measureText env font msg dir 3).xoffset = 0 ∧
      (measureText env font msg dir 3).yoffset
        = scale707 (GetMultiLineTextExtent env font msg).y) ∧
    ((measureText env font msg dir 5).textsize
        = ⟨scale707 ((GetMultiLineTextExtent env font msg).x
              + (GetMultiLineTextExtent env font msg).y),
           scale707 ((GetMultiLineTextExtent env font msg).x
              + (GetMultiLineTextExtent env font msg).y)⟩ ∧
      (measureText env font msg dir 5).TextRotation = -45 ∧
      (measureText env font msg dir 5).xoffset
        = scale707 (GetMultiLineTextExtent env font msg).y ∧
      (measureText env font msg dir 5).yoffset
        = scale707 ((GetMultiLineTextExtent env font msg).x
              + (GetMultiLineTextExtent env font msg).y)) ∧
    (∀ Effect : Int, Effect ≠ 3 → Effect ≠ 4 → Effect ≠ 5 → Effect ≠ 6 →
      (measureText env font msg dir Effect).textsize = GetMultiLineTextExtent env font msg ∧
      (measureText env font msg dir Effect).TextRotation = 0 ∧
      (measureText env font msg dir Effect).xoffset = 0 ∧
      (measureText env font msg dir Effect).yoffset = 0) ∧
    (∀ v : Int, scale707 v = truncQ (dmul (toDouble (707 / 1000)) (v : ℚ))) ∧
    (∀ v : Int, 0 ≤ v → v ≤ INT_MAX →
      scale707 v = truncQ ((707 : ℚ) / 1000 * (v : ℚ)) ∧ scale707 v = (707 * v) / 1000) ∧
    (0 ≤ (GetMultiLineTextExtent env font msg).x → 0 ≤ (GetMultiLineTextExtent env font msg).y →
      (GetMultiLineTextExtent env font msg).x + (GetMultiLineTextExtent env font msg).y
        ≤ INT_MAX →
      (measureText env font msg dir 3).textsize.x
        = truncQ ((707 : ℚ) / 1000
            * (((GetMultiLineTextExtent env font msg).x
                + (GetMultiLineTextExtent env font msg).y : Int) : ℚ)) ∧
      (measureText env font msg dir 3).textsize.y = (measureText env font msg dir 3).textsize.x ∧
      (measureText env font msg dir 5).textsize = (measureText env font msg dir 3).textsize ∧
      (measureText env font msg dir 3).yoffset
        = truncQ ((707 : ℚ) / 1000 * ((GetMultiLineTextExtent env font msg).y : ℚ)) ∧
      (measureText env font msg dir 5).xoffset
        = truncQ ((707 : ℚ) / 1000 * ((GetMultiLineTextExtent env font msg).y : ℚ)) ∧
      (measureText env font msg dir 5).yoffset = (measureText env font msg dir 3).textsize.x) := by
  have hexact : ∀ v : Int, 0 ≤ v → v ≤ INT_MAX →
      scale707 v = truncQ ((707 : ℚ) / 1000 * (v : ℚ)) ∧ scale707 v = (707 * v) / 1000 := by
    intro v h0 h1
    refine ⟨?_, scale707_eq v h0 h1⟩
    rw [scale707_eq v h0 h1, truncQ_eq_floor _ (by positivity), eq_comm, Int.floor_eq_iff]
    have hk1 : 1000 * ((707 * v) / 1000) ≤ 707 * v := by omega
    have hk2 : 707 * v < 1000 * ((707 * v) / 1000) + 1000 := by omega
    have hk1q : 1000 * (((707 * v) / 1000 : Int) : ℚ) ≤ 707 * (v : ℚ) := by exact_mod_cast hk1
    have hk2q : 707 * (v : ℚ) < 1000 * (((707 * v) / 1000 : Int) : ℚ) + 1000 := by
      exact_mod_cast hk2
    constructor <;> linarith
  refine ⟨?_, ?_, ?_, ?_, ?_, ?_, fun v => rfl, hexact, ?_⟩
  · simp [measureText]
  · simp [measureText]
  · simp [measureText]
  · simp [measureText]
  · simp [measureText]
  · intro Effect h3 h4 h5 h6
    simp [measureText, h3, h4, h5, h6]
  · intro hx hy hmax
    have hymax : (GetMultiLineTextExtent env font msg).y ≤ INT_MAX := by omega
    have e1 := (hexact _ (by omega) hmax).1
    have e2 := (hexact _ hy hymax).1
    simp [measureText, e1, e2]

/-- Witness of C26: the sample text "Hi", 12 by 8, rotated up 90 and up 45: the
boxes (8, 12) and (14, 14), as `0.707 * 20 = 14.14`. -/
theorem rotation_sizing_witness :
    (measureText sampleEnv "" "Hi" TEXTDIR_NONE 4).textsize
      = ⟨(GetMultiLineTextExtent sampleEnv "" "Hi").y,
         (GetMultiLineTextExtent sampleEnv "" "Hi").x⟩ ∧
    (measureText sampleEnv "" "Hi" TEXTDIR_NONE 4).textsize = ⟨8, 12⟩ ∧
    (scale707 20 = truncQ ((707 : ℚ) / 1000 * ((20 : Int) : ℚ)) ∧ scale707 20 = (707 * 20) / 1000) ∧
    (measureText sampleEnv "" "Hi" TEXTDIR_NONE 3).textsize = ⟨14, 14⟩ :=
  have h := rotation_sizing sampleEnv "" "Hi" TEXTDIR_NONE
  ⟨h.1.1, by decide!, h.2.2.2.2.2.2.2.1 20 (by decide) (by decide), by decide!⟩

/-! ## Colour by position -/

/-- The fractional part of a `double` that is not negative is a `double`. -/
theorem toDouble_sub_floor (v : ℚ) (hv : toDouble v = v) (h0 : 0 ≤ v) :
    toDouble (v - (⌊v⌋ : ℚ)) = v - (⌊v⌋ : ℚ) := by
  obtain ⟨m, e, he, hm, hve⟩ := repr_toDouble v
  rw [hv] at hve
  have hm0 : 0 ≤ m := by
    by_contra hneg
    push_neg at hneg
    have : (m : ℚ) < 0 := by exact_mod_cast hneg
    have := mul_neg_of_neg_of_pos this (pow2_pos e)
    linarith
  by_cases hcase : 0 ≤ e
  · have hint : v = ((m * 2 ^ e.toNat : Int) : ℚ) := by
      rw [hve, pow2_nonneg_int e hcase]
      push_cast
      rfl
    have hfl : (⌊v⌋ : ℚ) = v := by
      rw [hint, Int.floor_intCast]
    rw [hfl, sub_self, toDouble_zero]
  · push_neg at hcase
    obtain ⟨P, hPdef⟩ : ∃ P : Nat, P = 2 ^ (-e).toNat := ⟨_, rfl⟩
    have hP : pow2 e = 1 / (P : ℚ) := by
      unfold pow2
      rw [if_neg (by omega), hPdef]
    have hPn : 0 < P := by rw [hPdef]; positivity
    have hPpos : (0 : ℚ) < (P : ℚ) := by exact_mod_cast hPn
    have hPne : (P : ℚ) ≠ 0 := ne_of_gt hPpos
    have hvdiv : v = (m : ℚ) / (P : ℚ) := by
      rw [hve, hP]; ring
    have hfl : ⌊v⌋ = m / (P : Int) := by
      rw [hvdiv, Rat.floor_intCast_div_natCast]
    have hdm := Int.emod_add_ediv m (P : Int)
    have hdmq : ((m % (P : Int) : Int) : ℚ) + (P : ℚ) * ((m / (P : Int) : Int) : ℚ)
        = (m : ℚ) := by exact_mod_cast hdm
    have hfrac : v - (⌊v⌋ : ℚ) = ((m % (P : Int) : Int) : ℚ) * pow2 e := by
      rw [hfl, hvdiv, hP, ← hdmq]
      field_simp
    rw [hfrac]
    apply toDouble_repr
    refine ⟨m % (P : Int), e, he, ?_, rfl⟩
    have hpos : (0 : Int) < (P : Int) := by exact_mod_cast hPn
    have h1 := Int.emod_nonneg m (ne_of_gt hpos)
    have hq : 0 ≤ m / (P : Int) := Int.ediv_nonneg hm0 hpos.le
    have h2 : m % (P : Int) ≤ m := by nlinarith
    rw [abs_of_nonneg h1]
    have h3 : m ≤ 2 ^ 53 := le_trans (le_abs_self m) hm
    omega

/-- C29 (amended). Colour by position: for a colour count `1 <= c <= INT_MAX`
and `pos` in `[0, 1]`, `GetColorFromPosition` uses `k = (int)color_val`, where
`color_val` is the product `pos*(c-1)` rounded to `double`; it returns, when
`k < c-1`, the two-colour blend of the palette entries `k` and `k+1` weighted by
the fractional part `color_val - k`, which lies in `[0, 1)` and is 0 when
`color_val` is whole, and, when `k = c-1` (at `pos = 1` and whenever `c = 1`),
the last palette entry `c-1` directly; `k` lies in `[0, c-1]`, and so does `k+1`
when it is used. At an exact slot, `pos*(c-1)` whole, `color_val` is that whole
number and the weight is 0; in general `k` is `floor(pos*(c-1))` or one more. -/
theorem colour_by_position (pos : ℚ) (c : Nat) (hc : 1 ≤ c) (hcmax : (c : Int) ≤ INT_MAX)
    (h0 : 0 ≤ pos) (h1 : pos ≤ 1) :
    (0 ≤ ⌊dmul pos ((c - 1 : Nat) : ℚ)⌋ ∧ ⌊dmul pos ((c - 1 : Nat) : ℚ)⌋ ≤ (c : Int) - 1) ∧
    (⌊dmul pos ((c - 1 : Nat) : ℚ)⌋ < (c : Int) - 1 →
      GetColorFromPosition pos c
        = FillColor.blend ⌊dmul pos ((c - 1 : Nat) : ℚ)⌋ (⌊dmul pos ((c - 1 : Nat) : ℚ)⌋ + 1)
            (dmul pos ((c - 1 : Nat) : ℚ) - (⌊dmul pos ((c - 1 : Nat) : ℚ)⌋ : ℚ)) ∧
      ⌊dmul pos ((c - 1 : Nat) : ℚ)⌋ + 1 ≤ (c : Int) - 1) ∧
    (⌊dmul pos ((c - 1 : Nat) : ℚ)⌋ = (c : Int) - 1 →
      GetColorFromPosition pos c = FillColor.palette ((c : Int) - 1)) ∧
    (0 ≤ dmul pos ((c - 1 : Nat) : ℚ) - (⌊dmul pos ((c - 1 : Nat) : ℚ)⌋ : ℚ) ∧
      dmul pos ((c - 1 : Nat) : ℚ) - (⌊dmul pos ((c - 1 : Nat) : ℚ)⌋ : ℚ) < 1) ∧
    (dmul pos ((c - 1 : Nat) : ℚ) = (⌊dmul pos ((c - 1 : Nat) : ℚ)⌋ : ℚ) →
      dmul pos ((c - 1 : Nat) : ℚ) - (⌊dmul pos ((c - 1 : Nat) : ℚ)⌋ : ℚ) = 0) ∧
    (∀ j : Int, pos * ((c - 1 : Nat) : ℚ) = (j : ℚ) →
      dmul pos ((c - 1 : Nat) : ℚ) = (j : ℚ) ∧ ⌊dmul pos ((c - 1 : Nat) : ℚ)⌋ = j) ∧
    (⌊pos * ((c - 1 : Nat) : ℚ)⌋ ≤ ⌊dmul pos ((c - 1 : Nat) : ℚ)⌋ ∧
      ⌊dmul pos ((c - 1 : Nat) : ℚ)⌋ ≤ ⌊pos * ((c - 1 : Nat) : ℚ)⌋ + 1) ∧
    (pos = 1 → GetColorFromPosition pos c = FillColor.palette ((c : Int) - 1)) ∧
    (c = 1 → GetColorFromPosition pos c = FillColor.palette 0) := by
  rw [INT_MAX_val] at hcmax
  have hlast : (0 : ℚ) ≤ ((c - 1 : Nat) : ℚ) := Nat.cast_nonneg _
  have hcast : (((c - 1 : Nat) : Int)) = (c : Int) - 1 := by omega
  have hcastq : ((c - 1 : Nat) : ℚ) = (((c : Int) - 1 : Int) : ℚ) := by
    rw [← hcast]; norm_cast
  have hint : ∀ j : Int, 0 ≤ j → j ≤ (c : Int) → toDouble (j : ℚ) = (j : ℚ) := by
    intro j hj0 hj1
    exact toDouble_intCast j (by rw [abs_le]; norm_num; constructor <;> omega)
  have hlastd : toDouble ((c - 1 : Nat) : ℚ) = ((c - 1 : Nat) : ℚ) := by
    rw [hcastq]
    exact hint _ (by omega) (by omega)
  have hval0 : 0 ≤ pos * ((c - 1 : Nat) : ℚ) := mul_nonneg h0 hlast
  have hval1 : pos * ((c - 1 : Nat) : ℚ) ≤ ((c - 1 : Nat) : ℚ) := by
    calc pos * ((c - 1 : Nat) : ℚ) ≤ 1 * ((c - 1 : Nat) : ℚ) :=
          mul_le_mul_of_nonneg_right h1 hlast
      _ = ((c - 1 : Nat) : ℚ) := one_mul _
  have hV0 : 0 ≤ dmul pos ((c - 1 : Nat) : ℚ) := le_toDouble _ _ toDouble_zero hval0
  have hV1 : dmul pos ((c - 1 : Nat) : ℚ) ≤ ((c - 1 : Nat) : ℚ) :=
    toDouble_le _ _ hlastd hval1
  have hVd : toDouble (dmul pos ((c - 1 : Nat) : ℚ)) = dmul pos ((c - 1 : Nat) : ℚ) :=
    toDouble_idem _
  have hk0 : 0 ≤ ⌊dmul pos ((c - 1 : Nat) : ℚ)⌋ := Int.floor_nonneg.mpr hV0
  have hk1 : ⌊dmul pos ((c - 1 : Nat) : ℚ)⌋ ≤ (c : Int) - 1 := by
    rw [← hcast]
    have : ⌊dmul pos ((c - 1 : Nat) : ℚ)⌋ ≤ ⌊(((c - 1 : Nat) : Int) : ℚ)⌋ :=
      Int.floor_mono (by exact_mod_cast hV1)
    rwa [Int.floor_intCast] at this
  have hfl := Int.floor_le (dmul pos ((c - 1 : Nat) : ℚ))
  have hfu := Int.lt_floor_add_one (dmul pos ((c - 1 : Nat) : ℚ))
  have hpct : dsub (dmul pos ((c - 1 : Nat) : ℚ)) (⌊dmul pos ((c - 1 : Nat) : ℚ)⌋ : ℚ)
      = dmul pos ((c - 1 : Nat) : ℚ) - (⌊dmul pos ((c - 1 : Nat) : ℚ)⌋ : ℚ) :=
    toDouble_sub_floor _ hVd hV0
  have hdef : GetColorFromPosition pos c
      = if ⌊dmul pos ((c - 1 : Nat) : ℚ)⌋
            < min (⌊dmul pos ((c - 1 : Nat) : ℚ)⌋ + 1) ((c : Int) - 1)
        then FillColor.blend ⌊dmul pos ((c - 1 : Nat) : ℚ)⌋
            (min (⌊dmul pos ((c - 1 : Nat) : ℚ)⌋ + 1) ((c : Int) - 1))
            (min (dmul pos ((c - 1 : Nat) : ℚ) - (⌊dmul pos ((c - 1 : Nat) : ℚ)⌋ : ℚ)) 1)
        else FillColor.palette (min (⌊dmul pos ((c - 1 : Nat) : ℚ)⌋ + 1) ((c : Int) - 1)) := by
    unfold GetColorFromPosition
    simp only [if_neg (by omega : ¬ c = 0), hlastd, truncQ_eq_floor _ hV0, hpct]
  have hlastcase : ⌊dmul pos ((c - 1 : Nat) : ℚ)⌋ = (c : Int) - 1 →
      GetColorFromPosition pos c = FillColor.palette ((c : Int) - 1) := by
    intro hk
    rw [hdef, hk, if_neg (by rw [min_eq_right (by omega)]; omega), min_eq_right (by omega)]
  have hslot : ∀ j : Int, pos * ((c - 1 : Nat) : ℚ) = (j : ℚ) →
      dmul pos ((c - 1 : Nat) : ℚ) = (j : ℚ) ∧ ⌊dmul pos ((c - 1 : Nat) : ℚ)⌋ = j := by
    intro j hj
    have hj0 : 0 ≤ j := by
      have : (0 : ℚ) ≤ (j : ℚ) := by rw [← hj]; exact hval0
      exact_mod_cast this
    have hj1 : j ≤ (c : Int) := by
      have : (j : ℚ) ≤ (((c : Int) - 1 : Int) : ℚ) := by rw [← hj, ← hcastq]; exact hval1
      have : j ≤ (c : Int) - 1 := by exact_mod_cast this
      omega
    have hV : dmul pos ((c - 1 : Nat) : ℚ) = (j : ℚ) := by
      unfold dmul
      rw [hj]
      exact hint j hj0 hj1
    exact ⟨hV, by rw [hV, Int.floor_intCast]⟩
  refine ⟨⟨hk0, hk1⟩, ?_, hlastcase, ⟨by linarith, by linarith⟩, ?_, hslot, ⟨?_, ?_⟩, ?_, ?_⟩
  · intro hk
    refine ⟨?_, by omega⟩
    rw [hdef, min_eq_left (by omega), if_pos (by omega), min_eq_left (by linarith)]
  · intro h
    exact sub_eq_zero.mpr h
  · have hex0 : 0 ≤ ⌊pos * ((c - 1 : Nat) : ℚ)⌋ := Int.floor_nonneg.mpr hval0
    have hex1 : ⌊pos * ((c - 1 : Nat) : ℚ)⌋ ≤ (c : Int) - 1 := by
      rw [← hcast]
      have : ⌊pos * ((c - 1 : Nat) : ℚ)⌋ ≤ ⌊(((c - 1 : Nat) : Int) : ℚ)⌋ :=
        Int.floor_mono (by exact_mod_cast hval1)
      rwa [Int.floor_intCast] at this
    rw [Int.le_floor]
    exact le_toDouble _ _ (hint _ hex0 (by omega)) (Int.floor_le _)
  · have hex0 : 0 ≤ ⌊pos * ((c - 1 : Nat) : ℚ)⌋ := Int.floor_nonneg.mpr hval0
    have hex1 : ⌊pos * ((c - 1 : Nat) : ℚ)⌋ ≤ (c : Int) - 1 := by
      rw [← hcast]
      have : ⌊pos * ((c - 1 : Nat) : ℚ)⌋ ≤ ⌊(((c - 1 : Nat) : Int) : ℚ)⌋ :=
        Int.floor_mono (by exact_mod_cast hval1)
      rwa [Int.floor_intCast] at this
    have hle : dmul pos ((c - 1 : Nat) : ℚ) ≤ ((⌊pos * ((c - 1 : Nat) : ℚ)⌋ + 1 : Int) : ℚ) :=
      toDouble_le _ _ (hint _ (by omega) (by omega))
        (by push_cast; exact le_of_lt (Int.lt_floor_add_one _))
    have : ⌊dmul pos ((c - 1 : Nat) : ℚ)⌋ ≤ ⌊((⌊pos * ((c - 1 : Nat) : ℚ)⌋ + 1 : Int) : ℚ)⌋ :=
      Int.floor_mono hle
    rwa [Int.floor_intCast] at this
  · intro hp
    apply hlastcase
    have := hslot ((c : Int) - 1) (by rw [hp, one_mul, hcastq])
    exact this.2
  · intro hc1
    subst hc1
    have := hlastcase (by
      have := hslot 0 (by simp)
      rw [this.2]; simp)
    simpa using this

/-- Witness of C29: three colours and the position 1/4, between the entries 0
and 1. -/
theorem colour_by_position_witness :
    (0 ≤ ⌊dmul (1 / 4 : ℚ) ((3 - 1 : Nat) : ℚ)⌋ ∧
      ⌊dmul (1 / 4 : ℚ) ((3 - 1 : Nat) : ℚ)⌋ ≤ (3 : Int) - 1) ∧
    GetColorFromPosition (1 / 4) 3 = FillColor.blend 0 1 (1 / 2) :=
  ⟨(colour_by_position (1 / 4) 3 (by decide) (by decide) (by norm_num) (by norm_num)).1,
    by decide!⟩

/-- Counterexample to C29 as stated: at the position of the third of four rows,
the `double` nearest to 2/3, with four colours, `floor(pos*(c-1))` is 1, as the
exact product is below 2, but the product computed in `double` arithmetic is
2: `GetColorFromPosition` returns the blend of the entries 2 and 3 with weight
0, not the blend of the entries 1 and 2; so does the render of a buffer 4 high
for its row 2. -/
theorem colour_slot_rounded :
    sweepPosition 2 3 false = toDouble (2 / 3) ∧
    (0 ≤ toDouble (2 / 3) ∧ toDouble (2 / 3) ≤ 1) ∧
    toDouble (2 / 3) * ((4 - 1 : Nat) : ℚ) < 2 ∧
    ⌊toDouble (2 / 3) * ((4 - 1 : Nat) : ℚ)⌋ = 1 ∧
    dmul (toDouble (2 / 3)) ((4 - 1 : Nat) : ℚ) = 2 ∧
    GetColorFromPosition (toDouble (2 / 3)) 4 = FillColor.blend 2 3 0 ∧
    Render 4 sampleFillFour
      = some [⟨0, 0, FillColor.blend 0 1 0⟩, ⟨0, 1, FillColor.blend 1 2 0⟩,
          ⟨0, 2, FillColor.blend 2 3 0⟩, ⟨0, 3, FillColor.palette 3⟩] := by
  have hv : toDouble (2 / 3) = 6004799503160661 / 9007199254740992 := by decide!
  refine ⟨by decide!, by decide!, by decide!, ?_, by decide!, by decide!, by decide!⟩
  rw [hv, Int.floor_eq_iff]
  constructor <;> norm_num

/-! ## Index safety of the vertical-up transform -/

theorem resolveText_Line_date (env : Env) (e : RgbEffects) (idx : Nat) (Line : String)
    (Countdown state : Int)
    (hmode : Countdown = COUNTDOWN_D_H_M_S ∨ Countdown = COUNTDOWN_H_M_S
      ∨ Countdown = COUNTDOWN_M_or_S ∨ Countdown = COUNTDOWN_S) :
    (resolveText env e idx Line Countdown state).Line = Line := by
  have h1 : Countdown ≠ COUNTDOWN_SECONDS := by
    rcases hmode with h | h | h | h <;> rw [h] <;> decide
  have h2 : Countdown ≠ COUNTDOWN_FREEFMT := by
    rcases hmode with h | h | h | h <;> rw [h] <;> decide
  have h3 : Countdown = COUNTDOWN_FREEFMT ∨ Countdown = COUNTDOWN_D_H_M_S
      ∨ Countdown = COUNTDOWN_H_M_S ∨ Countdown = COUNTDOWN_M_or_S
      ∨ Countdown = COUNTDOWN_S := Or.inr hmode
  unfold resolveText
  simp only [if_neg h1, if_pos h3, if_neg h2]
  split_ifs <;> rfl

/-- C30 (the code at the failing input). In a date countdown (`D_H_M_S`,
`H_M_S`, `M_or_S` or `S`) on a frame with `state % 20 == 0`, with a template
that does not parse as a date, the message is "invalid date", 12 characters
long, and the working template `Line` is the template itself; when the
template has fewer than 12 characters the message is longer than `Line`, the
first character read by the vertical-up loop, at index `|m| - 0 - 1`, is
outside `Line`, and the transform has no defined result. -/
theorem vertical_up_index_outside (env : Env) (e : RgbEffects) (idx : Nat) (Line : String)
    (Countdown state : Int)
    (hmode : Countdown = COUNTDOWN_D_H_M_S ∨ Countdown = COUNTDOWN_H_M_S
      ∨ Countdown = COUNTDOWN_M_or_S ∨ Countdown = COUNTDOWN_S)
    (hstate : state.tmod 20 = 0) (hparse : env.ParseRfc822Date Line = none)
    (hlen : Line.data.length < 12) :
    (resolveText env e idx Line Countdown state).msg = "invalid date" ∧
    (resolveText env e idx Line Countdown state).Line = Line ∧
    (resolveText env e idx Line Countdown state).Line.data.length
      < (resolveText env e idx Line Countdown state).msg.data.length ∧
    (resolveText env e idx Line Countdown state).Line.data[
      (resolveText env e idx Line Countdown state).msg.data.length - 0 - 1]? = none ∧
    textEffect 1 (resolveText env e idx Line Countdown state).Line
      (resolveText env e idx Line Countdown state).msg = none := by
  have hne : Countdown ≠ COUNTDOWN_FREEFMT := by
    rcases hmode with h | h | h | h <;> rw [h] <;> decide
  have hmsg : (resolveText env e idx Line Countdown state).msg = "invalid date" := by
    apply resolveText_zero_remaining
    · rcases hmode with h | h | h | h
      · exact Or.inl h
      · exact Or.inr (Or.inl h)
      · exact Or.inr (Or.inr (Or.inl h))
      · exact Or.inr (Or.inr (Or.inr (Or.inl h)))
    · left
      refine ⟨hstate, ?_⟩
      rw [if_neg hne]
      exact parseRemaining_of_parse_none env Line hparse
  have hLine := resolveText_Line_date env e idx Line Countdown state hmode
  have h12 : ("invalid date" : String).data.length = 12 := by decide
  rw [hmsg, hLine, h12]
  refine ⟨rfl, rfl, hlen, List.getElem?_eq_none (by omega), ?_⟩
  simp only [textEffect, if_true]
  rw [verticalUp_none _ _ (by rw [h12]; exact hlen)]
  rfl

/-- Witness of C30: the template "Hi" in the mode `D_H_M_S` with the sample
toolkit, in which no date parses; the whole call has no defined result. -/
theorem vertical_up_index_outside_witness :
    textEffect 1 (resolveText sampleEnv sampleEffect 0 "Hi" COUNTDOWN_D_H_M_S 0).Line
      (resolveText sampleEnv sampleEffect 0 "Hi" COUNTDOWN_D_H_M_S 0).msg = none ∧
    (RenderTextLine sampleEnv sampleEffect 0 "Hi" TEXTDIR_NONE false 1 COUNTDOWN_D_H_M_S
      true 1 0 0 0 0 false).isSome = false :=
  ⟨(vertical_up_index_outside sampleEnv sampleEffect 0 "Hi" COUNTDOWN_D_H_M_S 0
      (Or.inl rfl) (by decide) rfl (by decide)).2.2.2.2, by decide⟩

/-! ## Multi-line measurement, line by line -/

theorem splitLinesAux_length (cs : List Char) :
    ∀ cur : List Char, (splitLinesAux cur cs).length = cs.count '\n' + 1 := by
  induction cs with
  | nil => intro cur; simp [splitLinesAux]
  | cons c cs ih =>
    intro cur
    by_cases hc : c = '\n'
    · subst hc
      simp [splitLinesAux, ih]
    · have hne : (c == '\n') = false := by simpa using hc
      simp [splitLinesAux, hc, ih, List.count_cons, hne]

theorem extent_fold_lines (env : Env) (font : String) (cs : List Char) :
    ∀ (cur : List Char) (w h hd hl : ℚ),
      ({ extentEndOfLine env font (cs.foldl (extentStep env font) ⟨cur, w, h, hd, hl⟩)
          with curLine := [] } : ExtentAcc)
        = (splitLinesAux cur cs).foldl (extentLine env font) ⟨[], w, h, hd, hl⟩ := by
  induction cs with
  | nil => intro cur w h hd hl; rfl
  | cons c cs ih =>
    intro cur w h hd hl
    by_cases hc : c = '\n'
    · subst hc
      simp only [List.foldl_cons, splitLinesAux, if_true]
      have hstep : extentStep env font ⟨cur, w, h, hd, hl⟩ '\n'
          = extentLine env font ⟨[], w, h, hd, hl⟩ cur := by
        simp [extentStep, extentLine]
      rw [hstep]
      have hcur : (extentLine env font ⟨[], w, h, hd, hl⟩ cur).curLine = [] := rfl
      have := ih (extentLine env font ⟨[], w, h, hd, hl⟩ cur).curLine
        (extentLine env font ⟨[], w, h, hd, hl⟩ cur).widthTextMax
        (extentLine env font ⟨[], w, h, hd, hl⟩ cur).heightTextTotal
        (extentLine env font ⟨[], w, h, hd, hl⟩ cur).heightLineDefault
        (extentLine env font ⟨[], w, h, hd, hl⟩ cur).heightLine
      rw [hcur] at this
      exact this
    · simp only [List.foldl_cons, splitLinesAux, if_neg hc]
      have hstep : extentStep env font ⟨cur, w, h, hd, hl⟩ c = ⟨cur ++ [c], w, h, hd, hl⟩ := by
        simp [extentStep, hc]
      rw [hstep]
      exact ih (cur ++ [c]) w h hd hl

theorem GetMultiLineTextExtent3_lines (env : Env) (font : String) (text : String) :
    GetMultiLineTextExtent3 env font text
      = (truncQ ((textLines text).foldl (extentLine env font) ⟨[], 0, 0, 0, 0⟩).widthTextMax,
         truncQ ((textLines text).foldl (extentLine env font) ⟨[], 0, 0, 0, 0⟩).heightTextTotal,
         truncQ ((textLines text).foldl (extentLine env font) ⟨[], 0, 0, 0, 0⟩).heightLine) := by
  unfold GetMultiLineTextExtent3 textLines
  rw [← extent_fold_lines env font text.data [] 0 0 0 0]

theorem extentLine_blank (env : Env) (font : String) (cur : List Char) (w h hd hl : ℚ) :
    extentLine env font ⟨cur, w, h, hd, hl⟩ []
      = ⟨[], w,
          dadd h (if (if hd = 0 then hl else hd) = 0 then (env.GetTextExtent font "W").2
            else (if hd = 0 then hl else hd)),
          if (if hd = 0 then hl else hd) = 0 then (env.GetTextExtent font "W").2
            else (if hd = 0 then hl else hd), hl⟩ := by
  simp [extentLine, extentEndOfLine]

theorem extentLine_nonblank (env : Env) (font : String) (cur line : List Char)
    (w h hd hl : ℚ) (hne : line.isEmpty = false) :
    extentLine env font ⟨cur, w, h, hd, hl⟩ line
      = ⟨[], max w (measuredWidth env font line), dadd h (measuredHeight env font line), hd,
          measuredHeight env font line⟩ := by
  have hmax : (if (env.GetTextExtent font (String.mk line)).1 > w
      then (env.GetTextExtent font (String.mk line)).1 else w)
      = max w (env.GetTextExtent font (String.mk line)).1 := by
    rw [max_def]
    split_ifs with h1 h2 h2
    · rfl
    · exact absurd (le_of_lt h1) h2
    · exact le_antisymm h2 (not_lt.mp h1)
    · rfl
  simp only [extentLine, extentEndOfLine, hne, Bool.false_eq_true, if_false, hmax,
    measuredWidth, measuredHeight]

theorem blankLineHeightFrom_cons_nonblank (env : Env) (font : String) (hl : ℚ)
    (line : List Char) (L : List (List Char)) (hne : line.isEmpty = false) :
    blankLineHeightFrom env font hl (line :: L)
      = blankLineHeightFrom env font (measuredHeight env font line) L := by
  unfold blankLineHeightFrom
  simp only [List.takeWhile_cons, hne, Bool.not_false, if_true, List.map_cons,
    List.getLast?_cons, Option.getD_some]

theorem blankLineHeightFrom_cons_blank (env : Env) (font : String) (hl : ℚ)
    (L : List (List Char)) :
    blankLineHeightFrom env font hl ([] :: L)
      = if hl = 0 then (env.GetTextExtent font "W").2 else hl := by
  simp [blankLineHeightFrom]

/-- The loop over the lines `L`, from any values of the locals: the largest
width, the heights added one after the other in `double` arithmetic, and the
height of the last non-blank line. -/
theorem extent_lines (env : Env) (font : String)
    (hW : (env.GetTextExtent font "W").2 ≠ 0) (L : List (List Char)) :
    ∀ (w h hd hl : ℚ),
      (L.foldl (extentLine env font) ⟨[], w, h, hd, hl⟩).widthTextMax
        = ((L.filter (fun l => !l.isEmpty)).map (measuredWidth env font)).foldl max w ∧
      (L.foldl (extentLine env font) ⟨[], w, h, hd, hl⟩).heightTextTotal
        = (L.map (fun l => if l.isEmpty
              then (if hd = 0 then blankLineHeightFrom env font hl L else hd)
              else measuredHeight env font l)).foldl dadd h ∧
      (L.foldl (extentLine env font) ⟨[], w, h, hd, hl⟩).heightLine
        = (((L.filter (fun l => !l.isEmpty)).map (measuredHeight env font)).getLast?).getD
            hl := by
  induction L with
  | nil => intro w h hd hl; simp
  | cons line L ih =>
    intro w h hd hl
    cases hline : line with
    | nil =>
      rw [List.foldl_cons, extentLine_blank]
      obtain ⟨i1, i2, i3⟩ := ih w
        (dadd h (if (if hd = 0 then hl else hd) = 0 then (env.GetTextExtent font "W").2
            else (if hd = 0 then hl else hd)))
        (if (if hd = 0 then hl else hd) = 0 then (env.GetTextExtent font "W").2
            else (if hd = 0 then hl else hd)) hl
      have hd2 : (if (if hd = 0 then hl else hd) = 0 then (env.GetTextExtent font "W").2
            else (if hd = 0 then hl else hd)) ≠ 0 := by
        split_ifs <;> assumption
      have hD : (if hd = 0 then blankLineHeightFrom env font hl ([] :: L) else hd)
          = (if (if hd = 0 then hl else hd) = 0 then (env.GetTextExtent font "W").2
            else (if hd = 0 then hl else hd)) := by
        rw [blankLineHeightFrom_cons_blank]
        by_cases h0 : hd = 0
        · simp only [h0, if_true]
        · simp only [h0, if_false]
      rw [i1, i2, i3, if_neg hd2, hD]
      refine ⟨by simp, ?_, by simp⟩
      simp only [List.map_cons, List.foldl_cons, List.isEmpty_nil, if_true]
    | cons c cs =>
      have hne : (c :: cs).isEmpty = false := rfl
      rw [List.foldl_cons, extentLine_nonblank _ _ _ _ _ _ _ _ hne]
      obtain ⟨i1, i2, i3⟩ := ih (max w (measuredWidth env font (c :: cs)))
        (dadd h (measuredHeight env font (c :: cs))) hd (measuredHeight env font (c :: cs))
      rw [i1, i2, i3, blankLineHeightFrom_cons_nonblank _ _ _ _ _ hne]
      refine ⟨by simp [List.filter_cons], ?_, ?_⟩
      · simp only [List.map_cons, List.foldl_cons, hne, Bool.false_eq_true, if_false]
      · simp only [List.filter_cons, hne, Bool.not_false, if_true, List.map_cons,
          List.getLast?_cons, Option.getD_some]

/-- The third result of the measurement: the height of the last non-blank
line, as a `wxCoord`. -/
theorem extent_lines_last (env : Env) (font : String) (L : List (List Char)) :
    ∀ (w h hd hl : ℚ),
      truncQ (L.foldl (extentLine env font) ⟨[], w, h, hd, hl⟩).heightLine
        = (((L.filter (fun l => !l.isEmpty)).map (lineHeight env font)).getLast?).getD
            (truncQ hl) := by
  induction L with
  | nil => intro w h hd hl; simp
  | cons line L ih =>
    intro w h hd hl
    cases hline : line with
    | nil =>
      rw [List.foldl_cons, extentLine_blank, ih]
      simp
    | cons c cs =>
      have hne : (c :: cs).isEmpty = false := rfl
      rw [List.foldl_cons, extentLine_nonblank _ _ _ _ _ _ _ _ hne, ih]
      simp only [List.filter_cons, hne, Bool.not_false, if_true, List.map_cons,
        List.getLast?_cons, Option.getD_some]
      cases ((L.filter (fun l => !l.isEmpty)).map (lineHeight env font)).getLast? with
      | none => rfl
      | some v => rfl

theorem foldl_max_ge (l : List ℚ) : ∀ w : ℚ,
    w ≤ l.foldl max w ∧ ∀ x ∈ l, x ≤ l.foldl max w := by
  induction l with
  | nil => intro w; simp
  | cons a l ih =>
    intro w
    obtain ⟨h1, h2⟩ := ih (max w a)
    rw [List.foldl_cons]
    refine ⟨le_trans (le_max_left w a) h1, ?_⟩
    intro x hx
    rcases List.mem_cons.mp hx with h | h
    · rw [h]; exact le_trans (le_max_right w a) h1
    · exact h2 x h

theorem sum_const (l : List Int) (H : Int) (h : ∀ x ∈ l, x = H) : l.sum = H * l.length := by
  induction l with
  | nil => simp
  | cons a l ih =>
    rw [List.sum_cons, ih (fun x hx => h x (List.mem_cons_of_mem _ hx)),
      h a (List.mem_cons_self _ _), List.length_cons]
    push_cast
    ring

/-- The default height of the blank lines is the height measured for some
text: a line, or the reference glyph. -/
theorem blankLineHeight_measured (env : Env) (font : String) (L : List (List Char)) :
    blankLineHeight env font L
        = ((((L.takeWhile (fun l => !l.isEmpty)).map (measuredHeight env font)).getLast?).getD
            (env.GetTextExtent font "W").2) ∨
    blankLineHeight env font L = (env.GetTextExtent font "W").2 := by
  unfold blankLineHeight blankLineHeightFrom
  simp only []
  cases hlast : ((L.takeWhile (fun l => !l.isEmpty)).map (measuredHeight env font)).getLast? with
  | none =>
    right
    simp
  | some v =>
    simp only [Option.getD_some]
    split_ifs with h
    · right; rfl
    · left; rfl

theorem blankLineHeight_eq (env : Env) (font : String)
    (hnz : ∀ s : String, (env.GetTextExtent font s).2 ≠ 0) (L : List (List Char)) :
    blankLineHeight env font L
        = ((((L.takeWhile (fun l => !l.isEmpty)).map (measuredHeight env font)).getLast?).getD
            (env.GetTextExtent font "W").2) ∧
    ∃ s : String, blankLineHeight env font L = (env.GetTextExtent font s).2 := by
  unfold blankLineHeight blankLineHeightFrom
  simp only []
  cases hlast : ((L.takeWhile (fun l => !l.isEmpty)).map (measuredHeight env font)).getLast? with
  | none =>
    simp only [Option.getD_none, if_true]
    exact ⟨trivial, "W", rfl⟩
  | some v =>
    have hmem : v ∈ (L.takeWhile (fun l => !l.isEmpty)).map (measuredHeight env font) :=
      List.mem_of_getLast?_eq_some hlast
    obtain ⟨l, _, hl⟩ := List.mem_map.mp hmem
    have hv : v ≠ 0 := by rw [← hl]; exact hnz _
    simp only [Option.getD_some, if_neg hv]
    exact ⟨trivial, String.mk l, hl.symm⟩

/-- Every height counted by the loop is the height measured for some text. -/
theorem countedHeight_measured (env : Env) (font : String)
    (hnz : ∀ s : String, (env.GetTextExtent font s).2 ≠ 0) (L : List (List Char))
    (l : List Char) :
    ∃ s : String, countedHeight env font L l = (env.GetTextExtent font s).2 := by
  unfold countedHeight
  split_ifs
  · exact (blankLineHeight_eq env font hnz L).2
  · exact ⟨String.mk l, rfl⟩

/-- A sum of `double` values that are not negative is not below the value it
starts from, when that is a `double`. -/
theorem foldl_dadd_ge (hs : List ℚ) (h0 : ∀ x ∈ hs, 0 ≤ x) :
    ∀ acc : ℚ, toDouble acc = acc → acc ≤ hs.foldl dadd acc := by
  induction hs with
  | nil => intro acc _; exact le_rfl
  | cons a hs ih =>
    intro acc hacc
    rw [List.foldl_cons]
    have ha := h0 a (List.mem_cons_self _ _)
    have h1 : acc ≤ dadd acc a := le_toDouble _ _ hacc (by linarith)
    exact le_trans h1 (ih (fun x hx => h0 x (List.mem_cons_of_mem _ hx)) _ (toDouble_idem _))

/-- A sum of `double` values of at least 1 each is at least 1. -/
theorem doubleSum_ge_one (hs : List ℚ) (hne : hs ≠ []) (h1 : ∀ x ∈ hs, 1 ≤ x) :
    1 ≤ doubleSum hs := by
  unfold doubleSum
  cases hs with
  | nil => exact absurd rfl hne
  | cons a hs =>
    rw [List.foldl_cons]
    have ha := h1 a (List.mem_cons_self _ _)
    have hone : toDouble 1 = 1 := toDouble_intCast 1 (by norm_num)
    have h2 : (1 : ℚ) ≤ dadd 0 a := le_toDouble _ _ hone (by linarith)
    exact le_trans h2 (foldl_dadd_ge hs
      (fun x hx => le_trans zero_le_one (h1 x (List.mem_cons_of_mem _ hx))) _ (toDouble_idem _))

/-- A sum of whole numbers that are not negative is exact as long as it does
not exceed `2^53`. -/
theorem foldl_dadd_int (zs : List Int) (h0 : ∀ z ∈ zs, 0 ≤ z) :
    ∀ acc : Int, 0 ≤ acc → acc + zs.sum ≤ 2 ^ 53 →
      (zs.map (Int.cast : Int → ℚ)).foldl dadd (acc : ℚ) = ((acc + zs.sum : Int) : ℚ) := by
  induction zs with
  | nil => intro acc _ _; simp
  | cons a zs ih =>
    intro acc hacc hsum
    have ha := h0 a (List.mem_cons_self _ _)
    have hrest : 0 ≤ zs.sum := List.sum_nonneg (fun x hx => h0 x (List.mem_cons_of_mem _ hx))
    rw [List.sum_cons] at hsum
    rw [List.map_cons, List.foldl_cons]
    have hstep : dadd (acc : ℚ) (a : ℚ) = ((acc + a : Int) : ℚ) := by
      unfold dadd
      rw [← Int.cast_add]
      exact toDouble_intCast _ (by rw [abs_le]; constructor <;> omega)
    rw [hstep, ih (fun x hx => h0 x (List.mem_cons_of_mem _ hx)) (acc + a) (by omega)
      (by omega), List.sum_cons]
    congr 1
    ring

/-- C27 (amended). Multi-line measurement: for every text and every single-line
measure function whose heights are positive, `GetMultiLineTextExtent` goes
through the (number of newlines + 1) lines of the text; the width returned is
the largest measured width of a non-blank line, truncated to a whole number,
and 0 when that is negative or all lines are blank; the total height is the
sum, accumulated in `double` arithmetic in the order of the lines and truncated
once at the end, of the measured heights of the non-blank lines and, for each
blank line, of one and the same default height: the height of the last line
before the first blank line or, when the text starts with a blank line, the
height of the reference glyph "W"; the total is never negative, it is strictly
positive when every measured height is at least 1, and when the measured
heights are whole numbers it is their exact sum (up to `2^53`), so that with a
uniform whole line height `H` it is `H*(number of newlines + 1)`; the third
result is the truncated height of the last non-blank line (0 when there is
none). -/
theorem multiline_extent (env : Env) (font text : String)
    (hpos : ∀ s : String, 0 < (env.GetTextExtent font s).2) :
    (textLines text).length = text.data.count '\n' + 1 ∧
    GetMultiLineTextExtent3 env font text
      = (truncQ ((((textLines text).filter (fun l => !l.isEmpty)).map
            (measuredWidth env font)).foldl max 0),
         truncQ (doubleSum ((textLines text).map (countedHeight env font (textLines text)))),
         ((((textLines text).filter (fun l => !l.isEmpty)).map
            (lineHeight env font)).getLast?).getD 0) ∧
    GetMultiLineTextExtent env font text
      = ⟨(GetMultiLineTextExtent3 env font text).1, (GetMultiLineTextExtent3 env font text).2.1⟩ ∧
    (0 ≤ (GetMultiLineTextExtent3 env font text).1 ∧
      (∀ l ∈ (textLines text).filter (fun l => !l.isEmpty),
        lineWidth env font l ≤ (GetMultiLineTextExtent3 env font text).1) ∧
      ((textLines text).filter (fun l => !l.isEmpty) = [] →
        (GetMultiLineTextExtent3 env font text).1 = 0)) ∧
    (blankLineHeight env font (textLines text)
        = (((((textLines text).takeWhile (fun l => !l.isEmpty)).map
              (measuredHeight env font)).getLast?).getD (env.GetTextExtent font "W").2) ∧
      ∀ l : List Char, countedHeight env font (textLines text) l
        = if l.isEmpty then blankLineHeight env font (textLines text)
          else measuredHeight env font l) ∧
    0 ≤ (GetMultiLineTextExtent3 env font text).2.1 ∧
    ((∀ s : String, 1 ≤ (env.GetTextExtent font s).2) →
      0 < (GetMultiLineTextExtent3 env font text).2.1) ∧
    ((∀ s : String, ∃ z : Int, (env.GetTextExtent font s).2 = (z : ℚ)) →
      ((textLines text).map
          (fun l => truncQ (countedHeight env font (textLines text) l))).sum ≤ 2 ^ 53 →
      (GetMultiLineTextExtent3 env font text).2.1
        = ((textLines text).map
            (fun l => truncQ (countedHeight env font (textLines text) l))).sum) ∧
    (∀ H : Int, (∀ s : String, (env.GetTextExtent font s).2 = (H : ℚ)) →
      H * (text.data.count '\n' + 1 : Nat) ≤ 2 ^ 53 →
      (GetMultiLineTextExtent3 env font text).2.1 = H * (text.data.count '\n' + 1 : Nat)) := by
  have hnz : ∀ s : String, (env.GetTextExtent font s).2 ≠ 0 := fun s => ne_of_gt (hpos s)
  have hW : (env.GetTextExtent font "W").2 ≠ 0 := hnz "W"
  have hlen : (textLines text).length = text.data.count '\n' + 1 :=
    splitLinesAux_length text.data []
  obtain ⟨e1, e2, _⟩ := extent_lines env font hW (textLines text) 0 0 0 0
  have e3 := extent_lines_last env font (textLines text) 0 0 0 0
  have hfun : (fun l : List Char => if l.isEmpty
      then (if (0 : ℚ) = 0 then blankLineHeightFrom env font 0 (textLines text) else 0)
      else measuredHeight env font l) = countedHeight env font (textLines text) := by
    funext l
    simp only [if_true, countedHeight, blankLineHeight]
  have heq : GetMultiLineTextExtent3 env font text
      = (truncQ ((((textLines text).filter (fun l => !l.isEmpty)).map
            (measuredWidth env font)).foldl max 0),
         truncQ (doubleSum ((textLines text).map (countedHeight env font (textLines text)))),
         ((((textLines text).filter (fun l => !l.isEmpty)).map
            (lineHeight env font)).getLast?).getD 0) := by
    rw [GetMultiLineTextExtent3_lines, e1, e2, e3, hfun, truncQ_zero]
    rfl
  have hcounted : ∀ l ∈ (textLines text).map (countedHeight env font (textLines text)),
      ∃ s : String, l = (env.GetTextExtent font s).2 := by
    intro x hx
    obtain ⟨l, _, hl⟩ := List.mem_map.mp hx
    rw [← hl]
    exact countedHeight_measured env font hnz (textLines text) l
  have hne : (textLines text).map (countedHeight env font (textLines text)) ≠ [] := by
    intro hnil
    have := congrArg List.length hnil
    rw [List.length_map, hlen] at this
    simp at this
  have hexact : (∀ s : String, ∃ z : Int, (env.GetTextExtent font s).2 = (z : ℚ)) →
      ((textLines text).map
          (fun l => truncQ (countedHeight env font (textLines text) l))).sum ≤ 2 ^ 53 →
      (GetMultiLineTextExtent3 env font text).2.1
        = ((textLines text).map
            (fun l => truncQ (countedHeight env font (textLines text) l))).sum := by
    intro hz hsum
    have hcast : (textLines text).map (countedHeight env font (textLines text))
        = ((textLines text).map
            (fun l => truncQ (countedHeight env font (textLines text) l))).map
            (Int.cast : Int → ℚ) := by
      rw [List.map_map]
      apply List.map_congr_left
      intro l _
      obtain ⟨s, hs⟩ := countedHeight_measured env font hnz (textLines text) l
      obtain ⟨z, hzs⟩ := hz s
      simp only [Function.comp]
      rw [hs, hzs, truncQ_intCast]
    have h0 : ∀ z ∈ (textLines text).map
        (fun l => truncQ (countedHeight env font (textLines text) l)), 0 ≤ z := by
      intro z hzm
      obtain ⟨l, _, hl⟩ := List.mem_map.mp hzm
      rw [← hl]
      obtain ⟨s, hs⟩ := countedHeight_measured env font hnz (textLines text) l
      rw [hs]
      exact truncQ_nonneg _ (le_of_lt (hpos s))
    rw [heq]
    simp only []
    unfold doubleSum
    rw [hcast]
    have := foldl_dadd_int _ h0 0 (le_refl 0) (by rw [zero_add]; exact hsum)
    rw [Int.cast_zero] at this
    rw [this, truncQ_intCast, zero_add]
  refine ⟨hlen, heq, rfl, ⟨?_, ?_, ?_⟩, ⟨(blankLineHeight_eq env font hnz _).1, fun l => rfl⟩,
    ?_, ?_, hexact, ?_⟩
  · rw [heq]
    exact truncQ_nonneg _ (foldl_max_ge _ 0).1
  · intro l hl
    rw [heq]
    exact truncQ_mono _ _ ((foldl_max_ge _ 0).2 _ (List.mem_map.mpr ⟨l, hl, rfl⟩))
  · intro hnil
    rw [heq, hnil]
    exact truncQ_zero
  · rw [heq]
    apply truncQ_nonneg
    exact foldl_dadd_ge _ (fun x hx => by
      obtain ⟨s, hs⟩ := hcounted x hx
      rw [hs]; exact le_of_lt (hpos s)) 0 toDouble_zero
  · intro h1
    rw [heq]
    apply truncQ_pos
    exact doubleSum_ge_one _ hne (fun x hx => by
      obtain ⟨s, hs⟩ := hcounted x hx
      rw [hs]; exact h1 s)
  · intro H hH hmax
    have hall : ∀ x ∈ (textLines text).map
        (fun l => truncQ (countedHeight env font (textLines text) l)), x = H := by
      intro x hx
      obtain ⟨l, _, hl⟩ := List.mem_map.mp hx
      rw [← hl]
      obtain ⟨s, hs⟩ := countedHeight_measured env font hnz (textLines text) l
      rw [hs, hH s, truncQ_intCast]
    have hs := sum_const _ H hall
    rw [List.length_map, hlen] at hs
    rw [hexact (fun s => ⟨H, hH s⟩) (by rw [hs]; exact hmax), hs]

/-- Witness of C27: the text "a", blank line, "b" with the sample toolkit, in
which every line is 8 pixels high: three lines, 24 pixels. -/
theorem multiline_extent_witness :
    (textLines "a\n\nb").length = ("a\n\nb" : String).data.count '\n' + 1 ∧
    0 ≤ (GetMultiLineTextExtent3 sampleEnv "" "a\n\nb").2.1 ∧
    GetMultiLineTextExtent3 sampleEnv "" "a\n\nb" = (6, 24, 8) :=
  have h := multiline_extent sampleEnv "" "a\n\nb" (fun _ => (by decide : (0 : ℚ) < 8))
  ⟨h.1, h.2.2.2.2.2.1, by decide!⟩

/-- Counterexample to C27 as stated. With the text "B" 20 pixels high and every
other text 8 pixels high, the lines "a", blank, "B", blank measure 44 pixels:
the second blank line counts 8, the default set at the first blank line, and
not 20, the height of the non-blank line before it, which would give 56. With
every text 8.5 pixels high, three lines measure 25 pixels, the sum 25.5
truncated, which is neither 3 times 8.5 nor 3 times the whole line height 8.
With every text half a pixel high, the empty text measures 0 pixels, not a
strictly positive height. -/
theorem blank_line_height_is_kept :
    textLines "a\n\nB\n" = [['a'], [], ['B'], []] ∧
    lineHeight sampleEnvTall "" ['a'] = 8 ∧ lineHeight sampleEnvTall "" ['B'] = 20 ∧
    GetMultiLineTextExtent3 sampleEnvTall "" "a\n\nB\n" = (6, 44, 20) ∧
    (GetMultiLineTextExtent3 sampleEnvTall "" "a\n\nB\n").2.1
      ≠ lineHeight sampleEnvTall "" ['a'] + lineHeight sampleEnvTall "" ['a']
        + lineHeight sampleEnvTall "" ['B'] + lineHeight sampleEnvTall "" ['B'] ∧
    (∀ s : String, (sampleEnvFine.GetTextExtent "" s).2 = 17 / 2) ∧
    GetMultiLineTextExtent3 sampleEnvFine "" "a\nb\nc" = (6, 25, 8) ∧
    ((25 : Int) : ℚ) ≠ 17 / 2 * 3 ∧ (25 : Int) ≠ 8 * 3 ∧
    (∀ s : String, 0 < (sampleEnvThin.GetTextExtent "" s).2) ∧
    GetMultiLineTextExtent3 sampleEnvThin "" "" = (0, 0, 0) := by
  refine ⟨by decide, by decide!, by decide!, by decide!, by decide!, fun _ => rfl, by decide!,
    by norm_num, by decide, fun _ => ?_, by decide!⟩
  show (0 : ℚ) < 1 / 2
  norm_num

/-! ## Aligned drawing, line by line -/

theorem label_fold_lines (env : Env) (font : String) (colour : Nat) (alignment : Nat)
    (x width heightLine : Int) (cs : List Char) :
    ∀ (cur : List Char) (y : Int) (d : List DrawCall),
      ({ labelEndOfLine env font colour alignment x width heightLine
            (cs.foldl (labelStep env font colour alignment x width heightLine) ⟨cur, y, d⟩)
          with curLine := [] } : LabelAcc)
        = (splitLinesAux cur cs).foldl
            (labelLine env font colour alignment x width heightLine) ⟨[], y, d⟩ := by
  induction cs with
  | nil => intro cur y d; rfl
  | cons c cs ih =>
    intro cur y d
    by_cases hc : c = '\n'
    · subst hc
      simp only [List.foldl_cons, splitLinesAux, if_true]
      have hstep : labelStep env font colour alignment x width heightLine ⟨cur, y, d⟩ '\n'
          = labelLine env font colour alignment x width heightLine ⟨[], y, d⟩ cur := by
        simp [labelStep, labelLine]
      rw [hstep]
      have hcur : (labelLine env font colour alignment x width heightLine
          ⟨[], y, d⟩ cur).curLine = [] := rfl
      have := ih (labelLine env font colour alignment x width heightLine ⟨[], y, d⟩ cur).curLine
        (labelLine env font colour alignment x width heightLine ⟨[], y, d⟩ cur).y
        (labelLine env font colour alignment x width heightLine ⟨[], y, d⟩ cur).drawn
      rw [hcur] at this
      exact this
    · simp only [List.foldl_cons, splitLinesAux, if_neg hc]
      have hstep : labelStep env font colour alignment x width heightLine ⟨cur, y, d⟩ c
          = ⟨cur ++ [c], y, d⟩ := by
        simp [labelStep, hc]
      rw [hstep]
      exact ih (cur ++ [c]) y d

theorem labelLine_blank (env : Env) (font : String) (colour : Nat) (alignment : Nat)
    (x width heightLine : Int) (cur : List Char) (y : Int) (d : List DrawCall) :
    labelLine env font colour alignment x width heightLine ⟨cur, y, d⟩ []
      = ⟨[], y + heightLine, d⟩ := by
  simp [labelLine, labelEndOfLine]

theorem labelLine_nonblank (env : Env) (font : String) (colour : Nat) (alignment : Nat)
    (x width heightLine : Int) (cur line : List Char) (y : Int) (d : List DrawCall)
    (hne : line.isEmpty = false) :
    labelLine env font colour alignment x width heightLine ⟨cur, y, d⟩ line
      = ⟨[], y + heightLine,
          d ++ [⟨font, colour, String.mk line, xRealStart env font alignment x width line, y,
            none⟩]⟩ := by
  simp only [labelLine, labelEndOfLine, hne, Bool.false_eq_true, not_false_eq_true, if_true,
    xRealStart]

theorem labelCall_zero (env : Env) (font : String) (colour : Nat) (alignment : Nat)
    (x width y heightLine : Int) (line : List Char) (L : List (List Char)) :
    labelCall env font colour alignment x width y heightLine (line :: L) 0
      = if line.isEmpty then none
        else some ⟨font, colour, String.mk line, xRealStart env font alignment x width line, y,
          none⟩ := by
  simp [labelCall]

theorem labelCall_succ (env : Env) (font : String) (colour : Nat) (alignment : Nat)
    (x width y heightLine : Int) (line : List Char) (L : List (List Char)) (i : Nat) :
    labelCall env font colour alignment x width y heightLine (line :: L) (i + 1)
      = labelCall env font colour alignment x width (y + heightLine) heightLine L i := by
  have harith : y + ((i + 1 : Nat) : Int) * heightLine = y + heightLine + (i : Int) * heightLine := by
    push_cast; ring
  simp only [labelCall, List.getElem?_cons_succ, harith]

/-- The drawing loop over the lines `L`, from any cursor and any list of calls. -/
theorem label_lines (env : Env) (font : String) (colour : Nat) (alignment : Nat)
    (x width heightLine : Int) (L : List (List Char)) :
    ∀ (y : Int) (d : List DrawCall),
      L.foldl (labelLine env font colour alignment x width heightLine) ⟨[], y, d⟩
        = ⟨[], y + (L.length : Int) * heightLine,
            d ++ (List.range L.length).filterMap
              (labelCall env font colour alignment x width y heightLine L)⟩ := by
  induction L with
  | nil => intro y d; simp
  | cons line L ih =>
    intro y d
    have hrange : (List.range (line :: L).length).filterMap
        (labelCall env font colour alignment x width y heightLine (line :: L))
        = (labelCall env font colour alignment x width y heightLine (line :: L) 0).toList
          ++ (List.range L.length).filterMap
            (labelCall env font colour alignment x width (y + heightLine) heightLine L) := by
      rw [List.length_cons, List.range_succ_eq_map, List.filterMap_cons, List.filterMap_map]
      have hf : (labelCall env font colour alignment x width y heightLine (line :: L))
          ∘ Nat.succ
          = labelCall env font colour alignment x width (y + heightLine) heightLine L := by
        funext i
        exact labelCall_succ env font colour alignment x width y heightLine line L i
      rw [hf]
      cases labelCall env font colour alignment x width y heightLine (line :: L) 0 <;> rfl
    have hy : y + heightLine + (L.length : Int) * heightLine
        = y + ((line :: L).length : Int) * heightLine := by
      rw [List.length_cons]; push_cast; ring
    rw [hrange, labelCall_zero, List.foldl_cons]
    cases hline : line with
    | nil =>
      rw [labelLine_blank, ih, hy]
      simp
    | cons c cs =>
      have hne : (c :: cs).isEmpty = false := rfl
      rw [labelLine_nonblank _ _ _ _ _ _ _ _ _ _ _ hne, ih, hy]
      simp

theorem label_lines_msgs (env : Env) (font : String) (colour : Nat) (alignment : Nat)
    (x width heightLine : Int) (L : List (List Char)) :
    ∀ (y : Int) (d : List DrawCall),
      (L.foldl (labelLine env font colour alignment x width heightLine) ⟨[], y, d⟩).drawn.map
          DrawCall.msg
        = d.map DrawCall.msg ++ (L.filter (fun l => !l.isEmpty)).map String.mk := by
  induction L with
  | nil => intro y d; simp
  | cons line L ih =>
    intro y d
    rw [List.foldl_cons]
    cases hline : line with
    | nil =>
      rw [labelLine_blank, ih]
      simp
    | cons c cs =>
      have hne : (c :: cs).isEmpty = false := rfl
      rw [labelLine_nonblank _ _ _ _ _ _ _ _ _ _ _ hne, ih]
      simp

theorem DrawLabel_lines (env : Env) (font : String) (colour : Nat) (drawn : List DrawCall)
    (text : String) (rect : wxRect) (alignment : Nat) (x y : Int)
    (hx : x = (if alignment &&& wxALIGN_RIGHT ≠ 0 then
          rect.x + rect.width - 1 - (GetMultiLineTextExtent3 env font text).1
        else if alignment &&& wxALIGN_CENTER_HORIZONTAL ≠ 0 then
          (rect.x + (rect.x + rect.width - 1) + 1
            - (GetMultiLineTextExtent3 env font text).1).tdiv 2
        else rect.x))
    (hy : y = (if alignment &&& wxALIGN_BOTTOM ≠ 0 then
          rect.y + rect.height - 1 - (GetMultiLineTextExtent3 env font text).2.1
        else if alignment &&& wxALIGN_CENTER_VERTICAL ≠ 0 then
          (rect.y + (rect.y + rect.height - 1) + 1
            - (GetMultiLineTextExtent3 env font text).2.1).tdiv 2
        else rect.y)) :
    DrawLabel env font colour drawn text rect alignment
      = ((textLines text).foldl
          (labelLine env font colour alignment x (GetMultiLineTextExtent3 env font text).1
            (GetMultiLineTextExtent3 env font text).2.2) ⟨[], y, drawn⟩).drawn := by
  subst hx hy
  unfold DrawLabel textLines
  simp only []
  rw [← label_fold_lines]

/-- C28 (amended). Aligned multi-line drawing: `DrawLabel` draws exactly the
non-blank lines of the text, in order, one `DrawText` call each; with centred
alignment the block origin is `x = (left + right + 1 - width)/2`,
`y = (top + bottom + 1 - height)/2`, and a line of width `wl` is drawn at
`x + (width - wl)/2`; after each line, blank or not, the vertical cursor
advances by one and the same amount, the third result of the measurement, which
is the height of the last non-blank line of the text (0 when there is none), so
the line of index `i` is drawn at `y + i*heightLine`. -/
theorem aligned_drawing (env : Env) (font : String) (colour : Nat) (drawn : List DrawCall)
    (text : String) (rect : wxRect) :
    DrawLabel env font colour drawn text rect
        (wxALIGN_CENTER_HORIZONTAL ||| wxALIGN_CENTER_VERTICAL)
      = drawn ++ (List.range (textLines text).length).filterMap (fun (i : Nat) =>
          ((textLines text)[i]?).bind (fun l =>
            if l.isEmpty then none
            else some ⟨font, colour, String.mk l,
              (rect.x + (rect.x + rect.width - 1) + 1
                  - (GetMultiLineTextExtent3 env font text).1).tdiv 2
                + ((GetMultiLineTextExtent3 env font text).1
                  - (GetMultiLineTextExtent env font (String.mk l)).x).tdiv 2,
              (rect.y + (rect.y + rect.height - 1) + 1
                  - (GetMultiLineTextExtent3 env font text).2.1).tdiv 2
                + (i : Int) * (GetMultiLineTextExtent3 env font text).2.2,
              none⟩)) ∧
    (DrawLabel env font colour drawn text rect
        (wxALIGN_CENTER_HORIZONTAL ||| wxALIGN_CENTER_VERTICAL)).map DrawCall.msg
      = drawn.map DrawCall.msg
        ++ ((textLines text).filter (fun l => !l.isEmpty)).map String.mk ∧
    (DrawLabel env font colour drawn text rect
        (wxALIGN_CENTER_HORIZONTAL ||| wxALIGN_CENTER_VERTICAL)).length
      = drawn.length + ((textLines text).filter (fun l => !l.isEmpty)).length ∧
    (GetMultiLineTextExtent3 env font text).2.2
      = ((((textLines text).filter (fun l => !l.isEmpty)).map
          (lineHeight env font)).getLast?).getD 0 := by
  have h1 : (wxALIGN_CENTER_HORIZONTAL ||| wxALIGN_CENTER_VERTICAL)
      &&& (wxALIGN_RIGHT ||| wxALIGN_CENTER_HORIZONTAL) ≠ 0 := by decide
  have h2 : ¬ ((wxALIGN_CENTER_HORIZONTAL ||| wxALIGN_CENTER_VERTICAL) &&& wxALIGN_RIGHT ≠ 0) := by
    decide
  have h3 : (wxALIGN_CENTER_HORIZONTAL ||| wxALIGN_CENTER_VERTICAL)
      &&& wxALIGN_CENTER_HORIZONTAL ≠ 0 := by decide
  have h4 : ¬ ((wxALIGN_CENTER_HORIZONTAL ||| wxALIGN_CENTER_VERTICAL) &&& wxALIGN_BOTTOM ≠ 0) := by
    decide
  have h5 : (wxALIGN_CENTER_HORIZONTAL ||| wxALIGN_CENTER_VERTICAL)
      &&& wxALIGN_CENTER_VERTICAL ≠ 0 := by decide
  have hfold := DrawLabel_lines env font colour drawn text rect
    (wxALIGN_CENTER_HORIZONTAL ||| wxALIGN_CENTER_VERTICAL)
    ((rect.x + (rect.x + rect.width - 1) + 1
      - (GetMultiLineTextExtent3 env font text).1).tdiv 2)
    ((rect.y + (rect.y + rect.height - 1) + 1
      - (GetMultiLineTextExtent3 env font text).2.1).tdiv 2)
    (by rw [if_neg h2, if_pos h3]) (by rw [if_neg h4, if_pos h5])
  have hmsgs : (DrawLabel env font colour drawn text rect
        (wxALIGN_CENTER_HORIZONTAL ||| wxALIGN_CENTER_VERTICAL)).map DrawCall.msg
      = drawn.map DrawCall.msg
        ++ ((textLines text).filter (fun l => !l.isEmpty)).map String.mk := by
    rw [hfold, label_lines_msgs]
  refine ⟨?_, hmsgs, ?_, ?_⟩
  · rw [hfold, label_lines]
    rfl
  · have := congrArg List.length hmsgs
    simpa using this
  · rw [GetMultiLineTextExtent3_lines]
    simp only []
    rw [extent_lines_last env font (textLines text) 0 0 0 0, truncQ_zero]

/-- Counterexample to C28 as stated: with the text "B" 20 pixels high and "a"
8 pixels high, the two lines "B", "a" drawn centred in a rectangle 32 by 16 are
put at y = -6 and at y = 2: the cursor advances by 8, the height of the last
non-blank line, and not by 20, the height of the line "B" just drawn, which
would put "a" at y = 14. -/
theorem label_cursor_advance :
    lineHeight sampleEnvTall "" ['B'] = 20 ∧ lineHeight sampleEnvTall "" ['a'] = 8 ∧
    GetMultiLineTextExtent3 sampleEnvTall "" "B\na" = (6, 28, 8) ∧
    DrawLabel sampleEnvTall "" 0 [] "B\na" ⟨0, 0, 32, 16⟩
        (wxALIGN_CENTER_HORIZONTAL ||| wxALIGN_CENTER_VERTICAL)
      = [⟨"", 0, "B", 13, -6, none⟩, ⟨"", 0, "a", 13, 2, none⟩] ∧
    (DrawLabel sampleEnvTall "" 0 [] "B\na" ⟨0, 0, 32, 16⟩
        (wxALIGN_CENTER_HORIZONTAL ||| wxALIGN_CENTER_VERTICAL)).map DrawCall.y
      ≠ [-6, -6 + lineHeight sampleEnvTall "" ['B']] := by
  decide!

/-- Witness of C28: the lines "ab", blank, "c" with the sample toolkit, centred
in a rectangle 32 by 16; every line is 8 pixels high, the blank line is not
drawn and "c" is two lines below "ab". -/
theorem aligned_drawing_witness :
    (DrawLabel sampleEnv "" 0 [] "ab\n\nc" ⟨0, 0, 32, 16⟩
        (wxALIGN_CENTER_HORIZONTAL ||| wxALIGN_CENTER_VERTICAL)).map DrawCall.msg
      = ([] : List DrawCall).map DrawCall.msg
        ++ ((textLines "ab\n\nc").filter (fun l => !l.isEmpty)).map String.mk ∧
    DrawLabel sampleEnv "" 0 [] "ab\n\nc" ⟨0, 0, 32, 16⟩
        (wxALIGN_CENTER_HORIZONTAL ||| wxALIGN_CENTER_VERTICAL)
      = [⟨"", 0, "ab", 10, -4, none⟩, ⟨"", 0, "c", 13, 12, none⟩] :=
  ⟨(aligned_drawing sampleEnv "" 0 [] "ab\n\nc" ⟨0, 0, 32, 16⟩).2.1, by decide!⟩

/-! ## Fill effect: bands and the colour by position -/

theorem sweep_pixels_congr (cond : Int → Bool) (step : Int)
    (body body2 : FillState → Int → FillState)
    (hbody : ∀ (s s2 : FillState) (v : Int), s.pixels = s2.pixels →
      (body s v).pixels = (body2 s2 v).pixels) :
    ∀ (fuel : Nat) (v : Int) (s s2 : FillState), s.pixels = s2.pixels →
      (sweep cond step body fuel v s).map (fun r => r.pixels)
        = (sweep cond step body2 fuel v s2).map (fun r => r.pixels) := by
  intro fuel
  induction fuel with
  | zero =>
    intro v s s2 h
    simp only [sweep]
    split_ifs
    · rfl
    · simp [h]
  | succ fuel ih =>
    intro v s s2 h
    simp only [sweep]
    split_ifs
    · exact ih (v + step) (body s v) (body2 s2 v) (hbody s s2 v h)
    · simp [h]

theorem Render_bands_off (a : FillArgs) (ht : a.color_by_time = false) (fuel : Nat) :
    Render fuel a = Render fuel { a with BandSize := 0 } := by
  have hline : ∀ (s s2 : FillState) (pc : FillColor) (w : FillColor → List SetPixelCall),
      s.pixels = s2.pixels →
      (fillLine a s pc w).pixels = (fillLine { a with BandSize := 0 } s2 pc w).pixels := by
    intro s s2 pc w h
    rw [(fillLine_by_position a ht s pc w).1,
      (fillLine_by_position { a with BandSize := 0 } ht s2 pc w).1, h]
  have hup : ∀ (off : Int) (s s2 : FillState), s.pixels = s2.pixels →
      (fillUp a fuel off s).map (fun r => r.pixels)
        = (fillUp { a with BandSize := 0 } fuel off s2).map (fun r => r.pixels) := by
    intro off s s2 h
    unfold fillUp
    apply sweep_pixels_congr
    · intro s s2 v h
      exact hline s s2 _ _ h
    · exact h
  have hdown : ∀ (off : Int) (s s2 : FillState), s.pixels = s2.pixels →
      (fillDown a fuel off s).map (fun r => r.pixels)
        = (fillDown { a with BandSize := 0 } fuel off s2).map (fun r => r.pixels) := by
    intro off s s2 h
    unfold fillDown
    apply sweep_pixels_congr
    · intro s s2 v h
      exact hline s s2 _ _ h
    · exact h
  have hleft : ∀ (off : Int) (s s2 : FillState), s.pixels = s2.pixels →
      (fillLeft a fuel off s).map (fun r => r.pixels)
        = (fillLeft { a with BandSize := 0 } fuel off s2).map (fun r => r.pixels) := by
    intro off s s2 h
    unfold fillLeft
    apply sweep_pixels_congr
    · intro s s2 v h
      exact hline s s2 _ _ h
    · exact h
  have hright : ∀ (off : Int) (s s2 : FillState), s.pixels = s2.pixels →
      (fillRight a fuel off s).map (fun r => r.pixels)
        = (fillRight { a with BandSize := 0 } fuel off s2).map (fun r => r.pixels) := by
    intro off s s2 h
    unfold fillRight
    apply sweep_pixels_congr
    · intro s s2 v h
      exact hline s s2 _ _ h
    · exact h
  have hoff : fillOffset { a with BandSize := 0 } = fillOffset a := rfl
  unfold Render
  simp only [hoff]
  by_cases h1 : a.Direction = 1
  · rw [if_pos h1, if_pos h1]
    exact hdown _ _ _ rfl
  · by_cases h2 : a.Direction = 2
    · rw [if_neg h1, if_pos h2, if_neg h1, if_pos h2]
      exact hleft _ _ _ rfl
    · by_cases h3 : a.Direction = 3
      · rw [if_neg h1, if_neg h2, if_pos h3, if_neg h1, if_neg h2, if_pos h3]
        exact hright _ _ _ rfl
      · rw [if_neg h1, if_neg h2, if_neg h3, if_neg h1, if_neg h2, if_neg h3]
        exact hup _ _ _ rfl

/-- C31. Bands versus colour mode: when `BandSize > 0` and the colour is not
taken by time, the `SetPixel` calls of the render are those of the render with
`BandSize = 0` and the same other parameters, which both return given enough
fuel, and every swept line is written with the colour `GetColorFromPosition`
computes from the sweep position: in each direction, from a pixel offset, the
line of index `i` is written with the colour of the position
`line / (dimension + offset - 1)` for Up and Right and of one minus that for
Down and Left, computed in `double` arithmetic, `line` being `offset + i` for
Up and Right and `dimension - 1 - offset - i` for Down and Left; with the
colour taken by time instead, the lines of every sweep show the band pattern,
`palette[current_color]` on the first `BandSize` lines of each group of
`BandSize + SkipSize` and black on the others. -/
theorem bands_hidden_by_position (a : FillArgs) (hb : 0 < a.BandSize) (hs : 0 ≤ a.SkipSize)
    (hc : 1 ≤ a.colorcnt) (ht : a.color_by_time = false) :
    (∀ fuel, Render fuel a = Render fuel { a with BandSize := 0 }) ∧
    (∃ (n : Nat) (t : List SetPixelCall), ∀ fuel, n ≤ fuel →
      Render fuel a = some t ∧ Render fuel { a with BandSize := 0 } = some t) ∧
    (∀ (pc : Nat → FillColor) (writes : Nat → FillColor → List SetPixelCall) (n : Nat)
      (s : FillState),
      ((List.range n).foldl (fun s (i : Nat) => fillLine a s (pc i) (writes i)) s).pixels
        = s.pixels ++ linePixels n writes pc ∧
      ((List.range n).foldl
          (fun s (i : Nat) => fillLine { a with BandSize := 0 } s (pc i) (writes i)) s).pixels
        = s.pixels ++ linePixels n writes pc) ∧
    (a.offset_in_pixels = true → 0 ≤ a.offset → 0 ≤ a.position → a.position ≤ 100 →
      (a.Direction = 0 → a.offset < a.BufferHt → a.BufferHt ≤ INT_MAX →
        ∀ fuel, forwardCount a a.BufferHt a.offset ≤ fuel →
        Render fuel a
          = some (linePixels (forwardCount a a.BufferHt a.offset)
              (fun (i : Nat) => rowWrites a.BufferWi ((a.offset + (i : Int)) % a.BufferHt))
              (fun (i : Nat) =>
                positionColor a (a.offset + (i : Int)) (a.BufferHt + a.offset - 1) false))) ∧
      (a.Direction = 1 → a.offset < a.BufferHt → a.BufferHt ≤ INT_MAX →
        ∀ fuel, backwardCount a a.BufferHt a.offset ≤ fuel →
        Render fuel a
          = some (linePixels (backwardCount a a.BufferHt a.offset)
              (fun (i : Nat) => rowWrites a.BufferWi ((a.BufferHt - 1 - a.offset - (i : Int)) % a.BufferHt))
              (fun (i : Nat) =>
                positionColor a (a.BufferHt - 1 - a.offset - (i : Int)) (a.BufferHt + a.offset - 1) true))) ∧
      (a.Direction = 2 → a.offset < a.BufferWi → a.BufferWi ≤ INT_MAX →
        ∀ fuel, backwardCount a a.BufferWi a.offset ≤ fuel →
        Render fuel a
          = some (linePixels (backwardCount a a.BufferWi a.offset)
              (fun (i : Nat) => columnWrites a.BufferHt ((a.BufferWi - 1 - a.offset - (i : Int)) % a.BufferWi))
              (fun (i : Nat) =>
                positionColor a (a.BufferWi - 1 - a.offset - (i : Int)) (a.BufferWi + a.offset - 1) true))) ∧
      (a.Direction = 3 → a.offset < a.BufferWi → a.BufferWi ≤ INT_MAX →
        ∀ fuel, forwardCount a a.BufferWi a.offset ≤ fuel →
        Render fuel a
          = some (linePixels (forwardCount a a.BufferWi a.offset)
              (fun (i : Nat) => columnWrites a.BufferHt ((a.offset + (i : Int)) % a.BufferWi))
              (fun (i : Nat) =>
                positionColor a (a.offset + (i : Int)) (a.BufferWi + a.offset - 1) false)))) ∧
    (∀ (num den : Int) (reversed : Bool), den ≠ 0 →
      positionColor a num den reversed
        = GetColorFromPosition (sweepPosition num den reversed) a.colorcnt) ∧
    (∀ num den : Int,
      sweepPosition num den false = ddiv (num : ℚ) (den : ℚ) ∧
      sweepPosition num den true = dsub 1 (ddiv (num : ℚ) (den : ℚ))) ∧
    (∀ (pc : Nat → FillColor) (writes : Nat → FillColor → List SetPixelCall)
      (col : FillColor) (n : Nat),
      ((List.range n).foldl
          (fun s (i : Nat) => fillLine { a with color_by_time := true } s (pc i) (writes i))
          ⟨0, 0, col, []⟩).pixels
        = linePixels n writes (fun (i : Nat) =>
            if (i : Int) % (a.BandSize + a.SkipSize) < a.BandSize
              then FillColor.palette
                (((i : Int) / (a.BandSize + a.SkipSize)) % (a.colorcnt : Int))
              else FillColor.black)) := by
  refine ⟨fun fuel => Render_bands_off a ht fuel, ?_, ?_, ?_, ?_, fun num den => ⟨rfl, rfl⟩, ?_⟩
  · obtain ⟨n, t, hn⟩ := Render_total a
    exact ⟨n, t, fun fuel hf => ⟨hn fuel hf, by rw [← Render_bands_off a ht fuel]; exact hn fuel hf⟩⟩
  · intro pc writes n s
    exact ⟨fold_fillLine_position a ht pc writes n s,
      fold_fillLine_position { a with BandSize := 0 } ht pc writes n s⟩
  · intro hpx ho hp0 hp1
    refine ⟨?_, ?_, ?_, ?_⟩
    · intro hdir hlt hmax fuel hf
      rw [Render_up_fold a hdir a.offset
        ((fillOffset_pixels a hpx ho).2 (by rw [hdir]; decide) hlt) ho hlt hmax hp0 hp1 fuel hf,
        fold_fillLine_position a ht]
      rfl
    · intro hdir hlt hmax fuel hf
      rw [Render_down_fold a hdir a.offset
        ((fillOffset_pixels a hpx ho).2 (by rw [hdir]; decide) hlt) ho hlt hmax hp0 hp1 fuel hf,
        fold_fillLine_position a ht]
      rfl
    · intro hdir hlt hmax fuel hf
      rw [Render_left_fold a hdir a.offset
        ((fillOffset_pixels a hpx ho).1 (Or.inl hdir) hlt) ho hlt hmax hp0 hp1 fuel hf,
        fold_fillLine_position a ht]
      rfl
    · intro hdir hlt hmax fuel hf
      rw [Render_right_fold a hdir a.offset
        ((fillOffset_pixels a hpx ho).1 (Or.inr hdir) hlt) ho hlt hmax hp0 hp1 fuel hf,
        fold_fillLine_position a ht]
      rfl
  · intro num den reversed hne
    rw [positionColor_eq, if_neg hne]
  · intro pc writes col n
    exact (fold_fillLine_band { a with color_by_time := true } hb hs hc rfl pc writes col n).2.2

/-- Witness of C31: the sample fill, bands of 2 with a skip of 1, colour by
position, against the same fill without bands: the three rows are written with
the colours of the positions 0, 1/2 and 1. -/
theorem bands_hidden_by_position_witness :
    Render 3 sampleFill = Render 3 { sampleFill with BandSize := 0 } ∧
    Render 3 { sampleFill with BandSize := 0 }
      = some [⟨0, 0, FillColor.blend 0 1 0⟩, ⟨1, 0, FillColor.blend 0 1 0⟩,
          ⟨0, 1, FillColor.blend 1 2 0⟩, ⟨1, 1, FillColor.blend 1 2 0⟩,
          ⟨0, 2, FillColor.palette 2⟩, ⟨1, 2, FillColor.palette 2⟩] ∧
    (∀ fuel, forwardCount sampleFill sampleFill.BufferHt sampleFill.offset ≤ fuel →
      Render fuel sampleFill
        = some (linePixels (forwardCount sampleFill sampleFill.BufferHt sampleFill.offset)
            (fun (i : Nat) => rowWrites sampleFill.BufferWi
              ((sampleFill.offset + (i : Int)) % sampleFill.BufferHt))
            (fun (i : Nat) =>
              positionColor sampleFill (sampleFill.offset + (i : Int))
                (sampleFill.BufferHt + sampleFill.offset - 1) false))) ∧
    positionColor sampleFill 1 2 false = GetColorFromPosition (1 / 2) 3 :=
  have h := bands_hidden_by_position sampleFill (by decide) (by decide) (by decide) rfl
  ⟨h.1 3, by decide!,
    (h.2.2.2.1 rfl (by decide) (by decide) (by decide)).1 rfl (by decide) (by decide),
    by decide!⟩

/-! ## Fill effect: the divisor of the colour by position -/

theorem sweepPosition_forward_range (H o i : Int) (hden : 1 ≤ H + o - 1) (ho : 0 ≤ o)
    (hi0 : 0 ≤ i) (hi : i < H) :
    0 ≤ sweepPosition (o + i) (H + o - 1) false
      ∧ sweepPosition (o + i) (H + o - 1) false ≤ 1 := by
  have hd : (0 : ℚ) < ((H + o - 1 : Int) : ℚ) := by exact_mod_cast (by omega : 0 < H + o - 1)
  have hn0 : (0 : ℚ) ≤ ((o + i : Int) : ℚ) := by exact_mod_cast (by omega : 0 ≤ o + i)
  have hn1 : ((o + i : Int) : ℚ) ≤ ((H + o - 1 : Int) : ℚ) := by
    exact_mod_cast (by omega : o + i ≤ H + o - 1)
  simp only [sweepPosition, Bool.false_eq_true, if_false, ddiv]
  obtain ⟨u0, u1, _⟩ := toDouble_unit _ (div_nonneg hn0 (le_of_lt hd)) ((div_le_one hd).mpr hn1)
  exact ⟨u0, u1⟩

/-- C33 (the code at the failing input). With the colour taken by position the
sweep position is `line / (dimension + offset - 1)`. In a buffer one pixel high,
swept upward from the offset 0 with a position of 1% to 100%, the divisor is
`1 + 0 - 1 = 0`: the position of the only line is 0/0 and every pixel of the row
is written with the colour computed from that undefined position. When the
divisor is at least 1, the position of every line of an Up or Right sweep lies
in `[0, 1]`; in a Down sweep from a non-zero offset it can exceed 1: in a
buffer 2 high swept downward from the offset 1 the second line is `y = -1`,
whose position is `1 - (-1)/2 = 3/2`. -/
theorem position_divisor_zero (a : FillArgs) (hdir : a.Direction = 0) (hoff : a.offset = 0)
    (hH : a.BufferHt = 1) (hp0 : 1 ≤ a.position) (hp1 : a.position ≤ 100)
    (ht : a.color_by_time = false) :
    a.BufferHt + fillOffset a - 1 = 0 ∧
    (∀ (num : Int) (reversed : Bool),
      positionColor a num (a.BufferHt + fillOffset a - 1) reversed = FillColor.undefined) ∧
    (∀ fuel, 1 ≤ fuel →
      Render fuel a = some (rowWrites a.BufferWi 0 FillColor.undefined)) ∧
    (∀ (b : FillArgs) (num den : Int) (reversed : Bool), den ≠ 0 →
      positionColor b num den reversed
        = GetColorFromPosition (sweepPosition num den reversed) b.colorcnt) ∧
    (∀ H o i : Int, 1 ≤ H + o - 1 → 0 ≤ o → 0 ≤ i → i < H →
      0 ≤ sweepPosition (o + i) (H + o - 1) false
        ∧ sweepPosition (o + i) (H + o - 1) false ≤ 1) ∧
    (fillOffset sampleFillDown = 1 ∧
      sweepPosition (-1) (sampleFillDown.BufferHt + fillOffset sampleFillDown - 1) true = 3 / 2 ∧
      Render 2 sampleFillDown
        = some [⟨0, 0, positionColor sampleFillDown 0 2 true⟩,
            ⟨0, 1, positionColor sampleFillDown (-1) 2 true⟩]) := by
  have hoff0 : fillOffset a = 0 := fillOffset_zero a hoff
  have hden : a.BufferHt + fillOffset a - 1 = 0 := by rw [hoff0, hH]; rfl
  have hmax : a.BufferHt ≤ INT_MAX := by rw [hH, INT_MAX_val]; decide
  have hcount : forwardCount a a.BufferHt 0 = 1 := by
    obtain ⟨pp0, pp1, ppd, _⟩ := pos_pct_facts a (by omega) hp1
    have hpos := pos_pct_pos a hp0
    have hb : forwardBound a a.BufferHt 0 = pos_pct a := by
      unfold forwardBound dadd dmul
      rw [hH, Int.cast_one, one_mul, ppd, Int.cast_zero, add_zero, ppd]
    have hceil : ⌈forwardBound a a.BufferHt 0⌉ = 1 := by
      rw [hb, Int.ceil_eq_iff]
      constructor
      · simpa using hpos
      · simpa using pp1
    unfold forwardCount
    rw [hceil]
    rfl
  refine ⟨hden, ?_, ?_, ?_, ?_, ?_⟩
  · intro num reversed
    rw [positionColor_eq, if_pos hden]
  · intro fuel hf
    rw [Render_up_zero a hdir hoff (by omega) hmax (by omega) hp1 fuel (by rw [hcount]; exact hf),
      hcount]
    have hd0 : a.BufferHt - 1 = 0 := by omega
    have hr : List.range 1 = [0] := rfl
    rw [hr, List.foldl_cons, List.foldl_nil]
    simp [fillLine, ht, positionColor_eq, hd0]
  · intro b num den reversed hne
    rw [positionColor_eq, if_neg hne]
  · intro H o i h1 h2 h3 h4
    exact sweepPosition_forward_range H o i h1 h2 h3 h4
  · exact ⟨by decide, by decide!, by decide!⟩

/-- Witness of C33: the sample fill in a buffer 1 wide and 1 high; the only
pixel is written with the colour of the undefined position. -/
theorem position_divisor_zero_witness :
    sampleFillOne.BufferHt + fillOffset sampleFillOne - 1 = 0 ∧
    Render 1 sampleFillOne = some [⟨0, 0, FillColor.undefined⟩] :=
  have h := position_divisor_zero sampleFillOne rfl rfl rfl (by decide) (by decide) rfl
  ⟨h.1, h.2.2.1 1 (le_refl 1)⟩

/-! ## Fill effect: the four sweeps -/

theorem columnWrites_coords (H x : Int) (c : FillColor) :
    (columnWrites H x c).map (fun p => (p.x, p.y))
      = (List.range H.toNat).map (fun (y : Nat) => ((x, (y : Int)) : Int × Int)) := by
  simp [columnWrites, List.map_map, Function.comp_def]

theorem fold_rows_coords (a : FillArgs) (pc : Nat → FillColor) (W : Int)
    (raw row : Nat → Int) (n : Nat) (hrow : ∀ i : Nat, i < n → raw i = row i)
    (s0 : FillState) (hs0 : s0.pixels = []) :
    pixelCoords ((List.range n).foldl
        (fun s (i : Nat) => fillLine a s (pc i) (rowWrites W (raw i))) s0).pixels
      = rowCoords W n row := by
  unfold pixelCoords rowCoords
  rw [fold_fillLine_coords a pc (fun i => rowWrites W (raw i))
    (fun (i : Nat) => (List.range W.toNat).map (fun (x : Nat) => (((x : Int), raw i) : Int × Int)))
    (fun i c => rowWrites_coords W (raw i) c), hs0, List.map_nil, List.nil_append]
  apply List.flatMap_congr
  intro i hi
  rw [hrow i (List.mem_range.mp hi)]

theorem fold_columns_coords (a : FillArgs) (pc : Nat → FillColor) (H : Int)
    (raw col : Nat → Int) (n : Nat) (hcol : ∀ i : Nat, i < n → raw i = col i)
    (s0 : FillState) (hs0 : s0.pixels = []) :
    pixelCoords ((List.range n).foldl
        (fun s (i : Nat) => fillLine a s (pc i) (columnWrites H (raw i))) s0).pixels
      = columnCoords H n col := by
  unfold pixelCoords columnCoords
  rw [fold_fillLine_coords a pc (fun i => columnWrites H (raw i))
    (fun (i : Nat) => (List.range H.toNat).map (fun (y : Nat) => ((raw i, (y : Int)) : Int × Int)))
    (fun i c => columnWrites_coords H (raw i) c), hs0, List.map_nil, List.nil_append]
  apply List.flatMap_congr
  intro i hi
  rw [hcol i (List.mem_range.mp hi)]

theorem rowCoords_facts (W H : Int) (n : Nat) (row : Nat → Int)
    (hinj : ∀ i j : Nat, i < n → j < n → row i = row j → i = j)
    (hrange : ∀ i : Nat, i < n → 0 ≤ row i ∧ row i < H) :
    (rowCoords W n row).Nodup ∧
    (∀ q ∈ rowCoords W n row, 0 ≤ q.1 ∧ q.1 < W ∧ 0 ≤ q.2 ∧ q.2 < H) ∧
    ((List.range n).map row).Nodup := by
  refine ⟨?_, ?_, ?_⟩
  · unfold rowCoords
    rw [List.nodup_flatMap]
    constructor
    · intro i _
      refine (List.nodup_range _).map ?_
      intro x x2 h
      simp only [Prod.mk.injEq, Nat.cast_inj] at h
      exact h.1
    · refine (List.nodup_range n).pairwise_of_forall_ne ?_
      intro i hi j hj hne
      simp only [Function.onFun]
      rw [List.disjoint_left]
      intro q hq hq2
      rw [List.mem_map] at hq hq2
      obtain ⟨x, _, rfl⟩ := hq
      obtain ⟨x2, _, h⟩ := hq2
      simp only [Prod.mk.injEq] at h
      exact hne (hinj i j (List.mem_range.mp hi) (List.mem_range.mp hj) h.2.symm)
  · intro q hq
    unfold rowCoords at hq
    rw [List.mem_flatMap] at hq
    obtain ⟨i, hi, hq⟩ := hq
    rw [List.mem_map] at hq
    obtain ⟨x, hx, rfl⟩ := hq
    have hr := hrange i (List.mem_range.mp hi)
    have hx2 := List.mem_range.mp hx
    simp only
    omega
  · refine (List.nodup_range n).map_on ?_
    intro i hi j hj h
    exact hinj i j (List.mem_range.mp hi) (List.mem_range.mp hj) h

theorem columnCoords_facts (W H : Int) (n : Nat) (col : Nat → Int)
    (hinj : ∀ i j : Nat, i < n → j < n → col i = col j → i = j)
    (hrange : ∀ i : Nat, i < n → 0 ≤ col i ∧ col i < W) :
    (columnCoords H n col).Nodup ∧
    (∀ q ∈ columnCoords H n col, 0 ≤ q.1 ∧ q.1 < W ∧ 0 ≤ q.2 ∧ q.2 < H) ∧
    ((List.range n).map col).Nodup := by
  refine ⟨?_, ?_, ?_⟩
  · unfold columnCoords
    rw [List.nodup_flatMap]
    constructor
    · intro i _
      refine (List.nodup_range _).map ?_
      intro y y2 h
      simp only [Prod.mk.injEq, Nat.cast_inj] at h
      exact h.2
    · refine (List.nodup_range n).pairwise_of_forall_ne ?_
      intro i hi j hj hne
      simp only [Function.onFun]
      rw [List.disjoint_left]
      intro q hq hq2
      rw [List.mem_map] at hq hq2
      obtain ⟨y, _, rfl⟩ := hq
      obtain ⟨y2, _, h⟩ := hq2
      simp only [Prod.mk.injEq] at h
      exact hne (hinj i j (List.mem_range.mp hi) (List.mem_range.mp hj) h.1.symm)
  · intro q hq
    unfold columnCoords at hq
    rw [List.mem_flatMap] at hq
    obtain ⟨i, hi, hq⟩ := hq
    rw [List.mem_map] at hq
    obtain ⟨y, hy, rfl⟩ := hq
    have hr := hrange i (List.mem_range.mp hi)
    have hy2 := List.mem_range.mp hy
    simp only
    omega
  · refine (List.nodup_range n).map_on ?_
    intro i hi j hj h
    exact hinj i j (List.mem_range.mp hi) (List.mem_range.mp hj) h

theorem forward_lines (o B : Int) (n : Nat) (ho : 0 ≤ o) (hlt : o < B) (hn : (n : Int) ≤ B) :
    (∀ i j : Nat, i < n → j < n → (o + (i : Int)) % B = (o + (j : Int)) % B → i = j) ∧
    (∀ i : Nat, i < n → 0 ≤ (o + (i : Int)) % B ∧ (o + (i : Int)) % B < B) := by
  constructor
  · intro i j hi hj h
    rw [← emod_wrap (o + i) B (by omega) (by omega),
      ← emod_wrap (o + j) B (by omega) (by omega)] at h
    split_ifs at h <;> omega
  · intro i _
    exact ⟨Int.emod_nonneg _ (by omega), Int.emod_lt_of_pos _ (by omega)⟩

theorem backward_lines (o B : Int) (n : Nat) (ho : 0 ≤ o) (hlt : o < B) (hn : (n : Int) ≤ B) :
    (∀ i j : Nat, i < n → j < n →
      (B - 1 - o - (i : Int)) % B = (B - 1 - o - (j : Int)) % B → i = j) ∧
    (∀ i : Nat, i < n → 0 ≤ (B - 1 - o - (i : Int)) % B ∧ (B - 1 - o - (i : Int)) % B < B) := by
  constructor
  · intro i j hi hj h
    rw [← emod_wrap_neg (B - 1 - o - i) B (by omega) (by omega),
      ← emod_wrap_neg (B - 1 - o - j) B (by omega) (by omega)] at h
    split_ifs at h <;> omega
  · intro i _
    exact ⟨Int.emod_nonneg _ (by omega), Int.emod_lt_of_pos _ (by omega)⟩

/-- C32 (amended). Sweep symmetry and bounds: for `0 <= position <= 100` and a
pixel offset `0 <= o < H <= INT_MAX`, direction Up writes `n` rows, the rows
`(o + i) mod H` for `i = 0..n-1`, and direction Down `m` rows, the rows
`(H-1-o-i) mod H`; likewise, with `0 <= o < W`, Right writes columns
`(o + i) mod W` and Left columns `(W-1-o-i) mod W`. In each case the render
returns, the lines are pairwise distinct, no coordinate is written twice, and
every coordinate is inside the buffer. The numbers of lines come from the
bounds of the loops, computed in `double` arithmetic: `n` is the number of
whole numbers from `o` below `H*pos_pct + o`, which is `H*position/100` rounded
up, or one more; `m` is the number of whole numbers from `H-1-o` down to
`H*(1.0-pos_pct) - o`, which is `H*position/100` rounded down, or one less; both
are the exact roundings when `H*position/100` is not whole, and then `n = m+1`;
always `m <= n <= H`, and `n = m` can only hold when `H*position/100` is
whole. -/
theorem sweep_symmetry (a : FillArgs) (hpx : a.offset_in_pixels = true) (ho : 0 ≤ a.offset)
    (hp0 : 0 ≤ a.position) (hp1 : a.position ≤ 100) :
    (a.Direction = 0 → a.offset < a.BufferHt → a.BufferHt ≤ INT_MAX →
      ∃ t : List SetPixelCall,
        (∀ fuel, forwardCount a a.BufferHt a.offset ≤ fuel → Render fuel a = some t) ∧
        pixelCoords t
          = rowCoords a.BufferWi (forwardCount a a.BufferHt a.offset)
              (fun i => (a.offset + (i : Int)) % a.BufferHt) ∧
        (pixelCoords t).Nodup ∧
        (∀ q ∈ pixelCoords t, 0 ≤ q.1 ∧ q.1 < a.BufferWi ∧ 0 ≤ q.2 ∧ q.2 < a.BufferHt) ∧
        ((List.range (forwardCount a a.BufferHt a.offset)).map
          (fun (i : Nat) => (a.offset + (i : Int)) % a.BufferHt)).Nodup) ∧
    (a.Direction = 1 → a.offset < a.BufferHt → a.BufferHt ≤ INT_MAX →
      ∃ t : List SetPixelCall,
        (∀ fuel, backwardCount a a.BufferHt a.offset ≤ fuel → Render fuel a = some t) ∧
        pixelCoords t
          = rowCoords a.BufferWi (backwardCount a a.BufferHt a.offset)
              (fun i => (a.BufferHt - 1 - a.offset - (i : Int)) % a.BufferHt) ∧
        (pixelCoords t).Nodup ∧
        (∀ q ∈ pixelCoords t, 0 ≤ q.1 ∧ q.1 < a.BufferWi ∧ 0 ≤ q.2 ∧ q.2 < a.BufferHt) ∧
        ((List.range (backwardCount a a.BufferHt a.offset)).map
          (fun (i : Nat) => (a.BufferHt - 1 - a.offset - (i : Int)) % a.BufferHt)).Nodup) ∧
    (a.Direction = 2 → a.offset < a.BufferWi → a.BufferWi ≤ INT_MAX →
      ∃ t : List SetPixelCall,
        (∀ fuel, backwardCount a a.BufferWi a.offset ≤ fuel → Render fuel a = some t) ∧
        pixelCoords t
          = columnCoords a.BufferHt (backwardCount a a.BufferWi a.offset)
              (fun i => (a.BufferWi - 1 - a.offset - (i : Int)) % a.BufferWi) ∧
        (pixelCoords t).Nodup ∧
        (∀ q ∈ pixelCoords t, 0 ≤ q.1 ∧ q.1 < a.BufferWi ∧ 0 ≤ q.2 ∧ q.2 < a.BufferHt) ∧
        ((List.range (backwardCount a a.BufferWi a.offset)).map
          (fun (i : Nat) => (a.BufferWi - 1 - a.offset - (i : Int)) % a.BufferWi)).Nodup) ∧
    (a.Direction = 3 → a.offset < a.BufferWi → a.BufferWi ≤ INT_MAX →
      ∃ t : List SetPixelCall,
        (∀ fuel, forwardCount a a.BufferWi a.offset ≤ fuel → Render fuel a = some t) ∧
        pixelCoords t
          = columnCoords a.BufferHt (forwardCount a a.BufferWi a.offset)
              (fun i => (a.offset + (i : Int)) % a.BufferWi) ∧
        (pixelCoords t).Nodup ∧
        (∀ q ∈ pixelCoords t, 0 ≤ q.1 ∧ q.1 < a.BufferWi ∧ 0 ≤ q.2 ∧ q.2 < a.BufferHt) ∧
        ((List.range (forwardCount a a.BufferWi a.offset)).map
          (fun (i : Nat) => (a.offset + (i : Int)) % a.BufferWi)).Nodup) ∧
    (∀ B o : Int, 0 ≤ o → o < B → B ≤ INT_MAX →
      ((forwardCount a B o : Nat) : Int)
        = ⌈toDouble (toDouble ((B : ℚ) * toDouble ((a.position : ℚ) / 100)) + (o : ℚ))⌉ - o ∧
      ((backwardCount a B o : Nat) : Int)
        = B - o
          - ⌈toDouble (toDouble ((B : ℚ) * toDouble (1 - toDouble ((a.position : ℚ) / 100)))
              - (o : ℚ))⌉ ∧
      ((B * a.position + 99) / 100 ≤ ((forwardCount a B o : Nat) : Int) ∧
        ((forwardCount a B o : Nat) : Int) ≤ (B * a.position + 99) / 100 + 1) ∧
      ((B * a.position) / 100 - 1 ≤ ((backwardCount a B o : Nat) : Int) ∧
        ((backwardCount a B o : Nat) : Int) ≤ (B * a.position) / 100) ∧
      (backwardCount a B o ≤ forwardCount a B o ∧ ((forwardCount a B o : Nat) : Int) ≤ B) ∧
      ((B * a.position) % 100 ≠ 0 →
        ((forwardCount a B o : Nat) : Int) = (B * a.position + 99) / 100 ∧
        ((backwardCount a B o : Nat) : Int) = (B * a.position) / 100 ∧
        forwardCount a B o = backwardCount a B o + 1) ∧
      (forwardCount a B o = backwardCount a B o → (B * a.position) % 100 = 0)) := by
  refine ⟨?_, ?_, ?_, ?_, ?_⟩
  · intro hdir hlt hmax
    obtain ⟨_, hn, _⟩ := forwardCount_facts a a.BufferHt a.offset (by omega) hmax ho (by omega) hp0 hp1
    have hc : pixelCoords ((List.range (forwardCount a a.BufferHt a.offset)).foldl
        (fun s (i : Nat) =>
          fillLine a s (positionColor a (a.offset + (i : Int)) (a.BufferHt + a.offset - 1) false)
            (rowWrites a.BufferWi ((a.offset + (i : Int)) % a.BufferHt)))
        ⟨0, 0, if a.BandSize = 0 then GetColorFromPosition a.eff_pos a.colorcnt
          else FillColor.unset, []⟩).pixels
        = rowCoords a.BufferWi (forwardCount a a.BufferHt a.offset) (fun i => (a.offset + (i : Int)) % a.BufferHt) :=
      fold_rows_coords a _ _ _ _ _ (fun _ _ => rfl) _ rfl
    obtain ⟨hinj, hrange⟩ := forward_lines a.offset a.BufferHt (forwardCount a a.BufferHt a.offset) ho hlt hn
    obtain ⟨f1, f2, f3⟩ := rowCoords_facts a.BufferWi a.BufferHt _ _ hinj hrange
    exact ⟨_, fun fuel hf => Render_up_fold a hdir a.offset ((fillOffset_pixels a hpx ho).2 (by rw [hdir]; decide) hlt) ho hlt hmax hp0 hp1 fuel hf,
      hc, by rw [hc]; exact f1, by rw [hc]; exact f2, f3⟩
  · intro hdir hlt hmax
    obtain ⟨_, hn, _⟩ := backwardCount_facts a a.BufferHt a.offset (by omega) hmax ho (by omega) hp0 hp1
    have hc : pixelCoords ((List.range (backwardCount a a.BufferHt a.offset)).foldl
        (fun s (i : Nat) =>
          fillLine a s (positionColor a (a.BufferHt - 1 - a.offset - (i : Int)) (a.BufferHt + a.offset - 1) true)
            (rowWrites a.BufferWi ((a.BufferHt - 1 - a.offset - (i : Int)) % a.BufferHt)))
        ⟨0, 0, if a.BandSize = 0 then GetColorFromPosition a.eff_pos a.colorcnt
          else FillColor.unset, []⟩).pixels
        = rowCoords a.BufferWi (backwardCount a a.BufferHt a.offset) (fun i => (a.BufferHt - 1 - a.offset - (i : Int)) % a.BufferHt) :=
      fold_rows_coords a _ _ _ _ _ (fun _ _ => rfl) _ rfl
    obtain ⟨hinj, hrange⟩ := backward_lines a.offset a.BufferHt (backwardCount a a.BufferHt a.offset) ho hlt hn
    obtain ⟨f1, f2, f3⟩ := rowCoords_facts a.BufferWi a.BufferHt _ _ hinj hrange
    exact ⟨_, fun fuel hf => Render_down_fold a hdir a.offset ((fillOffset_pixels a hpx ho).2 (by rw [hdir]; decide) hlt) ho hlt hmax hp0 hp1 fuel hf,
      hc, by rw [hc]; exact f1, by rw [hc]; exact f2, f3⟩
  · intro hdir hlt hmax
    obtain ⟨_, hn, _⟩ := backwardCount_facts a a.BufferWi a.offset (by omega) hmax ho (by omega) hp0 hp1
    have hc : pixelCoords ((List.range (backwardCount a a.BufferWi a.offset)).foldl
        (fun s (i : Nat) =>
          fillLine a s (positionColor a (a.BufferWi - 1 - a.offset - (i : Int)) (a.BufferWi + a.offset - 1) true)
            (columnWrites a.BufferHt ((a.BufferWi - 1 - a.offset - (i : Int)) % a.BufferWi)))
        ⟨0, 0, if a.BandSize = 0 then GetColorFromPosition a.eff_pos a.colorcnt
          else FillColor.unset, []⟩).pixels
        = columnCoords a.BufferHt (backwardCount a a.BufferWi a.offset) (fun i => (a.BufferWi - 1 - a.offset - (i : Int)) % a.BufferWi) :=
      fold_columns_coords a _ _ _ _ _ (fun _ _ => rfl) _ rfl
    obtain ⟨hinj, hrange⟩ := backward_lines a.offset a.BufferWi (backwardCount a a.BufferWi a.offset) ho hlt hn
    obtain ⟨f1, f2, f3⟩ := columnCoords_facts a.BufferWi a.BufferHt _ _ hinj hrange
    exact ⟨_, fun fuel hf => Render_left_fold a hdir a.offset ((fillOffset_pixels a hpx ho).1 (Or.inl hdir) hlt) ho hlt hmax hp0 hp1 fuel hf,
      hc, by rw [hc]; exact f1, by rw [hc]; exact f2, f3⟩
  · intro hdir hlt hmax
    obtain ⟨_, hn, _⟩ := forwardCount_facts a a.BufferWi a.offset (by omega) hmax ho (by omega) hp0 hp1
    have hc : pixelCoords ((List.range (forwardCount a a.BufferWi a.offset)).foldl
        (fun s (i : Nat) =>
          fillLine a s (positionColor a (a.offset + (i : Int)) (a.BufferWi + a.offset - 1) false)
            (columnWrites a.BufferHt ((a.offset + (i : Int)) % a.BufferWi)))
        ⟨0, 0, if a.BandSize = 0 then GetColorFromPosition a.eff_pos a.colorcnt
          else FillColor.unset, []⟩).pixels
        = columnCoords a.BufferHt (forwardCount a a.BufferWi a.offset) (fun i => (a.offset + (i : Int)) % a.BufferWi) :=
      fold_columns_coords a _ _ _ _ _ (fun _ _ => rfl) _ rfl
    obtain ⟨hinj, hrange⟩ := forward_lines a.offset a.BufferWi (forwardCount a a.BufferWi a.offset) ho hlt hn
    obtain ⟨f1, f2, f3⟩ := columnCoords_facts a.BufferWi a.BufferHt _ _ hinj hrange
    exact ⟨_, fun fuel hf => Render_right_fold a hdir a.offset ((fillOffset_pixels a hpx ho).1 (Or.inr hdir) hlt) ho hlt hmax hp0 hp1 fuel hf,
      hc, by rw [hc]; exact f1, by rw [hc]; exact f2, f3⟩
  · intro B o ho0 hlt hmax
    obtain ⟨f1, f2, f3, f4, f5⟩ := forwardCount_facts a B o (by omega) hmax ho0 (by omega)
      hp0 hp1
    obtain ⟨b1, b2, b3, b4, b5⟩ := backwardCount_facts a B o (by omega) hmax ho0 (by omega)
      hp0 hp1
    have hfl : (B * a.position) / 100 ≤ (B * a.position + 99) / 100 := by omega
    refine ⟨f1, b1, ⟨f3, f4⟩, ⟨b3, b4⟩, ⟨by omega, f2⟩, ?_, ?_⟩
    · intro hne
      have e1 := f5 hne
      have e2 := b5 hne
      refine ⟨e1, e2, ?_⟩
      have : (B * a.position + 99) / 100 = (B * a.position) / 100 + 1 := by omega
      omega
    · intro heq
      by_contra hne
      have e1 := f5 hne
      have e2 := b5 hne
      have : (B * a.position + 99) / 100 = (B * a.position) / 100 + 1 := by omega
      omega

/-- Witness of C32: the downward sample fill, a buffer 1 wide and 2 high swept
from the offset 1 at position 100%: the rows 0 and 1, in this order. -/
theorem sweep_symmetry_witness :
    (∃ t : List SetPixelCall,
      (∀ fuel, backwardCount sampleFillDown sampleFillDown.BufferHt sampleFillDown.offset ≤ fuel →
        Render fuel sampleFillDown = some t) ∧
      (pixelCoords t).Nodup) ∧
    (Render 2 sampleFillDown).map pixelCoords = some [(0, 0), (0, 1)] :=
  have ⟨t, h1, _, h3, _⟩ := (sweep_symmetry sampleFillDown rfl (by decide) (by decide)
    (by decide)).2.1 rfl (by decide) (by decide)
  ⟨⟨t, h1, h3⟩, by decide!⟩

/-- Counterexample to C32 as stated: in a buffer 10 high at position 70%, from
the offset 0, `H*position/100` is exactly 7; direction Up writes the seven rows
0 to 6, but direction Down writes six rows only, the rows 9 down to 4: the bound
`10*(1.0-0.7)` computed in `double` arithmetic is above 3, so that row 3 is not
written. The two directions do not paint the same number of rows although
`H*position/100` is whole, and Down does not paint `floor(H*position/100)`
rows. -/
theorem sweep_counts_differ :
    (sampleFillSeventy.BufferHt * sampleFillSeventy.position) % 100 = 0 ∧
    (sampleFillSeventy.BufferHt * sampleFillSeventy.position) / 100 = 7 ∧
    (Render 10 sampleFillSeventy).map pixelCoords
      = some [(0, 0), (0, 1), (0, 2), (0, 3), (0, 4), (0, 5), (0, 6)] ∧
    (Render 10 { sampleFillSeventy with Direction := 1 }).map pixelCoords
      = some [(0, 9), (0, 8), (0, 7), (0, 6), (0, 5), (0, 4)] ∧
    (3 : ℚ) < toDouble ((sampleFillSeventy.BufferHt : ℚ)
      * toDouble (1 - toDouble ((sampleFillSeventy.position : ℚ) / 100))) := by
  refine ⟨by decide, by decide, by decide!, by decide!, by decide!⟩

end XLights
